import Mathlib

/-!
# PrivateSend mixing pool (`src/subinode/darksend.cpp`)

A shallow embedding of the mixing pool of `darksend.cpp` and the proofs of its
specified properties.

Conventions of the embedding.

* `CAmount` (a signed 64-bit integer) is `Int`; amounts are taken within the range in
  which the C++ additions do not overflow.
* `uint256` hashes and 32-bit indices are `Nat`; scripts and signatures are byte lists.
* `BOOST_FOREACH` loops that return from the function at the first hit are `List.any`
  or a recursive function with the same early exit; accumulating loops are recursive
  functions that carry the accumulators.
* Output parameters (`PoolMessage &nMessageIDRet`) are passed in and returned.
* Global collaborators that the file only consumes (ledger, mempool, chain parameters,
  clock, role flags) are gathered in `Env`.
* `CTransactionRef txRef(&tx)` builds a shared pointer that owns an object it did not
  allocate. When such a reference is destroyed as the last owner, the object is deleted and
  the run ends there: a function that returns a value gives `none`, an operation on the
  world leaves the world it had reached with the flag `fAborted` set. The reference is not
  the last owner only when the mempool has accepted the transaction and kept a copy of the
  reference (`Env.fMempoolKeepsRef`), or when a copy has been stored in a container.
* `int x = e` for a 64-bit expression `e` is the conversion `toInt32`.
-/

namespace Darksend

/-! ## Data model -/

/-- Amounts in base units (`CAmount`, a signed 64-bit integer) are written `Int` in the
structures and functions below. -/
abbrev CAmount := Int

/-- Scripts and signatures: byte strings. -/
abbrev CScript := List Nat

/-- Reference to an output of a previous transaction. -/
structure COutPoint where
  hash : Nat
  n : Nat
deriving DecidableEq, Repr

/-- Modelled from the spec: `COutPoint::IsNull` is declared in `primitives/transaction.h`,
which is not under `src/`; the null outpoint has the zero hash and index `(uint32_t) -1`. -/
def COutPoint.IsNull (o : COutPoint) : Bool :=
  o.hash == 0 && o.n == 4294967295

/-- Transaction input; `prevPubKey` is the previous script kept for signing. -/
structure CTxIn where
  prevout : COutPoint
  scriptSig : CScript := []
  nSequence : Nat := 4294967295
  prevPubKey : CScript := []
deriving DecidableEq, Repr

/-- Transaction output. -/
structure CTxOut where
  nValue : Int
  scriptPubKey : CScript := []
deriving DecidableEq, Repr

/-- Pool input: a `CTxIn` with signature bookkeeping. -/
structure CTxDSIn extends CTxIn where
  fHasSig : Bool := false
  nSentTimes : Int := 0
deriving DecidableEq, Repr

/-- Pool output: a `CTxOut` with a send counter. -/
structure CTxDSOut extends CTxOut where
  nSentTimes : Int := 0
deriving DecidableEq, Repr

/-- Transactions (`CTransaction` and `CMutableTransaction` carry the same fields). -/
structure CTransaction where
  vin : List CTxIn := []
  vout : List CTxOut := []
  nLockTime : Nat := 0
deriving DecidableEq, Repr

/-- One client's contribution to a session. -/
structure CDarkSendEntry where
  vecTxDSIn : List CTxDSIn := []
  vecTxDSOut : List CTxDSOut := []
  txCollateral : CTransaction := {}
deriving DecidableEq, Repr

/-- Session states. -/
inductive PoolState where
  | POOL_STATE_IDLE
  | POOL_STATE_QUEUE
  | POOL_STATE_ACCEPTING_ENTRIES
  | POOL_STATE_SIGNING
  | POOL_STATE_ERROR
  | POOL_STATE_SUCCESS
deriving DecidableEq, Repr

/-- Wire-coded messages, as enumerated by `GetMessageByID`. -/
inductive PoolMessage where
  | ERR_ALREADY_HAVE
  | ERR_DENOM
  | ERR_ENTRIES_FULL
  | ERR_EXISTING_TX
  | ERR_FEES
  | ERR_INVALID_COLLATERAL
  | ERR_INVALID_INPUT
  | ERR_INVALID_SCRIPT
  | ERR_INVALID_TX
  | ERR_MAXIMUM
  | ERR_MN_LIST
  | ERR_MODE
  | ERR_NON_STANDARD_PUBKEY
  | ERR_NOT_A_MN
  | ERR_QUEUE_FULL
  | ERR_RECENT
  | ERR_SESSION
  | ERR_MISSING_TX
  | ERR_VERSION
  | MSG_NOERR
  | MSG_SUCCESS
  | MSG_ENTRIES_ADDED
deriving DecidableEq, Repr

/-- Status carried by `DSSTATUSUPDATE`. -/
inductive PoolStatusUpdate where
  | STATUS_REJECTED
  | STATUS_ACCEPTED
deriving DecidableEq, Repr

open PoolState PoolMessage PoolStatusUpdate

/-- Gossiped session advertisement. `fTried` is local bookkeeping, not sent on the wire. -/
structure CDarksendQueue where
  nDenom : Int
  vin : CTxIn
  nTime : Int
  fReady : Bool
  vchSig : List Nat := []
  fTried : Bool := false
deriving DecidableEq, Repr

/-- Mixer record of the mixer list, restricted to the fields the pool reads and writes. -/
structure CSubinode where
  vin : CTxIn
  addr : Nat := 0
  pubKeySubinode : Nat := 0
  nLastDsq : Int := 0
  fAllowMixingTx : Bool := false
  protocolVersion : Int := 0
deriving DecidableEq, Repr

/-- Mixer list with the global queue counter (`mnodeman`). -/
structure CSubinodeMan where
  vSubinodes : List CSubinode := []
  nDsqCount : Int := 0
deriving DecidableEq, Repr

/-- Collaborators consumed by the pool: role flags, the chain parameter and the constants
of `darksend.h` (declared outside `src/`, hence fields here), the denomination table,
ledger lookup, mempool acceptance (with and without the limit bypass), script classifier,
queue signature check and signing, transaction hash, input signing (the script left in
the input), signing of the broadcast record, disk space check, the identity of the active
mixer and the clock. `AcceptToMemoryPool` is defined outside `src/`: its verdict is a
field, and `fMempoolKeepsRef` tells whether the mempool keeps a copy of the
`CTransactionRef` it is handed when it accepts the transaction (it keeps none of a
transaction it refuses). -/
structure Env where
  fSubiNode : Bool
  fLiteMode : Bool
  fBlockchainSynced : Bool
  nPoolMaxTransactions : Int
  PRIVATESEND_COLLATERAL : Int
  PRIVATESEND_POOL_MAX : Int
  PRIVATESEND_QUEUE_TIMEOUT : Int
  MIN_PRIVATESEND_PEER_PROTO_VERSION : Int
  vecPrivateSendDenominations : List Int
  GetTransaction : Nat → Option CTransaction
  AcceptToMemoryPool : CTransaction → Bool
  IsNormalPaymentScript : CScript → Bool
  CheckSignature : CDarksendQueue → Nat → Bool
  GetTime : Int
  GetTimeMillis : Int
  PRIVATESEND_SIGNING_TIMEOUT : Int
  AcceptToMemoryPoolBypass : CTransaction → Bool
  GetHash : CTransaction → Nat
  activeSubinodeVin : CTxIn
  SignQueue : CDarksendQueue → List Nat
  SignSignature : CScript → CTransaction → Nat → CScript
  SignBroadcastTx : CTransaction → Int → List Nat
  CheckDiskSpace : Bool
  fMempoolKeepsRef : Bool

/-- The pool object (`CDarksendPool`): the session fields and the client-side bookkeeping
that the resets touch. -/
structure CDarksendPool where
  vecSessionCollaterals : List CTransaction := []
  vecEntries : List CDarkSendEntry := []
  nState : PoolState := POOL_STATE_IDLE
  nTimeLastSuccessfulStep : Int := 0
  nSessionID : Int := 0
  nSessionDenom : Int := 0
  finalMutableTransaction : CTransaction := {}
  nEntriesCount : Int := 0
  fLastEntryAccepted : Bool := false
  pSubmittedToSubinode : Option CSubinode := none
  vecDarksendQueue : List CDarksendQueue := []
  fUnitTest : Bool := false
  strLastMessage : String := ""
  nCachedLastSuccessBlock : Int := 0
  txMyCollateral : CTransaction := {}
  vecOutPointLocked : List COutPoint := []
  vecSubinodesUsed : List CTxIn := []
  strAutoDenomResult : String := ""
  pCurrentBlockIndex : Option Int := none
  nMinBlockSpacing : Int := 0
  vecDenominationsSkipped : List Int := []
deriving DecidableEq, Repr

/-! ## Inline helpers of the pool -/

/-- Modelled from the spec: `GetEntriesCount` is declared in `darksend.h`, which is not
under `src/`; it is the number of entries held, as an `int`. -/
def CDarksendPool.GetEntriesCount (pool : CDarksendPool) : Int :=
  (pool.vecEntries.length : Int)

/-- Modelled from the spec: `GetMaxPoolTransactions` is declared in `darksend.h`, which is
not under `src/`; it is the chain parameter `PoolMaxTransactions`, the per-session
participant cap. -/
def GetMaxPoolTransactions (env : Env) : Int :=
  env.nPoolMaxTransactions

/-- Modelled from the spec: `IsSessionReady` is declared in `darksend.h`, which is not
under `src/`; a session is ready once it holds `MaxPoolTransactions` collaterals. -/
def CDarksendPool.IsSessionReady (env : Env) (pool : CDarksendPool) : Bool :=
  decide ((pool.vecSessionCollaterals.length : Int) ≥ GetMaxPoolTransactions env)

/-- `CDarksendPool::SetState`: a mixer never enters `ERROR` or `SUCCESS`. -/
def CDarksendPool.SetState (env : Env) (pool : CDarksendPool) (nStateNew : PoolState) :
    CDarksendPool :=
  if env.fSubiNode && (nStateNew == POOL_STATE_ERROR || nStateNew == POOL_STATE_SUCCESS) then
    pool
  else
    { pool with nState := nStateNew }

/-- `CDarksendPool::SetNull`. -/
def CDarksendPool.SetNull (env : Env) (pool : CDarksendPool) : CDarksendPool :=
  { pool with
    vecSessionCollaterals := []
    nEntriesCount := 0
    fLastEntryAccepted := false
    pSubmittedToSubinode := none
    nState := POOL_STATE_IDLE
    nSessionID := 0
    nSessionDenom := 0
    vecEntries := []
    finalMutableTransaction :=
      { pool.finalMutableTransaction with vin := [], vout := [] }
    nTimeLastSuccessfulStep := env.GetTimeMillis }

/-! ## Collateral validator -/

/-- Output loop of `IsCollateralValid`: accumulates `nValueOut`; `none` is the early
`return false` on a script that is not a normal payment script. -/
def collateralOutLoop (env : Env) : List CTxOut → Int → Option Int
  | [], nValueOut => some nValueOut
  | txout :: rest, nValueOut =>
    if !env.IsNormalPaymentScript txout.scriptPubKey then none
    else collateralOutLoop env rest (nValueOut + txout.nValue)

/-- Input loop of `IsCollateralValid`: accumulates `nValueIn` and the flag `fMissingTx`. -/
def collateralInLoop (env : Env) : List CTxIn → Int × Bool → Int × Bool
  | [], st => st
  | txin :: rest, (nValueIn, fMissingTx) =>
    match env.GetTransaction txin.prevout.hash with
    | some txPrev =>
      if h : txPrev.vout.length > txin.prevout.n then
        collateralInLoop env rest (nValueIn + (txPrev.vout.get ⟨txin.prevout.n, h⟩).nValue, fMissingTx)
      else
        collateralInLoop env rest (nValueIn, fMissingTx)
    | none => collateralInLoop env rest (nValueIn, true)

/-- `CDarksendPool::IsCollateralValid`. The last block hands `CTransactionRef
txRef(&txCollateral)` to the mempool. When the mempool refuses, `return false` destroys
`txRef` as the last owner of the caller's transaction and the run ends (`none`); when the
mempool accepts, the block is left normally only if the mempool has kept the reference. -/
def IsCollateralValid (env : Env) (txCollateral : CTransaction) : Option Bool :=
  if txCollateral.vout.isEmpty then some false
  else if txCollateral.nLockTime != 0 then some false
  else
    match collateralOutLoop env txCollateral.vout 0 with
    | none => some false
    | some nValueOut =>
      let st := collateralInLoop env txCollateral.vin (0, false)
      if st.2 then some false
      else if st.1 - nValueOut < env.PRIVATESEND_COLLATERAL then some false
      else if !env.AcceptToMemoryPool txCollateral then none
      else if !env.fMempoolKeepsRef then none
      else some true

/-! ## Entry pool -/

/-- `CDarksendPool::AddEntry`; returns the result, the message and the pool afterwards, and
`none` when the run ends in `IsCollateralValid`. -/
def AddEntry (env : Env) (pool : CDarksendPool) (entryNew : CDarkSendEntry)
    (nMessageIDRet : PoolMessage) : Option (Bool × PoolMessage × CDarksendPool) :=
  if !env.fSubiNode then some (false, nMessageIDRet, pool)
  else if entryNew.vecTxDSIn.any (fun txin => txin.prevout.IsNull) then
    some (false, ERR_INVALID_INPUT, pool)
  else
    match IsCollateralValid env entryNew.txCollateral with
    | none => none
    | some fValid =>
      if !fValid then some (false, ERR_INVALID_COLLATERAL, pool)
      else if pool.GetEntriesCount ≥ GetMaxPoolTransactions env then
        some (false, ERR_ENTRIES_FULL, pool)
      else if entryNew.vecTxDSIn.any (fun txin =>
          pool.vecEntries.any (fun entry =>
            entry.vecTxDSIn.any (fun txdsin => txdsin.prevout == txin.prevout))) then
        some (false, ERR_ALREADY_HAVE, pool)
      else
        some (true, MSG_ENTRIES_ADDED,
          { pool with
            vecEntries := pool.vecEntries ++ [entryNew]
            nTimeLastSuccessfulStep := env.GetTimeMillis })

/-! ## Denomination codec -/

/-- `CDarksendPool::InitDenominations`, for the coin unit `COIN` of `amount.h` (which is not
under `src/`); the products `.1 * COIN` and `.01 * COIN` are the exact tenth and hundredth
of a coin unit divisible by 100. -/
def InitDenominations (COIN : Int) : List Int :=
  [(10 * COIN) + 10000, (1 * COIN) + 1000, (COIN / 10) + 100, (COIN / 100) + 10]

/-- Inner loop of `GetDenominations`: marks every table entry equal to `nValue` as used
and reports whether one was found. -/
def markDenomUsed (nValue : Int) : List (Int × Nat) → List (Int × Nat) × Bool
  | [] => ([], false)
  | s :: rest =>
    let r := markDenomUsed nValue rest
    if nValue = s.1 then ((s.1, 1) :: r.1, true) else (s :: r.1, r.2)

/-- Outer loop of `GetDenominations`: `none` is the early `return 0` on an output whose
value is no denomination. -/
def lookForDenominations : List CTxOut → List (Int × Nat) → Option (List (Int × Nat))
  | [], vecDenomUsed => some vecDenomUsed
  | txout :: rest, vecDenomUsed =>
    let r := markDenomUsed txout.nValue vecDenomUsed
    if !r.2 then none else lookForDenominations rest r.1

/-- Modelled from the spec: `GetRandInt` is defined in `random.cpp`, which is not under
`src/`; it draws an integer from `[0, nMax)`, here the raw draw reduced modulo `nMax`. -/
def GetRandInt (nRand : Nat) (nMax : Nat) : Nat :=
  nRand % nMax

/-- Final loop of `GetDenominations`: shifts the bit of every used denomination on; in
single-random mode each used denomination is kept on a draw of `GetRandInt(2)` and the
loop stops at the first bit set. `draws` is the stream of raw random draws. -/
def shiftDenomBits (fSingleRandomDenom : Bool) :
    List (Int × Nat) → Nat → Nat → List Nat → Nat
  | [], _, nDenom, _ => nDenom
  | s :: rest, c, nDenom, draws =>
    let bit := (if fSingleRandomDenom then GetRandInt (draws.headD 0) 2 else 1) &&& s.2
    let nDenom := nDenom ||| (bit <<< c)
    if fSingleRandomDenom && bit != 0 then nDenom
    else shiftDenomBits fSingleRandomDenom rest (c + 1) nDenom
      (if fSingleRandomDenom then draws.tail else draws)

/-- `CDarksendPool::GetDenominations(vecTxOut, fSingleRandomDenom)` over the denomination
table `vecDenoms`. -/
def GetDenominationsTxOut (vecDenoms : List Int) (vecTxOut : List CTxOut)
    (fSingleRandomDenom : Bool) (draws : List Nat) : Int :=
  match lookForDenominations vecTxOut (vecDenoms.map (fun nDenomValue => (nDenomValue, 0))) with
  | none => 0
  | some vecDenomUsed => (shiftDenomBits fSingleRandomDenom vecDenomUsed 0 0 draws : Nat)

/-- `CDarksendPool::GetDenominations(vecTxDSOut)`: the default, non-random mode on the
outputs of an entry. -/
def GetDenominations (vecDenoms : List Int) (vecTxDSOut : List CTxDSOut) : Int :=
  GetDenominationsTxOut vecDenoms (vecTxDSOut.map (fun out => out.toCTxOut)) false []

/-- `CDarksendPool::GetDenominationsBits`; `1 << nMaxDenoms` is `2 ^ nMaxDenoms` (tables of
fewer than 31 denominations) and `nDenom & (1 << i)` is bit `i` of the two's complement
representation. Returns the result and `vecBitsRet`. -/
def GetDenominationsBits (vecDenoms : List Int) (nDenom : Int) (vecBitsRet : List Nat) :
    Bool × List Nat :=
  let nMaxDenoms := vecDenoms.length
  if nDenom ≥ (2 : Int) ^ nMaxDenoms then (false, vecBitsRet)
  else
    let vecBits := (List.range nMaxDenoms).filter (fun i => nDenom.testBit i)
    (!vecBits.isEmpty, vecBits)

/-- `CDarksendPool::GetDenominationsByAmounts`: the amounts are walked in reverse order,
wrapped in outputs with an empty script and passed on in single-random mode. -/
def GetDenominationsByAmounts (vecDenoms : List Int) (vecAmount : List Int)
    (draws : List Nat) : Int :=
  GetDenominationsTxOut vecDenoms
    (vecAmount.reverse.map (fun nAmount => ({ nValue := nAmount, scriptPubKey := [] } : CTxOut)))
    true draws

/-- Trimming loop of `FormatMoney` on the reversed string: drops a trailing zero as long as
the character two places before it is a digit, so that two decimals always remain. -/
def trimMoneyZeros : List Char → List Char
  | '0' :: c1 :: c2 :: rest =>
    if c2.isDigit then trimMoneyZeros (c1 :: c2 :: rest) else '0' :: c1 :: c2 :: rest
  | l => l

/-- Modelled from the spec: `FormatMoney` is defined in `utilmoneystr.cpp`, which is not
under `src/`; it prints an amount as a decimal literal in coin units (a coin unit of
`10^8`): integer part, point, eight decimals with the trailing zeros beyond the second
decimal removed, and a leading minus sign for a negative amount. -/
def FormatMoney (n : Int) : String :=
  let nAbs := n.natAbs
  let quotient := nAbs / 100000000
  let remainder := nAbs % 100000000
  let digits := Nat.toDigits 10 remainder
  let str := Nat.toDigits 10 quotient ++ ['.'] ++ List.replicate (8 - digits.length) '0' ++ digits
  let str := (trimMoneyZeros str.reverse).reverse
  String.mk (if n < 0 then '-' :: str else str)

/-- Loop of `GetDenominationsToString` over the bit indices: appends the formatted amount
of every denomination whose bit is set, separated by `+`. -/
def denomStringLoop (FormatMoney : Int → String) (vecDenoms : List Int) (nDenom : Int) :
    List Nat → String → String
  | [], strDenom => strDenom
  | i :: rest, strDenom =>
    if nDenom.testBit i then
      denomStringLoop FormatMoney vecDenoms nDenom rest
        (strDenom ++ ((if strDenom.isEmpty then "" else "+") ++ FormatMoney (vecDenoms.getD i 0)))
    else
      denomStringLoop FormatMoney vecDenoms nDenom rest strDenom

/-- `CDarksendPool::GetDenominationsToString`; the money formatter `FormatMoney` of
`utilmoneystr.cpp` is not under `src/` and is a parameter. -/
def GetDenominationsToString (FormatMoney : Int → String) (vecDenoms : List Int)
    (nDenom : Int) : String :=
  let nMaxDenoms := vecDenoms.length
  if nDenom ≥ (2 : Int) ^ nMaxDenoms then "out-of-bounds"
  else
    let strDenom := denomStringLoop FormatMoney vecDenoms nDenom (List.range nMaxDenoms) ""
    if strDenom.isEmpty then "non-denom" else strDenom

/-! ## Session admission on the mixer -/

/-- `CDarksendPool::IsOutputsCompatibleWithSessionDenom`. -/
def IsOutputsCompatibleWithSessionDenom (env : Env) (pool : CDarksendPool)
    (vecTxDSOut : List CTxDSOut) : Bool :=
  if GetDenominations env.vecPrivateSendDenominations vecTxDSOut = 0 then false
  else if pool.vecEntries.any (fun entry =>
      GetDenominations env.vecPrivateSendDenominations vecTxDSOut
        != GetDenominations env.vecPrivateSendDenominations entry.vecTxDSOut) then false
  else true

/-- `CDarksendPool::IsAcceptableDenomAndCollateral`; `none` when the run ends in
`IsCollateralValid`, which is not called in unit-test mode. -/
def IsAcceptableDenomAndCollateral (env : Env) (pool : CDarksendPool) (nDenom : Int)
    (txCollateral : CTransaction) (nMessageIDRet : PoolMessage) :
    Option (Bool × PoolMessage) :=
  if !env.fSubiNode then some (false, nMessageIDRet)
  else if !(GetDenominationsBits env.vecPrivateSendDenominations nDenom []).1 then
    some (false, ERR_DENOM)
  else if pool.fUnitTest then some (true, nMessageIDRet)
  else
    match IsCollateralValid env txCollateral with
    | none => none
    | some fValid =>
      if !fValid then some (false, ERR_INVALID_COLLATERAL)
      else some (true, nMessageIDRet)

/-- Messages and calls leaving the pool, in the order issued. -/
inductive Effect where
  | RelayQueue (dsq : CDarksendQueue)
  | AskForMN (vin : CTxIn)
  | SubmitDenominate
  | RelayFinalTransaction (nSessionID : Int) (txFinal : CTransaction)
  | PushStatus (nSessionID : Int) (nState : PoolState) (nEntriesCount : Int)
      (nStatusUpdate : PoolStatusUpdate) (nMessageID : PoolMessage)
  | RelayStatus (nSessionID : Int) (nState : PoolState) (nEntriesCount : Int)
      (nStatusUpdate : PoolStatusUpdate) (nMessageID : PoolMessage)
  | RelayCompletedTransaction (nSessionID : Int) (nMessageID : PoolMessage)
  | RelayInv (hashTx : Nat)
  | MempoolSubmit (tx : CTransaction)
  | RelayTransaction (tx : CTransaction)
  | UnlockCoin (outpoint : COutPoint)
  | LockCoin (outpoint : COutPoint)
  | PushDSACCEPT (nSessionDenom : Int) (txCollateral : CTransaction)
  | PushDSSIGNFINALTX (sigs : List CTxIn)
  | RelayIn (entry : CDarkSendEntry)
deriving DecidableEq, Repr

/-- Record of a mixed transaction broadcast by a mixer (`CDarksendBroadcastTx`). -/
structure CDarksendBroadcastTx where
  tx : CTransaction
  vin : CTxIn
  sigTime : Int
  vchSig : List Nat := []
deriving DecidableEq, Repr

/-- The pool together with the mixer list, the trace of effects issued so far, the
process-wide variables `fEnablePrivateSend` and `mapDarksendBroadcastTxes` and the static
variable `nTimeNewBlockReceived` of `NewBlock`. The flag `fAborted` is set when the run has
ended by the deletion of an object through a reference that does not own it; the other
fields then show the world as it was at that point. -/
structure World where
  pool : CDarksendPool := {}
  mnodeman : CSubinodeMan := {}
  vTrace : List Effect := []
  fEnablePrivateSend : Bool := false
  mapDarksendBroadcastTxes : List (Nat × CDarksendBroadcastTx) := []
  nTimeNewBlockReceived : Int := 0
  fAborted : Bool := false
deriving DecidableEq, Repr

/-- The world at the point where the run ends. -/
def World.abort (w : World) : World :=
  { w with fAborted := true }

/-- `CDarksendPool::CreateNewSession`; `vinActive` is `activeSubinode.vin`, `vchSig` the
signature `dsq.Sign()` leaves in the queue object, `nRand` the raw random draw. The result
is `none` when the run ends in `IsCollateralValid`. -/
def CreateNewSession (env : Env) (w : World) (vinActive : CTxIn) (vchSig : List Nat)
    (nRand : Nat) (nDenom : Int) (txCollateral : CTransaction) (nMessageIDRet : PoolMessage) :
    Option (Bool × PoolMessage × World) :=
  if !env.fSubiNode || w.pool.nSessionID != 0 then some (false, nMessageIDRet, w)
  else if w.pool.nState != POOL_STATE_IDLE then some (false, ERR_MODE, w)
  else
    match IsAcceptableDenomAndCollateral env w.pool nDenom txCollateral nMessageIDRet with
    | none => none
    | some r =>
      if !r.1 then some (false, r.2, w)
      else
        let pool := { w.pool with
          nSessionID := (GetRandInt nRand 999999 : Nat) + 1
          nSessionDenom := nDenom }
        let pool := pool.SetState env POOL_STATE_QUEUE
        let pool := { pool with nTimeLastSuccessfulStep := env.GetTimeMillis }
        let dsq : CDarksendQueue :=
          { nDenom := nDenom, vin := vinActive, nTime := env.GetTime, fReady := false,
            vchSig := vchSig }
        let w := if !pool.fUnitTest then
            { w with
              pool := { pool with vecDarksendQueue := pool.vecDarksendQueue ++ [dsq] }
              vTrace := w.vTrace ++ [Effect.RelayQueue dsq] }
          else { w with pool := pool }
        some (true, MSG_NOERR,
          { w with pool := { w.pool with
              vecSessionCollaterals := w.pool.vecSessionCollaterals ++ [txCollateral] } })

/-- `CDarksendPool::AddUserToExistingSession`; `none` when the run ends in
`IsCollateralValid`. -/
def AddUserToExistingSession (env : Env) (pool : CDarksendPool) (nDenom : Int)
    (txCollateral : CTransaction) (nMessageIDRet : PoolMessage) :
    Option (Bool × PoolMessage × CDarksendPool) :=
  if !env.fSubiNode || pool.nSessionID == 0 || pool.IsSessionReady env then
    some (false, nMessageIDRet, pool)
  else
    match IsAcceptableDenomAndCollateral env pool nDenom txCollateral nMessageIDRet with
    | none => none
    | some r =>
      if !r.1 then some (false, r.2, pool)
      else if pool.nState != POOL_STATE_QUEUE then some (false, ERR_MODE, pool)
      else if nDenom != pool.nSessionDenom then some (false, ERR_DENOM, pool)
      else
        some (true, MSG_NOERR,
          { pool with
            nTimeLastSuccessfulStep := env.GetTimeMillis
            vecSessionCollaterals := pool.vecSessionCollaterals ++ [txCollateral] })

/-! ## Final transaction assembly -/

/-- Modelled from the spec: `operator<` of `COutPoint` is declared in
`primitives/transaction.h`, which is not under `src/`; BIP69 orders inputs by previous
transaction hash, then by output index. -/
def COutPoint.lt (a b : COutPoint) : Bool :=
  decide (a.hash < b.hash) || (a.hash == b.hash && decide (a.n < b.n))

/-- Modelled from the spec: `operator<` of `CTxIn` is declared in
`primitives/transaction.h`, which is not under `src/`; inputs compare by their outpoint. -/
def CTxIn.lt (a b : CTxIn) : Bool :=
  a.prevout.lt b.prevout

/-- Modelled from the spec: the script comparison is declared outside `src/`; BIP69
compares scripts lexicographically, byte by byte. -/
def scriptLt : CScript → CScript → Bool
  | [], [] => false
  | [], _ :: _ => true
  | _ :: _, [] => false
  | a :: as, b :: bs => decide (a < b) || (a == b && scriptLt as bs)

/-- Modelled from the spec: `operator<` of `CTxOut` is declared in
`primitives/transaction.h`, which is not under `src/`; BIP69 orders outputs by value, then
by script. -/
def CTxOut.lt (a b : CTxOut) : Bool :=
  decide (a.nValue < b.nValue) || (a.nValue == b.nValue && scriptLt a.scriptPubKey b.scriptPubKey)

/-- Order `std::sort` establishes on inputs: `b` is not less than `a`. -/
def inputOrd (a b : CTxIn) : Prop := b.lt a = false

/-- Order `std::sort` establishes on outputs: `b` is not less than `a`. -/
def outputOrd (a b : CTxOut) : Prop := b.lt a = false

instance : DecidableRel inputOrd := fun a b => inferInstanceAs (Decidable (b.lt a = false))

instance : DecidableRel outputOrd := fun a b => inferInstanceAs (Decidable (b.lt a = false))

/-- Loop of `CreateFinalTransaction` over the entries: appends the outputs and the inputs
of each entry to `txNew`. -/
def collectEntries : List CDarkSendEntry → CTransaction → CTransaction
  | [], txNew => txNew
  | entry :: rest, txNew =>
    collectEntries rest
      { txNew with
        vout := txNew.vout ++ entry.vecTxDSOut.map (fun txdsout => txdsout.toCTxOut)
        vin := txNew.vin ++ entry.vecTxDSIn.map (fun txdsin => txdsin.toCTxIn) }

/-- `CDarksendPool::CreateFinalTransaction`; `std::sort` with `operator<` is an insertion
sort by the same comparison. -/
def CreateFinalTransaction (env : Env) (w : World) : World :=
  let txNew := collectEntries w.pool.vecEntries {}
  let txNew := { txNew with vin := txNew.vin.insertionSort inputOrd }
  let txNew := { txNew with vout := txNew.vout.insertionSort outputOrd }
  let pool := { w.pool with finalMutableTransaction := txNew }
  { w with
    pool := pool.SetState env POOL_STATE_SIGNING
    vTrace := w.vTrace ++ [Effect.RelayFinalTransaction pool.nSessionID txNew] }

/-! ## Queue gossip and the rate limiter -/

/-- Modelled from the spec: `CDarksendQueue::IsExpired` is declared in `darksend.h`, which
is not under `src/`; a queue is expired when `|now − time| > PRIVATESEND_QUEUE_TIMEOUT`. -/
def CDarksendQueue.IsExpired (env : Env) (dsq : CDarksendQueue) : Bool :=
  decide (|env.GetTime - dsq.nTime| > env.PRIVATESEND_QUEUE_TIMEOUT)

/-- Modelled from the spec: `operator==` of `CDarksendQueue` is declared in `darksend.h`,
which is not under `src/`; two queues are equal when all gossiped fields agree. -/
def CDarksendQueue.eq (a b : CDarksendQueue) : Bool :=
  a.nDenom == b.nDenom && a.vin == b.vin && a.nTime == b.nTime && a.fReady == b.fReady
    && a.vchSig == b.vchSig

/-- Modelled from the spec: `CSubinodeMan::Find` is defined in `subinodeman.cpp`, which is
not under `src/`; a mixer is identified by its staking-input outpoint. -/
def CSubinodeMan.Find (mnodeman : CSubinodeMan) (vin : CTxIn) : Option CSubinode :=
  mnodeman.vSubinodes.find? (fun mn => mn.vin.prevout == vin.prevout)

/-- Modelled from the spec: `CSubinodeMan::CountEnabled` is defined in `subinodeman.cpp`,
which is not under `src/`; it counts the mixers whose protocol version meets the minimum. -/
def CSubinodeMan.CountEnabled (mnodeman : CSubinodeMan) (nProtocolVersion : Int) : Int :=
  ((mnodeman.vSubinodes.filter (fun mn => decide (mn.protocolVersion ≥ nProtocolVersion))).length : Int)

/-- Write through the pointer returned by `Find`: replaces the first record of the mixer
identified by `vin`. -/
def updateSubinode (vin : CTxIn) (mnNew : CSubinode) : List CSubinode → List CSubinode
  | [] => []
  | mn :: rest =>
    if mn.vin.prevout == vin.prevout then mnNew :: rest
    else mn :: updateSubinode vin mnNew rest

/-- Marking of an accepted queue in the `DSQUEUE` branch: `fTried` is set when the queue
comes from the mixer this node has submitted to. -/
def markTried (pSubmittedToSubinode : Option CSubinode) (dsq : CDarksendQueue) :
    CDarksendQueue :=
  match pSubmittedToSubinode with
  | some pSubmitted =>
    if pSubmitted.vin.prevout == dsq.vin.prevout then { dsq with fTried := true } else dsq
  | none => dsq

/-- Conversion of a 64-bit integer to `int`, as in `int nThreshold = …`: the value modulo
`2^32` in the range of a signed 32-bit integer. -/
def toInt32 (x : Int) : Int :=
  (x + 2147483648) % 4294967296 - 2147483648

/-- `CDarksendPool::ProcessMessage`, branch `DSQUEUE`. `lockRecv` is the outcome of the
try-lock and `nVersion` the protocol version of the sending peer. The counters `nLastDsq`
and `nDsqCount` are 64-bit integers; the threshold is stored in an `int`. -/
def ProcessMessageDSQUEUE (env : Env) (w : World) (lockRecv : Bool) (nVersion : Int)
    (dsq : CDarksendQueue) : World :=
  if env.fLiteMode then w
  else if !env.fBlockchainSynced then w
  else if !lockRecv then w
  else if nVersion < env.MIN_PRIVATESEND_PEER_PROTO_VERSION then w
  else if w.pool.vecDarksendQueue.any (fun q => q.eq dsq) then w
  else if dsq.IsExpired env || decide (dsq.nTime > env.GetTime + env.PRIVATESEND_QUEUE_TIMEOUT) then w
  else
    match w.mnodeman.Find dsq.vin with
    | none => w
    | some pmn =>
      if !env.CheckSignature dsq pmn.pubKeySubinode then
        { w with vTrace := w.vTrace ++ [Effect.AskForMN dsq.vin] }
      else if dsq.fReady then
        match w.pool.pSubmittedToSubinode with
        | none => w
        | some pSubmitted =>
          if pSubmitted.addr != pmn.addr then w
          else if w.pool.nState == POOL_STATE_QUEUE then
            { w with vTrace := w.vTrace ++ [Effect.SubmitDenominate] }
          else w
      else if w.pool.vecDarksendQueue.any (fun q => q.vin == dsq.vin) then w
      else
        let nThreshold := toInt32
          (pmn.nLastDsq + w.mnodeman.CountEnabled env.MIN_PRIVATESEND_PEER_PROTO_VERSION / 5)
        if pmn.nLastDsq != 0 && decide (nThreshold > w.mnodeman.nDsqCount) then w
        else
          let nDsqCount := w.mnodeman.nDsqCount + 1
          let pmn := { pmn with nLastDsq := nDsqCount, fAllowMixingTx := true }
          let dsq := markTried w.pool.pSubmittedToSubinode dsq
          { w with
            pool := { w.pool with vecDarksendQueue := w.pool.vecDarksendQueue ++ [dsq] }
            mnodeman :=
              { vSubinodes := updateSubinode dsq.vin pmn w.mnodeman.vSubinodes
                nDsqCount := nDsqCount }
            vTrace := w.vTrace ++ [Effect.RelayQueue dsq] }

/-! ## Entry submission (`DSVIN`) -/

/-- Output loop of the `DSVIN` branch: accumulates `nValueOut`; an error is the message of
the rejection pushed before the early return. -/
def dsvinOutLoop (env : Env) : List CTxDSOut → Int → Except PoolMessage Int
  | [], nValueOut => .ok nValueOut
  | txout :: rest, nValueOut =>
    if txout.scriptPubKey.length != 25 then .error ERR_NON_STANDARD_PUBKEY
    else if !env.IsNormalPaymentScript txout.scriptPubKey then .error ERR_INVALID_SCRIPT
    else dsvinOutLoop env rest (nValueOut + txout.nValue)

/-- Input loop of the `DSVIN` branch: accumulates `nValueIn`; a previous transaction that
the ledger does not find is rejected with `ERR_MISSING_TX`. -/
def dsvinInLoop (env : Env) : List CTxDSIn → Int → Except PoolMessage Int
  | [], nValueIn => .ok nValueIn
  | txin :: rest, nValueIn =>
    match env.GetTransaction txin.prevout.hash with
    | some txPrev =>
      if h : txPrev.vout.length > txin.prevout.n then
        dsvinInLoop env rest (nValueIn + (txPrev.vout.get ⟨txin.prevout.n, h⟩).nValue)
      else
        dsvinInLoop env rest nValueIn
    | none => .error ERR_MISSING_TX

/-- `CDarksendPool::ProcessMessage`, branch `DSVIN`, up to the outcome of `AddEntry`:
the status and message pushed to the sending peer (`none` when no reply is pushed), the
pool at that point and whether the run has ended. The block that hands
`CTransactionRef txRef(&txTemp)` to the mempool ends the run unless the mempool has
accepted the transaction and kept the reference: after a refusal the reply is pushed and
`return` destroys the reference; `AddEntry` can end the run in `IsCollateralValid`. After
`STATUS_ACCEPTED` the handler goes on with `CheckPool` and `RelayStatus`; the pool returned
for a rejection by `AddEntry` is the one after `SetNull`. -/
def ProcessMessageDSVIN (env : Env) (pool : CDarksendPool) (nVersion : Int)
    (entry : CDarkSendEntry) :
    Option (PoolStatusUpdate × PoolMessage) × CDarksendPool × Bool :=
  if env.fLiteMode then (none, pool, false)
  else if !env.fBlockchainSynced then (none, pool, false)
  else if nVersion < env.MIN_PRIVATESEND_PEER_PROTO_VERSION then
    (some (STATUS_REJECTED, ERR_VERSION), pool, false)
  else if !env.fSubiNode then (some (STATUS_REJECTED, ERR_NOT_A_MN), pool, false)
  else if !pool.IsSessionReady env then (some (STATUS_REJECTED, ERR_SESSION), pool, false)
  else if !IsOutputsCompatibleWithSessionDenom env pool entry.vecTxDSOut then
    (some (STATUS_REJECTED, ERR_EXISTING_TX), pool, false)
  else
    match dsvinOutLoop env entry.vecTxDSOut 0 with
    | .error nMessageID => (some (STATUS_REJECTED, nMessageID), pool, false)
    | .ok nValueOut =>
      match dsvinInLoop env entry.vecTxDSIn 0 with
      | .error nMessageID => (some (STATUS_REJECTED, nMessageID), pool, false)
      | .ok nValueIn =>
        if nValueIn > env.PRIVATESEND_POOL_MAX then
          (some (STATUS_REJECTED, ERR_MAXIMUM), pool, false)
        else if nValueIn - nValueOut > env.vecPrivateSendDenominations.getLastD 0 then
          (some (STATUS_REJECTED, ERR_FEES), pool, false)
        else if !env.AcceptToMemoryPool
            { vin := entry.vecTxDSIn.map (fun txin => txin.toCTxIn)
              vout := entry.vecTxDSOut.map (fun txout => txout.toCTxOut) } then
          (some (STATUS_REJECTED, ERR_INVALID_TX), pool, true)
        else if !env.fMempoolKeepsRef then (none, pool, true)
        else
          match AddEntry env pool entry MSG_NOERR with
          | none => (none, pool, true)
          | some r =>
            if r.1 then (some (STATUS_ACCEPTED, r.2.1), r.2.2, false)
            else (some (STATUS_REJECTED, r.2.1), r.2.2.SetNull env, false)

/-! ## Status messages and relays -/

/-- `CDarksendPool::GetMessageByID`; the translation `_()` is the identity. -/
def GetMessageByID (nMessageID : PoolMessage) : String :=
  match nMessageID with
  | ERR_ALREADY_HAVE => "Already have that input."
  | ERR_DENOM => "No matching denominations found for mixing."
  | ERR_ENTRIES_FULL => "Entries are full."
  | ERR_EXISTING_TX => "Not compatible with existing transactions."
  | ERR_FEES => "Transaction fees are too high."
  | ERR_INVALID_COLLATERAL => "Collateral not valid."
  | ERR_INVALID_INPUT => "Input is not valid."
  | ERR_INVALID_SCRIPT => "Invalid script detected."
  | ERR_INVALID_TX => "Transaction not valid."
  | ERR_MAXIMUM => "Value more than PrivateSend pool maximum allows."
  | ERR_MN_LIST => "Not in the Subinode list."
  | ERR_MODE => "Incompatible mode."
  | ERR_NON_STANDARD_PUBKEY => "Non-standard public key detected."
  | ERR_NOT_A_MN => "This is not a Subinode."
  | ERR_QUEUE_FULL => "Subinode queue is full."
  | ERR_RECENT => "Last PrivateSend was too recent."
  | ERR_SESSION => "Session not complete!"
  | ERR_MISSING_TX => "Missing input transaction information."
  | ERR_VERSION => "Incompatible version."
  | MSG_NOERR => "No errors detected."
  | MSG_SUCCESS => "Transaction created successfully."
  | MSG_ENTRIES_ADDED => "Your entries added successfully."

/-- `CDarksendPool::PushStatus` to a connected peer: a `DSSTATUSUPDATE` carrying the
session id, the state and the number of entries of the pool at the time of the call. -/
def PushStatus (w : World) (nStatusUpdate : PoolStatusUpdate) (nMessageID : PoolMessage) :
    World :=
  { w with vTrace := w.vTrace ++
      [Effect.PushStatus w.pool.nSessionID w.pool.nState (w.pool.vecEntries.length : Int)
        nStatusUpdate nMessageID] }

/-- `CDarksendPool::RelayStatus`: `PushStatus` to every peer of a recent enough version,
recorded as one effect. -/
def RelayStatus (w : World) (nStatusUpdate : PoolStatusUpdate) (nMessageID : PoolMessage) :
    World :=
  { w with vTrace := w.vTrace ++
      [Effect.RelayStatus w.pool.nSessionID w.pool.nState (w.pool.vecEntries.length : Int)
        nStatusUpdate nMessageID] }

/-- `CDarksendPool::RelayCompletedTransaction`: `DSCOMPLETE` with the session id the pool
holds at the time of the call. -/
def RelayCompletedTransaction (w : World) (nMessageID : PoolMessage) : World :=
  { w with vTrace := w.vTrace ++
      [Effect.RelayCompletedTransaction w.pool.nSessionID nMessageID] }

/-- `CDarksendPool::RelayIn`: `DSVIN` to the mixer the client has submitted to, if any. -/
def RelayIn (w : World) (entry : CDarkSendEntry) : World :=
  match w.pool.pSubmittedToSubinode with
  | none => w
  | some _ => { w with vTrace := w.vTrace ++ [Effect.RelayIn entry] }

/-! ## Resets -/

/-- `CDarksendPool::UnlockCoins`: every locked outpoint is released in the wallet and the
list is cleared. The loop around the wallet try-lock ends when the lock is taken. -/
def UnlockCoins (w : World) : World :=
  { w with
    pool := { w.pool with vecOutPointLocked := [] }
    vTrace := w.vTrace ++ w.pool.vecOutPointLocked.map Effect.UnlockCoin }

/-- `SetNull` on the pool of a world. -/
def World.SetNull (env : Env) (w : World) : World :=
  { w with pool := w.pool.SetNull env }

/-- `SetState` on the pool of a world. -/
def World.SetState (env : Env) (w : World) (nStateNew : PoolState) : World :=
  { w with pool := w.pool.SetState env nStateNew }

/-- `CDarksendPool::ResetPool`. -/
def ResetPool (env : Env) (w : World) : World :=
  let w := { w with pool := { w.pool with
    nCachedLastSuccessBlock := 0
    txMyCollateral := {}
    vecSubinodesUsed := [] } }
  (UnlockCoins w).SetNull env

/-! ## Collateral charging -/

/-- Offender list of `ChargeFees` in state `SIGNING`: the collateral of the entry, pushed
once for each of its inputs that has no signature. -/
def offendersSigning (pool : CDarksendPool) : List CTransaction :=
  (pool.vecEntries.map (fun entry =>
    (entry.vecTxDSIn.filter (fun txdsin => !txdsin.fHasSig)).map
      (fun _ => entry.txCollateral))).flatten

/-- The list `vecOffendersCollaterals` that `ChargeFees` has built when the run reaches its
tests. In state `ACCEPTING_ENTRIES` the tests are reached only without entries, and then
every session collateral has been pushed (as a reference over the element of
`vecSessionCollaterals`); in state `SIGNING` the list is `offendersSigning`. -/
def vecOffendersCollaterals (pool : CDarksendPool) : List CTransaction :=
  (if pool.nState == POOL_STATE_ACCEPTING_ENTRIES then pool.vecSessionCollaterals else [])
    ++ (if pool.nState == POOL_STATE_SIGNING then offendersSigning pool else [])

/-- Submission of a collateral to the mempool, relayed when accepted. -/
def chargeCollateral (env : Env) (w : World) (txCollateral : CTransaction) : World :=
  let w := { w with vTrace := w.vTrace ++ [Effect.MempoolSubmit txCollateral] }
  if !env.AcceptToMemoryPool txCollateral then w
  else { w with vTrace := w.vTrace ++ [Effect.RelayTransaction txCollateral] }

/-- `CDarksendPool::ChargeFees`. `nRand1` and `nRand2` are the raw draws of the two
`GetRandInt(100)` calls, `nShuffle` selects the offender that `std::random_shuffle` brings
to the front. In state `ACCEPTING_ENTRIES` the loops build
`CTransactionRef txCollateralRef(&txCollateral)` over the elements of
`vecSessionCollaterals`. With an entry in the pool, the reference built for the comparison
is destroyed at the end of the first pass of the inner loop and the run ends. Without
entries, a reference over every collateral is pushed, and the run ends when the vector of
references is destroyed at a `return`, unless it holds one reference only and the mempool
has accepted and kept it. In state `SIGNING` the references pushed are copies of those the
entries own. -/
def ChargeFees (env : Env) (w : World) (nRand1 nRand2 nShuffle : Nat) : World :=
  if !env.fSubiNode then w
  else if GetRandInt nRand1 100 > 33 then w
  else if w.pool.nState == POOL_STATE_ACCEPTING_ENTRIES
      && !w.pool.vecSessionCollaterals.isEmpty && !w.pool.vecEntries.isEmpty then
    w.abort
  else
    let fBorrowed := w.pool.nState == POOL_STATE_ACCEPTING_ENTRIES
    let vecOffenders := vecOffendersCollaterals w.pool
    if vecOffenders.isEmpty then w
    else if decide ((vecOffenders.length : Int) ≥ env.nPoolMaxTransactions - 1)
        && decide (GetRandInt nRand2 100 > 33) then
      if fBorrowed then w.abort else w
    else if (vecOffenders.length : Int) ≥ env.nPoolMaxTransactions then
      if fBorrowed then w.abort else w
    else if w.pool.nState == POOL_STATE_ACCEPTING_ENTRIES
        || w.pool.nState == POOL_STATE_SIGNING then
      let txCharged := vecOffenders.getD (nShuffle % vecOffenders.length) {}
      let w := chargeCollateral env w txCharged
      if fBorrowed && !(vecOffenders.length == 1 && env.AcceptToMemoryPool txCharged
          && env.fMempoolKeepsRef) then w.abort
      else w
    else w

/-- Loop of `ChargeRandomFees` over the session collaterals; a draw above 10 leaves the
function. Each charge hands `CTransactionRef txRef(&txCollateral)`, built over the element
of `vecSessionCollaterals`, to the mempool; at the end of the pass the reference is
destroyed, and the run ends unless the mempool has accepted the collateral and kept the
reference. -/
def chargeRandomLoop (env : Env) : List CTransaction → List Nat → World → World
  | [], _, w => w
  | txCollateral :: rest, draws, w =>
    if GetRandInt (draws.headD 0) 100 > 10 then w
    else if env.AcceptToMemoryPool txCollateral && env.fMempoolKeepsRef then
      chargeRandomLoop env rest draws.tail (chargeCollateral env w txCollateral)
    else (chargeCollateral env w txCollateral).abort

/-- `CDarksendPool::ChargeRandomFees`; `draws` are the raw draws, one for each collateral
reached. -/
def ChargeRandomFees (env : Env) (w : World) (draws : List Nat) : World :=
  if !env.fSubiNode then w
  else chargeRandomLoop env w.pool.vecSessionCollaterals draws w

/-! ## Signatures on the mixer -/

/-- `CDarksendPool::IsInputScriptSigValid`: with the script verification commented out in
the source, the input is valid exactly when some DSIn of some entry spends its outpoint
(`nTxInIndex >= 0`); the transaction assembled for the verification is not used. -/
def IsInputScriptSigValid (pool : CDarksendPool) (txin : CTxIn) : Bool :=
  pool.vecEntries.any (fun entry =>
    entry.vecTxDSIn.any (fun txdsin => txdsin.prevout == txin.prevout))

/-- Loop of `CDarkSendEntry::AddScriptSig` over the DSIns of the entry. -/
def addScriptSigDSIn (txin : CTxIn) : List CTxDSIn → Bool × List CTxDSIn
  | [] => (false, [])
  | txdsin :: rest =>
    if txdsin.prevout == txin.prevout && txdsin.nSequence == txin.nSequence then
      if txdsin.fHasSig then (false, txdsin :: rest)
      else
        (true,
          { txdsin with
            scriptSig := txin.scriptSig
            prevPubKey := txin.prevPubKey
            fHasSig := true } :: rest)
    else
      let r := addScriptSigDSIn txin rest
      (r.1, txdsin :: r.2)

/-- `CDarkSendEntry::AddScriptSig`. -/
def CDarkSendEntry.AddScriptSig (entry : CDarkSendEntry) (txin : CTxIn) :
    Bool × CDarkSendEntry :=
  let r := addScriptSigDSIn txin entry.vecTxDSIn
  (r.1, { entry with vecTxDSIn := r.2 })

/-- Last loop of the pool-level `AddScriptSig`: the first entry that takes the signature
ends the search. -/
def addScriptSigEntries (txinNew : CTxIn) : List CDarkSendEntry → Bool × List CDarkSendEntry
  | [] => (false, [])
  | entry :: rest =>
    let r := entry.AddScriptSig txinNew
    if r.1 then (true, r.2 :: rest)
    else
      let r2 := addScriptSigEntries txinNew rest
      (r2.1, entry :: r2.2)

/-- `CDarksendPool::AddScriptSig`. -/
def AddScriptSig (pool : CDarksendPool) (txinNew : CTxIn) : Bool × CDarksendPool :=
  if pool.vecEntries.any (fun entry =>
      entry.vecTxDSIn.any (fun txdsin => txdsin.scriptSig == txinNew.scriptSig)) then
    (false, pool)
  else if !IsInputScriptSigValid pool txinNew then (false, pool)
  else
    let vin := pool.finalMutableTransaction.vin.map (fun txin =>
      if txinNew.prevout == txin.prevout && txin.nSequence == txinNew.nSequence then
        { txin with scriptSig := txinNew.scriptSig, prevPubKey := txinNew.prevPubKey }
      else txin)
    let pool := { pool with
      finalMutableTransaction := { pool.finalMutableTransaction with vin := vin } }
    let r := addScriptSigEntries txinNew pool.vecEntries
    (r.1, { pool with vecEntries := r.2 })

/-- `CDarksendPool::IsSignaturesComplete`. -/
def IsSignaturesComplete (pool : CDarksendPool) : Bool :=
  pool.vecEntries.all (fun entry => entry.vecTxDSIn.all (fun txdsin => txdsin.fHasSig))

/-! ## Commit, pool check and timers -/

/-- `CDarksendPool::CommitFinalTransaction`. `lockMain` is the outcome of the try-lock on
`cs_main`; `draws` are passed on to `ChargeRandomFees`. The first block hands
`CTransactionRef txRef(&finalTransaction)`, built over the local variable, to the mempool.
On the failure branch the pool is reset and the `DSCOMPLETE` relayed, then `return`
destroys the reference and the run ends; after an acceptance the block is left normally
only if the mempool has kept the reference. The second reference, `tempRef`, is copied
into the broadcast record stored in the map, which keeps it alive. -/
def CommitFinalTransaction (env : Env) (w : World) (lockMain : Bool) (draws : List Nat) :
    World :=
  if !env.fSubiNode then w
  else
    let finalTransaction := w.pool.finalMutableTransaction
    let hashTx := env.GetHash finalTransaction
    if !lockMain || !env.AcceptToMemoryPoolBypass finalTransaction then
      (RelayCompletedTransaction (w.SetNull env) ERR_INVALID_TX).abort
    else if !env.fMempoolKeepsRef then w.abort
    else
      let w :=
        if !(w.mapDarksendBroadcastTxes.any (fun kv => kv.1 == hashTx)) then
          { w with mapDarksendBroadcastTxes := w.mapDarksendBroadcastTxes ++
              [(hashTx,
                { tx := finalTransaction
                  vin := env.activeSubinodeVin
                  sigTime := env.GetTime
                  vchSig := env.SignBroadcastTx finalTransaction env.GetTime })] }
        else w
      let w := { w with vTrace := w.vTrace ++ [Effect.RelayInv hashTx] }
      let w := RelayCompletedTransaction w MSG_SUCCESS
      let w := ChargeRandomFees env w draws
      if w.fAborted then w else w.SetNull env

/-- `CDarksendPool::CheckPool`. -/
def CheckPool (env : Env) (w : World) (lockMain : Bool) (draws : List Nat) : World :=
  if env.fSubiNode && (w.pool.nState == POOL_STATE_ACCEPTING_ENTRIES
      && decide (w.pool.GetEntriesCount ≥ GetMaxPoolTransactions env)) then
    CreateFinalTransaction env w
  else if env.fSubiNode && (w.pool.nState == POOL_STATE_SIGNING
      && IsSignaturesComplete w.pool) then
    CommitFinalTransaction env w lockMain draws
  else if (w.pool.nState == POOL_STATE_ERROR || w.pool.nState == POOL_STATE_SUCCESS)
      && decide (env.GetTimeMillis - w.pool.nTimeLastSuccessfulStep ≥ 10000) then
    (UnlockCoins w).SetNull env
  else w

/-- Reset of `CheckTimeout` once the session has timed out. -/
def timeoutReset (env : Env) (w : World) (nRand1 nRand2 nShuffle : Nat) : World :=
  let w := ChargeFees env w nRand1 nRand2 nShuffle
  if w.fAborted then w
  else
    let w := UnlockCoins w
    let w := w.SetNull env
    let w := w.SetState env POOL_STATE_ERROR
    { w with pool := { w.pool with strLastMessage := "Session timed out." } }

/-- Second part of `CheckTimeout`, after the hanging-session check: the timeout test. -/
def checkSessionTimeout (env : Env) (w : World) (nRand1 nRand2 nShuffle : Nat) : World :=
  let nLagTime : Int := if env.fSubiNode then 0 else 10000
  let nTimeout : Int :=
    if w.pool.nState == POOL_STATE_SIGNING then env.PRIVATESEND_SIGNING_TIMEOUT
    else env.PRIVATESEND_QUEUE_TIMEOUT
  let fTimeout : Bool :=
    decide (env.GetTimeMillis - w.pool.nTimeLastSuccessfulStep ≥ nTimeout * 1000 + nLagTime)
  if w.pool.nState != POOL_STATE_IDLE && fTimeout then
    timeoutReset env w nRand1 nRand2 nShuffle
  else w

/-- `CDarksendPool::CheckTimeout`. `lockDS` is the outcome of the try-lock on
`cs_darksend`; `lockMain` and `draws` go to `CheckPool`, the three last arguments to
`ChargeFees`. -/
def CheckTimeout (env : Env) (w : World) (lockDS lockMain : Bool) (draws : List Nat)
    (nRand1 nRand2 nShuffle : Nat) : World :=
  if !lockDS then w
  else
    let w := { w with pool := { w.pool with
      vecDarksendQueue := w.pool.vecDarksendQueue.filter (fun dsq => !dsq.IsExpired env) } }
    if !w.fEnablePrivateSend && !env.fSubiNode then w
    else
      let w :=
        if !env.fSubiNode then
          match w.pool.nState with
          | POOL_STATE_ERROR => CheckPool env w lockMain draws
          | POOL_STATE_SUCCESS => CheckPool env w lockMain draws
          | _ => w
        else w
      checkSessionTimeout env w nRand1 nRand2 nShuffle

/-- `CDarksendPool::CheckForCompleteQueue`; `CDarksendQueue::Sign` signs on a mixer only. -/
def CheckForCompleteQueue (env : Env) (w : World) : World :=
  if !w.fEnablePrivateSend && !env.fSubiNode then w
  else if w.pool.nState == POOL_STATE_QUEUE && w.pool.IsSessionReady env then
    let w := w.SetState env POOL_STATE_ACCEPTING_ENTRIES
    let dsq : CDarksendQueue :=
      { nDenom := w.pool.nSessionDenom, vin := env.activeSubinodeVin, nTime := env.GetTime,
        fReady := true }
    let dsq := if env.fSubiNode then { dsq with vchSig := env.SignQueue dsq } else dsq
    { w with vTrace := w.vTrace ++ [Effect.RelayQueue dsq] }
  else w

/-- `CDarksendPool::NewBlock`; the static variable is the world field
`nTimeNewBlockReceived`. -/
def NewBlock (env : Env) (w : World) (lockDS lockMain : Bool) (draws : List Nat)
    (nRand1 nRand2 nShuffle : Nat) : World :=
  if env.GetTime - w.nTimeNewBlockReceived < 10 then w
  else
    CheckTimeout env { w with nTimeNewBlockReceived := env.GetTime } lockDS lockMain draws
      nRand1 nRand2 nShuffle

/-- `CDarksendPool::UpdatedBlockTip`; `nHeight` is the height of the new tip and
`fSubinodeListSynced` the answer of `subinodeSync.IsSubinodeListSynced()`. -/
def UpdatedBlockTip (env : Env) (w : World) (nHeight : Int) (fSubinodeListSynced : Bool)
    (lockDS lockMain : Bool) (draws : List Nat) (nRand1 nRand2 nShuffle : Nat) : World :=
  let w := { w with pool := { w.pool with pCurrentBlockIndex := some nHeight } }
  if !env.fLiteMode && fSubinodeListSynced then
    NewBlock env w lockDS lockMain draws nRand1 nRand2 nShuffle
  else w

/-! ## Message handlers of the mixer -/

/-- `CDarksendPool::ProcessMessage`, branch `DSACCEPT`. `nVersion` is the protocol version
of the sending peer, `nRand` the raw draw of the session id. -/
def ProcessMessageDSACCEPT (env : Env) (w : World) (nVersion : Int) (nDenom : Int)
    (txCollateral : CTransaction) (nRand : Nat) : World :=
  if env.fLiteMode then w
  else if !env.fBlockchainSynced then w
  else if nVersion < env.MIN_PRIVATESEND_PEER_PROTO_VERSION then
    PushStatus w STATUS_REJECTED ERR_VERSION
  else if !env.fSubiNode then PushStatus w STATUS_REJECTED ERR_NOT_A_MN
  else if w.pool.IsSessionReady env then PushStatus w STATUS_ACCEPTED ERR_QUEUE_FULL
  else
    match w.mnodeman.Find env.activeSubinodeVin with
    | none => PushStatus w STATUS_REJECTED ERR_MN_LIST
    | some pmn =>
      if w.pool.vecSessionCollaterals.length == 0 && pmn.nLastDsq != 0
          && decide (pmn.nLastDsq
            + w.mnodeman.CountEnabled env.MIN_PRIVATESEND_PEER_PROTO_VERSION / 5
              > w.mnodeman.nDsqCount) then
        PushStatus w STATUS_REJECTED ERR_RECENT
      else if w.pool.nSessionID == 0 then
        match CreateNewSession env w env.activeSubinodeVin
          (env.SignQueue
            { nDenom := nDenom, vin := env.activeSubinodeVin, nTime := env.GetTime,
              fReady := false })
          nRand nDenom txCollateral MSG_NOERR with
        | none => w.abort
        | some r =>
          if r.1 then PushStatus r.2.2 STATUS_ACCEPTED r.2.1
          else PushStatus r.2.2 STATUS_REJECTED r.2.1
      else
        match AddUserToExistingSession env w.pool nDenom txCollateral MSG_NOERR with
        | none => w.abort
        | some r =>
          if r.1 then PushStatus { w with pool := r.2.2 } STATUS_ACCEPTED r.2.1
          else PushStatus { w with pool := r.2.2 } STATUS_REJECTED r.2.1

/-- `CDarksendPool::ProcessMessage`, branch `DSVIN`, with the replies and the steps that
follow `AddEntry`: `CheckPool` and `RelayStatus` after an accepted entry, `SetNull` after a
rejected one. `RelayStatus` is called with its default message `MSG_NOERR`. The run ends
where `ProcessMessageDSVIN` says, or in the commit that `CheckPool` may start. -/
def ProcessMessageDSVINWorld (env : Env) (w : World) (nVersion : Int)
    (entry : CDarkSendEntry) (lockMain : Bool) (draws : List Nat) : World :=
  if env.fLiteMode then w
  else if !env.fBlockchainSynced then w
  else if nVersion < env.MIN_PRIVATESEND_PEER_PROTO_VERSION then
    PushStatus w STATUS_REJECTED ERR_VERSION
  else if !env.fSubiNode then PushStatus w STATUS_REJECTED ERR_NOT_A_MN
  else if !w.pool.IsSessionReady env then PushStatus w STATUS_REJECTED ERR_SESSION
  else if !IsOutputsCompatibleWithSessionDenom env w.pool entry.vecTxDSOut then
    PushStatus w STATUS_REJECTED ERR_EXISTING_TX
  else
    match dsvinOutLoop env entry.vecTxDSOut 0 with
    | .error nMessageID => PushStatus w STATUS_REJECTED nMessageID
    | .ok nValueOut =>
      match dsvinInLoop env entry.vecTxDSIn 0 with
      | .error nMessageID => PushStatus w STATUS_REJECTED nMessageID
      | .ok nValueIn =>
        if nValueIn > env.PRIVATESEND_POOL_MAX then PushStatus w STATUS_REJECTED ERR_MAXIMUM
        else if nValueIn - nValueOut > env.vecPrivateSendDenominations.getLastD 0 then
          PushStatus w STATUS_REJECTED ERR_FEES
        else if !env.AcceptToMemoryPool
            { vin := entry.vecTxDSIn.map (fun txin => txin.toCTxIn)
              vout := entry.vecTxDSOut.map (fun txout => txout.toCTxOut) } then
          (PushStatus w STATUS_REJECTED ERR_INVALID_TX).abort
        else if !env.fMempoolKeepsRef then w.abort
        else
          match AddEntry env w.pool entry MSG_NOERR with
          | none => w.abort
          | some r =>
            let w := { w with pool := r.2.2 }
            if r.1 then
              let w := PushStatus w STATUS_ACCEPTED r.2.1
              let w := CheckPool env w lockMain draws
              if w.fAborted then w else RelayStatus w STATUS_ACCEPTED MSG_NOERR
            else
              (PushStatus w STATUS_REJECTED r.2.1).SetNull env

/-- Loop of the `DSSIGNFINALTX` branch over the received inputs: the first input that
`AddScriptSig` refuses is answered by `RelayStatus(STATUS_REJECTED)`, with the default
message `MSG_NOERR`, and ends the handling. -/
def signFinalLoop : List CTxIn → World → Bool × World
  | [], w => (true, w)
  | txin :: rest, w =>
    let r := AddScriptSig w.pool txin
    if !r.1 then (false, RelayStatus { w with pool := r.2 } STATUS_REJECTED MSG_NOERR)
    else signFinalLoop rest { w with pool := r.2 }

/-- `CDarksendPool::ProcessMessage`, branch `DSSIGNFINALTX`. -/
def ProcessMessageDSSIGNFINALTX (env : Env) (w : World) (nVersion : Int)
    (vecTxIn : List CTxIn) (lockMain : Bool) (draws : List Nat) : World :=
  if env.fLiteMode then w
  else if !env.fBlockchainSynced then w
  else if nVersion < env.MIN_PRIVATESEND_PEER_PROTO_VERSION then w
  else if !env.fSubiNode then w
  else
    let r := signFinalLoop vecTxIn w
    if !r.1 then r.2
    else CheckPool env r.2 lockMain draws

/-! ## Client side: status updates, signing and completion -/

/-- Modelled from the spec: the enumeration `PoolState` is declared in `darksend.h`, which
is not under `src/`; the states are numbered from 0 in the order `IDLE`, `QUEUE`,
`ACCEPTING_ENTRIES`, `SIGNING`, `ERROR`, `SUCCESS`, and `POOL_STATE_MIN`, `POOL_STATE_MAX`
are the first and the last of them. A value outside the range decodes to `none`. -/
def PoolState.ofInt (n : Int) : Option PoolState :=
  if n = 0 then some POOL_STATE_IDLE
  else if n = 1 then some POOL_STATE_QUEUE
  else if n = 2 then some POOL_STATE_ACCEPTING_ENTRIES
  else if n = 3 then some POOL_STATE_SIGNING
  else if n = 4 then some POOL_STATE_ERROR
  else if n = 5 then some POOL_STATE_SUCCESS
  else none

/-- Modelled from the spec: the enumeration `PoolStatusUpdate` is declared in `darksend.h`,
which is not under `src/`; `STATUS_REJECTED` is 0 and `STATUS_ACCEPTED` is 1. -/
def PoolStatusUpdate.ofInt (n : Int) : Option PoolStatusUpdate :=
  if n = 0 then some STATUS_REJECTED
  else if n = 1 then some STATUS_ACCEPTED
  else none

/-- Modelled from the spec: the enumeration `PoolMessage` is declared in `darksend.h`,
which is not under `src/`; the messages are numbered from 0 in the order in which
`GetMessageByID` lists them, `MSG_POOL_MIN` and `MSG_POOL_MAX` being the first and the
last. -/
def PoolMessage.ofInt (n : Int) : Option PoolMessage :=
  if n < 0 then none
  else
    [ERR_ALREADY_HAVE, ERR_DENOM, ERR_ENTRIES_FULL, ERR_EXISTING_TX, ERR_FEES,
      ERR_INVALID_COLLATERAL, ERR_INVALID_INPUT, ERR_INVALID_SCRIPT, ERR_INVALID_TX,
      ERR_MAXIMUM, ERR_MN_LIST, ERR_MODE, ERR_NON_STANDARD_PUBKEY, ERR_NOT_A_MN,
      ERR_QUEUE_FULL, ERR_RECENT, ERR_SESSION, ERR_MISSING_TX, ERR_VERSION, MSG_NOERR,
      MSG_SUCCESS, MSG_ENTRIES_ADDED].get? n.toNat

/-- `CDarksendPool::CheckPoolStateUpdate`. -/
def CheckPoolStateUpdate (env : Env) (w : World) (nStateNew : PoolState)
    (nEntriesCountNew : Int) (nStatusUpdate : PoolStatusUpdate) (nMessageID : PoolMessage)
    (nSessionIDNew : Int) : Bool × World :=
  if env.fSubiNode then (false, w)
  else if w.pool.nState == POOL_STATE_IDLE || w.pool.nState == POOL_STATE_ERROR
      || w.pool.nState == POOL_STATE_SUCCESS then (false, w)
  else
    let w := { w with pool := { w.pool with
      strAutoDenomResult := "Subinode:" ++ " " ++ GetMessageByID nMessageID } }
    if nStatusUpdate == STATUS_REJECTED then
      let w := UnlockCoins w
      let w := w.SetNull env
      let w := w.SetState env POOL_STATE_ERROR
      (true, { w with pool := { w.pool with strLastMessage := GetMessageByID nMessageID } })
    else if nStatusUpdate == STATUS_ACCEPTED && w.pool.nState == nStateNew then
      if nStateNew == POOL_STATE_QUEUE && w.pool.nSessionID == 0 && nSessionIDNew != 0 then
        (true, { w with pool := { w.pool with
          nSessionID := nSessionIDNew
          nTimeLastSuccessfulStep := env.GetTimeMillis } })
      else if nStateNew == POOL_STATE_ACCEPTING_ENTRIES
          && w.pool.nEntriesCount != nEntriesCountNew then
        (true, { w with pool := { w.pool with
          nEntriesCount := nEntriesCountNew
          nTimeLastSuccessfulStep := env.GetTimeMillis
          fLastEntryAccepted := true } })
      else (false, w)
    else (false, w)

/-- `CDarksendPool::ProcessMessage`, branch `DSSTATUSUPDATE`. `addrFrom` is the address of
the sending peer; the five integers are the payload. -/
def ProcessMessageDSSTATUSUPDATE (env : Env) (w : World) (nVersion : Int) (addrFrom : Nat)
    (nMsgSessionID nMsgState nMsgEntriesCount nMsgStatusUpdate nMsgMessageID : Int) :
    World :=
  if env.fLiteMode then w
  else if !env.fBlockchainSynced then w
  else if nVersion < env.MIN_PRIVATESEND_PEER_PROTO_VERSION then w
  else if env.fSubiNode then w
  else
    match w.pool.pSubmittedToSubinode with
    | none => w
    | some pSubmitted =>
      if pSubmitted.addr != addrFrom then w
      else
        match PoolState.ofInt nMsgState with
        | none => w
        | some nStateNew =>
          match PoolStatusUpdate.ofInt nMsgStatusUpdate with
          | none => w
          | some nStatusUpdate =>
            match PoolMessage.ofInt nMsgMessageID with
            | none => w
            | some nMessageID =>
              (CheckPoolStateUpdate env w nStateNew nMsgEntriesCount nStatusUpdate nMessageID
                nMsgSessionID).2

/-- Modelled from the spec: `operator==` of `CTxIn` is declared in
`primitives/transaction.h`, which is not under `src/`; two inputs match when outpoint,
signature script and sequence agree. -/
def CTxIn.eq (a b : CTxIn) : Bool :=
  a.prevout == b.prevout && a.scriptSig == b.scriptSig && a.nSequence == b.nSequence

/-- Modelled from the spec: `operator==` of `CTxOut` is declared in
`primitives/transaction.h`, which is not under `src/`; two outputs are identical when
value and script agree. -/
def CTxOut.eq (a b : CTxOut) : Bool :=
  a.nValue == b.nValue && a.scriptPubKey == b.scriptPubKey

/-- Search of `SignFinalTransaction` for the client's input in the final transaction: the
loop does not stop at a match, so the last matching index is kept. -/
def findMyInputIndex (txdsin : CTxIn) : List CTxIn → Nat → Option Nat → Option Nat
  | [], _, nMyInputIndex => nMyInputIndex
  | txin :: rest, i, nMyInputIndex =>
    findMyInputIndex txdsin rest (i + 1) (if txin.eq txdsin then some i else nMyInputIndex)

/-- Count of the matches between the outputs of the final transaction and the outputs of
the entry (`nFoundOutputsCount`) with the sum of the matched values (`nValue1`). -/
def countFoundOutputs (vout : List CTxOut) (vecTxDSOut : List CTxDSOut) : Int × Int :=
  vout.foldl (fun acc out =>
    vecTxDSOut.foldl (fun acc2 txout =>
      if out.eq txout.toCTxOut then (acc2.1 + 1, acc2.2 + out.nValue) else acc2) acc) (0, 0)

/-- Body of the inner loop of `SignFinalTransaction` for one DSIn of one entry; the state
is the final transaction and the signed inputs gathered so far, `none` is the refusal. -/
def signMyInput (env : Env) (entry : CDarkSendEntry) (txdsin : CTxDSIn)
    (st : CTransaction × List CTxIn) : Option (CTransaction × List CTxIn) :=
  match findMyInputIndex txdsin.toCTxIn st.1.vin 0 none with
  | none => some st
  | some nMyInputIndex =>
    let found := countFoundOutputs st.1.vout entry.vecTxDSOut
    let nValue2 := (entry.vecTxDSOut.map (fun txout => txout.nValue)).sum
    if found.1 < (entry.vecTxDSOut.length : Int) || found.2 != nValue2 then none
    else
      let scriptSig := env.SignSignature txdsin.prevPubKey st.1 nMyInputIndex
      let vin := st.1.vin.modify (fun txin => { txin with scriptSig := scriptSig })
        nMyInputIndex
      some ({ st.1 with vin := vin },
        st.2 ++ (vin.get? nMyInputIndex).toList)

/-- Inner loop of `SignFinalTransaction` over the DSIns of one entry. -/
def signEntryInputs (env : Env) (entry : CDarkSendEntry) :
    List CTxDSIn → CTransaction × List CTxIn → Option (CTransaction × List CTxIn)
  | [], st => some st
  | txdsin :: rest, st =>
    match signMyInput env entry txdsin st with
    | none => none
    | some st => signEntryInputs env entry rest st

/-- Outer loop of `SignFinalTransaction` over the client's entries. -/
def signEntries (env : Env) :
    List CDarkSendEntry → CTransaction × List CTxIn → Option (CTransaction × List CTxIn)
  | [], st => some st
  | entry :: rest, st =>
    match signEntryInputs env entry entry.vecTxDSIn st with
    | none => none
    | some st => signEntries env rest st

/-- `CDarksendPool::SignFinalTransaction` for a connected peer (the handler passes the
sender). A refusal resets the pool, which clears the inputs and outputs of the final
transaction whatever had been signed before. -/
def SignFinalTransaction (env : Env) (w : World) (finalTransactionNew : CTransaction) :
    Bool × World :=
  if env.fSubiNode then (false, w)
  else
    let w := { w with pool := { w.pool with finalMutableTransaction := finalTransactionNew } }
    match signEntries env w.pool.vecEntries (finalTransactionNew, []) with
    | none => (false, (UnlockCoins w).SetNull env)
    | some st =>
      let w := { w with pool := { w.pool with finalMutableTransaction := st.1 } }
      if st.2.isEmpty then (false, (UnlockCoins w).SetNull env)
      else
        let w := { w with vTrace := w.vTrace ++ [Effect.PushDSSIGNFINALTX st.2] }
        let w := w.SetState env POOL_STATE_SIGNING
        (true, { w with pool := { w.pool with nTimeLastSuccessfulStep := env.GetTimeMillis } })

/-- `CDarksendPool::ProcessMessage`, branch `DSFINALTX`. -/
def ProcessMessageDSFINALTX (env : Env) (w : World) (nVersion : Int) (addrFrom : Nat)
    (nMsgSessionID : Int) (txNew : CTransaction) : World :=
  if env.fLiteMode then w
  else if !env.fBlockchainSynced then w
  else if nVersion < env.MIN_PRIVATESEND_PEER_PROTO_VERSION then w
  else if env.fSubiNode then w
  else
    match w.pool.pSubmittedToSubinode with
    | none => w
    | some pSubmitted =>
      if pSubmitted.addr != addrFrom then w
      else if w.pool.nSessionID != nMsgSessionID then w
      else (SignFinalTransaction env w txNew).2

/-- `CDarksendPool::CompletedTransaction`. The success branch reads the height through
`pCurrentBlockIndex`; with a null pointer the call does not return (`none`). -/
def CompletedTransaction (env : Env) (w : World) (nMessageID : PoolMessage) : Option World :=
  if env.fSubiNode then some w
  else
    let finish := fun (w : World) =>
      let w := UnlockCoins w
      let w := w.SetNull env
      { w with pool := { w.pool with strLastMessage := GetMessageByID nMessageID } }
    if nMessageID == MSG_SUCCESS then
      match w.pool.pCurrentBlockIndex with
      | none => none
      | some nHeight =>
        some (finish { w with pool := { w.pool with nCachedLastSuccessBlock := nHeight } })
    else some (finish w)

/-- `CDarksendPool::ProcessMessage`, branch `DSCOMPLETE`. -/
def ProcessMessageDSCOMPLETE (env : Env) (w : World) (nVersion : Int) (addrFrom : Nat)
    (nMsgSessionID nMsgMessageID : Int) : Option World :=
  if env.fLiteMode then some w
  else if !env.fBlockchainSynced then some w
  else if nVersion < env.MIN_PRIVATESEND_PEER_PROTO_VERSION then some w
  else if env.fSubiNode then some w
  else
    match w.pool.pSubmittedToSubinode with
    | none => some w
    | some pSubmitted =>
      if pSubmitted.addr != addrFrom then some w
      else
        match PoolMessage.ofInt nMsgMessageID with
        | none => some w
        | some nMessageID =>
          if w.pool.nSessionID != nMsgSessionID then some w
          else CompletedTransaction env w nMessageID

/-! ## Client side: wallet, submission and the driver -/

/-- Group of wallet inputs at one address (`CompactTallyItem`), without the address. -/
structure CompactTallyItem where
  nAmount : Int
  vecTxIn : List CTxIn := []
deriving DecidableEq, Repr

/-- Recipient of a wallet payment (`CRecipient`). -/
structure CRecipient where
  scriptPubKey : CScript
  nAmount : Int
  fSubtractFeeFromAmount : Bool
deriving DecidableEq, Repr

/-- Answers of the wallet `vpwallets.front()`, of the connection manager and of the random
pick of the mixer list during one call, together with the client settings and constants
the client code reads; all of them are declared outside `src/`. `IsLocked` answers
`IsLocked(true)`, `HasCollateralInputs` takes `fOnlyConfirmed`, `GetDenominatedBalance`
takes `unconfirmed`, `GetAnonymizableBalance` answers the call with `true`,
`CreateCollateralTransaction` gives the result and the transaction left in
`txMyCollateral`, `SelectCoinsByDenominations` the result, the selected inputs paired with
the values of their coins and the total value, `GetReservedKey` the script of the k-th key
reserved, `FindNode` the flags `fDisconnect` and `fSubinode` of the peer found,
`truncNineTenths` and `truncSevenTenths` the truncated products by the doubles `0.9` and
`0.7`, `formatDenomFloat` the `%f` rendering of an amount divided by `COIN`. -/
structure ClientEnv where
  fWalletPresent : Bool
  IsLocked : Bool
  fSubinodeListSynced : Bool
  nWalletBackups : Int
  nKeysLeftSinceAutoBackup : Int
  PRIVATESEND_KEYS_THRESHOLD_STOP : Int
  PRIVATESEND_KEYS_THRESHOLD_WARNING : Int
  fCreateAutoBackups : Bool
  AutoBackupWallet : Bool × String
  fPrivateSendMultiSession : Bool
  nPrivateSendRounds : Int
  nPrivateSendAmount : Int
  nLiquidityProvider : Int
  COIN : Int
  DENOMS_COUNT_MAX : Int
  HasCollateralInputs : Bool → Bool
  GetNeedsToBeAnonymizedBalance : Int → Int
  GetAnonymizableBalance : Int
  GetDenominatedBalance : Bool → Int
  CreateCollateralTransaction : Bool × CTransaction
  SelectCoinsByDenominations : Int → Int → Int → Int → Int → Bool × List (CTxIn × Int) × Int
  SelectCoinsDark : Int → Int → Option (List CTxIn)
  ConvertList : List CTxIn → List Int
  SelectCoinsGrouppedByAddresses : Bool → Option (List CompactTallyItem)
  CountInputsWithAmount : Int → Int
  GetReservedKey : Nat → CScript
  FindNode : Nat → Option (Bool × Bool)
  ConnectNode : Nat → Bool
  FindRandomNotInVec : List CTxIn → Option CSubinode
  truncNineTenths : Int → Int
  truncSevenTenths : Int → Int
  formatDenomFloat : Int → String

/-- Modelled from the spec: the constructor of `CDarkSendEntry` is declared in
`darksend.h`, which is not under `src/`; an entry is the inputs (unsigned), the outputs and
the collateral. -/
def CDarkSendEntry.ofTx (vecTxIn : List CTxIn) (vecTxOut : List CTxOut)
    (txCollateral : CTransaction) : CDarkSendEntry :=
  { vecTxDSIn := vecTxIn.map (fun txin => { toCTxIn := txin })
    vecTxDSOut := vecTxOut.map (fun txout => { toCTxOut := txout })
    txCollateral := txCollateral }

/-- `CDarksendPool::SendDenominate`. `lockMain` is the outcome of the try-lock on
`cs_main`. The block that hands `CTransactionRef txRef(&txTemp)` to the mempool ends the
run unless the mempool has accepted the transaction and kept the reference: on the failure
branch after `UnlockCoins` and `SetNull`, when `return false` destroys the reference. When
the run ends the Boolean is `false`. The reference built over the local copy of the
collateral is copied into the entry stored in `vecEntries`. -/
def SendDenominate (env : Env) (w : World) (vecTxIn : List CTxIn) (vecTxOut : List CTxOut)
    (lockMain : Bool) : Bool × World :=
  if env.fSubiNode then (false, w)
  else if w.pool.txMyCollateral == {} then (false, w)
  else
    let w := { w with pool := { w.pool with
      vecOutPointLocked := w.pool.vecOutPointLocked
        ++ w.pool.txMyCollateral.vin.map (fun txin => txin.prevout)
        ++ vecTxIn.map (fun txin => txin.prevout) } }
    if w.pool.nSessionID == 0 then (false, (UnlockCoins w).SetNull env)
    else if !env.CheckDiskSpace then
      let w := (UnlockCoins w).SetNull env
      (false, { w with fEnablePrivateSend := false })
    else
      let w := w.SetState env POOL_STATE_ACCEPTING_ENTRIES
      let w := { w with pool := { w.pool with strLastMessage := "" } }
      if !lockMain || !env.AcceptToMemoryPool { vin := vecTxIn, vout := vecTxOut } then
        (false, ((UnlockCoins w).SetNull env).abort)
      else if !env.fMempoolKeepsRef then (false, w.abort)
      else
        let entry := CDarkSendEntry.ofTx vecTxIn vecTxOut w.pool.txMyCollateral
        let w := { w with pool := { w.pool with vecEntries := w.pool.vecEntries ++ [entry] } }
        let w := RelayIn w entry
        (true, { w with pool := { w.pool with nTimeLastSuccessfulStep := env.GetTimeMillis } })

/-- Working state of the selection loop of `PrepareDenominate`: the selected coins not yet
used (input and value), the chosen inputs, the outputs built, the value left and the number
of keys reserved. -/
structure PrepareState where
  coins : List (CTxIn × Int)
  vecTxInRet : List CTxIn
  vecTxOutRet : List CTxOut
  nValueLeft : Int
  nKeys : Nat
deriving DecidableEq, Repr

/-- Search for the first selected coin of value `nValueDenom`: the input found and the
coins left after erasing it. -/
def takeCoin (nValueDenom : Int) : List (CTxIn × Int) → Option (CTxIn × List (CTxIn × Int))
  | [] => none
  | coin :: rest =>
    if coin.2 == nValueDenom then some (coin.1, rest)
    else (takeCoin nValueDenom rest).map (fun r => (r.1, coin :: r.2))

/-- Body of the loop of `PrepareDenominate` over the bits of the session denomination. -/
def prepareBit (cenv : ClientEnv) (vecDenoms : List Int) (st : PrepareState) (nBit : Nat) :
    PrepareState :=
  let nValueDenom := vecDenoms.getD nBit 0
  if st.nValueLeft - nValueDenom < 0 then st
  else
    match takeCoin nValueDenom st.coins with
    | none => st
    | some r =>
      { coins := r.2
        vecTxInRet := st.vecTxInRet ++ [r.1]
        vecTxOutRet := st.vecTxOutRet ++
          [{ nValue := nValueDenom, scriptPubKey := cenv.GetReservedKey st.nKeys }]
        nValueLeft := st.nValueLeft - nValueDenom
        nKeys := st.nKeys + 1 }

/-- Loop `while (nStep < nStepsMax)` of `PrepareDenominate`; the first argument is the
number of steps left. -/
def prepareSteps (cenv : ClientEnv) (vecDenoms : List Int) (vecBits : List Nat) :
    Nat → PrepareState → PrepareState
  | 0, st => st
  | n + 1, st =>
    let st := vecBits.foldl (prepareBit cenv vecDenoms) st
    if st.nValueLeft == 0 then st else prepareSteps cenv vecDenoms vecBits n st

/-- `CDarksendPool::PrepareDenominate`. `nRand` is the raw draw of `GetRandInt(5)`; the
result is the return value with the three reference arguments as the call leaves them. The
wallet is assumed to hand out reserved keys (the source asserts it). -/
def PrepareDenominate (env : Env) (cenv : ClientEnv) (w : World) (nMinRounds nMaxRounds : Int)
    (nRand : Nat) (strErrorRet : String) (vecTxInRet : List CTxIn)
    (vecTxOutRet : List CTxOut) : (Bool × String × List CTxIn × List CTxOut) × World :=
  if cenv.IsLocked then
    ((false, "Wallet locked, unable to create transaction!", vecTxInRet, vecTxOutRet), w)
  else if w.pool.GetEntriesCount > 0 then
    ((false, "Already have pending entries in the PrivateSend pool", vecTxInRet, vecTxOutRet),
      w)
  else
    let r := GetDenominationsBits env.vecPrivateSendDenominations w.pool.nSessionDenom []
    if !r.1 then ((false, "Incorrect session denom", [], []), w)
    else
      let sel := cenv.SelectCoinsByDenominations w.pool.nSessionDenom
        (env.vecPrivateSendDenominations.getD (r.2.headD 0) 0) env.PRIVATESEND_POOL_MAX
        nMinRounds nMaxRounds
      if decide (nMinRounds ≥ 0) && !sel.1 then
        ((false, "Can't select current denominated inputs", [], []), w)
      else
        let vCoins := sel.2.1
        let vLocked := vCoins.map (fun coin => Effect.LockCoin coin.1.prevout)
        let w := { w with vTrace := w.vTrace ++ vLocked }
        let st := prepareSteps cenv env.vecPrivateSendDenominations r.2
          (5 + GetRandInt nRand 5)
          { coins := vCoins, vecTxInRet := [], vecTxOutRet := [], nValueLeft := sel.2.2,
            nKeys := 0 }
        let vUnused := st.coins.map (fun coin => Effect.UnlockCoin coin.1.prevout)
        let w := { w with vTrace := w.vTrace ++ vUnused }
        if GetDenominationsTxOut env.vecPrivateSendDenominations st.vecTxOutRet false []
            != w.pool.nSessionDenom then
          let vUsed := st.vecTxInRet.map (fun txin => Effect.UnlockCoin txin.prevout)
          ((false, "Can't make current denominated outputs", st.vecTxInRet, st.vecTxOutRet),
            { w with vTrace := w.vTrace ++ vUsed })
        else ((true, strErrorRet, st.vecTxInRet, st.vecTxOutRet), w)

/-- Loop of `SubmitDenominate` over the rounds `i = nRound, nRound + 1, …`; the first
argument is the number of rounds left, `draws` holds one raw draw for each call of
`PrepareDenominate`. The result is `some` of the value returned by `SendDenominate` when a
preparation succeeds, and otherwise `none` with the error and the vectors of the last
attempt. -/
def submitRounds (env : Env) (cenv : ClientEnv) (lockMain : Bool) :
    Nat → Int → List Nat → String × List CTxIn × List CTxOut → World →
      Option Bool × (String × List CTxIn × List CTxOut) × List Nat × World
  | 0, _, draws, acc, w => (none, acc, draws, w)
  | n + 1, nRound, draws, acc, w =>
    let r := PrepareDenominate env cenv w nRound (nRound + 1) (draws.headD 0) acc.1 acc.2.1
      acc.2.2
    if r.1.1 then
      let s := SendDenominate env r.2 r.1.2.2.1 r.1.2.2.2 lockMain
      (some s.1, r.1.2, draws.tail, s.2)
    else submitRounds env cenv lockMain n (nRound + 1) draws.tail r.1.2 r.2

/-- `CDarksendPool::SubmitDenominate`. -/
def SubmitDenominate (env : Env) (cenv : ClientEnv) (w : World) (lockMain : Bool)
    (draws : List Nat) : Bool × World :=
  let r := submitRounds env cenv lockMain cenv.nPrivateSendRounds.toNat 0 draws ("", [], []) w
  match r.1 with
  | some fResult => (fResult, r.2.2.2)
  | none =>
    let p := PrepareDenominate env cenv r.2.2.2 0 cenv.nPrivateSendRounds (r.2.2.1.headD 0)
      r.2.1.1 r.2.1.2.1 r.2.1.2.2
    if p.1.1 then SendDenominate env p.2 p.1.2.2.1 p.1.2.2.2 lockMain
    else (false, { p.2 with pool := { p.2.pool with strAutoDenomResult := p.1.2.1 } })

/-- `CDarksendPool::ProcessMessage`, branch `DSQUEUE`, with the call of `SubmitDenominate`
that `ProcessMessageDSQUEUE` records as an effect carried out. -/
def ProcessMessageDSQUEUEWorld (env : Env) (cenv : ClientEnv) (w : World) (lockRecv : Bool)
    (nVersion : Int) (dsq : CDarksendQueue) (lockMain : Bool) (draws : List Nat) : World :=
  let w1 := ProcessMessageDSQUEUE env w lockRecv nVersion dsq
  if w1.vTrace == w.vTrace ++ [Effect.SubmitDenominate] then
    (SubmitDenominate env cenv w1 lockMain draws).2
  else w1

/-! ## Client side: creation of denominated inputs -/

/-- Working state of the output-building loop of `CreateDenominated`: the recipients built
so far, the value left, the number of denominated outputs, the number of keys reserved
and the two pool fields the loop writes. -/
structure DenomState where
  vecSend : List CRecipient
  nValueLeft : Int
  nOutputsTotal : Int
  nKeys : Nat
  strAutoDenomResult : String
  vecDenominationsSkipped : List Int
deriving DecidableEq, Repr

/-- Loop `while (nValueLeft - nDenomValue >= 0 && nOutputs <= 10)` of `CreateDenominated`.
The first argument bounds the number of iterations; 11 is never exceeded, since
`nOutputs` starts at 0 and grows by one in each iteration. The result is `nOutputs` and
the state. -/
def addDenomOutputs (cenv : ClientEnv) (nDenomValue : Int) :
    Nat → Int → DenomState → Int × DenomState
  | 0, nOutputs, st => (nOutputs, st)
  | n + 1, nOutputs, st =>
    if decide (st.nValueLeft - nDenomValue ≥ 0) && decide (nOutputs ≤ 10) then
      addDenomOutputs cenv nDenomValue n (nOutputs + 1)
        { st with
          vecSend := st.vecSend ++
            [{ scriptPubKey := cenv.GetReservedKey st.nKeys, nAmount := nDenomValue,
               fSubtractFeeFromAmount := false }]
          nKeys := st.nKeys + 1
          nValueLeft := st.nValueLeft - nDenomValue }
    else (nOutputs, st)

/-- One pass of the output-building loop of `CreateDenominated` over the denominations in
the order given (the caller passes the table reversed, as `BOOST_REVERSE_FOREACH` visits
it). `nLargest` is `vecPrivateSendDenominations[0]`. `IsDenomSkipped` (declared in
`darksend.h`) is membership in `vecDenominationsSkipped`. -/
def denomPass (cenv : ClientEnv) (fSkip : Bool) (nLargest : Int) :
    List Int → DenomState → DenomState
  | [], st => st
  | nDenomValue :: rest, st =>
    if fSkip && st.vecDenominationsSkipped.contains nDenomValue then
      denomPass cenv fSkip nLargest rest st
    else if fSkip && (nDenomValue != nLargest
        && decide (cenv.CountInputsWithAmount nDenomValue > cenv.DENOMS_COUNT_MAX)) then
      denomPass cenv fSkip nLargest rest
        { st with
          strAutoDenomResult :=
            "Too many " ++ cenv.formatDenomFloat nDenomValue ++ " denominations, removing."
          vecDenominationsSkipped := st.vecDenominationsSkipped ++ [nDenomValue] }
    else
      let r := addDenomOutputs cenv nDenomValue 11 0 st
      let st := { r.2 with nOutputsTotal := r.2.nOutputsTotal + r.1 }
      if st.nValueLeft == 0 then st
      else denomPass cenv fSkip nLargest rest st

/-- The `do … while (nOutputsTotal == 0 && !fSkip)` loop of `CreateDenominated`: a pass
that skips, followed by a pass that does not skip when the first one added no output. -/
def denomLoop (cenv : ClientEnv) (vecDenoms : List Int) (st : DenomState) : DenomState :=
  let st := denomPass cenv true (vecDenoms.getD 0 0) vecDenoms.reverse st
  if st.nOutputsTotal == 0 then denomPass cenv false (vecDenoms.getD 0 0) vecDenoms.reverse st
  else st

/-- `CDarksendPool::CreateDenominated(tallyItem, fCreateMixingCollaterals)`. The wallet
call that would create the transaction is commented out in the source and `fSuccess` is
the constant `false`, so the function always returns `false`; the recipients built are
returned with the pool for inspection. -/
def CreateDenominatedItem (env : Env) (cenv : ClientEnv) (pool : CDarksendPool)
    (tallyItem : CompactTallyItem) (fCreateMixingCollaterals : Bool) :
    Bool × List CRecipient × CDarksendPool :=
  let nValueLeft := tallyItem.nAmount - env.PRIVATESEND_COLLATERAL
  let st : DenomState :=
    if fCreateMixingCollaterals then
      { vecSend := [{ scriptPubKey := cenv.GetReservedKey 0
                      nAmount := env.PRIVATESEND_COLLATERAL * 4
                      fSubtractFeeFromAmount := false }]
        nValueLeft := nValueLeft - env.PRIVATESEND_COLLATERAL * 4
        nOutputsTotal := 0
        nKeys := 1
        strAutoDenomResult := pool.strAutoDenomResult
        vecDenominationsSkipped := pool.vecDenominationsSkipped }
    else
      { vecSend := []
        nValueLeft := nValueLeft
        nOutputsTotal := 0
        nKeys := 1
        strAutoDenomResult := pool.strAutoDenomResult
        vecDenominationsSkipped := pool.vecDenominationsSkipped }
  let st := denomLoop cenv env.vecPrivateSendDenominations st
  (false, st.vecSend,
    { pool with
      strAutoDenomResult := st.strAutoDenomResult
      vecDenominationsSkipped := st.vecDenominationsSkipped })

/-- Loop of `CreateDenominated()` over the tally items: the first item for which the
creation succeeds ends it. -/
def createDenominatedLoop (env : Env) (cenv : ClientEnv) (fCreateMixingCollaterals : Bool) :
    List CompactTallyItem → CDarksendPool → Bool × CDarksendPool
  | [], pool => (false, pool)
  | item :: rest, pool =>
    let r := CreateDenominatedItem env cenv pool item fCreateMixingCollaterals
    if !r.1 then createDenominatedLoop env cenv fCreateMixingCollaterals rest r.2.2
    else (true, r.2.2)

/-- `CDarksendPool::CreateDenominated()`. -/
def CreateDenominated (env : Env) (cenv : ClientEnv) (pool : CDarksendPool) :
    Bool × CDarksendPool :=
  match cenv.SelectCoinsGrouppedByAddresses true with
  | none => (false, pool)
  | some vecTally =>
    createDenominatedLoop env cenv (!cenv.HasCollateralInputs true) vecTally pool

/-- `CDarksendPool::MakeCollateralAmounts(tallyItem)`: both wallet calls that would
create the transaction are commented out in the source and `fSuccess` is the constant
`false`, so the function returns `false` and writes nothing to the pool. -/
def MakeCollateralAmountsItem (_tallyItem : CompactTallyItem) : Bool :=
  false

/-- `CDarksendPool::MakeCollateralAmounts()`. -/
def MakeCollateralAmounts (cenv : ClientEnv) : Bool :=
  match cenv.SelectCoinsGrouppedByAddresses false with
  | none => false
  | some vecTally => vecTally.any MakeCollateralAmountsItem

/-! ## Client side: the driver -/

/-- Assignment to `strAutoDenomResult`. -/
def World.setAutoDenomResult (w : World) (str : String) : World :=
  { w with pool := { w.pool with strAutoDenomResult := str } }

/-- Steps of the driver once a connection to the mixer `pmn` stands: the mixer is
remembered, `DSACCEPT` is sent with the session denomination and the collateral, and the
state becomes `QUEUE`. -/
def driverSendAccept (env : Env) (w : World) (pmn : CSubinode) (nSessionDenom : Int) : World :=
  let w := { w with pool := { w.pool with
    pSubmittedToSubinode := some pmn
    nSessionDenom := nSessionDenom } }
  let w := { w with vTrace := w.vTrace ++
    [Effect.PushDSACCEPT w.pool.nSessionDenom w.pool.txMyCollateral] }
  let w := w.setAutoDenomResult "Mixing in progress..."
  let w := w.SetState env POOL_STATE_QUEUE
  { w with pool := { w.pool with nTimeLastSuccessfulStep := env.GetTimeMillis } }

/-- Choice of the peer to talk to: the peer found when it is a mixer connection, a new
connection otherwise; `true` when a peer is available. -/
def driverConnect (cenv : ClientEnv) (pnodeFound : Option (Bool × Bool)) (addr : Nat) : Bool :=
  match pnodeFound with
  | some (_, true) => true
  | _ => cenv.ConnectNode addr

/-- Loop of the driver over the gossiped queues. The result tells whether the driver
returned `true` from inside the loop, and gives the queues with their `fTried` marks and
the world. -/
def driverQueueLoop (env : Env) (cenv : ClientEnv) (nBalanceNeedsAnonymized : Int) :
    List CDarksendQueue → World → Bool × List CDarksendQueue × World
  | [], w => (false, [], w)
  | dsq :: rest, w =>
    if dsq.fTried then
      let r := driverQueueLoop env cenv nBalanceNeedsAnonymized rest w
      (r.1, dsq :: r.2.1, r.2.2)
    else
      let dsq := { dsq with fTried := true }
      if dsq.IsExpired env then
        let r := driverQueueLoop env cenv nBalanceNeedsAnonymized rest w
        (r.1, dsq :: r.2.1, r.2.2)
      else
        match w.mnodeman.Find dsq.vin with
        | none =>
          let r := driverQueueLoop env cenv nBalanceNeedsAnonymized rest w
          (r.1, dsq :: r.2.1, r.2.2)
        | some pmn =>
          let bits := GetDenominationsBits env.vecPrivateSendDenominations dsq.nDenom []
          if decide (pmn.protocolVersion < env.MIN_PRIVATESEND_PEER_PROTO_VERSION)
              || !bits.1
              || !(cenv.SelectCoinsByDenominations dsq.nDenom
                    (env.vecPrivateSendDenominations.getD (bits.2.headD 0) 0)
                    nBalanceNeedsAnonymized 0 cenv.nPrivateSendRounds).1 then
            let r := driverQueueLoop env cenv nBalanceNeedsAnonymized rest w
            (r.1, dsq :: r.2.1, r.2.2)
          else
            let w := { w with pool := { w.pool with
              vecSubinodesUsed := w.pool.vecSubinodesUsed ++ [dsq.vin] } }
            let pnodeFound := cenv.FindNode pmn.addr
            if (match pnodeFound with
                | some (fDisconnect, _) => fDisconnect
                | none => false) then
              let r := driverQueueLoop env cenv nBalanceNeedsAnonymized rest w
              (r.1, dsq :: r.2.1, r.2.2)
            else if driverConnect cenv pnodeFound pmn.addr then
              (true, dsq :: rest, driverSendAccept env w pmn dsq.nDenom)
            else
              let r := driverQueueLoop env cenv nBalanceNeedsAnonymized rest
                (w.setAutoDenomResult "Error connecting to Subinode.")
              (r.1, dsq :: r.2.1, r.2.2)

/-- Loop `while (nSessionDenom == 0)` of the driver. Each element of the first argument
holds the raw draws of one call of `GetDenominationsByAmounts`; `none` means that the
draws given were used up with the denomination still 0, the loop running on. -/
def sessionDenomLoop (vecDenoms : List Int) (vecAmounts : List Int) :
    List (List Nat) → Int → Option Int
  | [], nSessionDenom => if nSessionDenom == 0 then none else some nSessionDenom
  | draws :: rest, nSessionDenom =>
    if nSessionDenom == 0 then
      sessionDenomLoop vecDenoms vecAmounts rest
        (GetDenominationsByAmounts vecDenoms vecAmounts draws)
    else some nSessionDenom

/-- Loop `while (nTries < 10)` of the driver; the first argument is `10 - nTries`. -/
def driverRandomLoop (env : Env) (cenv : ClientEnv) (nMnCountEnabled : Int)
    (vecTxIn : List CTxIn) (drawsDenom : List (List Nat)) :
    Nat → World → Option (Bool × World)
  | 0, w => some (false, w.setAutoDenomResult "No compatible Subinode found.")
  | n + 1, w =>
    match cenv.FindRandomNotInVec w.pool.vecSubinodesUsed with
    | none => some (false, w.setAutoDenomResult "Can't find random Subinode.")
    | some pmn =>
      let w := { w with pool := { w.pool with
        vecSubinodesUsed := w.pool.vecSubinodesUsed ++ [pmn.vin] } }
      let pnodeFound := cenv.FindNode pmn.addr
      if pmn.nLastDsq != 0
          && decide (pmn.nLastDsq + nMnCountEnabled / 5 > w.mnodeman.nDsqCount) then
        driverRandomLoop env cenv nMnCountEnabled vecTxIn drawsDenom n w
      else if (match pnodeFound with
          | some (fDisconnect, _) => fDisconnect
          | none => false) then
        driverRandomLoop env cenv nMnCountEnabled vecTxIn drawsDenom n w
      else if driverConnect cenv pnodeFound pmn.addr then
        match sessionDenomLoop env.vecPrivateSendDenominations (cenv.ConvertList vecTxIn)
            drawsDenom w.pool.nSessionDenom with
        | none => none
        | some nSessionDenom => some (true, driverSendAccept env w pmn nSessionDenom)
      else driverRandomLoop env cenv nMnCountEnabled vecTxIn drawsDenom n w

/-- Last part of `DoAutomaticDenominating`, once the collateral is in place: the list of
used mixers is trimmed, then a mixer is taken from the queues or at random. `nRandQueue`
is the raw draw of `GetRandInt(100)`. -/
def driverChooseSubinode (env : Env) (cenv : ClientEnv) (w : World) (nValueMin : Int)
    (nBalanceNeedsAnonymized : Int) (nRandQueue : Nat) (drawsDenom : List (List Nat)) :
    Option (Bool × World) :=
  let nMnCountEnabled := w.mnodeman.CountEnabled env.MIN_PRIVATESEND_PEER_PROTO_VERSION
  let nThreshold_high := cenv.truncNineTenths nMnCountEnabled
  let nThreshold_low := cenv.truncSevenTenths nThreshold_high
  let w := if (w.pool.vecSubinodesUsed.length : Int) > nThreshold_high then
      { w with pool := { w.pool with
        vecSubinodesUsed := w.pool.vecSubinodesUsed.drop
          ((w.pool.vecSubinodesUsed.length : Int) - nThreshold_low).toNat } }
    else w
  let fUseQueue := decide (GetRandInt nRandQueue 100 > 33)
  let r : Bool × World :=
    if cenv.nLiquidityProvider != 0 || fUseQueue then
      let q := driverQueueLoop env cenv nBalanceNeedsAnonymized w.pool.vecDarksendQueue w
      (q.1, { q.2.2 with pool := { q.2.2.pool with vecDarksendQueue := q.2.1 } })
    else (false, w)
  if r.1 then some (true, r.2)
  else if cenv.nLiquidityProvider != 0 then some (false, r.2)
  else
    match cenv.SelectCoinsDark nValueMin nBalanceNeedsAnonymized with
    | none =>
      some (false, r.2.setAutoDenomResult "Can't mix: no compatible inputs found!")
    | some vecTxIn => driverRandomLoop env cenv nMnCountEnabled vecTxIn drawsDenom 10 r.2

/-- Third part of `DoAutomaticDenominating`, from the test of the session id on: reset,
check of the unconfirmed denominated outputs, collateral. When the run ends in
`IsCollateralValid` the world is returned with the flag `fAborted`. -/
def driverFindSubinode (env : Env) (cenv : ClientEnv) (w : World) (nValueMin : Int)
    (nBalanceNeedsAnonymized : Int) (nRandQueue : Nat) (drawsDenom : List (List Nat)) :
    Option (Bool × World) :=
  if w.pool.nSessionID != 0 then some (false, w.setAutoDenomResult "Mixing in progress...")
  else
    let w := (UnlockCoins w).SetNull env
    if !cenv.fPrivateSendMultiSession && decide (cenv.GetDenominatedBalance true > 0) then
      some (false, w.setAutoDenomResult
        "Found unconfirmed denominated outputs, will wait till they confirm to continue.")
    else
      match (if w.pool.txMyCollateral == {} then some false
          else IsCollateralValid env w.pool.txMyCollateral) with
      | none => some (false, w.abort)
      | some fValid =>
        let fCreate := !fValid
        let w := if fCreate then
            { w with pool := { w.pool with txMyCollateral := cenv.CreateCollateralTransaction.2 } }
          else w
        if fCreate && !cenv.CreateCollateralTransaction.1 then some (false, w)
        else
          driverChooseSubinode env cenv w nValueMin nBalanceNeedsAnonymized nRandQueue drawsDenom

/-- Second part of `DoAutomaticDenominating`, from the test of the pending entries to the
creation of denominated and collateral inputs. `lockDS` is the outcome of the try-lock on
`cs_darksend`. -/
def driverBalances (env : Env) (cenv : ClientEnv) (w : World) (fDryRun lockDS : Bool)
    (nRandQueue : Nat) (drawsDenom : List (List Nat)) : Option (Bool × World) :=
  if w.pool.GetEntriesCount > 0 then some (false, w.setAutoDenomResult "Mixing in progress...")
  else if !lockDS then some (false, w.setAutoDenomResult "Lock is already in place.")
  else if !fDryRun && cenv.IsLocked then
    some (false, w.setAutoDenomResult "Wallet is locked.")
  else if !cenv.fPrivateSendMultiSession
      && decide (w.pool.pCurrentBlockIndex.getD 0 - w.pool.nCachedLastSuccessBlock
          < w.pool.nMinBlockSpacing) then
    some (false, w.setAutoDenomResult "Last successful PrivateSend action was too recent.")
  else if w.mnodeman.vSubinodes.length == 0 then
    some (false, w.setAutoDenomResult "No Subinodes detected.")
  else
    let nValueMin := env.vecPrivateSendDenominations.getLastD 0
      + (if !cenv.HasCollateralInputs true then env.PRIVATESEND_COLLATERAL * 4 else 0)
    let nBalanceNeedsAnonymized := cenv.GetNeedsToBeAnonymizedBalance nValueMin
    if nBalanceNeedsAnonymized < nValueMin then
      some (false, w.setAutoDenomResult "Not enough funds to anonymize.")
    else
      let nBalanceDenominated :=
        cenv.GetDenominatedBalance false + cenv.GetDenominatedBalance true
      if fDryRun then some (true, w)
      else if decide (cenv.GetAnonymizableBalance ≥ nValueMin + env.PRIVATESEND_COLLATERAL)
          && decide (nBalanceDenominated < cenv.nPrivateSendAmount * cenv.COIN) then
        let r := CreateDenominated env cenv w.pool
        some (r.1, { w with pool := r.2 })
      else if !cenv.HasCollateralInputs true then
        some (!cenv.HasCollateralInputs false && MakeCollateralAmounts cenv, w)
      else driverFindSubinode env cenv w nValueMin nBalanceNeedsAnonymized nRandQueue drawsDenom

/-- `CDarksendPool::DoAutomaticDenominating`. The result is `none` when the call does not
return (the loop on the session denomination, see `sessionDenomLoop`). -/
def DoAutomaticDenominating (env : Env) (cenv : ClientEnv) (w : World) (fDryRun lockDS : Bool)
    (nRandQueue : Nat) (drawsDenom : List (List Nat)) : Option (Bool × World) :=
  if !w.fEnablePrivateSend || env.fSubiNode || w.pool.pCurrentBlockIndex.isNone then
    some (false, w)
  else if !cenv.fWalletPresent || cenv.IsLocked then some (false, w)
  else if w.pool.nState != POOL_STATE_IDLE then some (false, w)
  else if !cenv.fSubinodeListSynced then
    some (false, w.setAutoDenomResult "Can't mix while sync in progress.")
  else if cenv.nWalletBackups == 0 then
    some (false,
      { w.setAutoDenomResult ("Automatic backups disabled" ++ ", " ++ "no mixing available.")
        with fEnablePrivateSend := false })
  else if cenv.nWalletBackups == -1 then
    some (false, w.setAutoDenomResult
      ("ERROR! Failed to create automatic backup" ++ ", " ++ "see debug.log for details."))
  else if cenv.nWalletBackups == -2 then
    some (false, w.setAutoDenomResult
      ("WARNING! Failed to replenish keypool, please unlock your wallet to do so." ++ ", "
        ++ "see debug.log for details."))
  else if cenv.nKeysLeftSinceAutoBackup < cenv.PRIVATESEND_KEYS_THRESHOLD_STOP then
    some (false,
      { w.setAutoDenomResult ("Very low number of keys left: "
          ++ toString cenv.nKeysLeftSinceAutoBackup ++ ", " ++ "no mixing available.")
        with fEnablePrivateSend := false })
  else if cenv.nKeysLeftSinceAutoBackup < cenv.PRIVATESEND_KEYS_THRESHOLD_WARNING then
    let w := w.setAutoDenomResult
      ("Very low number of keys left: " ++ toString cenv.nKeysLeftSinceAutoBackup)
    if cenv.fCreateAutoBackups then
      if !cenv.AutoBackupWallet.1 && !cenv.AutoBackupWallet.2.isEmpty then
        some (false, w.setAutoDenomResult
          ("ERROR! Failed to create automatic backup" ++ ": " ++ cenv.AutoBackupWallet.2))
      else driverBalances env cenv w fDryRun lockDS nRandQueue drawsDenom
    else some (false, w)
  else driverBalances env cenv w fDryRun lockDS nRandQueue drawsDenom

/-! ## Specification predicates -/

/-- Two entries claim a common outpoint: some DSIn of `a` and some DSIn of `b` spend the
same previous output. -/
def SharesOutpoint (a b : CDarkSendEntry) : Prop :=
  ∃ x ∈ a.vecTxDSIn, ∃ y ∈ b.vecTxDSIn, x.prevout = y.prevout

instance (a b : CDarkSendEntry) : Decidable (SharesOutpoint a b) :=
  inferInstanceAs (Decidable (∃ x ∈ a.vecTxDSIn, ∃ y ∈ b.vecTxDSIn, x.prevout = y.prevout))

/-- No two distinct entries (entries at different positions) of the list claim a common
outpoint. -/
def NoSharedOutpoint (vecEntries : List CDarkSendEntry) : Prop :=
  vecEntries.Pairwise (fun a b => ¬ SharesOutpoint a b)

instance (vecEntries : List CDarkSendEntry) : Decidable (NoSharedOutpoint vecEntries) :=
  inferInstanceAs (Decidable (vecEntries.Pairwise (fun a b => ¬ SharesOutpoint a b)))

/-- Sum of the output values of a transaction. -/
def sumOut (tx : CTransaction) : Int :=
  (tx.vout.map (fun txout => txout.nValue)).sum

/-- Value of the previous output an input refers to; an input whose previous transaction
is unknown, or has no output at that index, refers to no value. -/
def prevOutValue (env : Env) (prevout : COutPoint) : Int :=
  match env.GetTransaction prevout.hash with
  | some txPrev => ((txPrev.vout.get? prevout.n).map (fun txout => txout.nValue)).getD 0
  | none => 0

/-- Sum of the values of the previous outputs the inputs of a transaction refer to. -/
def sumIn (env : Env) (tx : CTransaction) : Int :=
  (tx.vin.map (fun txin => prevOutValue env txin.prevout)).sum

/-- Concatenation of the inputs of all entries, in entry order. -/
def allInputs : List CDarkSendEntry → List CTxIn
  | [] => []
  | entry :: rest => entry.vecTxDSIn.map (fun txdsin => txdsin.toCTxIn) ++ allInputs rest

/-- Concatenation of the outputs of all entries, in entry order. -/
def allOutputs : List CDarkSendEntry → List CTxOut
  | [] => []
  | entry :: rest => entry.vecTxDSOut.map (fun txdsout => txdsout.toCTxOut) ++ allOutputs rest

/-- BIP69 input order: by previous transaction hash, then by output index. -/
def bip69InputLe (a b : CTxIn) : Prop :=
  a.prevout.hash < b.prevout.hash ∨ (a.prevout.hash = b.prevout.hash ∧ a.prevout.n ≤ b.prevout.n)

/-- Lexicographic order of scripts, byte by byte; a proper initial segment comes first. -/
def scriptLe : CScript → CScript → Prop
  | [], _ => True
  | _ :: _, [] => False
  | a :: as, b :: bs => a < b ∨ (a = b ∧ scriptLe as bs)

instance : DecidableRel bip69InputLe := fun a b =>
  inferInstanceAs (Decidable (a.prevout.hash < b.prevout.hash ∨
    (a.prevout.hash = b.prevout.hash ∧ a.prevout.n ≤ b.prevout.n)))

/-- Decision procedure for `scriptLe`. -/
def scriptLe.decidable : (a b : CScript) → Decidable (scriptLe a b)
  | [], _ => isTrue trivial
  | _ :: _, [] => isFalse (fun h => h)
  | a :: as, b :: bs =>
    have : Decidable (scriptLe as bs) := scriptLe.decidable as bs
    inferInstanceAs (Decidable (a < b ∨ (a = b ∧ scriptLe as bs)))

instance : DecidableRel scriptLe := scriptLe.decidable

/-- BIP69 output order: by value, then lexicographically by script. -/
def bip69OutputLe (a b : CTxOut) : Prop :=
  a.nValue < b.nValue ∨ (a.nValue = b.nValue ∧ scriptLe a.scriptPubKey b.scriptPubKey)

instance : DecidableRel bip69OutputLe := fun a b =>
  inferInstanceAs (Decidable (a.nValue < b.nValue ∨
    (a.nValue = b.nValue ∧ scriptLe a.scriptPubKey b.scriptPubKey)))

/-- Sum of the values of the previous outputs the inputs of an entry refer to. -/
def entrySumIn (env : Env) (entry : CDarkSendEntry) : Int :=
  (entry.vecTxDSIn.map (fun txin => prevOutValue env txin.prevout)).sum

/-- Sum of the output values of an entry. -/
def entrySumOut (entry : CDarkSendEntry) : Int :=
  (entry.vecTxDSOut.map (fun txout => txout.nValue)).sum

/-- Smallest amount of a denomination table (0 for the empty table). -/
def smallestDenomination (vecDenoms : List Int) : Int :=
  vecDenoms.foldl min (vecDenoms.headD 0)

/-- The outputs of a list all carry a value of the denomination table. -/
def AllDenominated (vecDenoms : List Int) (vecTxOut : List CTxOut) : Prop :=
  ∀ txout ∈ vecTxOut, txout.nValue ∈ vecDenoms

instance (vecDenoms : List Int) (vecTxOut : List CTxOut) :
    Decidable (AllDenominated vecDenoms vecTxOut) :=
  inferInstanceAs (Decidable (∀ txout ∈ vecTxOut, txout.nValue ∈ vecDenoms))

/-- Denomination `i` of the table is present among the outputs: some output has exactly
the value `vecDenoms[i]`. -/
def DenomPresent (vecDenoms : List Int) (vecTxOut : List CTxOut) (i : Nat) : Prop :=
  ∃ nDenomValue, vecDenoms.get? i = some nDenomValue ∧
    ∃ txout ∈ vecTxOut, txout.nValue = nDenomValue

/-- One output of value `vecDenoms[i]` for each index `i` of the list, with script
`script i`. -/
def outputsOfBits (vecDenoms : List Int) (script : Nat → CScript) (vecBits : List Nat) :
    List CTxOut :=
  vecBits.map (fun i => { nValue := vecDenoms.getD i 0, scriptPubKey := script i })

/-- Characters of the words of a list, each preceded by a `+`. -/
def tailPlus : List (List Char) → List Char
  | [] => []
  | word :: rest => '+' :: (word ++ tailPlus rest)

/-- Characters of the words of a list joined by `+`. -/
def joinPlus : List (List Char) → List Char
  | [] => []
  | word :: rest => word ++ tailPlus rest

/-- Formatted amounts of the denominations whose bit is set in the mask, over the given
bit indices. -/
def denomWords (FormatMoney : Int → String) (vecDenoms : List Int) (nDenom : Int)
    (vecIndex : List Nat) : List (List Char) :=
  (vecIndex.filter (fun i => nDenom.testBit i)).map
    (fun i => (FormatMoney (vecDenoms.getD i 0)).data)

/-- The world after the first step of `CheckTimeout`: the expired queues are removed,
nothing else changes. -/
def withoutExpiredQueues (env : Env) (w : World) : World :=
  { w with pool := { w.pool with
      vecDarksendQueue := w.pool.vecDarksendQueue.filter (fun dsq => !dsq.IsExpired env) } }

/-- The timeout threshold in the words of the specification:
`now_ms − last_step_ms ≥ nTimeout·1000 + lag`, where `nTimeout` is the signing timeout in
state `SIGNING` and the queue timeout otherwise, and `lag` is 10000 ms on a client and 0
on a mixer. -/
def TimeoutReached (env : Env) (pool : CDarksendPool) : Prop :=
  env.GetTimeMillis - pool.nTimeLastSuccessfulStep ≥
    (if pool.nState = POOL_STATE_SIGNING then env.PRIVATESEND_SIGNING_TIMEOUT
      else env.PRIVATESEND_QUEUE_TIMEOUT) * 1000
    + (if env.fSubiNode = true then 0 else 10000)

instance (env : Env) (pool : CDarksendPool) : Decidable (TimeoutReached env pool) :=
  inferInstanceAs (Decidable (_ ≥ _))

/-- One operation of the pool on a process whose role flag `fSubiNode` has the given
value: a message handler, a timer operation (`CheckTimeout`, `CheckPool`,
`CheckForCompleteQueue`, the block notification), the driver, or `ResetPool`. The
environment (clock, ledger, mempool, wallet and network answers, try-locks, random draws)
is chosen freely at each operation; an operation that does not return has no successor.
A world in which the run has ended (`fAborted`) is a successor like the others, and
operations from such a world are not excluded: the relation contains every step of a run
and the invariants proved over it hold for every run. -/
inductive Step (fSubiNode : Bool) : World → World → Prop
  | dsaccept (env : Env) (w : World) (nVersion nDenom : Int) (txCollateral : CTransaction)
      (nRand : Nat) (hrole : env.fSubiNode = fSubiNode) :
      Step fSubiNode w (ProcessMessageDSACCEPT env w nVersion nDenom txCollateral nRand)
  | dsqueue (env : Env) (cenv : ClientEnv) (w : World) (lockRecv : Bool) (nVersion : Int)
      (dsq : CDarksendQueue) (lockMain : Bool) (draws : List Nat)
      (hrole : env.fSubiNode = fSubiNode) :
      Step fSubiNode w
        (ProcessMessageDSQUEUEWorld env cenv w lockRecv nVersion dsq lockMain draws)
  | dsvin (env : Env) (w : World) (nVersion : Int) (entry : CDarkSendEntry) (lockMain : Bool)
      (draws : List Nat) (hrole : env.fSubiNode = fSubiNode) :
      Step fSubiNode w (ProcessMessageDSVINWorld env w nVersion entry lockMain draws)
  | dsstatusupdate (env : Env) (w : World) (nVersion : Int) (addrFrom : Nat)
      (nMsgSessionID nMsgState nMsgEntriesCount nMsgStatusUpdate nMsgMessageID : Int)
      (hrole : env.fSubiNode = fSubiNode) :
      Step fSubiNode w
        (ProcessMessageDSSTATUSUPDATE env w nVersion addrFrom nMsgSessionID nMsgState
          nMsgEntriesCount nMsgStatusUpdate nMsgMessageID)
  | dssignfinaltx (env : Env) (w : World) (nVersion : Int) (vecTxIn : List CTxIn)
      (lockMain : Bool) (draws : List Nat) (hrole : env.fSubiNode = fSubiNode) :
      Step fSubiNode w (ProcessMessageDSSIGNFINALTX env w nVersion vecTxIn lockMain draws)
  | dsfinaltx (env : Env) (w : World) (nVersion : Int) (addrFrom : Nat) (nMsgSessionID : Int)
      (txNew : CTransaction) (hrole : env.fSubiNode = fSubiNode) :
      Step fSubiNode w (ProcessMessageDSFINALTX env w nVersion addrFrom nMsgSessionID txNew)
  | dscomplete (env : Env) (w w' : World) (nVersion : Int) (addrFrom : Nat)
      (nMsgSessionID nMsgMessageID : Int) (hrole : env.fSubiNode = fSubiNode)
      (hret : ProcessMessageDSCOMPLETE env w nVersion addrFrom nMsgSessionID nMsgMessageID
        = some w') :
      Step fSubiNode w w'
  | timeout (env : Env) (w : World) (lockDS lockMain : Bool) (draws : List Nat)
      (nRand1 nRand2 nShuffle : Nat) (hrole : env.fSubiNode = fSubiNode) :
      Step fSubiNode w (CheckTimeout env w lockDS lockMain draws nRand1 nRand2 nShuffle)
  | pool (env : Env) (w : World) (lockMain : Bool) (draws : List Nat)
      (hrole : env.fSubiNode = fSubiNode) :
      Step fSubiNode w (CheckPool env w lockMain draws)
  | queue (env : Env) (w : World) (hrole : env.fSubiNode = fSubiNode) :
      Step fSubiNode w (CheckForCompleteQueue env w)
  | tip (env : Env) (w : World) (nHeight : Int) (fSubinodeListSynced lockDS lockMain : Bool)
      (draws : List Nat) (nRand1 nRand2 nShuffle : Nat) (hrole : env.fSubiNode = fSubiNode) :
      Step fSubiNode w
        (UpdatedBlockTip env w nHeight fSubinodeListSynced lockDS lockMain draws nRand1 nRand2
          nShuffle)
  | driver (env : Env) (cenv : ClientEnv) (w : World) (fDryRun lockDS : Bool)
      (nRandQueue : Nat) (drawsDenom : List (List Nat)) (r : Bool × World)
      (hrole : env.fSubiNode = fSubiNode)
      (hret : DoAutomaticDenominating env cenv w fDryRun lockDS nRandQueue drawsDenom = some r) :
      Step fSubiNode w r.2
  | reset (env : Env) (w : World) (hrole : env.fSubiNode = fSubiNode) :
      Step fSubiNode w (ResetPool env w)

/-- The checks of the collateral validator before the mempool, in the words of the
specification: the transaction has an output, its lock time is 0, every output is a normal
payment script, every input refers to a known previous transaction, and the inputs exceed
the outputs by at least `PRIVATESEND_COLLATERAL`. -/
def CollateralChecks (env : Env) (tx : CTransaction) : Prop :=
  tx.vout ≠ [] ∧ tx.nLockTime = 0 ∧
  (∀ txout ∈ tx.vout, env.IsNormalPaymentScript txout.scriptPubKey = true) ∧
  (∀ txin ∈ tx.vin, (env.GetTransaction txin.prevout.hash).isSome = true) ∧
  sumIn env tx - sumOut tx ≥ env.PRIVATESEND_COLLATERAL

instance (env : Env) (tx : CTransaction) : Decidable (CollateralChecks env tx) := by
  unfold CollateralChecks
  infer_instance

/-- The world `w` is reached from `w0` by finitely many operations on a process of the
given role. -/
def Reachable (fSubiNode : Bool) (w0 w : World) : Prop :=
  Relation.ReflTransGen (Step fSubiNode) w0 w

/-- Shape of the change of state and session id made by an operation on a process of role
`b`: nothing changes; or the pair is reset to `IDLE` and 0; or, on a client, the id is 0 or
the state is not `IDLE` afterwards; or, on a mixer, the session is live afterwards (nonzero
id in `QUEUE`, `ACCEPTING_ENTRIES` or `SIGNING`); or, on a mixer, a session that was not
`IDLE` moves on to `ACCEPTING_ENTRIES` or `SIGNING` with its id. -/
def IdStateStep (b : Bool) (s : PoolState) (i : Int) (s' : PoolState) (i' : Int) : Prop :=
  (s' = s ∧ i' = i) ∨
  (s' = POOL_STATE_IDLE ∧ i' = 0) ∨
  (b = false ∧ (i' = 0 ∨ s' ≠ POOL_STATE_IDLE)) ∨
  (b = true ∧ i' ≠ 0 ∧ (s' = POOL_STATE_QUEUE ∨ s' = POOL_STATE_ACCEPTING_ENTRIES
    ∨ s' = POOL_STATE_SIGNING)) ∨
  (b = true ∧ s ≠ POOL_STATE_IDLE ∧ i' = i ∧ (s' = POOL_STATE_ACCEPTING_ENTRIES
    ∨ s' = POOL_STATE_SIGNING))

/-- `IdStateStep` between the pools of two worlds. -/
def WorldStep (b : Bool) (w w' : World) : Prop :=
  IdStateStep b w.pool.nState w.pool.nSessionID w'.pool.nState w'.pool.nSessionID

/-- Every world an optional result stands for is a `WorldStep` away from `w`. -/
def OptionStep (b : Bool) (w : World) (o : Option World) : Prop :=
  ∀ r, o = some r → WorldStep b w r

/-- The state and the session id of `w'` are those of `w`, or the state of `w'` is
`QUEUE`. -/
def KeptOrQueue (w w' : World) : Prop :=
  (w'.pool.nState = w.pool.nState ∧ w'.pool.nSessionID = w.pool.nSessionID) ∨
  w'.pool.nState = POOL_STATE_QUEUE

/-- Every result the optional value stands for satisfies `P`. -/
def OptionAll {α : Type} (P : α → Prop) (o : Option α) : Prop :=
  ∀ r, o = some r → P r

/-- Outcome of the driver on the state and the session id: kept, or the state is `QUEUE`,
or the pair is reset to `IDLE` and 0. -/
def DriverOutcome (w w' : World) : Prop :=
  KeptOrQueue w w' ∨ (w'.pool.nState = POOL_STATE_IDLE ∧ w'.pool.nSessionID = 0)

/-- The DSIn `txdsin` is the one `txin` signs: outpoint and sequence agree. -/
def MatchesInput (txin : CTxIn) (txdsin : CTxDSIn) : Prop :=
  txdsin.prevout = txin.prevout ∧ txdsin.nSequence = txin.nSequence

instance (txin : CTxIn) (txdsin : CTxDSIn) : Decidable (MatchesInput txin txdsin) :=
  inferInstanceAs (Decidable (_ ∧ _))

/-- The DSIn `txdsin` with the signature of `txin` attached: signature script, previous
script and the flag `fHasSig`. -/
def CTxDSIn.signedBy (txdsin : CTxDSIn) (txin : CTxIn) : CTxDSIn :=
  { txdsin with scriptSig := txin.scriptSig, prevPubKey := txin.prevPubKey, fHasSig := true }

/-- The step keeps the gossip state: the mixer list with its counter and the queue vector
are as before, and the effects added relay no queue. -/
def GossipKept (w v : World) : Prop :=
  v.mnodeman = w.mnodeman ∧ v.pool.vecDarksendQueue = w.pool.vecDarksendQueue ∧
  ∃ added, v.vTrace = w.vTrace ++ added ∧ ∀ q, Effect.RelayQueue q ∉ added

/-- Counter bound of the rate limiter: no mixer of the list carries a stamp `nLastDsq`
above the counter `nDsqCount`. -/
def DsqCountBounds (mnodeman : CSubinodeMan) : Prop :=
  ∀ mn ∈ mnodeman.vSubinodes, mn.nLastDsq ≤ mnodeman.nDsqCount

/-- Conditions under which the `DSQUEUE` branch stores and relays a queue, read off the
branch in the order it tests them; they depend on the world only through the mixer list
and the queue vector. -/
def dsqueueAccepts (env : Env) (mnodeman : CSubinodeMan)
    (vecDarksendQueue : List CDarksendQueue) (lockRecv : Bool) (nVersion : Int)
    (dsq : CDarksendQueue) : Bool :=
  !env.fLiteMode && env.fBlockchainSynced && lockRecv
    && !decide (nVersion < env.MIN_PRIVATESEND_PEER_PROTO_VERSION)
    && !(vecDarksendQueue.any (fun q => q.eq dsq))
    && !(dsq.IsExpired env || decide (dsq.nTime > env.GetTime + env.PRIVATESEND_QUEUE_TIMEOUT))
    && match mnodeman.Find dsq.vin with
      | none => false
      | some pmn =>
        env.CheckSignature dsq pmn.pubKeySubinode && !dsq.fReady
          && !(vecDarksendQueue.any (fun q => q.vin == dsq.vin))
          && !(pmn.nLastDsq != 0 &&
            decide (toInt32
              (pmn.nLastDsq + mnodeman.CountEnabled env.MIN_PRIVATESEND_PEER_PROTO_VERSION / 5)
                > mnodeman.nDsqCount))

/-- One operation of the pool on a mixer whose chain parameter `PoolMaxTransactions` has the
value `nMax` at every operation: the operations of `Step`, with the rest of the
environment chosen freely at each of them. -/
inductive MixerStep (nMax : Int) : World → World → Prop
  | dsaccept (env : Env) (w : World) (nVersion nDenom : Int) (txCollateral : CTransaction)
      (nRand : Nat) (hrole : env.fSubiNode = true) (hmax : env.nPoolMaxTransactions = nMax) :
      MixerStep nMax w (ProcessMessageDSACCEPT env w nVersion nDenom txCollateral nRand)
  | dsqueue (env : Env) (cenv : ClientEnv) (w : World) (lockRecv : Bool) (nVersion : Int)
      (dsq : CDarksendQueue) (lockMain : Bool) (draws : List Nat)
      (hrole : env.fSubiNode = true) (hmax : env.nPoolMaxTransactions = nMax) :
      MixerStep nMax w
        (ProcessMessageDSQUEUEWorld env cenv w lockRecv nVersion dsq lockMain draws)
  | dsvin (env : Env) (w : World) (nVersion : Int) (entry : CDarkSendEntry) (lockMain : Bool)
      (draws : List Nat) (hrole : env.fSubiNode = true)
      (hmax : env.nPoolMaxTransactions = nMax) :
      MixerStep nMax w (ProcessMessageDSVINWorld env w nVersion entry lockMain draws)
  | dsstatusupdate (env : Env) (w : World) (nVersion : Int) (addrFrom : Nat)
      (nMsgSessionID nMsgState nMsgEntriesCount nMsgStatusUpdate nMsgMessageID : Int)
      (hrole : env.fSubiNode = true) (hmax : env.nPoolMaxTransactions = nMax) :
      MixerStep nMax w
        (ProcessMessageDSSTATUSUPDATE env w nVersion addrFrom nMsgSessionID nMsgState
          nMsgEntriesCount nMsgStatusUpdate nMsgMessageID)
  | dssignfinaltx (env : Env) (w : World) (nVersion : Int) (vecTxIn : List CTxIn)
      (lockMain : Bool) (draws : List Nat) (hrole : env.fSubiNode = true)
      (hmax : env.nPoolMaxTransactions = nMax) :
      MixerStep nMax w (ProcessMessageDSSIGNFINALTX env w nVersion vecTxIn lockMain draws)
  | dsfinaltx (env : Env) (w : World) (nVersion : Int) (addrFrom : Nat) (nMsgSessionID : Int)
      (txNew : CTransaction) (hrole : env.fSubiNode = true)
      (hmax : env.nPoolMaxTransactions = nMax) :
      MixerStep nMax w (ProcessMessageDSFINALTX env w nVersion addrFrom nMsgSessionID txNew)
  | dscomplete (env : Env) (w v : World) (nVersion : Int) (addrFrom : Nat)
      (nMsgSessionID nMsgMessageID : Int) (hrole : env.fSubiNode = true)
      (hmax : env.nPoolMaxTransactions = nMax)
      (hret : ProcessMessageDSCOMPLETE env w nVersion addrFrom nMsgSessionID nMsgMessageID
        = some v) :
      MixerStep nMax w v
  | timeout (env : Env) (w : World) (lockDS lockMain : Bool) (draws : List Nat)
      (nRand1 nRand2 nShuffle : Nat) (hrole : env.fSubiNode = true)
      (hmax : env.nPoolMaxTransactions = nMax) :
      MixerStep nMax w (CheckTimeout env w lockDS lockMain draws nRand1 nRand2 nShuffle)
  | pool (env : Env) (w : World) (lockMain : Bool) (draws : List Nat)
      (hrole : env.fSubiNode = true) (hmax : env.nPoolMaxTransactions = nMax) :
      MixerStep nMax w (CheckPool env w lockMain draws)
  | queue (env : Env) (w : World) (hrole : env.fSubiNode = true)
      (hmax : env.nPoolMaxTransactions = nMax) :
      MixerStep nMax w (CheckForCompleteQueue env w)
  | tip (env : Env) (w : World) (nHeight : Int) (fSubinodeListSynced lockDS lockMain : Bool)
      (draws : List Nat) (nRand1 nRand2 nShuffle : Nat) (hrole : env.fSubiNode = true)
      (hmax : env.nPoolMaxTransactions = nMax) :
      MixerStep nMax w
        (UpdatedBlockTip env w nHeight fSubinodeListSynced lockDS lockMain draws nRand1 nRand2
          nShuffle)
  | driver (env : Env) (cenv : ClientEnv) (w : World) (fDryRun lockDS : Bool)
      (nRandQueue : Nat) (drawsDenom : List (List Nat)) (r : Bool × World)
      (hrole : env.fSubiNode = true) (hmax : env.nPoolMaxTransactions = nMax)
      (hret : DoAutomaticDenominating env cenv w fDryRun lockDS nRandQueue drawsDenom = some r) :
      MixerStep nMax w r.2
  | reset (env : Env) (w : World) (hrole : env.fSubiNode = true)
      (hmax : env.nPoolMaxTransactions = nMax) :
      MixerStep nMax w (ResetPool env w)

/-- The world `w` is reached from `w0` by finitely many operations on a mixer whose
parameter `PoolMaxTransactions` is `nMax`. -/
def MixerReachable (nMax : Int) (w0 w : World) : Prop :=
  Relation.ReflTransGen (MixerStep nMax) w0 w

/-- Length bounds of a mixer session for the parameter `nMax`: no more entries than
collaterals, no more collaterals than `nMax`, and no collateral while the state is
`IDLE`. -/
def LengthsBounded (nMax : Int) (w : World) : Prop :=
  w.pool.vecEntries.length ≤ w.pool.vecSessionCollaterals.length ∧
  (w.pool.vecSessionCollaterals.length : Int) ≤ nMax ∧
  (w.pool.nState = POOL_STATE_IDLE → w.pool.vecSessionCollaterals = [])

/-- Shape of an operation that adds neither an entry nor a collateral: the number of
entries and the collaterals are kept and the state does not become `IDLE`, or both lists
are emptied. -/
def LengthsKept (w v : World) : Prop :=
  (v.pool.vecEntries.length = w.pool.vecEntries.length ∧
    v.pool.vecSessionCollaterals = w.pool.vecSessionCollaterals ∧
    (v.pool.nState = POOL_STATE_IDLE → w.pool.nState = POOL_STATE_IDLE)) ∨
  (v.pool.vecEntries = [] ∧ v.pool.vecSessionCollaterals = [])

/-- One `DSVIN` message handled by a process whose denomination table is `vecDenoms`; the
rest of the environment is chosen freely at each message. -/
inductive DsvinStep (vecDenoms : List Int) : World → World → Prop
  | dsvin (env : Env) (w : World) (nVersion : Int) (entry : CDarkSendEntry) (lockMain : Bool)
      (draws : List Nat) (htable : env.vecPrivateSendDenominations = vecDenoms) :
      DsvinStep vecDenoms w (ProcessMessageDSVINWorld env w nVersion entry lockMain draws)

/-- All entries of the pool have outputs that encode one and the same nonzero denomination
mask of the table `vecDenoms`. -/
def SameDenomination (vecDenoms : List Int) (pool : CDarksendPool) : Prop :=
  ∀ e1 ∈ pool.vecEntries,
    GetDenominations vecDenoms e1.vecTxDSOut ≠ 0 ∧
    ∀ e2 ∈ pool.vecEntries,
      GetDenominations vecDenoms e1.vecTxDSOut = GetDenominations vecDenoms e2.vecTxDSOut

/-- The transactions submitted to the mempool by a list of effects, in order. -/
def mempoolSubmits (l : List Effect) : List CTransaction :=
  l.filterMap (fun e =>
    match e with
    | Effect.MempoolSubmit tx => some tx
    | _ => none)

/-- The entries of the pool that hold at least one unsigned DSIn. -/
def entriesWithUnsignedInput (pool : CDarksendPool) : List CDarkSendEntry :=
  pool.vecEntries.filter (fun entry => entry.vecTxDSIn.any (fun txdsin => !txdsin.fHasSig))

/-- The offender list in the words of the specification: when the state is
`ACCEPTING_ENTRIES`, the session collaterals not matched by the collateral of an entry;
when the state is `SIGNING`, the collaterals of the entries that hold an unsigned DSIn;
no offender in the other states. -/
def offendersSpec (pool : CDarksendPool) : List CTransaction :=
  if pool.nState = POOL_STATE_ACCEPTING_ENTRIES then
    pool.vecSessionCollaterals.filter (fun txCollateral =>
      !pool.vecEntries.any (fun entry => entry.txCollateral == txCollateral))
  else if pool.nState = POOL_STATE_SIGNING then
    (entriesWithUnsignedInput pool).map (fun entry => entry.txCollateral)
  else []

/-- Number of leading session collaterals for which the draw `GetRandInt(100)` made for them
is at most 10, draw `j` of the stream being the one for collateral `j`. -/
def chargedCount : List CTransaction → List Nat → Nat
  | [], _ => 0
  | _ :: rest, draws =>
    if GetRandInt (draws.headD 0) 100 > 10 then 0 else chargedCount rest draws.tail + 1

/-- Consistency of the signature bookkeeping: every input of the final transaction whose
outpoint and sequence match a DSIn that has a signature carries the `scriptSig` stored in
that DSIn. -/
def SignaturesConsistent (pool : CDarksendPool) : Prop :=
  ∀ txin ∈ pool.finalMutableTransaction.vin, ∀ entry ∈ pool.vecEntries,
    ∀ txdsin ∈ entry.vecTxDSIn,
      (txdsin.prevout = txin.prevout ∧ txdsin.nSequence = txin.nSequence
        ∧ txdsin.fHasSig = true) → txin.scriptSig = txdsin.scriptSig

instance (pool : CDarksendPool) : Decidable (SignaturesConsistent pool) := by
  unfold SignaturesConsistent
  infer_instance

/-! ## Example data -/

/-- A mixer environment with the denomination table of a coin unit of `10^8` and a ledger
that knows the previous transactions `7`, `8` and `9`. -/
def envExample : Env :=
  { fSubiNode := true
    fLiteMode := false
    fBlockchainSynced := true
    nPoolMaxTransactions := 3
    PRIVATESEND_COLLATERAL := 100000
    PRIVATESEND_POOL_MAX := 99999000000
    PRIVATESEND_QUEUE_TIMEOUT := 30
    MIN_PRIVATESEND_PEER_PROTO_VERSION := 70206
    vecPrivateSendDenominations := InitDenominations 100000000
    GetTransaction := fun hash =>
      if hash = 7 then some { vout := [{ nValue := 100001000 }, { nValue := 200000 }] }
      else if hash = 8 then some { vout := [{ nValue := 100001000 }] }
      else if hash = 9 then
        some { vout := [{ nValue := 1000010000 }, { nValue := 102001020 }, { nValue := 101001010 }] }
      else none
    AcceptToMemoryPool := fun _ => true
    IsNormalPaymentScript := fun script => script.length == 25
    CheckSignature := fun _ _ => true
    GetTime := 0
    GetTimeMillis := 0
    PRIVATESEND_SIGNING_TIMEOUT := 15
    AcceptToMemoryPoolBypass := fun _ => true
    GetHash := fun tx => tx.vin.length + tx.vout.length
    activeSubinodeVin := { prevout := { hash := 1000, n := 0 } }
    SignQueue := fun _ => []
    SignSignature := fun _ _ nIn => [nIn]
    SignBroadcastTx := fun _ _ => []
    CheckDiskSpace := true
    fMempoolKeepsRef := true }

/-- A collateral spending output 1 of transaction 7 and paying 100000 back. -/
def collateralExample : CTransaction :=
  { vin := [{ prevout := { hash := 7, n := 1 } }]
    vout := [{ nValue := 100000, scriptPubKey := List.replicate 25 0 }] }

/-- An entry mixing output 0 of transaction 7 at the denomination of one coin. -/
def entryExample : CDarkSendEntry :=
  { vecTxDSIn := [{ prevout := { hash := 7, n := 0 } }]
    vecTxDSOut := [{ nValue := 100001000, scriptPubKey := List.replicate 25 0 }]
    txCollateral := collateralExample }

/-- An entry mixing output 0 of transaction 8 at the denomination of one coin. -/
def entryExample2 : CDarkSendEntry :=
  { vecTxDSIn := [{ prevout := { hash := 8, n := 0 } }]
    vecTxDSOut := [{ nValue := 100001000, scriptPubKey := List.replicate 25 1 }]
    txCollateral := collateralExample }

/-- A mixer session of denomination mask `2` (one coin) that has gathered its three
collaterals and accepts entries. -/
def poolReadyExample : CDarksendPool :=
  { vecSessionCollaterals := [collateralExample, collateralExample, collateralExample]
    nState := POOL_STATE_ACCEPTING_ENTRIES
    nSessionID := 42
    nSessionDenom := 2 }

/-- An entry mixing output 0 of transaction 9 at the denomination of ten coins. -/
def entryTenCoinsExample : CDarkSendEntry :=
  { vecTxDSIn := [{ prevout := { hash := 9, n := 0 } }]
    vecTxDSOut := [{ nValue := 1000010000, scriptPubKey := List.replicate 25 0 }]
    txCollateral := collateralExample }

/-- An entry that leaves twice the smallest denomination as a fee. -/
def entryDoubleFeeExample : CDarkSendEntry :=
  { vecTxDSIn := [{ prevout := { hash := 9, n := 1 } }]
    vecTxDSOut := [{ nValue := 100001000, scriptPubKey := List.replicate 25 0 }]
    txCollateral := collateralExample }

/-- An entry that leaves exactly the smallest denomination as a fee. -/
def entryTieFeeExample : CDarkSendEntry :=
  { vecTxDSIn := [{ prevout := { hash := 9, n := 2 } }]
    vecTxDSOut := [{ nValue := 100001000, scriptPubKey := List.replicate 25 0 }]
    txCollateral := collateralExample }

/-- Mixer number `i` of the example mixer list; mixer 0 issued its last queue when the
counter stood at 95. -/
def mixerExample (i : Nat) : CSubinode :=
  { vin := { prevout := { hash := 1000 + i, n := 0 } }
    protocolVersion := 70206
    nLastDsq := if i = 0 then 95 else 0 }

/-- Fifty enabled mixers and a queue counter of 100. -/
def worldRateLimitExample : World :=
  { mnodeman := { vSubinodes := (List.range 50).map mixerExample, nDsqCount := 100 } }

/-- Fifty enabled mixers and a queue counter of 3. -/
def worldFreshExample : World :=
  { mnodeman := { vSubinodes := (List.range 50).map mixerExample, nDsqCount := 3 } }

/-- Fifty enabled mixers with the queue counter at `2^32 + 100`; mixer 0 issued its last
queue when the counter stood at `2^32 + 95`. -/
def worldWideCounterExample : World :=
  { mnodeman :=
      { vSubinodes := (List.range 50).map (fun i =>
          if i = 0 then { mixerExample 0 with nLastDsq := 4294967391 } else mixerExample i)
        nDsqCount := 4294967396 } }

/-- A non-ready queue advertised by mixer `i`. -/
def queueExample (i : Nat) : CDarksendQueue :=
  { nDenom := 2, vin := { prevout := { hash := 1000 + i, n := 0 } }, nTime := 0, fReady := false }

/-- The example mixer with a mempool that refuses every transaction handed to
`AcceptToMemoryPool`. -/
def envRefuseExample : Env :=
  { envExample with AcceptToMemoryPool := fun _ => false }

/-- The example mixer with a mempool that accepts but keeps no copy of the references it is
handed. -/
def envNoShareExample : Env :=
  { envExample with fMempoolKeepsRef := false }

/-- A client of the example network: the settings of `envExample` with the role flag off
and the clock at 60 s. -/
def envClientExample : Env :=
  { envExample with fSubiNode := false, GetTime := 60, GetTimeMillis := 60000 }

/-- The example mixer with the clock at 60 s. -/
def envMixerLateExample : Env :=
  { envExample with GetTime := 60, GetTimeMillis := 60000 }

/-- A client whose session failed 15 s before the clock of `envClientExample`, with one
coin still locked. -/
def worldErrorExample : World :=
  { pool :=
      { nState := POOL_STATE_ERROR
        nTimeLastSuccessfulStep := 45000
        strLastMessage := "Session timed out."
        vecOutPointLocked := [{ hash := 9, n := 0 }] }
    fEnablePrivateSend := true }

/-- Wallet and network answers of the example client: an unlocked wallet with backups,
enough keys, collateral inputs and funds to mix, one coin of the one-coin denomination to
select, and a mixer list whose random pick is mixer 1, to which a connection succeeds. -/
def clientEnvExample : ClientEnv :=
  { fWalletPresent := true
    IsLocked := false
    fSubinodeListSynced := true
    nWalletBackups := 10
    nKeysLeftSinceAutoBackup := 1000
    PRIVATESEND_KEYS_THRESHOLD_STOP := 50
    PRIVATESEND_KEYS_THRESHOLD_WARNING := 100
    fCreateAutoBackups := true
    AutoBackupWallet := (true, "")
    fPrivateSendMultiSession := false
    nPrivateSendRounds := 2
    nPrivateSendAmount := 1000
    nLiquidityProvider := 0
    COIN := 100000000
    DENOMS_COUNT_MAX := 100
    HasCollateralInputs := fun _ => true
    GetNeedsToBeAnonymizedBalance := fun _ => 100001000
    GetAnonymizableBalance := 0
    GetDenominatedBalance := fun unconfirmed => if unconfirmed then 0 else 100001000
    CreateCollateralTransaction := (true, collateralExample)
    SelectCoinsByDenominations := fun _ _ _ _ _ =>
      (true, [({ prevout := { hash := 8, n := 0 } }, 100001000)], 100001000)
    SelectCoinsDark := fun _ _ => some [{ prevout := { hash := 8, n := 0 } }]
    ConvertList := fun vecTxIn => vecTxIn.map (fun _ => 100001000)
    SelectCoinsGrouppedByAddresses := fun _ => none
    CountInputsWithAmount := fun _ => 0
    GetReservedKey := fun k => List.replicate 25 k
    FindNode := fun _ => none
    ConnectNode := fun _ => true
    FindRandomNotInVec := fun _ => some (mixerExample 1)
    truncNineTenths := fun n => n * 9 / 10
    truncSevenTenths := fun n => n * 7 / 10
    formatDenomFloat := fun _ => "" }

/-- A client with mixing enabled that knows the chain tip and two mixers; its pool is in
the null state. -/
def worldClientExample : World :=
  { pool := ({ pCurrentBlockIndex := some 100 } : CDarksendPool).SetNull envClientExample
    mnodeman := { vSubinodes := [mixerExample 0, mixerExample 1], nDsqCount := 100 }
    fEnablePrivateSend := true }

/-- The example client after one run of the driver: `DSACCEPT` was sent to mixer 1 for
the one-coin denomination, the state is `QUEUE`, the session id is still 0. -/
def worldClientQueueExample : World :=
  { worldClientExample with
    pool := { worldClientExample.pool with
      nState := POOL_STATE_QUEUE
      nSessionID := 0
      nSessionDenom := 2
      pSubmittedToSubinode := some (mixerExample 1)
      txMyCollateral := collateralExample
      vecSubinodesUsed := [(mixerExample 1).vin]
      strAutoDenomResult := "Mixing in progress..."
      nTimeLastSuccessfulStep := 60000 }
    vTrace := [Effect.PushDSACCEPT 2 collateralExample] }

/-- The entry `entryExample2` with its input already signed with the script `[1, 2, 3]`. -/
def entrySignedExample : CDarkSendEntry :=
  { entryExample2 with
    vecTxDSIn := entryExample2.vecTxDSIn.map (fun txdsin =>
      { txdsin with scriptSig := [1, 2, 3], fHasSig := true }) }

/-- A mixer pool in state `SIGNING` with session id 42 holding `entryExample` (unsigned)
and `entrySignedExample`. -/
def poolSigningExample : CDarksendPool :=
  { nState := POOL_STATE_SIGNING
    nSessionID := 42
    nSessionDenom := 2
    vecSessionCollaterals := [collateralExample, collateralExample, collateralExample]
    vecEntries := [entryExample, entrySignedExample]
    finalMutableTransaction :=
      { vin := (entryExample.vecTxDSIn ++ entrySignedExample.vecTxDSIn).map
          (fun txdsin => txdsin.toCTxIn)
        vout := (entryExample.vecTxDSOut ++ entrySignedExample.vecTxDSOut).map
          (fun txdsout => txdsout.toCTxOut) } }

/-- The example mixer with a mempool that refuses every transaction. -/
def envRejectExample : Env :=
  { envExample with AcceptToMemoryPoolBypass := fun _ => false }

/-- A mixer in state `SIGNING` with session id 42 whose only entry is fully signed. -/
def worldSignedExample : World :=
  { pool :=
      { poolSigningExample with
        vecEntries := [entrySignedExample]
        finalMutableTransaction :=
          { vin := entrySignedExample.vecTxDSIn.map (fun txdsin => txdsin.toCTxIn)
            vout := entrySignedExample.vecTxDSOut.map (fun txdsout => txdsout.toCTxOut) } } }

/-- An entry of a client: the inputs are output 0 of transaction 7 and output 0 of
transaction 8, the declared outputs pay one coin each to two different scripts. -/
def entryTwoOutputsExample : CDarkSendEntry :=
  { vecTxDSIn := [{ prevout := { hash := 7, n := 0 } }, { prevout := { hash := 8, n := 0 } }]
    vecTxDSOut :=
      [{ nValue := 100001000, scriptPubKey := List.replicate 25 0 },
       { nValue := 100001000, scriptPubKey := List.replicate 25 1 }]
    txCollateral := collateralExample }

/-- A client in session 42 of mixer 1 that has submitted `entryTwoOutputsExample` and knows
the chain tip at height 100. -/
def worldClientEntryExample : World :=
  { pool :=
      { nState := POOL_STATE_ACCEPTING_ENTRIES
        nSessionID := 42
        nSessionDenom := 2
        pSubmittedToSubinode := some (mixerExample 1)
        vecEntries := [entryTwoOutputsExample]
        txMyCollateral := collateralExample
        pCurrentBlockIndex := some 100 }
    fEnablePrivateSend := true }

/-- The client of `worldClientEntryExample` after it has signed: state `SIGNING`. -/
def worldClientSigningExample : World :=
  { worldClientEntryExample with
    pool := { worldClientEntryExample.pool with nState := POOL_STATE_SIGNING } }

/-- A final transaction with both inputs of `entryTwoOutputsExample` in which the first
declared output stands twice and the second declared output is missing. -/
def finalTxDuplicateExample : CTransaction :=
  { vin := [{ prevout := { hash := 7, n := 0 } }, { prevout := { hash := 8, n := 0 } }]
    vout :=
      [{ nValue := 100001000, scriptPubKey := List.replicate 25 0 },
       { nValue := 100001000, scriptPubKey := List.replicate 25 0 }] }

/-- An entry mixing output 2 of transaction 9 at the denomination of one coin. -/
def entryExample3 : CDarkSendEntry :=
  { vecTxDSIn := [{ prevout := { hash := 9, n := 2 } }]
    vecTxDSOut := [{ nValue := 100001000, scriptPubKey := List.replicate 25 2 }]
    txCollateral := collateralExample }

/-- A mixer session of three participants that has just received its third entry: state
`ACCEPTING_ENTRIES`, no input signed, no final transaction yet. -/
def worldFullExample : World :=
  { pool := { poolReadyExample with vecEntries := [entryExample, entryExample2, entryExample3] } }

/-- A mixer session with its three collaterals gathered that has accepted one entry; the
last successful step was at 0 ms. -/
def worldOneEntryExample : World :=
  { pool := { poolReadyExample with vecEntries := [entryExample] } }

/-- A mixer in the null state that knows two mixers, itself (mixer 0) among them, with the
queue counter at 100. -/
def worldMixerExample : World :=
  { mnodeman := { vSubinodes := [mixerExample 0, mixerExample 1], nDsqCount := 100 } }

/-- The example mixer with its session ready (three collaterals), no entry yet. -/
def worldReadyExample : World :=
  { pool := poolReadyExample
    mnodeman := { vSubinodes := [mixerExample 0, mixerExample 1], nDsqCount := 100 } }

/-- A collateral spending output 1 of transaction 9 and paying 100000 back. -/
def collateralOffenderExample : CTransaction :=
  { vin := [{ prevout := { hash := 9, n := 1 } }]
    vout := [{ nValue := 100000, scriptPubKey := List.replicate 25 9 }] }

/-- The entry `entryExample` with its input signed with the script `[4, 5, 6]`. -/
def entrySignedExample1 : CDarkSendEntry :=
  { entryExample with
    vecTxDSIn := entryExample.vecTxDSIn.map (fun txdsin =>
      { txdsin with scriptSig := [4, 5, 6], fHasSig := true }) }

/-- An entry with one input, unsigned, whose collateral is `collateralOffenderExample`. -/
def entryOffenderExample : CDarkSendEntry :=
  { entryExample3 with txCollateral := collateralOffenderExample }

/-- An entry with three inputs, all unsigned, whose collateral is
`collateralOffenderExample`. -/
def entryOffenderThreeInputsExample : CDarkSendEntry :=
  { vecTxDSIn :=
      [{ prevout := { hash := 9, n := 0 } }, { prevout := { hash := 9, n := 1 } },
       { prevout := { hash := 9, n := 2 } }]
    vecTxDSOut :=
      [{ nValue := 1000010000, scriptPubKey := List.replicate 25 2 },
       { nValue := 100001000, scriptPubKey := List.replicate 25 3 },
       { nValue := 100001000, scriptPubKey := List.replicate 25 4 }]
    txCollateral := collateralOffenderExample }

/-- A mixer session of three participants in state `SIGNING`: two have signed, the third,
with one input, has not. -/
def worldOneOffenderExample : World :=
  { pool :=
      { nState := POOL_STATE_SIGNING
        nSessionID := 42
        nSessionDenom := 2
        vecSessionCollaterals := [collateralExample, collateralExample, collateralOffenderExample]
        vecEntries := [entrySignedExample1, entrySignedExample, entryOffenderExample] } }

/-- The session of `worldOneOffenderExample` with a third participant that has three
inputs, none of them signed. -/
def worldOneOffenderThreeInputsExample : World :=
  { pool :=
      { worldOneOffenderExample.pool with
        vecEntries := [entrySignedExample1, entrySignedExample, entryOffenderThreeInputsExample] } }

/-- A tally of `21100210`: the collateral left for fees, eleven times the smallest
denomination and once the next one. -/
def tallyExample : CompactTallyItem :=
  { nAmount := 100000 + 11 * 1000010 + 10000100 }

/-- The pool of `worldFullExample` after `CreateFinalTransaction`: state `SIGNING` with a
freshly created final transaction, no input signed. -/
def poolFreshFinalExample : CDarksendPool :=
  (CreateFinalTransaction envExample worldFullExample).pool

/-- The pool of `poolFreshFinalExample` after the owner of input (8, 0) has signed it with
the script `[1, 2, 3]`. -/
def poolOneSignedExample : CDarksendPool :=
  (AddScriptSig poolFreshFinalExample
    { prevout := { hash := 8, n := 0 }, scriptSig := [1, 2, 3] }).2

/-- The pool of `poolOneSignedExample` after a second signature `[9, 9]` was sent for the
same input. -/
def poolResignedExample : CDarksendPool :=
  (AddScriptSig poolOneSignedExample
    { prevout := { hash := 8, n := 0 }, scriptSig := [9, 9] }).2

/-! ## Theorems -/

/-! ### Collateral validator -/

theorem collateralOutLoop_eq (env : Env) (vout : List CTxOut) (nValueOut : Int) :
    collateralOutLoop env vout nValueOut =
      if ∀ txout ∈ vout, env.IsNormalPaymentScript txout.scriptPubKey = true then
        some (nValueOut + (vout.map (fun txout => txout.nValue)).sum)
      else none := by
  induction vout generalizing nValueOut with
  | nil => simp [collateralOutLoop]
  | cons txout rest ih =>
    simp only [collateralOutLoop, List.mem_cons, forall_eq_or_imp, List.map_cons, List.sum_cons]
    by_cases h : env.IsNormalPaymentScript txout.scriptPubKey = true
    · simp [h, ih, add_assoc]
    · simp [h]

theorem collateralInLoop_eq (env : Env) (vin : List CTxIn) (nValueIn : Int)
    (fMissingTx : Bool) :
    collateralInLoop env vin (nValueIn, fMissingTx) =
      (nValueIn + (vin.map (fun txin => prevOutValue env txin.prevout)).sum,
        fMissingTx || vin.any (fun txin => (env.GetTransaction txin.prevout.hash).isNone)) := by
  induction vin generalizing nValueIn fMissingTx with
  | nil => simp [collateralInLoop]
  | cons txin rest ih =>
    simp only [collateralInLoop, List.map_cons, List.sum_cons, List.any_cons]
    cases hget : env.GetTransaction txin.prevout.hash with
    | none => simp [ih, prevOutValue, hget]
    | some txPrev =>
      by_cases hlen : txPrev.vout.length > txin.prevout.n
      · simp [hlen, ih, prevOutValue, hget, List.get?_eq_get hlen, add_assoc]
      · have hnone : txPrev.vout[txin.prevout.n]? = none :=
          List.getElem?_eq_none (by omega)
        simp [hlen, ih, prevOutValue, hget, hnone]

/-- The checks of `IsCollateralValid` that precede the mempool: an output, lock time 0,
normal payment scripts, known inputs and a fee of at least `PRIVATESEND_COLLATERAL`. -/
theorem IsCollateralValid_reaches_mempool (env : Env) (tx : CTransaction)
    (hpre : CollateralChecks env tx) :
    IsCollateralValid env tx =
      if env.AcceptToMemoryPool tx = true ∧ env.fMempoolKeepsRef = true then some true
      else none := by
  obtain ⟨hempty, hlock, hout, hin, hfee⟩ := hpre
  unfold IsCollateralValid
  rw [collateralOutLoop_eq, collateralInLoop_eq, if_pos hout]
  have hany : (tx.vin.any fun txin => (env.GetTransaction txin.prevout.hash).isNone) = false := by
    rw [List.any_eq_false]
    intro txin hmem
    have := hin txin hmem
    cases h : env.GetTransaction txin.prevout.hash <;> simp_all
  simp only [hany, sumIn, sumOut] at hfee ⊢
  have hfee2 : ¬ ((0 : Int) + (tx.vin.map (fun txin => prevOutValue env txin.prevout)).sum
      - (0 + (tx.vout.map (fun txout => txout.nValue)).sum) < env.PRIVATESEND_COLLATERAL) := by
    omega
  rw [if_neg (by simp [hempty]), if_neg (by simp [hlock])]
  dsimp only
  rw [if_neg (by simp), if_neg hfee2]
  by_cases hacc : env.AcceptToMemoryPool tx = true <;>
    by_cases hkeep : env.fMempoolKeepsRef = true <;>
    simp [hacc, hkeep]

theorem IsCollateralValid_fails_early (env : Env) (tx : CTransaction)
    (hpre : ¬ CollateralChecks env tx) :
    IsCollateralValid env tx = some false := by
  unfold CollateralChecks at hpre
  unfold IsCollateralValid
  rw [collateralOutLoop_eq, collateralInLoop_eq]
  by_cases hempty : tx.vout = []
  · simp [hempty]
  by_cases hlock : tx.nLockTime = 0
  swap
  · simp [hempty, hlock]
  by_cases hout : ∀ txout ∈ tx.vout, env.IsNormalPaymentScript txout.scriptPubKey = true
  swap
  · rw [if_neg hout]
    simp [hempty, hlock]
  rw [if_pos hout]
  by_cases hin : ∀ txin ∈ tx.vin, (env.GetTransaction txin.prevout.hash).isSome = true
  swap
  · have hany : (tx.vin.any fun txin => (env.GetTransaction txin.prevout.hash).isNone) = true := by
      push_neg at hin
      obtain ⟨txin, hmem, hne⟩ := hin
      rw [List.any_eq_true]
      refine ⟨txin, hmem, ?_⟩
      cases h : env.GetTransaction txin.prevout.hash <;> simp_all
    simp [hempty, hlock, hany]
  · have hany : (tx.vin.any fun txin => (env.GetTransaction txin.prevout.hash).isNone) = false := by
      rw [List.any_eq_false]
      intro txin hmem
      have := hin txin hmem
      cases h : env.GetTransaction txin.prevout.hash <;> simp_all
    have hfee : ¬ sumIn env tx - sumOut tx ≥ env.PRIVATESEND_COLLATERAL :=
      fun h => hpre ⟨hempty, hlock, hout, hin, h⟩
    simp only [hany, sumIn, sumOut] at hfee ⊢
    have hfee2 : (0 : Int) + (tx.vin.map (fun txin => prevOutValue env txin.prevout)).sum
        - (0 + (tx.vout.map (fun txout => txout.nValue)).sum) < env.PRIVATESEND_COLLATERAL := by
      omega
    rw [if_neg (by simp [hempty]), if_neg (by simp [hlock])]
    dsimp only
    rw [if_neg (by simp), if_pos hfee2]

theorem IsCollateralValid_eq_some_true (env : Env) (tx : CTransaction) :
    IsCollateralValid env tx = some true ↔
      CollateralChecks env tx ∧ env.AcceptToMemoryPool tx = true ∧
        env.fMempoolKeepsRef = true := by
  by_cases hpre : CollateralChecks env tx
  · rw [IsCollateralValid_reaches_mempool env tx hpre]
    by_cases h : env.AcceptToMemoryPool tx = true ∧ env.fMempoolKeepsRef = true
    · rw [if_pos h]
      exact ⟨fun _ => ⟨hpre, h⟩, fun _ => rfl⟩
    · rw [if_neg h]
      exact ⟨fun h2 => (by cases h2), fun h2 => absurd h2.2 h⟩
  · rw [IsCollateralValid_fails_early env tx hpre]
    exact ⟨fun h2 => (by cases h2), fun h2 => absurd h2.1 hpre⟩

theorem IsCollateralValid_eq_none (env : Env) (tx : CTransaction) :
    IsCollateralValid env tx = none ↔
      CollateralChecks env tx ∧
        ¬ (env.AcceptToMemoryPool tx = true ∧ env.fMempoolKeepsRef = true) := by
  by_cases hpre : CollateralChecks env tx
  · rw [IsCollateralValid_reaches_mempool env tx hpre]
    by_cases h : env.AcceptToMemoryPool tx = true ∧ env.fMempoolKeepsRef = true
    · rw [if_pos h]
      exact ⟨fun h2 => (by cases h2), fun h2 => absurd h h2.2⟩
    · rw [if_neg h]
      exact ⟨fun _ => ⟨hpre, h⟩, fun _ => rfl⟩
  · rw [IsCollateralValid_fails_early env tx hpre]
    exact ⟨fun h2 => (by cases h2), fun h2 => absurd h2.1 hpre⟩

/-- C5 (code): `collateralExample` has an output, lock time 0, a normal payment script, a
known input and pays the fee of `PRIVATESEND_COLLATERAL`. When the mempool refuses it,
`IsCollateralValid` does not return false: `return false` destroys the reference built over
the caller's transaction and the run ends. When the mempool accepts it without keeping the
reference, the call does not return true but ends the run at the end of the block. It
returns true only with a mempool that accepts the collateral and keeps the reference. -/
theorem IsCollateralValid_ends_run_at_mempool :
    CollateralChecks envExample collateralExample ∧
    envRefuseExample.AcceptToMemoryPool collateralExample = false ∧
    IsCollateralValid envRefuseExample collateralExample = none ∧
    envNoShareExample.AcceptToMemoryPool collateralExample = true ∧
    IsCollateralValid envNoShareExample collateralExample = none ∧
    IsCollateralValid envExample collateralExample = some true := by
  refine ⟨by decide, by decide, by decide, by decide, by decide, by decide⟩

/-! ### Entry pool -/

theorem any_claimed_iff (entryNew : CDarkSendEntry) (vecEntries : List CDarkSendEntry) :
    (entryNew.vecTxDSIn.any (fun txin =>
      vecEntries.any (fun entry =>
        entry.vecTxDSIn.any (fun txdsin => txdsin.prevout == txin.prevout)))) = true ↔
      ∃ entry ∈ vecEntries, SharesOutpoint entry entryNew := by
  simp only [List.any_eq_true, beq_iff_eq, SharesOutpoint]
  constructor
  · rintro ⟨txin, hin, entry, hentry, txdsin, hds, heq⟩
    exact ⟨entry, hentry, txdsin, hds, txin, hin, heq⟩
  · rintro ⟨entry, hentry, txdsin, hds, txin, hin, heq⟩
    exact ⟨txin, hin, entry, hentry, txdsin, hds, heq⟩

/-- What `AddEntry` does on a mixer, branch by branch. -/
theorem AddEntry_mixer (env : Env) (pool : CDarksendPool) (entryNew : CDarkSendEntry)
    (nMessageIDRet : PoolMessage) (hmn : env.fSubiNode = true) :
    AddEntry env pool entryNew nMessageIDRet =
      if (∃ txin ∈ entryNew.vecTxDSIn, txin.prevout.IsNull = true) then
        some (false, ERR_INVALID_INPUT, pool)
      else
        match IsCollateralValid env entryNew.txCollateral with
        | none => none
        | some fValid =>
          if fValid = false then some (false, ERR_INVALID_COLLATERAL, pool)
          else if (pool.vecEntries.length : Int) ≥ env.nPoolMaxTransactions then
            some (false, ERR_ENTRIES_FULL, pool)
          else if (∃ entry ∈ pool.vecEntries, SharesOutpoint entry entryNew) then
            some (false, ERR_ALREADY_HAVE, pool)
          else
            some (true, MSG_ENTRIES_ADDED,
              { pool with
                vecEntries := pool.vecEntries ++ [entryNew]
                nTimeLastSuccessfulStep := env.GetTimeMillis }) := by
  unfold AddEntry
  simp only [hmn, Bool.not_true, Bool.false_eq_true, if_false]
  by_cases h1 : ∃ txin ∈ entryNew.vecTxDSIn, txin.prevout.IsNull = true
  · rw [if_pos h1, if_pos (List.any_eq_true.mpr h1)]
  rw [if_neg h1, if_neg (fun h => h1 (List.any_eq_true.mp h))]
  cases h2 : IsCollateralValid env entryNew.txCollateral with
  | none => rfl
  | some fValid =>
    cases fValid
    · simp
    simp only [Bool.not_true, Bool.false_eq_true, Bool.true_eq_false, if_false,
      CDarksendPool.GetEntriesCount, GetMaxPoolTransactions]
    by_cases h3 : (pool.vecEntries.length : Int) ≥ env.nPoolMaxTransactions
    · rw [if_pos h3, if_pos h3]
    rw [if_neg h3, if_neg h3]
    by_cases h4 : ∃ entry ∈ pool.vecEntries, SharesOutpoint entry entryNew
    · rw [if_pos h4, if_pos ((any_claimed_iff entryNew pool.vecEntries).mpr h4)]
    · rw [if_neg h4, if_neg (fun h => h4 ((any_claimed_iff entryNew pool.vecEntries).mp h))]

/-- The outcomes of `AddEntry`: the run ends, or the call returns false with the pool
unchanged, or it returns true with the entry appended; it returns true only for a
collateral that `IsCollateralValid` has accepted. -/
theorem AddEntry_outcomes (env : Env) (pool : CDarksendPool) (entryNew : CDarkSendEntry)
    (nMessageIDRet : PoolMessage) :
    AddEntry env pool entryNew nMessageIDRet = none ∨
    (∃ nMessageID, AddEntry env pool entryNew nMessageIDRet = some (false, nMessageID, pool) ∧
      (nMessageID = nMessageIDRet ∨ nMessageID = ERR_INVALID_INPUT ∨
        nMessageID = ERR_INVALID_COLLATERAL ∨ nMessageID = ERR_ENTRIES_FULL ∨
        nMessageID = ERR_ALREADY_HAVE)) ∨
    (AddEntry env pool entryNew nMessageIDRet =
        some (true, MSG_ENTRIES_ADDED,
          { pool with
            vecEntries := pool.vecEntries ++ [entryNew]
            nTimeLastSuccessfulStep := env.GetTimeMillis }) ∧
      env.fSubiNode = true ∧
      IsCollateralValid env entryNew.txCollateral = some true ∧
      (pool.vecEntries.length : Int) < env.nPoolMaxTransactions ∧
      ¬ ∃ entry ∈ pool.vecEntries, SharesOutpoint entry entryNew) := by
  cases hmn : env.fSubiNode with
  | false => exact Or.inr (Or.inl ⟨nMessageIDRet, by simp [AddEntry, hmn], Or.inl rfl⟩)
  | true =>
    rw [AddEntry_mixer env pool entryNew nMessageIDRet hmn]
    by_cases h1 : ∃ txin ∈ entryNew.vecTxDSIn, txin.prevout.IsNull = true
    · rw [if_pos h1]
      exact Or.inr (Or.inl ⟨_, rfl, Or.inr (Or.inl rfl)⟩)
    rw [if_neg h1]
    cases h2 : IsCollateralValid env entryNew.txCollateral with
    | none => exact Or.inl rfl
    | some fValid =>
      cases fValid
      · exact Or.inr (Or.inl ⟨_, rfl, Or.inr (Or.inr (Or.inl rfl))⟩)
      dsimp only
      rw [if_neg (by simp)]
      by_cases h3 : (pool.vecEntries.length : Int) ≥ env.nPoolMaxTransactions
      · rw [if_pos h3]
        exact Or.inr (Or.inl ⟨_, rfl, Or.inr (Or.inr (Or.inr (Or.inl rfl)))⟩)
      rw [if_neg h3]
      by_cases h4 : ∃ entry ∈ pool.vecEntries, SharesOutpoint entry entryNew
      · rw [if_pos h4]
        exact Or.inr (Or.inl ⟨_, rfl, Or.inr (Or.inr (Or.inr (Or.inr rfl)))⟩)
      · rw [if_neg h4]
        exact Or.inr (Or.inr ⟨rfl, rfl, rfl, by omega, h4⟩)

/-- C1: if no two distinct entries of the pool claim the same outpoint and `AddEntry`
accepts a new entry, then in the resulting entry list still no two distinct entries claim
the same outpoint. -/
theorem AddEntry_preserves_NoSharedOutpoint (env : Env) (pool : CDarksendPool)
    (entryNew : CDarkSendEntry) (nMessageIDRet nMessageID : PoolMessage)
    (poolNew : CDarksendPool)
    (hinv : NoSharedOutpoint pool.vecEntries)
    (hres : AddEntry env pool entryNew nMessageIDRet = some (true, nMessageID, poolNew)) :
    NoSharedOutpoint poolNew.vecEntries := by
  rcases AddEntry_outcomes env pool entryNew nMessageIDRet with h | ⟨m, h, _⟩ | ⟨h, _, _, _, h4⟩
  · rw [h] at hres
    cases hres
  · rw [h] at hres
    cases hres
  · rw [h] at hres
    cases hres
    simp only [NoSharedOutpoint, List.pairwise_append, List.pairwise_singleton, true_and,
      List.mem_singleton, forall_eq]
    exact ⟨hinv, fun entry hentry hshare => h4 ⟨entry, hentry, hshare⟩⟩

/-- Witness for C1: a pool holding one entry accepts a second entry that spends another
outpoint, and the two entries claim no common outpoint. -/
theorem AddEntry_preserves_NoSharedOutpoint_witness :
    NoSharedOutpoint [entryExample] ∧
    AddEntry envExample { vecEntries := [entryExample] } entryExample2 MSG_NOERR =
      some (true, MSG_ENTRIES_ADDED, { vecEntries := [entryExample, entryExample2] }) ∧
    NoSharedOutpoint [entryExample, entryExample2] :=
  ⟨by decide, by decide,
    AddEntry_preserves_NoSharedOutpoint envExample { vecEntries := [entryExample] }
      entryExample2 MSG_NOERR MSG_ENTRIES_ADDED
      { vecEntries := [entryExample, entryExample2] } (by decide) (by decide)⟩

/-- The rejections of `AddEntry` on a mixer in the order of the code, for a call of
`IsCollateralValid` that returns: `ERR_INVALID_INPUT`, `ERR_INVALID_COLLATERAL`,
`ERR_ENTRIES_FULL`, `ERR_ALREADY_HAVE`, each with the pool unchanged, and otherwise the
entry appended with `MSG_ENTRIES_ADDED`; when `IsCollateralValid` ends the run, so does
`AddEntry`. -/
theorem AddEntry_in_order (env : Env) (pool : CDarksendPool)
    (entryNew : CDarkSendEntry) (nMessageIDRet : PoolMessage) (hmn : env.fSubiNode = true) :
    ((∃ txin ∈ entryNew.vecTxDSIn, txin.prevout.IsNull = true) →
      AddEntry env pool entryNew nMessageIDRet = some (false, ERR_INVALID_INPUT, pool)) ∧
    ((¬ ∃ txin ∈ entryNew.vecTxDSIn, txin.prevout.IsNull = true) →
      IsCollateralValid env entryNew.txCollateral = none →
      AddEntry env pool entryNew nMessageIDRet = none) ∧
    ((¬ ∃ txin ∈ entryNew.vecTxDSIn, txin.prevout.IsNull = true) →
      IsCollateralValid env entryNew.txCollateral = some false →
      AddEntry env pool entryNew nMessageIDRet = some (false, ERR_INVALID_COLLATERAL, pool)) ∧
    ((¬ ∃ txin ∈ entryNew.vecTxDSIn, txin.prevout.IsNull = true) →
      IsCollateralValid env entryNew.txCollateral = some true →
      (pool.vecEntries.length : Int) ≥ env.nPoolMaxTransactions →
      AddEntry env pool entryNew nMessageIDRet = some (false, ERR_ENTRIES_FULL, pool)) ∧
    ((¬ ∃ txin ∈ entryNew.vecTxDSIn, txin.prevout.IsNull = true) →
      IsCollateralValid env entryNew.txCollateral = some true →
      (pool.vecEntries.length : Int) < env.nPoolMaxTransactions →
      (∃ txin ∈ entryNew.vecTxDSIn, ∃ entry ∈ pool.vecEntries, ∃ txdsin ∈ entry.vecTxDSIn,
        txdsin.prevout = txin.prevout) →
      AddEntry env pool entryNew nMessageIDRet = some (false, ERR_ALREADY_HAVE, pool)) ∧
    ((¬ ∃ txin ∈ entryNew.vecTxDSIn, txin.prevout.IsNull = true) →
      IsCollateralValid env entryNew.txCollateral = some true →
      (pool.vecEntries.length : Int) < env.nPoolMaxTransactions →
      (¬ ∃ txin ∈ entryNew.vecTxDSIn, ∃ entry ∈ pool.vecEntries, ∃ txdsin ∈ entry.vecTxDSIn,
        txdsin.prevout = txin.prevout) →
      AddEntry env pool entryNew nMessageIDRet =
        some (true, MSG_ENTRIES_ADDED,
          { pool with
            vecEntries := pool.vecEntries ++ [entryNew]
            nTimeLastSuccessfulStep := env.GetTimeMillis })) := by
  have hshare : (∃ txin ∈ entryNew.vecTxDSIn, ∃ entry ∈ pool.vecEntries,
      ∃ txdsin ∈ entry.vecTxDSIn, txdsin.prevout = txin.prevout) ↔
      ∃ entry ∈ pool.vecEntries, SharesOutpoint entry entryNew := by
    constructor
    · rintro ⟨txin, hin, entry, hentry, txdsin, hds, heq⟩
      exact ⟨entry, hentry, txdsin, hds, txin, hin, heq⟩
    · rintro ⟨entry, hentry, txdsin, hds, txin, hin, heq⟩
      exact ⟨txin, hin, entry, hentry, txdsin, hds, heq⟩
  rw [AddEntry_mixer env pool entryNew nMessageIDRet hmn, hshare]
  refine ⟨fun h1 => ?_, fun h1 h2 => ?_, fun h1 h2 => ?_, fun h1 h2 h3 => ?_,
    fun h1 h2 h3 h4 => ?_, fun h1 h2 h3 h4 => ?_⟩
  · rw [if_pos h1]
  · rw [if_neg h1, h2]
  · rw [if_neg h1, h2]
    rfl
  · rw [if_neg h1, h2]
    dsimp only
    rw [if_neg (by simp), if_pos h3]
  · rw [if_neg h1, h2]
    dsimp only
    rw [if_neg (by simp), if_neg (by omega), if_pos h4]
  · rw [if_neg h1, h2]
    dsimp only
    rw [if_neg (by simp), if_neg (by omega), if_neg h4]

/-- C2 (code): on the example mixer with a mempool that refuses the collateral, an entry
without a null input whose collateral passes every check before the mempool is not
rejected with `ERR_INVALID_COLLATERAL`: `AddEntry` does not return, the run ends when
`IsCollateralValid` destroys its reference over the collateral. The same entry is appended
when the mempool accepts the collateral and keeps the reference, and an entry whose
collateral fails an earlier check (no output) is rejected with `ERR_INVALID_COLLATERAL`. -/
theorem AddEntry_ends_run_on_refused_collateral :
    envRefuseExample.fSubiNode = true ∧
    (¬ ∃ txin ∈ entryExample.vecTxDSIn, txin.prevout.IsNull = true) ∧
    CollateralChecks envRefuseExample entryExample.txCollateral ∧
    envRefuseExample.AcceptToMemoryPool entryExample.txCollateral = false ∧
    AddEntry envRefuseExample {} entryExample MSG_NOERR = none ∧
    AddEntry envExample {} entryExample MSG_NOERR =
      some (true, MSG_ENTRIES_ADDED, { vecEntries := [entryExample] }) ∧
    AddEntry envRefuseExample {} { entryExample with txCollateral := {} } MSG_NOERR =
      some (false, ERR_INVALID_COLLATERAL, {}) := by
  refine ⟨by decide, by decide, by decide, by decide, by decide, by decide, by decide⟩

/-! ### Final transaction assembly -/

theorem COutPoint.lt_iff (a b : COutPoint) :
    a.lt b = true ↔ a.hash < b.hash ∨ (a.hash = b.hash ∧ a.n < b.n) := by
  simp [COutPoint.lt]

theorem inputOrd_iff (a b : CTxIn) : inputOrd a b ↔ bip69InputLe a b := by
  unfold inputOrd bip69InputLe CTxIn.lt
  rw [← Bool.not_eq_true, COutPoint.lt_iff]
  omega

theorem scriptLt_eq_false_iff : ∀ (a b : CScript), scriptLt b a = false ↔ scriptLe a b
  | [], [] => by simp [scriptLt, scriptLe]
  | [], _ :: _ => by simp [scriptLt, scriptLe]
  | _ :: _, [] => by simp [scriptLt, scriptLe]
  | a :: as, b :: bs => by
    have ih := scriptLt_eq_false_iff as bs
    simp only [scriptLt, scriptLe, Bool.or_eq_false_iff, Bool.and_eq_false_iff,
      decide_eq_false_iff_not, beq_eq_false_iff_ne, ne_eq, ih]
    constructor
    · rintro ⟨h1, h2 | h2⟩
      · omega
      · by_cases hab : a = b
        · exact Or.inr ⟨hab, h2⟩
        · omega
    · rintro (h | ⟨h1, h2⟩)
      · omega
      · exact ⟨by omega, Or.inr h2⟩

theorem scriptLe_total : ∀ (a b : CScript), scriptLe a b ∨ scriptLe b a
  | [], _ => Or.inl (by simp [scriptLe])
  | _ :: _, [] => Or.inr (by simp [scriptLe])
  | a :: as, b :: bs => by
    simp only [scriptLe]
    rcases scriptLe_total as bs with h | h
    · rcases Nat.lt_trichotomy a b with h1 | h1 | h1
      · exact Or.inl (Or.inl h1)
      · exact Or.inl (Or.inr ⟨h1, h⟩)
      · exact Or.inr (Or.inl h1)
    · rcases Nat.lt_trichotomy a b with h1 | h1 | h1
      · exact Or.inl (Or.inl h1)
      · exact Or.inr (Or.inr ⟨h1.symm, h⟩)
      · exact Or.inr (Or.inl h1)

theorem scriptLe_trans : ∀ (a b c : CScript), scriptLe a b → scriptLe b c → scriptLe a c
  | [], _, _ => fun _ _ => by simp [scriptLe]
  | _ :: _, [], _ => fun h _ => by simp [scriptLe] at h
  | _ :: _, _ :: _, [] => fun _ h => by simp [scriptLe] at h
  | a :: as, b :: bs, c :: cs => by
    simp only [scriptLe]
    rintro (h1 | ⟨h1, h2⟩) (h3 | ⟨h3, h4⟩)
    · exact Or.inl (by omega)
    · exact Or.inl (by omega)
    · exact Or.inl (by omega)
    · exact Or.inr ⟨by omega, scriptLe_trans as bs cs h2 h4⟩

theorem outputOrd_iff (a b : CTxOut) : outputOrd a b ↔ bip69OutputLe a b := by
  unfold outputOrd bip69OutputLe CTxOut.lt
  simp only [Bool.or_eq_false_iff, Bool.and_eq_false_iff, decide_eq_false_iff_not,
    beq_eq_false_iff_ne, ne_eq, scriptLt_eq_false_iff]
  constructor
  · rintro ⟨h1, h2 | h2⟩
    · exact Or.inl (by omega)
    · by_cases hab : a.nValue = b.nValue
      · exact Or.inr ⟨hab, h2⟩
      · exact Or.inl (by omega)
  · rintro (h | ⟨h1, h2⟩)
    · exact ⟨by omega, Or.inl (by omega)⟩
    · exact ⟨by omega, Or.inr h2⟩

instance : IsTotal CTxIn inputOrd :=
  ⟨fun a b => by simp only [inputOrd_iff, bip69InputLe]; omega⟩

instance : IsTrans CTxIn inputOrd :=
  ⟨fun a b c => by simp only [inputOrd_iff, bip69InputLe]; omega⟩

instance : IsTotal CTxOut outputOrd :=
  ⟨fun a b => by
    simp only [outputOrd_iff, bip69OutputLe]
    rcases scriptLe_total a.scriptPubKey b.scriptPubKey with h | h
    · rcases lt_trichotomy a.nValue b.nValue with h1 | h1 | h1
      · exact Or.inl (Or.inl h1)
      · exact Or.inl (Or.inr ⟨h1, h⟩)
      · exact Or.inr (Or.inl h1)
    · rcases lt_trichotomy a.nValue b.nValue with h1 | h1 | h1
      · exact Or.inl (Or.inl h1)
      · exact Or.inr (Or.inr ⟨h1.symm, h⟩)
      · exact Or.inr (Or.inl h1)⟩

instance : IsTrans CTxOut outputOrd :=
  ⟨fun a b c => by
    simp only [outputOrd_iff, bip69OutputLe]
    rintro (h1 | ⟨h1, h2⟩) (h3 | ⟨h3, h4⟩)
    · exact Or.inl (by omega)
    · exact Or.inl (by omega)
    · exact Or.inl (by omega)
    · exact Or.inr ⟨by omega, scriptLe_trans _ _ _ h2 h4⟩⟩

theorem collectEntries_eq (vecEntries : List CDarkSendEntry) (txNew : CTransaction) :
    collectEntries vecEntries txNew =
      { txNew with
        vout := txNew.vout ++ allOutputs vecEntries
        vin := txNew.vin ++ allInputs vecEntries } := by
  induction vecEntries generalizing txNew with
  | nil => simp [collectEntries, allOutputs, allInputs]
  | cons entry rest ih => simp [collectEntries, allOutputs, allInputs, ih]

/-- C3: after `CreateFinalTransaction` the inputs of the final transaction are a
permutation of the concatenated inputs of all entries and stand in nondecreasing BIP69
input order (previous transaction hash, then index), the outputs are a permutation of the
concatenated outputs of all entries and stand in nondecreasing BIP69 output order (value,
then script), and the state is `SIGNING`. -/
theorem CreateFinalTransaction_bip69 (env : Env) (w : World) :
    (CreateFinalTransaction env w).pool.finalMutableTransaction.vin.Perm
        (allInputs w.pool.vecEntries) ∧
    (CreateFinalTransaction env w).pool.finalMutableTransaction.vin.Pairwise bip69InputLe ∧
    (CreateFinalTransaction env w).pool.finalMutableTransaction.vout.Perm
        (allOutputs w.pool.vecEntries) ∧
    (CreateFinalTransaction env w).pool.finalMutableTransaction.vout.Pairwise bip69OutputLe ∧
    (CreateFinalTransaction env w).pool.nState = POOL_STATE_SIGNING := by
  have hstate : ∀ pool : CDarksendPool,
      (pool.SetState env POOL_STATE_SIGNING).nState = POOL_STATE_SIGNING ∧
      (pool.SetState env POOL_STATE_SIGNING).finalMutableTransaction =
        pool.finalMutableTransaction := by
    intro pool
    unfold CDarksendPool.SetState
    cases env.fSubiNode <;> simp
  simp only [CreateFinalTransaction, collectEntries_eq, hstate, List.nil_append, and_true]
  refine ⟨List.perm_insertionSort _ _, ?_, List.perm_insertionSort _ _, ?_⟩
  · exact (List.sorted_insertionSort inputOrd _).imp (fun h => (inputOrd_iff _ _).mp h)
  · exact (List.sorted_insertionSort outputOrd _).imp (fun h => (outputOrd_iff _ _).mp h)

/-! ### Entry submission -/

/-- C4 (the code departs from the claim): on a mixer whose mempool accepts the transaction
of the entry and its collateral and keeps the references it is handed, a session of
denomination mask `2` with no entry yet accepts through `DSVIN` an entry whose outputs have
denomination mask `1`, and the handling returns with the entry in the pool; the outputs
are only compared with the entries already in the pool. -/
theorem ProcessMessageDSVIN_accepts_other_denom :
    envExample.fMempoolKeepsRef = true ∧
    (ProcessMessageDSVIN envExample poolReadyExample 70206 entryTenCoinsExample).1 =
      some (STATUS_ACCEPTED, MSG_ENTRIES_ADDED) ∧
    (ProcessMessageDSVIN envExample poolReadyExample 70206 entryTenCoinsExample).2.1.vecEntries =
      [entryTenCoinsExample] ∧
    (ProcessMessageDSVIN envExample poolReadyExample 70206 entryTenCoinsExample).2.1.nSessionDenom
      = 2 ∧
    (ProcessMessageDSVIN envExample poolReadyExample 70206 entryTenCoinsExample).2.2 = false ∧
    GetDenominations envExample.vecPrivateSendDenominations entryTenCoinsExample.vecTxDSOut = 1 ∧
    (ProcessMessageDSVINWorld envExample { pool := poolReadyExample } 70206 entryTenCoinsExample
      true []).pool.vecEntries = [entryTenCoinsExample] ∧
    (ProcessMessageDSVINWorld envExample { pool := poolReadyExample } 70206 entryTenCoinsExample
      true []).fAborted = false ∧
    (ProcessMessageDSVINWorld envExample { pool := poolReadyExample } 70206 entryTenCoinsExample
      true []).vTrace =
      [Effect.PushStatus 42 POOL_STATE_ACCEPTING_ENTRIES 1 STATUS_ACCEPTED MSG_ENTRIES_ADDED,
        Effect.RelayStatus 42 POOL_STATE_ACCEPTING_ENTRIES 1 STATUS_ACCEPTED MSG_NOERR] := by
  decide

theorem dsvinOutLoop_ok (env : Env) (vout : List CTxDSOut) (nValueOut : Int)
    (h : ∀ txout ∈ vout, txout.scriptPubKey.length = 25 ∧
      env.IsNormalPaymentScript txout.scriptPubKey = true) :
    dsvinOutLoop env vout nValueOut =
      .ok (nValueOut + (vout.map (fun txout => txout.nValue)).sum) := by
  induction vout generalizing nValueOut with
  | nil => simp [dsvinOutLoop]
  | cons txout rest ih =>
    have h1 := h txout (List.mem_cons_self _ _)
    have h2 : ∀ t ∈ rest, t.scriptPubKey.length = 25 ∧
        env.IsNormalPaymentScript t.scriptPubKey = true :=
      fun t ht => h t (List.mem_cons_of_mem _ ht)
    simp [dsvinOutLoop, h1.1, h1.2, ih _ h2, add_assoc]

theorem dsvinInLoop_ok (env : Env) (vin : List CTxDSIn) (nValueIn : Int)
    (h : ∀ txin ∈ vin, (env.GetTransaction txin.prevout.hash).isSome = true) :
    dsvinInLoop env vin nValueIn =
      .ok (nValueIn + (vin.map (fun txin => prevOutValue env txin.prevout)).sum) := by
  induction vin generalizing nValueIn with
  | nil => simp [dsvinInLoop]
  | cons txin rest ih =>
    have h1 := h txin (List.mem_cons_self _ _)
    have h2 : ∀ t ∈ rest, (env.GetTransaction t.prevout.hash).isSome = true :=
      fun t ht => h t (List.mem_cons_of_mem _ ht)
    cases hget : env.GetTransaction txin.prevout.hash with
    | none => simp [hget] at h1
    | some txPrev =>
      by_cases hlen : txPrev.vout.length > txin.prevout.n
      · simp [dsvinInLoop, hget, hlen, ih _ h2, prevOutValue, List.get?_eq_get hlen, add_assoc]
      · have hnone : txPrev.vout[txin.prevout.n]? = none :=
          List.getElem?_eq_none (by omega)
        simp [dsvinInLoop, hget, hlen, ih _ h2, prevOutValue, hnone]

theorem AddEntry_message_ne_fees (env : Env) (pool : CDarksendPool) (entryNew : CDarkSendEntry)
    (r : Bool × PoolMessage × CDarksendPool)
    (hret : AddEntry env pool entryNew MSG_NOERR = some r) : r.2.1 ≠ ERR_FEES := by
  rcases AddEntry_outcomes env pool entryNew MSG_NOERR with h | ⟨m, h, hm⟩ | ⟨h, -⟩
  · rw [h] at hret
    cases hret
  · rw [h] at hret
    cases hret
    rcases hm with hm | hm | hm | hm | hm <;> rw [hm] <;> simp
  · rw [h] at hret
    cases hret
    simp

theorem smallestDenomination_InitDenominations (COIN : Int) (hcoin : 0 ≤ COIN) :
    smallestDenomination (InitDenominations COIN) = (InitDenominations COIN).getLastD 0 ∧
    (InitDenominations COIN).getLastD 0 ∈ InitDenominations COIN ∧
    ∀ nDenomValue ∈ InitDenominations COIN,
      (InitDenominations COIN).getLastD 0 ≤ nDenomValue := by
  have h1 : COIN / 100 + 10 ≤ COIN / 10 + 100 := by omega
  have h2 : COIN / 10 + 100 ≤ 1 * COIN + 1000 := by omega
  have h3 : 1 * COIN + 1000 ≤ 10 * COIN + 10000 := by omega
  simp only [smallestDenomination, InitDenominations, List.foldl_cons, List.foldl_nil,
    List.headD_cons, List.getLastD_cons, List.getLastD_nil, List.mem_cons, List.mem_singleton,
    List.not_mem_nil, or_false, forall_eq_or_imp, forall_eq]
  refine ⟨?_, by simp, by omega, by omega, h1, le_refl _⟩
  rw [inf_idem, inf_eq_right.mpr h3, inf_eq_right.mpr h2, inf_eq_right.mpr h1]

/-- C6: for an entry that passes the checks preceding the fee check of the `DSVIN`
handling (the message is processed, version, role, session ready, denomination
compatibility, output scripts, known inputs, input-value ceiling), with the denomination
table set up by `InitDenominations`, the entry is rejected with `ERR_FEES` if and only if
`sum_in − sum_out` is strictly greater than the smallest denomination of the table, which
is the last table element the code compares against; a fee equal to the smallest
denomination is not rejected for fees. -/
theorem ProcessMessageDSVIN_fee_ceiling (env : Env) (pool : CDarksendPool) (nVersion : Int)
    (entry : CDarkSendEntry) (COIN : Int) (hcoin : 0 ≤ COIN)
    (htable : env.vecPrivateSendDenominations = InitDenominations COIN)
    (hlite : env.fLiteMode = false) (hsync : env.fBlockchainSynced = true)
    (hver : nVersion ≥ env.MIN_PRIVATESEND_PEER_PROTO_VERSION)
    (hmn : env.fSubiNode = true)
    (hready : pool.IsSessionReady env = true)
    (hcompat : IsOutputsCompatibleWithSessionDenom env pool entry.vecTxDSOut = true)
    (hscripts : ∀ txout ∈ entry.vecTxDSOut, txout.scriptPubKey.length = 25 ∧
      env.IsNormalPaymentScript txout.scriptPubKey = true)
    (hknown : ∀ txin ∈ entry.vecTxDSIn, (env.GetTransaction txin.prevout.hash).isSome = true)
    (hmax : entrySumIn env entry ≤ env.PRIVATESEND_POOL_MAX) :
    ((ProcessMessageDSVIN env pool nVersion entry).1 = some (STATUS_REJECTED, ERR_FEES) ↔
      entrySumIn env entry - entrySumOut entry >
        smallestDenomination env.vecPrivateSendDenominations) ∧
    (entrySumIn env entry - entrySumOut entry =
        smallestDenomination env.vecPrivateSendDenominations →
      (ProcessMessageDSVIN env pool nVersion entry).1 ≠ some (STATUS_REJECTED, ERR_FEES)) ∧
    smallestDenomination env.vecPrivateSendDenominations =
      env.vecPrivateSendDenominations.getLastD 0 ∧
    (∀ nDenomValue ∈ env.vecPrivateSendDenominations,
      smallestDenomination env.vecPrivateSendDenominations ≤ nDenomValue) := by
  obtain ⟨hsmall, -, hleast⟩ := smallestDenomination_InitDenominations COIN hcoin
  rw [← htable] at hsmall hleast
  have hiff : (ProcessMessageDSVIN env pool nVersion entry).1 = some (STATUS_REJECTED, ERR_FEES) ↔
      entrySumIn env entry - entrySumOut entry >
        smallestDenomination env.vecPrivateSendDenominations := by
    rw [hsmall]
    unfold ProcessMessageDSVIN
    rw [dsvinOutLoop_ok env _ _ hscripts, dsvinInLoop_ok env _ _ hknown]
    simp only [hlite, hsync, hmn, hready, hcompat, Bool.false_eq_true, if_false, Bool.not_true,
      not_lt.mpr hver, zero_add]
    have hmax' : ¬ (entry.vecTxDSIn.map (fun txin => prevOutValue env txin.prevout)).sum >
        env.PRIVATESEND_POOL_MAX := not_lt.mpr hmax
    rw [if_neg hmax']
    unfold entrySumIn entrySumOut
    by_cases hfee : (entry.vecTxDSIn.map (fun txin => prevOutValue env txin.prevout)).sum -
        (entry.vecTxDSOut.map (fun txout => txout.nValue)).sum >
          env.vecPrivateSendDenominations.getLastD 0
    · rw [if_pos hfee]
      exact iff_of_true rfl hfee
    · rw [if_neg hfee]
      refine iff_of_false ?_ hfee
      split_ifs with h1 h2
      · simp
      · simp
      · cases hadd : AddEntry env pool entry MSG_NOERR with
        | none => simp
        | some r =>
          dsimp only
          split_ifs with h3
          · simp only [Option.some.injEq, Prod.mk.injEq, not_and]
            intro h
            simp at h
          · simp only [Option.some.injEq, Prod.mk.injEq, not_and]
            intro _
            exact AddEntry_message_ne_fees env pool entry r hadd
  refine ⟨hiff, fun heq hrej => ?_, hsmall, ?_⟩
  · have := hiff.mp hrej
    omega
  · intro nDenomValue hmem
    rw [hsmall]
    exact hleast nDenomValue hmem

/-- Witness for C6: on the example mixer a fee of twice the smallest denomination is
rejected with `ERR_FEES` and a fee equal to the smallest denomination is not. -/
theorem ProcessMessageDSVIN_fee_ceiling_witness :
    (ProcessMessageDSVIN envExample poolReadyExample 70206 entryDoubleFeeExample).1 =
      some (STATUS_REJECTED, ERR_FEES) ∧
    (ProcessMessageDSVIN envExample poolReadyExample 70206 entryTieFeeExample).1 ≠
      some (STATUS_REJECTED, ERR_FEES) :=
  ⟨(ProcessMessageDSVIN_fee_ceiling envExample poolReadyExample 70206 entryDoubleFeeExample
      100000000 (by decide) rfl rfl rfl (by decide) rfl (by decide) (by decide) (by decide)
      (by decide) (by decide)).1.mpr (by decide),
    (ProcessMessageDSVIN_fee_ceiling envExample poolReadyExample 70206 entryTieFeeExample
      100000000 (by decide) rfl rfl rfl (by decide) rfl (by decide) (by decide) (by decide)
      (by decide) (by decide)).2.1 (by decide)⟩

/-! ### Queue gossip and the rate limiter -/

theorem find_updateSubinode (vin : CTxIn) (mnNew : CSubinode) (vSubinodes : List CSubinode)
    (pmn : CSubinode)
    (hfind : vSubinodes.find? (fun mn => mn.vin.prevout == vin.prevout) = some pmn)
    (hvin : mnNew.vin.prevout = vin.prevout) :
    (updateSubinode vin mnNew vSubinodes).find? (fun mn => mn.vin.prevout == vin.prevout) =
      some mnNew := by
  induction vSubinodes with
  | nil => simp at hfind
  | cons mn rest ih =>
    by_cases h : mn.vin.prevout = vin.prevout
    · simp [updateSubinode, h, hvin]
    · have hb : (mn.vin.prevout == vin.prevout) = false := by simp [h]
      rw [List.find?_cons, hb] at hfind
      simp only [updateSubinode, hb, Bool.false_eq_true, if_false, List.find?_cons]
      exact ih hfind

theorem markTried_wire (pSubmitted : Option CSubinode) (dsq : CDarksendQueue) :
    (markTried pSubmitted dsq).eq dsq = true ∧ (markTried pSubmitted dsq).vin = dsq.vin := by
  cases pSubmitted with
  | none => simp [markTried, CDarksendQueue.eq]
  | some pSubmitted =>
    simp only [markTried]
    split_ifs <;> simp [CDarksendQueue.eq]

theorem not_expired_not_future (env : Env) (dsq : CDarksendQueue)
    (h : dsq.IsExpired env = false) :
    ¬ dsq.nTime > env.GetTime + env.PRIVATESEND_QUEUE_TIMEOUT := by
  simp only [CDarksendQueue.IsExpired, decide_eq_false_iff_not, not_lt] at h
  have := (abs_le.mp h).1
  omega

/-- The non-ready branch of the `DSQUEUE` handling, once the message has passed the gates
before it. -/
theorem ProcessMessageDSQUEUE_not_ready (env : Env) (w : World) (nVersion : Int)
    (dsq : CDarksendQueue) (pmn : CSubinode)
    (hlite : env.fLiteMode = false) (hsync : env.fBlockchainSynced = true)
    (hver : nVersion ≥ env.MIN_PRIVATESEND_PEER_PROTO_VERSION)
    (hnotready : dsq.fReady = false)
    (hnew : ∀ q ∈ w.pool.vecDarksendQueue, q.eq dsq = false)
    (hfresh : dsq.IsExpired env = false)
    (hknown : w.mnodeman.Find dsq.vin = some pmn)
    (hsig : env.CheckSignature dsq pmn.pubKeySubinode = true)
    (hnone : ∀ q ∈ w.pool.vecDarksendQueue, q.vin ≠ dsq.vin) :
    ProcessMessageDSQUEUE env w true nVersion dsq =
      if pmn.nLastDsq ≠ 0 ∧
          toInt32 (pmn.nLastDsq
            + w.mnodeman.CountEnabled env.MIN_PRIVATESEND_PEER_PROTO_VERSION / 5)
            > w.mnodeman.nDsqCount then w
      else
        { w with
          pool := { w.pool with vecDarksendQueue :=
            w.pool.vecDarksendQueue ++ [markTried w.pool.pSubmittedToSubinode dsq] }
          mnodeman :=
            { vSubinodes := updateSubinode dsq.vin
                { pmn with nLastDsq := w.mnodeman.nDsqCount + 1, fAllowMixingTx := true }
                w.mnodeman.vSubinodes
              nDsqCount := w.mnodeman.nDsqCount + 1 }
          vTrace := w.vTrace ++ [Effect.RelayQueue (markTried w.pool.pSubmittedToSubinode dsq)] } := by
  have h1 : (w.pool.vecDarksendQueue.any (fun q => q.eq dsq)) = false := by
    rw [List.any_eq_false]
    intro q hq
    simp [hnew q hq]
  have h2 : (w.pool.vecDarksendQueue.any (fun q => q.vin == dsq.vin)) = false := by
    rw [List.any_eq_false]
    intro q hq
    simp [hnone q hq]
  have h3 := not_expired_not_future env dsq hfresh
  unfold ProcessMessageDSQUEUE
  simp only [hlite, hsync, h1, h2, hfresh, hknown, hsig, hnotready, Bool.false_eq_true, if_false,
    Bool.not_true, not_lt.mpr hver, Bool.false_or, decide_eq_true_eq, h3, (markTried_wire _ _).2]
  by_cases hc : pmn.nLastDsq ≠ 0 ∧
      toInt32 (pmn.nLastDsq
        + w.mnodeman.CountEnabled env.MIN_PRIVATESEND_PEER_PROTO_VERSION / 5)
        > w.mnodeman.nDsqCount
  · rw [if_pos hc, if_pos (by simpa using hc)]
  · rw [if_neg hc, if_neg (by simpa using hc)]

theorem toInt32_of_range (x : Int) (h1 : -2147483648 ≤ x) (h2 : x < 2147483648) :
    toInt32 x = x := by
  unfold toInt32
  omega

/-- The rate limiter of the `DSQUEUE` handling: a non-ready queue that is new, unexpired,
correctly signed and comes from a known mixer `M` without a queue in the queue vector is
dropped, with the world unchanged, if `M.last_dsq ≠ 0` and the threshold kept in the `int`
variable is above `dsq_count`; otherwise the counter grows by exactly 1, `M.last_dsq`
becomes the new counter, `M` is marked mixing-allowed, and the queue is appended at the end
of the queue vector and relayed. The threshold is `M.last_dsq + enabled/5` when that sum
is in the range of `int`. -/
theorem ProcessMessageDSQUEUE_rate_limiter (env : Env) (w : World) (nVersion : Int)
    (dsq : CDarksendQueue) (pmn : CSubinode)
    (hlite : env.fLiteMode = false) (hsync : env.fBlockchainSynced = true)
    (hver : nVersion ≥ env.MIN_PRIVATESEND_PEER_PROTO_VERSION)
    (hnotready : dsq.fReady = false)
    (hnew : ∀ q ∈ w.pool.vecDarksendQueue, q.eq dsq = false)
    (hfresh : dsq.IsExpired env = false)
    (hknown : w.mnodeman.Find dsq.vin = some pmn)
    (hsig : env.CheckSignature dsq pmn.pubKeySubinode = true)
    (hnone : ∀ q ∈ w.pool.vecDarksendQueue, q.vin ≠ dsq.vin) :
    (pmn.nLastDsq ≠ 0 ∧
        toInt32 (pmn.nLastDsq
          + w.mnodeman.CountEnabled env.MIN_PRIVATESEND_PEER_PROTO_VERSION / 5)
          > w.mnodeman.nDsqCount →
      ProcessMessageDSQUEUE env w true nVersion dsq = w) ∧
    (¬ (pmn.nLastDsq ≠ 0 ∧
        toInt32 (pmn.nLastDsq
          + w.mnodeman.CountEnabled env.MIN_PRIVATESEND_PEER_PROTO_VERSION / 5)
          > w.mnodeman.nDsqCount) →
      (ProcessMessageDSQUEUE env w true nVersion dsq).mnodeman.nDsqCount =
        w.mnodeman.nDsqCount + 1 ∧
      (ProcessMessageDSQUEUE env w true nVersion dsq).mnodeman.Find dsq.vin =
        some { pmn with nLastDsq := w.mnodeman.nDsqCount + 1, fAllowMixingTx := true } ∧
      (ProcessMessageDSQUEUE env w true nVersion dsq).pool.vecDarksendQueue =
        w.pool.vecDarksendQueue ++ [markTried w.pool.pSubmittedToSubinode dsq] ∧
      (ProcessMessageDSQUEUE env w true nVersion dsq).vTrace =
        w.vTrace ++ [Effect.RelayQueue (markTried w.pool.pSubmittedToSubinode dsq)] ∧
      (markTried w.pool.pSubmittedToSubinode dsq).eq dsq = true) ∧
    (-2147483648 ≤ pmn.nLastDsq
        + w.mnodeman.CountEnabled env.MIN_PRIVATESEND_PEER_PROTO_VERSION / 5 →
      pmn.nLastDsq + w.mnodeman.CountEnabled env.MIN_PRIVATESEND_PEER_PROTO_VERSION / 5
        < 2147483648 →
      toInt32 (pmn.nLastDsq
          + w.mnodeman.CountEnabled env.MIN_PRIVATESEND_PEER_PROTO_VERSION / 5) =
        pmn.nLastDsq + w.mnodeman.CountEnabled env.MIN_PRIVATESEND_PEER_PROTO_VERSION / 5) := by
  rw [ProcessMessageDSQUEUE_not_ready env w nVersion dsq pmn hlite hsync hver hnotready hnew
    hfresh hknown hsig hnone]
  refine ⟨fun hc => by rw [if_pos hc], fun hc => ?_, toInt32_of_range _⟩
  rw [if_neg hc]
  refine ⟨rfl, ?_, rfl, rfl, (markTried_wire _ _).1⟩
  have hvin : pmn.vin.prevout = dsq.vin.prevout := by
    have := List.find?_some hknown
    simpa using this
  exact find_updateSubinode dsq.vin _ _ pmn hknown hvin

/-- C7 (code): fifty enabled mixers, the counter at `2^32 + 100`, and a non-ready, new,
unexpired, correctly signed queue of mixer 0, whose `last_dsq` is `2^32 + 95` and which has
no queue in the vector. `last_dsq + enabled/5 = 2^32 + 105` is above the counter, so the
queue is to be dropped. The handler keeps the sum in an `int`, where it is `105`, not above
the counter: the queue is accepted, the counter grows by 1 and the queue is stored and
relayed. `DSACCEPT` compares the same sum without the `int` and answers `ERR_RECENT` with
the same counters; with the counters `100` and `95` the queue is dropped. -/
theorem ProcessMessageDSQUEUE_threshold_narrowed :
    worldWideCounterExample.mnodeman.CountEnabled envExample.MIN_PRIVATESEND_PEER_PROTO_VERSION
      = 50 ∧
    worldWideCounterExample.mnodeman.Find (queueExample 0).vin =
      some { mixerExample 0 with nLastDsq := 4294967391 } ∧
    (4294967391 : Int) + 50 / 5 > worldWideCounterExample.mnodeman.nDsqCount ∧
    toInt32 (4294967391 + 50 / 5) = 105 ∧
    (ProcessMessageDSQUEUE envExample worldWideCounterExample true 70206
      (queueExample 0)).mnodeman.nDsqCount = 4294967397 ∧
    (ProcessMessageDSQUEUE envExample worldWideCounterExample true 70206
      (queueExample 0)).pool.vecDarksendQueue = [queueExample 0] ∧
    (ProcessMessageDSQUEUE envExample worldWideCounterExample true 70206
      (queueExample 0)).vTrace = [Effect.RelayQueue (queueExample 0)] ∧
    (ProcessMessageDSACCEPT envExample worldWideCounterExample 70206 2 collateralExample
      41).vTrace = [Effect.PushStatus 0 POOL_STATE_IDLE 0 STATUS_REJECTED ERR_RECENT] ∧
    ProcessMessageDSQUEUE envExample worldRateLimitExample true 70206 (queueExample 0) =
      worldRateLimitExample := by
  decide

/-- C8 fails as stated, in two ways. With 50 enabled mixers and a counter of 3, the queue
of a mixer whose `last_dsq` is 0 is accepted (appended and relayed) although
`last_dsq + enabled/5 = 10 > 3`: the limiter is guarded by `last_dsq ≠ 0`. With a counter
of `2^32 + 100`, the queue of a mixer whose `last_dsq` is `2^32 + 95` is accepted although
`last_dsq + enabled/5 = 2^32 + 105` is above the counter: the sum is kept in an `int`,
where it is `105`. -/
theorem ProcessMessageDSQUEUE_accepts_first_queue_below_threshold :
    (ProcessMessageDSQUEUE envExample worldFreshExample true 70206 (queueExample 1)).vTrace =
      [Effect.RelayQueue (queueExample 1)] ∧
    (ProcessMessageDSQUEUE envExample worldFreshExample true 70206
      (queueExample 1)).pool.vecDarksendQueue = [queueExample 1] ∧
    worldFreshExample.mnodeman.Find (queueExample 1).vin = some (mixerExample 1) ∧
    ¬ ((mixerExample 1).nLastDsq +
        worldFreshExample.mnodeman.CountEnabled envExample.MIN_PRIVATESEND_PEER_PROTO_VERSION / 5
      ≤ worldFreshExample.mnodeman.nDsqCount) ∧
    (ProcessMessageDSQUEUE envExample worldWideCounterExample true 70206
      (queueExample 0)).vTrace = [Effect.RelayQueue (queueExample 0)] ∧
    (ProcessMessageDSQUEUE envExample worldWideCounterExample true 70206
      (queueExample 0)).pool.vecDarksendQueue = [queueExample 0] ∧
    worldWideCounterExample.mnodeman.Find (queueExample 0).vin =
      some { mixerExample 0 with nLastDsq := 4294967391 } ∧
    (4294967391 : Int) ≠ 0 ∧
    ¬ ((4294967391 : Int) +
        worldWideCounterExample.mnodeman.CountEnabled
          envExample.MIN_PRIVATESEND_PEER_PROTO_VERSION / 5
      ≤ worldWideCounterExample.mnodeman.nDsqCount) := by
  decide

/-- Outcomes of the `DSQUEUE` handling: the message is dropped, the mixer is asked for
again, the pending entry is submitted, or the queue passes the rate limiter and is stored
and relayed. -/
theorem ProcessMessageDSQUEUE_outcomes (env : Env) (w : World) (lockRecv : Bool)
    (nVersion : Int) (dsq : CDarksendQueue) :
    ProcessMessageDSQUEUE env w lockRecv nVersion dsq = w ∨
    ProcessMessageDSQUEUE env w lockRecv nVersion dsq =
      { w with vTrace := w.vTrace ++ [Effect.AskForMN dsq.vin] } ∨
    ProcessMessageDSQUEUE env w lockRecv nVersion dsq =
      { w with vTrace := w.vTrace ++ [Effect.SubmitDenominate] } ∨
    ∃ pmn, w.mnodeman.Find dsq.vin = some pmn ∧
      ¬ (pmn.nLastDsq ≠ 0 ∧
        toInt32 (pmn.nLastDsq
          + w.mnodeman.CountEnabled env.MIN_PRIVATESEND_PEER_PROTO_VERSION / 5)
          > w.mnodeman.nDsqCount) ∧
      ProcessMessageDSQUEUE env w lockRecv nVersion dsq =
        { w with
          pool := { w.pool with vecDarksendQueue :=
            w.pool.vecDarksendQueue ++ [markTried w.pool.pSubmittedToSubinode dsq] }
          mnodeman :=
            { vSubinodes := updateSubinode dsq.vin
                { pmn with nLastDsq := w.mnodeman.nDsqCount + 1, fAllowMixingTx := true }
                w.mnodeman.vSubinodes
              nDsqCount := w.mnodeman.nDsqCount + 1 }
          vTrace := w.vTrace ++ [Effect.RelayQueue (markTried w.pool.pSubmittedToSubinode dsq)] } := by
  unfold ProcessMessageDSQUEUE
  by_cases h1 : env.fLiteMode = true
  · exact Or.inl (if_pos h1)
  rw [if_neg h1]
  by_cases h2 : (!env.fBlockchainSynced) = true
  · exact Or.inl (if_pos h2)
  rw [if_neg h2]
  by_cases h3 : (!lockRecv) = true
  · exact Or.inl (if_pos h3)
  rw [if_neg h3]
  by_cases h4 : nVersion < env.MIN_PRIVATESEND_PEER_PROTO_VERSION
  · exact Or.inl (if_pos h4)
  rw [if_neg h4]
  by_cases h5 : (w.pool.vecDarksendQueue.any fun q => q.eq dsq) = true
  · exact Or.inl (if_pos h5)
  rw [if_neg h5]
  by_cases h6 : (dsq.IsExpired env ||
      decide (dsq.nTime > env.GetTime + env.PRIVATESEND_QUEUE_TIMEOUT)) = true
  · exact Or.inl (if_pos h6)
  rw [if_neg h6]
  cases hfind : w.mnodeman.Find dsq.vin with
  | none => exact Or.inl rfl
  | some pmn =>
    dsimp only
    by_cases h7 : (!env.CheckSignature dsq pmn.pubKeySubinode) = true
    · exact Or.inr (Or.inl (if_pos h7))
    rw [if_neg h7]
    by_cases h8 : dsq.fReady = true
    · rw [if_pos h8]
      cases hsub : w.pool.pSubmittedToSubinode with
      | none => exact Or.inl rfl
      | some pSubmitted =>
        dsimp only
        by_cases h9 : (pSubmitted.addr != pmn.addr) = true
        · exact Or.inl (if_pos h9)
        rw [if_neg h9]
        by_cases h10 : (w.pool.nState == POOL_STATE_QUEUE) = true
        · rw [if_pos h10, ← hsub]
          exact Or.inr (Or.inr (Or.inl rfl))
        · exact Or.inl (if_neg h10)
    rw [if_neg h8]
    by_cases h11 : (w.pool.vecDarksendQueue.any fun q => q.vin == dsq.vin) = true
    · exact Or.inl (if_pos h11)
    rw [if_neg h11]
    by_cases h12 : (pmn.nLastDsq != 0 &&
        decide (toInt32 (pmn.nLastDsq +
          w.mnodeman.CountEnabled env.MIN_PRIVATESEND_PEER_PROTO_VERSION / 5)
            > w.mnodeman.nDsqCount)) = true
    · exact Or.inl (if_pos h12)
    · refine Or.inr (Or.inr (Or.inr ⟨pmn, rfl, ?_, ?_⟩))
      · simpa using h12
      · rw [if_neg h12, (markTried_wire _ _).2]

/-- C8 (amended): whenever the `DSQUEUE` handling accepts a queue (appends it to the queue
vector and relays it), the sending mixer `M` is known and, for the values before the
update, `M.last_dsq = 0`, or `M.last_dsq + enabled/5` is outside the range of a 32-bit
`int`, or `M.last_dsq + enabled/5 ≤ dsq_count`. -/
theorem ProcessMessageDSQUEUE_accepted_threshold (env : Env) (w : World) (lockRecv : Bool)
    (nVersion : Int) (dsq dsqRelayed : CDarksendQueue)
    (hacc : (ProcessMessageDSQUEUE env w lockRecv nVersion dsq).vTrace =
      w.vTrace ++ [Effect.RelayQueue dsqRelayed]) :
    ∃ pmn, w.mnodeman.Find dsq.vin = some pmn ∧
      (pmn.nLastDsq = 0 ∨
        ¬ (-2147483648 ≤ pmn.nLastDsq
            + w.mnodeman.CountEnabled env.MIN_PRIVATESEND_PEER_PROTO_VERSION / 5 ∧
          pmn.nLastDsq + w.mnodeman.CountEnabled env.MIN_PRIVATESEND_PEER_PROTO_VERSION / 5
            < 2147483648) ∨
        pmn.nLastDsq + w.mnodeman.CountEnabled env.MIN_PRIVATESEND_PEER_PROTO_VERSION / 5
          ≤ w.mnodeman.nDsqCount) ∧
      (ProcessMessageDSQUEUE env w lockRecv nVersion dsq).pool.vecDarksendQueue =
        w.pool.vecDarksendQueue ++ [dsqRelayed] := by
  rcases ProcessMessageDSQUEUE_outcomes env w lockRecv nVersion dsq with
    h | h | h | ⟨pmn, hfind, hcond, h⟩
  · rw [h] at hacc
    have := congrArg List.length hacc
    simp at this
  · rw [h] at hacc
    simp at hacc
  · rw [h] at hacc
    simp at hacc
  · rw [h] at hacc ⊢
    simp only [List.append_cancel_left_eq, List.cons.injEq, Effect.RelayQueue.injEq,
      and_true] at hacc
    refine ⟨pmn, hfind, ?_, by rw [hacc]⟩
    by_cases h0 : pmn.nLastDsq = 0
    · exact Or.inl h0
    by_cases hrange : -2147483648 ≤ pmn.nLastDsq
          + w.mnodeman.CountEnabled env.MIN_PRIVATESEND_PEER_PROTO_VERSION / 5 ∧
        pmn.nLastDsq + w.mnodeman.CountEnabled env.MIN_PRIVATESEND_PEER_PROTO_VERSION / 5
          < 2147483648
    · refine Or.inr (Or.inr (not_lt.mp (fun hgt => hcond ⟨h0, ?_⟩)))
      rw [toInt32_of_range _ hrange.1 hrange.2]
      exact hgt
    · exact Or.inr (Or.inl hrange)

/-- Witness for C8 (amended): with 50 enabled mixers and a counter of 3, the queue of
mixer 1, whose `last_dsq` is 0, is accepted. -/
theorem ProcessMessageDSQUEUE_accepted_threshold_witness :
    (ProcessMessageDSQUEUE envExample worldFreshExample true 70206 (queueExample 1)).vTrace =
      worldFreshExample.vTrace ++ [Effect.RelayQueue (queueExample 1)] ∧
    ∃ pmn, worldFreshExample.mnodeman.Find (queueExample 1).vin = some pmn ∧
      (pmn.nLastDsq = 0 ∨
        ¬ (-2147483648 ≤ pmn.nLastDsq +
            worldFreshExample.mnodeman.CountEnabled
              envExample.MIN_PRIVATESEND_PEER_PROTO_VERSION / 5 ∧
          pmn.nLastDsq +
            worldFreshExample.mnodeman.CountEnabled
              envExample.MIN_PRIVATESEND_PEER_PROTO_VERSION / 5 < 2147483648) ∨
        pmn.nLastDsq +
          worldFreshExample.mnodeman.CountEnabled envExample.MIN_PRIVATESEND_PEER_PROTO_VERSION / 5
          ≤ worldFreshExample.mnodeman.nDsqCount) ∧
      (ProcessMessageDSQUEUE envExample worldFreshExample true 70206
        (queueExample 1)).pool.vecDarksendQueue =
        worldFreshExample.pool.vecDarksendQueue ++ [queueExample 1] :=
  ⟨by decide,
    ProcessMessageDSQUEUE_accepted_threshold envExample worldFreshExample true 70206
      (queueExample 1) (queueExample 1) (by decide)⟩

/-! ### Session admission on the mixer -/

theorem IsAcceptableDenomAndCollateral_message (env : Env) (pool : CDarksendPool)
    (nDenom : Int) (txCollateral : CTransaction) (nMessageIDRet : PoolMessage)
    (r : Bool × PoolMessage)
    (h : IsAcceptableDenomAndCollateral env pool nDenom txCollateral nMessageIDRet = some r) :
    (r.1 = true → r.2 = nMessageIDRet) ∧
    (r.1 = true → env.fSubiNode = true ∧
      (GetDenominationsBits env.vecPrivateSendDenominations nDenom []).1 = true ∧
      (pool.fUnitTest = true ∨ IsCollateralValid env txCollateral = some true)) := by
  unfold IsAcceptableDenomAndCollateral at h
  split_ifs at h with h1 h2 h3
  · cases h
    simp
  · cases h
    simp
  · cases h
    simp only [Bool.not_eq_true', Bool.not_eq_false] at h1
    simp only [Bool.not_eq_true', Bool.not_eq_false] at h2
    exact ⟨fun _ => rfl, fun _ => ⟨h1, h2, Or.inl h3⟩⟩
  · cases hv : IsCollateralValid env txCollateral with
    | none =>
      rw [hv] at h
      cases h
    | some fValid =>
      rw [hv] at h
      cases fValid
      · cases h
        simp
      · cases h
        simp only [Bool.not_eq_true', Bool.not_eq_false] at h1
        simp only [Bool.not_eq_true', Bool.not_eq_false] at h2
        exact ⟨fun _ => rfl, fun _ => ⟨h1, h2, Or.inr rfl⟩⟩

/-- C9: `CreateNewSession` returns true exactly when the process is a mixer, the session
id is 0, the state is `IDLE` and the denomination mask and collateral are acceptable
(`IsAcceptableDenomAndCollateral` returns true). After a successful call the session id
lies in `[1, 10^6]` (so it is nonzero), the state is `QUEUE`, the session denomination is
the requested mask, the collateral list is the previous list with the submitted collateral
appended, and the entries are unchanged. After a failed call nothing has changed. The call
returns unless the run ends in `IsAcceptableDenomAndCollateral`. -/
theorem CreateNewSession_contract (env : Env) (w : World) (vinActive : CTxIn)
    (vchSig : List Nat) (nRand : Nat) (nDenom : Int) (txCollateral : CTransaction)
    (nMessageIDRet : PoolMessage) :
    (((CreateNewSession env w vinActive vchSig nRand nDenom txCollateral nMessageIDRet).map
        (fun r => r.1) = some true) ↔
      env.fSubiNode = true ∧ w.pool.nSessionID = 0 ∧ w.pool.nState = POOL_STATE_IDLE ∧
      (IsAcceptableDenomAndCollateral env w.pool nDenom txCollateral nMessageIDRet).map
        (fun r => r.1) = some true) ∧
    (∀ r, CreateNewSession env w vinActive vchSig nRand nDenom txCollateral nMessageIDRet
        = some r → r.1 = true →
      1 ≤ r.2.2.pool.nSessionID ∧
      r.2.2.pool.nSessionID ≤ 10 ^ 6 ∧
      r.2.2.pool.nSessionID ≠ 0 ∧
      r.2.2.pool.nState = POOL_STATE_QUEUE ∧
      r.2.2.pool.nSessionDenom = nDenom ∧
      r.2.2.pool.vecSessionCollaterals = w.pool.vecSessionCollaterals ++ [txCollateral] ∧
      r.2.2.pool.vecEntries = w.pool.vecEntries) ∧
    (∀ r, CreateNewSession env w vinActive vchSig nRand nDenom txCollateral nMessageIDRet
        = some r → r.1 = false → r.2.2 = w) ∧
    (CreateNewSession env w vinActive vchSig nRand nDenom txCollateral nMessageIDRet = none ↔
      env.fSubiNode = true ∧ w.pool.nSessionID = 0 ∧ w.pool.nState = POOL_STATE_IDLE ∧
      IsAcceptableDenomAndCollateral env w.pool nDenom txCollateral nMessageIDRet = none) := by
  unfold CreateNewSession
  by_cases h1 : (!env.fSubiNode || w.pool.nSessionID != 0) = true
  · rw [if_pos h1]
    simp only [Bool.or_eq_true, Bool.not_eq_true', bne_iff_ne, ne_eq] at h1
    have hno : ¬ (env.fSubiNode = true ∧ w.pool.nSessionID = 0) := by
      rintro ⟨ha, hb⟩
      rcases h1 with h1 | h1
      · rw [ha] at h1
        cases h1
      · exact h1 hb
    refine ⟨⟨fun h => by simp at h, fun h => absurd ⟨h.1, h.2.1⟩ hno⟩, ?_, ?_,
      ⟨fun h => by simp at h, fun h => absurd ⟨h.1, h.2.1⟩ hno⟩⟩
    · intro r hr ht
      cases hr
      cases ht
    · intro r hr _
      cases hr
      rfl
  rw [if_neg h1]
  simp only [Bool.or_eq_true, Bool.not_eq_true', bne_iff_ne, ne_eq, not_or, Bool.not_eq_false,
    not_not] at h1
  by_cases h2 : (w.pool.nState != POOL_STATE_IDLE) = true
  · rw [if_pos h2]
    simp only [bne_iff_ne, ne_eq] at h2
    refine ⟨⟨fun h => by simp at h, fun h => absurd h.2.2.1 h2⟩, ?_, ?_,
      ⟨fun h => by simp at h, fun h => absurd h.2.2.1 h2⟩⟩
    · intro r hr ht
      cases hr
      cases ht
    · intro r hr _
      cases hr
      rfl
  rw [if_neg h2]
  simp only [bne_iff_ne, ne_eq, not_not] at h2
  have hstate : ∀ pool : CDarksendPool,
      pool.SetState env POOL_STATE_QUEUE = { pool with nState := POOL_STATE_QUEUE } := by
    intro pool
    simp [CDarksendPool.SetState]
  simp only [hstate]
  cases h3 : IsAcceptableDenomAndCollateral env w.pool nDenom txCollateral nMessageIDRet with
  | none =>
    refine ⟨⟨fun h => by simp at h, fun h => by simp at h⟩, ?_, ?_,
      ⟨fun _ => ⟨h1.1, h1.2, h2, rfl⟩, fun _ => rfl⟩⟩
    · intro r hr
      cases hr
    · intro r hr
      cases hr
  | some a =>
    obtain ⟨fOk, nMsg⟩ := a
    cases fOk
    · refine ⟨⟨fun h => by simp at h, fun h => by simp at h⟩, ?_, ?_,
        ⟨fun h => by simp at h, fun h => by simp at h⟩⟩
      · intro r hr ht
        simp at hr
        rw [← hr] at ht
        cases ht
      · intro r hr _
        simp at hr
        rw [← hr]
    · have h106 : (10 : Int) ^ 6 = 1000000 := by norm_num
      refine ⟨⟨fun _ => ⟨h1.1, h1.2, h2, rfl⟩, fun _ => by simp⟩, ?_, ?_,
        ⟨fun h => by simp at h, fun h => by simp at h⟩⟩
      · intro r hr _
        simp only [Bool.not_true, Bool.false_eq_true, if_false, Option.some.injEq] at hr
        rw [← hr, h106]
        cases w.pool.fUnitTest
        · simp only [Bool.not_false, if_true, GetRandInt]
          refine ⟨by omega, by omega, by omega, trivial, trivial, trivial, trivial⟩
        · simp only [Bool.not_true, Bool.false_eq_true, if_false, GetRandInt]
          refine ⟨by omega, by omega, by omega, trivial, trivial, trivial, trivial⟩
      · intro r hr hf
        simp only [Bool.not_true, Bool.false_eq_true, if_false, Option.some.injEq] at hr
        rw [← hr] at hf
        cases hf

/-- Witness for C9: on the example mixer an idle pool opens a session for mask `2`; the
draw `41` gives the session id `42`. -/
theorem CreateNewSession_contract_witness :
    (CreateNewSession envExample {} { prevout := { hash := 1000, n := 0 } } [] 41 2
      collateralExample MSG_NOERR).map (fun r => r.1) = some true ∧
    (CreateNewSession envExample {} { prevout := { hash := 1000, n := 0 } } [] 41 2
      collateralExample MSG_NOERR).map (fun r => r.2.2.pool.nSessionID) = some 42 ∧
    (CreateNewSession envExample {} { prevout := { hash := 1000, n := 0 } } [] 41 2
      collateralExample MSG_NOERR).map (fun r => r.2.2.pool.nState) = some POOL_STATE_QUEUE :=
  ⟨(CreateNewSession_contract envExample {} { prevout := { hash := 1000, n := 0 } } [] 41 2
      collateralExample MSG_NOERR).1.mpr (by decide), by decide, by decide⟩

/-- C11: from every pool state, after `SetNull` the state is `IDLE`, the session id and the
session denomination are 0, the entry list and the collateral list are empty and the
final transaction has no inputs and no outputs; a second `SetNull` (at the same or at a
later time) leaves all these fields as they are. -/
theorem SetNull_null (env env2 : Env) (pool : CDarksendPool) :
    (pool.SetNull env).nState = POOL_STATE_IDLE ∧
    (pool.SetNull env).nSessionID = 0 ∧
    (pool.SetNull env).nSessionDenom = 0 ∧
    (pool.SetNull env).vecEntries = [] ∧
    (pool.SetNull env).vecSessionCollaterals = [] ∧
    (pool.SetNull env).finalMutableTransaction.vin = [] ∧
    (pool.SetNull env).finalMutableTransaction.vout = [] ∧
    (pool.SetNull env).SetNull env = pool.SetNull env ∧
    ((pool.SetNull env).SetNull env2).nState = (pool.SetNull env).nState ∧
    ((pool.SetNull env).SetNull env2).nSessionID = (pool.SetNull env).nSessionID ∧
    ((pool.SetNull env).SetNull env2).nSessionDenom = (pool.SetNull env).nSessionDenom ∧
    ((pool.SetNull env).SetNull env2).vecEntries = (pool.SetNull env).vecEntries ∧
    ((pool.SetNull env).SetNull env2).vecSessionCollaterals =
      (pool.SetNull env).vecSessionCollaterals ∧
    ((pool.SetNull env).SetNull env2).finalMutableTransaction =
      (pool.SetNull env).finalMutableTransaction := by
  simp [CDarksendPool.SetNull]

/-! ### Denomination codec -/

theorem markDenomUsed_fst (nValue : Int) (l : List (Int × Nat)) :
    (markDenomUsed nValue l).1 = l.map (fun s => if nValue = s.1 then (s.1, 1) else s) := by
  induction l with
  | nil => rfl
  | cons s rest ih =>
    simp only [markDenomUsed, List.map_cons]
    split_ifs <;> simp [ih]

theorem markDenomUsed_snd (nValue : Int) (l : List (Int × Nat)) :
    (markDenomUsed nValue l).2 = true ↔ nValue ∈ l.map Prod.fst := by
  induction l with
  | nil => simp [markDenomUsed]
  | cons s rest ih =>
    simp only [markDenomUsed, List.map_cons, List.mem_cons]
    split_ifs with h
    · simp [h]
    · simp [h, ih]

theorem lookForDenominations_eq (vecTxOut : List CTxOut) (l : List (Int × Nat)) :
    lookForDenominations vecTxOut l =
      if ∀ txout ∈ vecTxOut, txout.nValue ∈ l.map Prod.fst then
        some (l.map (fun s => if ∃ txout ∈ vecTxOut, txout.nValue = s.1 then (s.1, 1) else s))
      else none := by
  induction vecTxOut generalizing l with
  | nil => simp [lookForDenominations]
  | cons txout rest ih =>
    simp only [lookForDenominations, List.mem_cons, forall_eq_or_imp, exists_eq_or_imp]
    by_cases hfound : txout.nValue ∈ l.map Prod.fst
    · have h2 : (markDenomUsed txout.nValue l).2 = true := (markDenomUsed_snd _ _).mpr hfound
      have hfst : ((markDenomUsed txout.nValue l).1).map Prod.fst = l.map Prod.fst := by
        rw [markDenomUsed_fst, List.map_map]
        apply List.map_congr_left
        intro s _
        simp only [Function.comp]
        split_ifs <;> rfl
      simp only [h2, Bool.not_true, Bool.false_eq_true, if_false, ih, hfst, hfound, true_and]
      by_cases hall : ∀ t ∈ rest, t.nValue ∈ l.map Prod.fst
      · rw [if_pos hall, if_pos hall, markDenomUsed_fst, List.map_map]
        congr 1
        apply List.map_congr_left
        intro s _
        simp only [Function.comp]
        by_cases h1 : txout.nValue = s.1
        · simp [h1]
        · simp [h1]
      · rw [if_neg hall, if_neg hall]
    · have h2 : (markDenomUsed txout.nValue l).2 = false := by
        cases h : (markDenomUsed txout.nValue l).2
        · rfl
        · exact absurd ((markDenomUsed_snd _ _).mp h) hfound
      simp [h2, hfound]

theorem testBit_le_one (x k : Nat) (hx : x ≤ 1) : x.testBit k = true ↔ x = 1 ∧ k = 0 := by
  interval_cases x
  · simp
  · cases k with
    | zero => simp
    | succ k =>
      simp only [Nat.testBit_succ]
      simp

theorem shiftDenomBits_false_testBit (l : List (Int × Nat)) (c nDenom : Nat) (draws : List Nat)
    (hl : ∀ s ∈ l, s.2 ≤ 1) (i : Nat) :
    (shiftDenomBits false l c nDenom draws).testBit i = true ↔
      nDenom.testBit i = true ∨ ∃ j s, i = c + j ∧ l.get? j = some s ∧ s.2 = 1 := by
  induction l generalizing c nDenom with
  | nil => simp [shiftDenomBits]
  | cons s rest ih =>
    have hs : s.2 ≤ 1 := hl s (List.mem_cons_self _ _)
    have hrest : ∀ t ∈ rest, t.2 ≤ 1 := fun t ht => hl t (List.mem_cons_of_mem _ ht)
    have hand : 1 &&& s.2 = s.2 := by
      rw [Nat.one_and_eq_mod_two]
      omega
    simp only [shiftDenomBits, Bool.false_and, Bool.false_eq_true, if_false, hand]
    rw [ih (c + 1) _ hrest, Nat.testBit_or, Nat.testBit_shiftLeft]
    simp only [Bool.or_eq_true, Bool.and_eq_true, decide_eq_true_eq, testBit_le_one _ _ hs]
    constructor
    · rintro ((h | ⟨h1, h2, h3⟩) | ⟨j, t, hj, hget, ht⟩)
      · exact Or.inl h
      · exact Or.inr ⟨0, s, by omega, rfl, h2⟩
      · exact Or.inr ⟨j + 1, t, by omega, hget, ht⟩
    · rintro (h | ⟨j, t, hj, hget, ht⟩)
      · exact Or.inl (Or.inl h)
      · cases j with
        | zero =>
          simp only [List.get?_cons_zero, Option.some.injEq] at hget
          subst hget
          exact Or.inl (Or.inr ⟨by omega, ht, by omega⟩)
        | succ j =>
          exact Or.inr ⟨j, t, by omega, hget, ht⟩

/-- The mask of the default mode as a natural number: 0 when some output is no
denomination, otherwise the number whose bit `i` tells whether denomination `i` is
present, below `2 ^ n`. -/
theorem GetDenominationsTxOut_default (vecDenoms : List Int) (vecTxOut : List CTxOut)
    (draws : List Nat) :
    ∃ nDenom : Nat, GetDenominationsTxOut vecDenoms vecTxOut false draws = (nDenom : Int) ∧
      (¬ AllDenominated vecDenoms vecTxOut → nDenom = 0) ∧
      (AllDenominated vecDenoms vecTxOut →
        ∀ i, nDenom.testBit i = true ↔ DenomPresent vecDenoms vecTxOut i) ∧
      nDenom < 2 ^ vecDenoms.length := by
  unfold GetDenominationsTxOut
  rw [lookForDenominations_eq]
  have hfst : (vecDenoms.map (fun nDenomValue => ((nDenomValue, 0) : Int × Nat))).map Prod.fst
      = vecDenoms := by
    induction vecDenoms with
    | nil => rfl
    | cons d rest ih => simp only [List.map_cons, ih]
  rw [hfst]
  by_cases hall : ∀ txout ∈ vecTxOut, txout.nValue ∈ vecDenoms
  · rw [if_pos hall]
    refine ⟨_, rfl, fun h => absurd hall h, fun _ => ?_, ?_⟩
    · intro i
      rw [shiftDenomBits_false_testBit]
      · simp only [Nat.zero_testBit, Bool.false_eq_true, false_or, zero_add, DenomPresent,
          List.get?_eq_getElem?, List.getElem?_map, Option.map_eq_some']
        constructor
        · rintro ⟨j, t, rfl, ⟨u, ⟨d, hd, rfl⟩, rfl⟩, ht⟩
          refine ⟨d, hd, ?_⟩
          by_cases hex : ∃ txout ∈ vecTxOut, txout.nValue = d
          · exact hex
          · simp [hex] at ht
        · rintro ⟨d, hd, hex⟩
          exact ⟨i, _, rfl, ⟨(d, 0), ⟨d, hd, rfl⟩, rfl⟩, by simp [hex]⟩
      · intro t ht
        simp only [List.mem_map] at ht
        obtain ⟨u, ⟨d, _, rfl⟩, rfl⟩ := ht
        split_ifs <;> simp
    · apply Nat.lt_pow_two_of_testBit
      intro i hi
      cases hbit : Nat.testBit _ i
      · rfl
      · rw [shiftDenomBits_false_testBit] at hbit
        · simp only [Nat.zero_testBit, Bool.false_eq_true, false_or, zero_add,
            List.get?_eq_getElem?, List.getElem?_map, Option.map_eq_some'] at hbit
          obtain ⟨j, t, rfl, ⟨u, ⟨d, hd, rfl⟩, rfl⟩, -⟩ := hbit
          have := (List.getElem?_eq_some.mp hd).1
          omega
        · intro t ht
          simp only [List.mem_map] at ht
          obtain ⟨u, ⟨d, _, rfl⟩, rfl⟩ := ht
          split_ifs <;> simp
  · rw [if_neg hall]
    exact ⟨0, rfl, fun _ => rfl, fun h => absurd h hall, Nat.two_pow_pos _⟩

/-- C16: in its default (non-random) mode `GetDenominations` returns 0 if the value of
some output equals no entry of the denomination table, and otherwise the mask whose bit `i`
is set if and only if some output has exactly the value `denominations[i]`; it returns 0
for the empty list and its result always lies in `[0, 2^n − 1]` for a table of `n`
denominations. The variant on pool outputs is the same function on the underlying
outputs. -/
theorem GetDenominations_default_mask (vecDenoms : List Int) (vecTxOut : List CTxOut)
    (draws : List Nat) :
    (¬ AllDenominated vecDenoms vecTxOut →
      GetDenominationsTxOut vecDenoms vecTxOut false draws = 0) ∧
    (AllDenominated vecDenoms vecTxOut →
      ∀ i, (GetDenominationsTxOut vecDenoms vecTxOut false draws).testBit i = true ↔
        DenomPresent vecDenoms vecTxOut i) ∧
    GetDenominationsTxOut vecDenoms [] false draws = 0 ∧
    0 ≤ GetDenominationsTxOut vecDenoms vecTxOut false draws ∧
    GetDenominationsTxOut vecDenoms vecTxOut false draws ≤ 2 ^ vecDenoms.length - 1 ∧
    (∀ vecTxDSOut : List CTxDSOut, GetDenominations vecDenoms vecTxDSOut =
      GetDenominationsTxOut vecDenoms (vecTxDSOut.map (fun out => out.toCTxOut)) false []) := by
  obtain ⟨nDenom, heq, hzero, hbits, hlt⟩ := GetDenominationsTxOut_default vecDenoms vecTxOut draws
  obtain ⟨nEmpty, heqE, -, hbitsE, -⟩ := GetDenominationsTxOut_default vecDenoms [] draws
  refine ⟨fun h => by rw [heq, hzero h]; rfl, fun h i => ?_, ?_, ?_, ?_, fun _ => rfl⟩
  · rw [heq]
    exact hbits h i
  · rw [heqE]
    have : nEmpty = 0 := by
      apply Nat.eq_of_testBit_eq
      intro i
      cases hbit : nEmpty.testBit i
      · simp
      · have := (hbitsE (by simp [AllDenominated]) i).mp hbit
        simp [DenomPresent] at this
    rw [this]
    rfl
  · rw [heq]
    exact Int.natCast_nonneg _
  · rw [heq]
    have h2 : ((2 : Int) ^ vecDenoms.length) = ((2 ^ vecDenoms.length : Nat) : Int) := by
      push_cast
      rfl
    rw [h2]
    omega

theorem GetDenominationsBits_natCast (vecDenoms : List Int) (m : Nat) (vecBitsRet : List Nat)
    (hlt : m < 2 ^ vecDenoms.length) :
    GetDenominationsBits vecDenoms (m : Int) vecBitsRet =
      (decide (m ≠ 0), (List.range vecDenoms.length).filter (fun i => m.testBit i)) := by
  have hnot : ¬ ((m : Int) ≥ (2 : Int) ^ vecDenoms.length) := by
    have h2 : ((2 : Int) ^ vecDenoms.length) = ((2 ^ vecDenoms.length : Nat) : Int) := by
      push_cast
      rfl
    rw [h2]
    omega
  unfold GetDenominationsBits
  simp only [hnot, if_false]
  have htest : ∀ i, (m : Int).testBit i = m.testBit i := fun _ => rfl
  simp only [htest, Prod.mk.injEq, and_true]
  by_cases hm : m = 0
  · subst hm
    simp
  · have hex : ∃ i, m.testBit i = true := by
      by_contra hno
      push_neg at hno
      apply hm
      apply Nat.eq_of_testBit_eq
      intro i
      simp [hno i]
    obtain ⟨i, hi⟩ := hex
    have hin : i < vecDenoms.length := by
      by_contra hge
      have : m < 2 ^ i := lt_of_lt_of_le hlt (Nat.pow_le_pow_right (by decide) (by omega))
      rw [Nat.testBit_lt_two_pow this] at hi
      exact absurd hi (by simp)
    have hmem : i ∈ (List.range vecDenoms.length).filter (fun i => m.testBit i) := by
      simp [List.mem_filter, hin, hi]
    cases hf : (List.range vecDenoms.length).filter (fun i => m.testBit i) with
    | nil => rw [hf] at hmem; simp at hmem
    | cons a rest => simp [hm]

/-- Round trip of the codec over a table of pairwise distinct amounts. -/
theorem round_trip_nodup (vecDenoms : List Int) (hnodup : vecDenoms.Nodup) (m : Nat)
    (hlt : m < 2 ^ vecDenoms.length) (script : Nat → CScript) (draws : List Nat) :
    GetDenominationsTxOut vecDenoms
      (outputsOfBits vecDenoms script
        ((List.range vecDenoms.length).filter (fun i => m.testBit i))) false draws = (m : Int) := by
  obtain ⟨k, heq, -, hbits, -⟩ := GetDenominationsTxOut_default vecDenoms
    (outputsOfBits vecDenoms script
      ((List.range vecDenoms.length).filter (fun i => m.testBit i))) draws
  have hall : AllDenominated vecDenoms (outputsOfBits vecDenoms script
      ((List.range vecDenoms.length).filter (fun i => m.testBit i))) := by
    intro txout hmem
    simp only [outputsOfBits, List.mem_map, List.mem_filter, List.mem_range] at hmem
    obtain ⟨i, ⟨hi, -⟩, rfl⟩ := hmem
    simp only [List.getD_eq_getElem?_getD, List.getElem?_eq_getElem hi, Option.getD_some]
    exact List.getElem_mem _
  rw [heq]
  congr 1
  apply Nat.eq_of_testBit_eq
  intro i
  rw [Bool.eq_iff_iff, hbits hall i]
  simp only [DenomPresent, outputsOfBits, List.mem_map, List.mem_filter, List.mem_range,
    List.get?_eq_getElem?]
  constructor
  · rintro ⟨d, hd, txout, ⟨j, ⟨hj, hbit⟩, rfl⟩, hval⟩
    simp only [List.getD_eq_getElem?_getD, List.getElem?_eq_getElem hj, Option.getD_some] at hval
    obtain ⟨hi, hdi⟩ := List.getElem?_eq_some.mp hd
    have : j = i := (hnodup.getElem_inj_iff).mp (hval.trans hdi.symm)
    rw [← this]
    exact hbit
  · intro hbit
    have hi : i < vecDenoms.length := by
      by_contra hge
      have : m < 2 ^ i := lt_of_lt_of_le hlt (Nat.pow_le_pow_right (by decide) (by omega))
      rw [Nat.testBit_lt_two_pow this] at hbit
      exact absurd hbit (by simp)
    refine ⟨vecDenoms[i], List.getElem?_eq_getElem hi, _, ⟨i, ⟨hi, hbit⟩, rfl⟩, ?_⟩
    simp [List.getD_eq_getElem?_getD, List.getElem?_eq_getElem hi]

theorem InitDenominations_nodup (COIN : Int) (hcoin : 0 ≤ COIN) :
    (InitDenominations COIN).Nodup := by
  simp only [InitDenominations, List.nodup_cons, List.mem_cons, List.mem_singleton,
    List.not_mem_nil, not_false_eq_true, List.nodup_nil, and_true, not_or]
  omega

/-- C17: round trip of the denomination codec. For every valid mask `m` with
`1 ≤ m ≤ 2^n − 1` over the table set up by `InitDenominations`, `GetDenominationsBits`
succeeds with the list of bit indices `B`, and `GetDenominations` applied to one output of
value `denominations[i]` for each `i` in `B` returns `m`. -/
theorem denomination_round_trip (COIN : Int) (hcoin : 0 ≤ COIN) (nDenom : Int)
    (script : Nat → CScript) (draws : List Nat) (h1 : 1 ≤ nDenom)
    (h2 : nDenom ≤ 2 ^ (InitDenominations COIN).length - 1) :
    (GetDenominationsBits (InitDenominations COIN) nDenom []).1 = true ∧
    GetDenominationsTxOut (InitDenominations COIN)
      (outputsOfBits (InitDenominations COIN) script
        (GetDenominationsBits (InitDenominations COIN) nDenom []).2) false draws = nDenom := by
  obtain ⟨m, rfl⟩ := Int.eq_ofNat_of_zero_le (by omega : 0 ≤ nDenom)
  have hlt : m < 2 ^ (InitDenominations COIN).length := by
    have h3 : ((2 : Int) ^ (InitDenominations COIN).length) =
        ((2 ^ (InitDenominations COIN).length : Nat) : Int) := by
      push_cast
      rfl
    rw [h3] at h2
    omega
  rw [GetDenominationsBits_natCast _ _ _ hlt]
  refine ⟨by simp; omega, ?_⟩
  exact round_trip_nodup _ (InitDenominations_nodup COIN hcoin) m hlt script draws

/-- Witness for C17: with a coin unit of `10^8` the mask `5` decodes to the bits 0 and 2
and the outputs of ten coins and a tenth of a coin encode back to `5`. -/
theorem denomination_round_trip_witness :
    (GetDenominationsBits (InitDenominations 100000000) 5 []) = (true, [0, 2]) ∧
    GetDenominationsTxOut (InitDenominations 100000000)
      (outputsOfBits (InitDenominations 100000000) (fun _ => [])
        (GetDenominationsBits (InitDenominations 100000000) 5 []).2) false [] = 5 :=
  ⟨by decide,
    (denomination_round_trip 100000000 (by decide) 5 (fun _ => []) [] (by decide)
      (by decide)).2⟩

/-- C18 (the code departs from the claim): the negative mask `-1` passes
`GetDenominationsBits` with the bits 0 to 3, since it is below `2^n` and every bit of its
two's complement representation is set; `IsAcceptableDenomAndCollateral` then accepts it
instead of answering `ERR_DENOM`, while the masks `0` and `16` are refused. -/
theorem GetDenominationsBits_accepts_negative_mask :
    GetDenominationsBits (InitDenominations 100000000) (-1) [] = (true, [0, 1, 2, 3]) ∧
    IsAcceptableDenomAndCollateral envExample {} (-1) collateralExample MSG_NOERR =
      some (true, MSG_NOERR) ∧
    (GetDenominationsBits (InitDenominations 100000000) 0 []).1 = false ∧
    (GetDenominationsBits (InitDenominations 100000000) 16 []).1 = false := by
  decide

theorem shiftDenomBits_single (l : List (Int × Nat)) (c : Nat) (draws : List Nat)
    (hl : ∀ s ∈ l, s.2 ≤ 1) :
    (shiftDenomBits true l c 0 draws = 0 ∧
      ∀ j s, l.get? j = some s → s.2 = 1 → GetRandInt (draws.getD j 0) 2 = 0) ∨
    ∃ j s, l.get? j = some s ∧ s.2 = 1 ∧ shiftDenomBits true l c 0 draws = 2 ^ (c + j) ∧
      GetRandInt (draws.getD j 0) 2 = 1 ∧
      ∀ i < j, ∀ t, l.get? i = some t → t.2 = 1 → GetRandInt (draws.getD i 0) 2 = 0 := by
  induction l generalizing c draws with
  | nil =>
    refine Or.inl ⟨rfl, ?_⟩
    intro j s h
    cases h
  | cons s rest ih =>
    have hs : s.2 ≤ 1 := hl s (List.mem_cons_self _ _)
    have hrest : ∀ t ∈ rest, t.2 ≤ 1 := fun t ht => hl t (List.mem_cons_of_mem _ ht)
    have hhead : draws.getD 0 0 = draws.headD 0 := by
      cases draws <;> rfl
    have htail : ∀ j, draws.getD (j + 1) 0 = draws.tail.getD j 0 := by
      intro j
      cases draws <;> rfl
    have hbit : (GetRandInt (draws.headD 0) 2 &&& s.2 = 0 ∧
          (s.2 = 1 → GetRandInt (draws.headD 0) 2 = 0)) ∨
        (GetRandInt (draws.headD 0) 2 &&& s.2 = 1 ∧ s.2 = 1 ∧
          GetRandInt (draws.headD 0) 2 = 1) := by
      have hr : GetRandInt (draws.headD 0) 2 ≤ 1 := by
        unfold GetRandInt
        omega
      generalize GetRandInt (draws.headD 0) 2 = r at hr
      interval_cases r <;> interval_cases s.2 <;> simp
    simp only [shiftDenomBits, if_true, Bool.true_and, Nat.zero_or]
    rcases hbit with ⟨h0, hzero⟩ | ⟨h1, hs1, hone⟩
    · rw [h0]
      simp only [Nat.zero_shiftLeft, bne_self_eq_false, Bool.false_eq_true, if_false]
      rcases ih (c + 1) draws.tail hrest with ⟨h, hall⟩ | ⟨j, t, hget, ht, h, hd, hprev⟩
      · refine Or.inl ⟨h, ?_⟩
        intro j u hget hu
        cases j with
        | zero =>
          simp only [List.get?_cons_zero, Option.some.injEq] at hget
          rw [hhead]
          exact hzero (by rw [hget]; exact hu)
        | succ j =>
          rw [htail]
          exact hall j u hget hu
      · refine Or.inr ⟨j + 1, t, hget, ht, by rw [h]; congr 1; omega, by rw [htail]; exact hd,
          ?_⟩
        intro i hi u hget2 hu
        cases i with
        | zero =>
          simp only [List.get?_cons_zero, Option.some.injEq] at hget2
          rw [hhead]
          exact hzero (by rw [hget2]; exact hu)
        | succ i =>
          rw [htail]
          exact hprev i (by omega) u hget2 hu
    · rw [h1]
      refine Or.inr ⟨0, s, rfl, hs1, ?_, by rw [hhead]; exact hone, ?_⟩
      · simp [Nat.shiftLeft_eq]
      · intro i hi
        exact absurd hi (Nat.not_lt_zero _)

/-- C20 fails as stated: when every draw comes out 0 the single-random mode returns the
mask 0, with no bit set, for an output of one coin whose non-random mask is 2. -/
theorem GetDenominations_single_random_may_return_zero :
    GetDenominationsTxOut (InitDenominations 100000000) [{ nValue := 100001000 }]
      true [0, 0, 0, 0] = 0 ∧
    GetDenominationsByAmounts (InitDenominations 100000000) [100001000] [0, 0, 0, 0] = 0 ∧
    GetDenominationsTxOut (InitDenominations 100000000) [{ nValue := 100001000 }]
      false [] = 2 := by
  decide

/-- C20 (amended): in single-random mode, for every non-empty list of outputs whose values
are all table denominations and for every outcome of the random draws, the non-random mask
of the outputs has a bit set, and the returned mask is 0 when the draw `GetRandInt(2)` made
at the table position of every present denomination is 0; otherwise the returned mask has
exactly one bit set, the bit of the first present denomination whose draw is 1, and that
bit is one of the bits set in the non-random mask of the same outputs. -/
theorem GetDenominations_single_random (vecDenoms : List Int) (vecTxOut : List CTxOut)
    (draws : List Nat) (hne : vecTxOut ≠ []) (hall : AllDenominated vecDenoms vecTxOut) :
    (∃ i, (GetDenominationsTxOut vecDenoms vecTxOut false []).testBit i = true) ∧
    ((GetDenominationsTxOut vecDenoms vecTxOut true draws = 0 ∧
        ∀ j, (GetDenominationsTxOut vecDenoms vecTxOut false []).testBit j = true →
          GetRandInt (draws.getD j 0) 2 = 0) ∨
      ∃ i : Nat, GetDenominationsTxOut vecDenoms vecTxOut true draws = 2 ^ i ∧
        (GetDenominationsTxOut vecDenoms vecTxOut false []).testBit i = true ∧
        GetRandInt (draws.getD i 0) 2 = 1 ∧
        ∀ j < i, (GetDenominationsTxOut vecDenoms vecTxOut false []).testBit j = true →
          GetRandInt (draws.getD j 0) 2 = 0) := by
  have hfst : ∀ vecD : List Int,
      (vecD.map (fun nDenomValue => ((nDenomValue, 0) : Int × Nat))).map Prod.fst = vecD := by
    intro vecD
    induction vecD with
    | nil => rfl
    | cons d rest ih => simp only [List.map_cons, ih]
  obtain ⟨k, heq, -, hbits, -⟩ := GetDenominationsTxOut_default vecDenoms vecTxOut []
  have hpres := hbits hall
  have hall2 : ∀ txout ∈ vecTxOut, txout.nValue ∈
      (vecDenoms.map (fun nDenomValue => ((nDenomValue, 0) : Int × Nat))).map Prod.fst := by
    rw [hfst]
    exact hall
  have hl : ∀ t ∈ ((vecDenoms.map (fun nDenomValue => ((nDenomValue, 0) : Int × Nat))).map
        (fun s => if ∃ txout ∈ vecTxOut, txout.nValue = s.1 then (s.1, 1) else s)), t.2 ≤ 1 := by
    intro t ht
    simp only [List.mem_map] at ht
    obtain ⟨u, ⟨d, _, rfl⟩, rfl⟩ := ht
    split_ifs <;> simp
  have hR : GetDenominationsTxOut vecDenoms vecTxOut true draws =
      ((shiftDenomBits true ((vecDenoms.map (fun nDenomValue => ((nDenomValue, 0) : Int × Nat))).map
        (fun s => if ∃ txout ∈ vecTxOut, txout.nValue = s.1 then (s.1, 1) else s)) 0 0 draws : Nat) : Int) := by
    unfold GetDenominationsTxOut
    rw [lookForDenominations_eq, if_pos hall2]
  have hM : k = shiftDenomBits false ((vecDenoms.map (fun nDenomValue => ((nDenomValue, 0) : Int × Nat))).map
        (fun s => if ∃ txout ∈ vecTxOut, txout.nValue = s.1 then (s.1, 1) else s)) 0 0 [] := by
    have h : GetDenominationsTxOut vecDenoms vecTxOut false [] =
        ((shiftDenomBits false ((vecDenoms.map (fun nDenomValue => ((nDenomValue, 0) : Int × Nat))).map
        (fun s => if ∃ txout ∈ vecTxOut, txout.nValue = s.1 then (s.1, 1) else s)) 0 0 [] : Nat) : Int) := by
      unfold GetDenominationsTxOut
      rw [lookForDenominations_eq, if_pos hall2]
    rw [heq] at h
    exact_mod_cast h
  have htest : ∀ i, (GetDenominationsTxOut vecDenoms vecTxOut false []).testBit i = true ↔
      ∃ t, ((vecDenoms.map (fun nDenomValue => ((nDenomValue, 0) : Int × Nat))).map
        (fun s => if ∃ txout ∈ vecTxOut, txout.nValue = s.1 then (s.1, 1) else s)).get? i = some t ∧ t.2 = 1 := by
    intro i
    rw [heq]
    show Nat.testBit k i = true ↔ _
    rw [hM, shiftDenomBits_false_testBit _ _ _ _ hl]
    constructor
    · rintro (h | ⟨j, t, hj, hget, ht⟩)
      · simp at h
      · have hij : i = j := by omega
        rw [hij]
        exact ⟨t, hget, ht⟩
    · rintro ⟨t, hget, ht⟩
      exact Or.inr ⟨i, t, by omega, hget, ht⟩
  generalize ((vecDenoms.map (fun nDenomValue => ((nDenomValue, 0) : Int × Nat))).map
        (fun s => if ∃ txout ∈ vecTxOut, txout.nValue = s.1 then (s.1, 1) else s)) = l at hl hR htest
  constructor
  · obtain ⟨txout, rest, hcons⟩ := List.exists_cons_of_ne_nil hne
    have hmem : txout ∈ vecTxOut := by
      rw [hcons]
      exact List.mem_cons_self _ _
    obtain ⟨i, hi⟩ := List.mem_iff_get?.1 (hall txout hmem)
    refine ⟨i, ?_⟩
    rw [heq]
    show Nat.testBit k i = true
    exact (hpres i).2 ⟨txout.nValue, hi, txout, hmem, rfl⟩
  · rcases shiftDenomBits_single l 0 draws hl with ⟨h0, hz⟩ | ⟨j, t, hget, ht, hres, hd, hprev⟩
    · refine Or.inl ⟨by rw [hR, h0]; rfl, fun j hj => ?_⟩
      obtain ⟨t, hget, ht⟩ := (htest j).1 hj
      exact hz j t hget ht
    · refine Or.inr ⟨j, by rw [hR, hres]; simp, (htest j).2 ⟨t, hget, ht⟩, hd,
        fun i hi hpresent => ?_⟩
      obtain ⟨u, hget2, hu⟩ := (htest i).1 hpresent
      exact hprev i hi u hget2 hu

/-- C20 (amended), witness: one output of one coin, whose non-random mask is 2 (bit 1).
With the draws 1, 1 the draw made at position 1 is 1 and the returned mask is `2 ^ 1`. -/
theorem GetDenominations_single_random_witness :
    ([{ nValue := 100001000 }] : List CTxOut) ≠ [] ∧
    AllDenominated (InitDenominations 100000000) [{ nValue := 100001000 }] ∧
    GetDenominationsTxOut (InitDenominations 100000000) [{ nValue := 100001000 }] true [1, 1]
      = 2 ∧
    ((∃ i, (GetDenominationsTxOut (InitDenominations 100000000) [{ nValue := 100001000 }]
        false []).testBit i = true) ∧
    ((GetDenominationsTxOut (InitDenominations 100000000) [{ nValue := 100001000 }] true [1, 1]
          = 0 ∧
        ∀ j, (GetDenominationsTxOut (InitDenominations 100000000) [{ nValue := 100001000 }]
            false []).testBit j = true →
          GetRandInt (([1, 1] : List Nat).getD j 0) 2 = 0) ∨
      ∃ i : Nat, GetDenominationsTxOut (InitDenominations 100000000) [{ nValue := 100001000 }]
          true [1, 1] = 2 ^ i ∧
        (GetDenominationsTxOut (InitDenominations 100000000) [{ nValue := 100001000 }]
          false []).testBit i = true ∧
        GetRandInt (([1, 1] : List Nat).getD i 0) 2 = 1 ∧
        ∀ j < i, (GetDenominationsTxOut (InitDenominations 100000000)
            [{ nValue := 100001000 }] false []).testBit j = true →
          GetRandInt (([1, 1] : List Nat).getD j 0) 2 = 0)) :=
  ⟨by decide, by decide, by decide,
    GetDenominations_single_random (InitDenominations 100000000) [{ nValue := 100001000 }]
      [1, 1] (by decide) (by decide)⟩

/-! ### Pretty-printer -/

theorem denomStringLoop_nonempty (FormatMoney : Int → String) (vecDenoms : List Int)
    (nDenom : Int) (vecIndex : List Nat) (strDenom : String) (hacc : strDenom ≠ "") :
    (denomStringLoop FormatMoney vecDenoms nDenom vecIndex strDenom).data =
      strDenom.data ++ tailPlus (denomWords FormatMoney vecDenoms nDenom vecIndex) := by
  induction vecIndex generalizing strDenom with
  | nil => simp [denomStringLoop, denomWords, tailPlus]
  | cons i rest ih =>
    have hemp : strDenom.isEmpty = false := by
      cases h : strDenom.isEmpty
      · rfl
      · exact absurd ((String.isEmpty_iff _).mp h) hacc
    cases hbit : nDenom.testBit i
    · simp only [denomStringLoop, hbit, Bool.false_eq_true, if_false, ih strDenom hacc,
        denomWords, List.filter_cons]
    · have hne : strDenom ++ ("+" ++ FormatMoney (vecDenoms.getD i 0)) ≠ "" := by
        intro h
        have := congrArg String.data h
        simp at this
      simp only [denomStringLoop, hbit, if_true, hemp, Bool.false_eq_true, if_false, ih _ hne,
        denomWords, List.filter_cons, List.map_cons, tailPlus, String.data_append]
      have : ("+" : String).data = ['+'] := rfl
      simp [this]

theorem denomStringLoop_empty (FormatMoney : Int → String) (vecDenoms : List Int)
    (nDenom : Int) (vecIndex : List Nat)
    (hne : ∀ i ∈ vecIndex, FormatMoney (vecDenoms.getD i 0) ≠ "") :
    (denomStringLoop FormatMoney vecDenoms nDenom vecIndex "").data =
      joinPlus (denomWords FormatMoney vecDenoms nDenom vecIndex) := by
  induction vecIndex with
  | nil => simp [denomStringLoop, denomWords, joinPlus]
  | cons i rest ih =>
    have hrest : ∀ j ∈ rest, FormatMoney (vecDenoms.getD j 0) ≠ "" :=
      fun j hj => hne j (List.mem_cons_of_mem _ hj)
    cases hbit : nDenom.testBit i
    · simp only [denomStringLoop, hbit, Bool.false_eq_true, if_false, ih hrest, denomWords,
        List.filter_cons]
    · have hw : FormatMoney (vecDenoms.getD i 0) ≠ "" := hne i (List.mem_cons_self _ _)
      have hacc : ("" : String) ++ ((if ("" : String).isEmpty then "" else "+") ++
          FormatMoney (vecDenoms.getD i 0)) = FormatMoney (vecDenoms.getD i 0) := by
        apply String.ext
        simp [String.isEmpty]
      simp only [denomStringLoop, hbit, if_true, hacc]
      rw [denomStringLoop_nonempty _ _ _ _ _ hw]
      simp only [denomWords, List.filter_cons, hbit, if_true, List.map_cons, joinPlus]

theorem plus_free_split (word1 word2 x y : List Char)
    (h1 : '+' ∉ word1) (h2 : '+' ∉ word2)
    (hx : x = [] ∨ ∃ x', x = '+' :: x') (hy : y = [] ∨ ∃ y', y = '+' :: y')
    (h : word1 ++ x = word2 ++ y) : word1 = word2 ∧ x = y := by
  induction word1 generalizing word2 with
  | nil =>
    cases word2 with
    | nil => exact ⟨rfl, by simpa using h⟩
    | cons b rest =>
      simp only [List.nil_append, List.cons_append] at h
      rcases hx with hx | ⟨x', hx⟩
      · rw [hx] at h
        simp at h
      · rw [hx] at h
        simp only [List.cons.injEq] at h
        exact absurd (List.mem_cons.mpr (Or.inl h.1)) h2
  | cons a rest ih =>
    cases word2 with
    | nil =>
      simp only [List.nil_append, List.cons_append] at h
      rcases hy with hy | ⟨y', hy⟩
      · rw [hy] at h
        simp at h
      · rw [hy] at h
        simp only [List.cons.injEq] at h
        exact absurd (List.mem_cons.mpr (Or.inl h.1.symm)) h1
    | cons b rest2 =>
      simp only [List.cons_append, List.cons.injEq] at h
      have hr1 : '+' ∉ rest := fun hm => h1 (List.mem_cons_of_mem _ hm)
      have hr2 : '+' ∉ rest2 := fun hm => h2 (List.mem_cons_of_mem _ hm)
      obtain ⟨hw, hxy⟩ := ih rest2 hr1 hr2 h.2
      exact ⟨by rw [h.1, hw], hxy⟩

theorem tailPlus_shape (words : List (List Char)) :
    tailPlus words = [] ∨ ∃ x', tailPlus words = '+' :: x' := by
  cases words with
  | nil => exact Or.inl rfl
  | cons word rest => exact Or.inr ⟨_, rfl⟩

theorem tailPlus_injective (words1 words2 : List (List Char))
    (h1 : ∀ word ∈ words1, '+' ∉ word) (h2 : ∀ word ∈ words2, '+' ∉ word)
    (h : tailPlus words1 = tailPlus words2) : words1 = words2 := by
  induction words1 generalizing words2 with
  | nil =>
    cases words2 with
    | nil => rfl
    | cons word rest => simp [tailPlus] at h
  | cons word rest ih =>
    cases words2 with
    | nil => simp [tailPlus] at h
    | cons word2 rest2 =>
      simp only [tailPlus, List.cons.injEq, true_and] at h
      obtain ⟨hw, ht⟩ := plus_free_split word word2 _ _ (h1 _ (List.mem_cons_self _ _))
        (h2 _ (List.mem_cons_self _ _)) (tailPlus_shape rest) (tailPlus_shape rest2) h
      rw [hw, ih rest2 (fun w hw => h1 w (List.mem_cons_of_mem _ hw))
        (fun w hw => h2 w (List.mem_cons_of_mem _ hw)) ht]

theorem joinPlus_injective (words1 words2 : List (List Char))
    (h1 : ∀ word ∈ words1, '+' ∉ word) (h2 : ∀ word ∈ words2, '+' ∉ word)
    (hne1 : words1 ≠ []) (hne2 : words2 ≠ [])
    (h : joinPlus words1 = joinPlus words2) : words1 = words2 := by
  cases words1 with
  | nil => exact absurd rfl hne1
  | cons word rest =>
    cases words2 with
    | nil => exact absurd rfl hne2
    | cons word2 rest2 =>
      simp only [joinPlus] at h
      obtain ⟨hw, ht⟩ := plus_free_split word word2 _ _ (h1 _ (List.mem_cons_self _ _))
        (h2 _ (List.mem_cons_self _ _)) (tailPlus_shape rest) (tailPlus_shape rest2) h
      rw [hw, tailPlus_injective rest rest2 (fun w hw => h1 w (List.mem_cons_of_mem _ hw))
        (fun w hw => h2 w (List.mem_cons_of_mem _ hw)) ht]

theorem map_injOn_eq {α β : Type} (g : α → β) (P : α → Prop)
    (hg : ∀ a b, P a → P b → g a = g b → a = b) :
    ∀ (l1 l2 : List α), (∀ a ∈ l1, P a) → (∀ b ∈ l2, P b) → l1.map g = l2.map g → l1 = l2
  | [], [], _, _, _ => rfl
  | [], _ :: _, _, _, h => by simp at h
  | _ :: _, [], _, _, h => by simp at h
  | a :: l1, b :: l2, h1, h2, h => by
    simp only [List.map_cons, List.cons.injEq] at h
    have hab := hg a b (h1 a (List.mem_cons_self _ _)) (h2 b (List.mem_cons_self _ _)) h.1
    have hrest := map_injOn_eq g P hg l1 l2 (fun x hx => h1 x (List.mem_cons_of_mem _ hx))
      (fun x hx => h2 x (List.mem_cons_of_mem _ hx)) h.2
    rw [hab, hrest]

theorem testBit_index_lt (m n i : Nat) (hlt : m < 2 ^ n) (hbit : m.testBit i = true) : i < n := by
  by_contra hge
  have : m < 2 ^ i := lt_of_lt_of_le hlt (Nat.pow_le_pow_right (by decide) (by omega))
  rw [Nat.testBit_lt_two_pow this] at hbit
  exact absurd hbit (by simp)

theorem denomWords_nil_iff (FormatMoney : Int → String) (vecDenoms : List Int) (m : Nat)
    (hlt : m < 2 ^ vecDenoms.length) :
    denomWords FormatMoney vecDenoms (m : Int) (List.range vecDenoms.length) = [] ↔ m = 0 := by
  have htest : ∀ i, (m : Int).testBit i = m.testBit i := fun _ => rfl
  simp only [denomWords, htest, List.map_eq_nil_iff, List.filter_eq_nil_iff, List.mem_range,
    Bool.not_eq_true]
  constructor
  · intro h
    apply Nat.eq_of_testBit_eq
    intro i
    rw [Nat.zero_testBit]
    cases hbit : m.testBit i
    · rfl
    · have := h i (testBit_index_lt m _ i hlt hbit)
      rw [hbit] at this
      exact absurd this (by simp)
  · rintro rfl i _
    simp

/-- The string printed for a mask below `2 ^ n`: `non-denom` for the mask 0, otherwise the
formatted amounts of the set bits joined by `+`. -/
theorem GetDenominationsToString_data (FormatMoney : Int → String) (vecDenoms : List Int)
    (hne : ∀ a ∈ vecDenoms, FormatMoney a ≠ "") (m : Nat) (hlt : m < 2 ^ vecDenoms.length) :
    GetDenominationsToString FormatMoney vecDenoms (m : Int) =
      if m = 0 then "non-denom"
      else String.mk (joinPlus
        (denomWords FormatMoney vecDenoms (m : Int) (List.range vecDenoms.length))) := by
  have hnot : ¬ ((m : Int) ≥ (2 : Int) ^ vecDenoms.length) := by
    have h2 : ((2 : Int) ^ vecDenoms.length) = ((2 ^ vecDenoms.length : Nat) : Int) := by
      push_cast
      rfl
    rw [h2]
    omega
  have hne' : ∀ i ∈ List.range vecDenoms.length, FormatMoney (vecDenoms.getD i 0) ≠ "" := by
    intro i hi
    have hi' : i < vecDenoms.length := List.mem_range.mp hi
    apply hne
    simp only [List.getD_eq_getElem?_getD, List.getElem?_eq_getElem hi', Option.getD_some]
    exact List.getElem_mem _
  have hdata := denomStringLoop_empty FormatMoney vecDenoms (m : Int)
    (List.range vecDenoms.length) hne'
  unfold GetDenominationsToString
  simp only [hnot, if_false]
  by_cases hm : m = 0
  · have hw := (denomWords_nil_iff FormatMoney vecDenoms m hlt).mpr hm
    rw [hw] at hdata
    have hs : denomStringLoop FormatMoney vecDenoms (m : Int) (List.range vecDenoms.length) ""
        = "" := String.ext hdata
    rw [hs, if_pos hm]
    rfl
  · have hw : denomWords FormatMoney vecDenoms (m : Int) (List.range vecDenoms.length) ≠ [] :=
      fun h => hm ((denomWords_nil_iff FormatMoney vecDenoms m hlt).mp h)
    rw [if_neg hm]
    have hs : denomStringLoop FormatMoney vecDenoms (m : Int) (List.range vecDenoms.length) ""
        = String.mk (joinPlus
          (denomWords FormatMoney vecDenoms (m : Int) (List.range vecDenoms.length))) :=
      String.ext hdata
    have hnonempty : (denomStringLoop FormatMoney vecDenoms (m : Int)
        (List.range vecDenoms.length) "").isEmpty = false := by
      cases hemp : (denomStringLoop FormatMoney vecDenoms (m : Int)
          (List.range vecDenoms.length) "").isEmpty
      · rfl
      · exfalso
        have h0 := (String.isEmpty_iff _).mp hemp
        rw [h0] at hdata
        cases hwords : denomWords FormatMoney vecDenoms (m : Int)
            (List.range vecDenoms.length) with
        | nil => exact hw hwords
        | cons word rest =>
          rw [hwords] at hdata
          simp only [joinPlus] at hdata
          have hword : word = [] := by
            have := congrArg List.length hdata
            simp at this
            exact List.length_eq_zero.mp (by omega)
          have hmem : word ∈ denomWords FormatMoney vecDenoms (m : Int)
              (List.range vecDenoms.length) := by
            rw [hwords]
            exact List.mem_cons_self _ _
          simp only [denomWords, List.mem_map, List.mem_filter] at hmem
          obtain ⟨i, ⟨hi, -⟩, hfi⟩ := hmem
          exact hne' i hi (String.ext (by rw [hfi, hword]))
    rw [hnonempty]
    simp only [Bool.false_eq_true, if_false]
    exact hs

theorem GetDenominationsToString_injective_nodup (FormatMoney : Int → String)
    (vecDenoms : List Int) (hnodup : vecDenoms.Nodup)
    (hinj : ∀ a ∈ vecDenoms, ∀ b ∈ vecDenoms, a ≠ b → FormatMoney a ≠ FormatMoney b)
    (hplus : ∀ a ∈ vecDenoms, '+' ∉ (FormatMoney a).data)
    (hne : ∀ a ∈ vecDenoms, FormatMoney a ≠ "")
    (hnd : ∀ a ∈ vecDenoms, FormatMoney a ≠ "non-denom")
    (m1 m2 : Nat) (h1 : m1 < 2 ^ vecDenoms.length) (h2 : m2 < 2 ^ vecDenoms.length)
    (h : GetDenominationsToString FormatMoney vecDenoms (m1 : Int) =
      GetDenominationsToString FormatMoney vecDenoms (m2 : Int)) : m1 = m2 := by
  have hgetD : ∀ i, i < vecDenoms.length → vecDenoms.getD i 0 ∈ vecDenoms := by
    intro i hi
    simp only [List.getD_eq_getElem?_getD, List.getElem?_eq_getElem hi, Option.getD_some]
    exact List.getElem_mem _
  have hwplus : ∀ m : Nat, ∀ word ∈ denomWords FormatMoney vecDenoms (m : Int)
      (List.range vecDenoms.length), '+' ∉ word := by
    intro m word hmem
    simp only [denomWords, List.mem_map, List.mem_filter, List.mem_range] at hmem
    obtain ⟨i, ⟨hi, -⟩, rfl⟩ := hmem
    exact hplus _ (hgetD i hi)
  -- the printed string of a nonzero mask is never `non-denom`
  have hnot : ∀ m : Nat, m < 2 ^ vecDenoms.length → m ≠ 0 →
      String.mk (joinPlus (denomWords FormatMoney vecDenoms (m : Int)
        (List.range vecDenoms.length))) ≠ "non-denom" := by
    intro m hlt hm heq
    have hw : denomWords FormatMoney vecDenoms (m : Int) (List.range vecDenoms.length) ≠ [] :=
      fun h => hm ((denomWords_nil_iff FormatMoney vecDenoms m hlt).mp h)
    have hdata : joinPlus (denomWords FormatMoney vecDenoms (m : Int)
        (List.range vecDenoms.length)) = ("non-denom" : String).data := congrArg String.data heq
    cases hwords : denomWords FormatMoney vecDenoms (m : Int) (List.range vecDenoms.length) with
    | nil => exact hw hwords
    | cons word rest =>
      rw [hwords] at hdata
      have hmem : word ∈ denomWords FormatMoney vecDenoms (m : Int)
          (List.range vecDenoms.length) := by
        rw [hwords]
        exact List.mem_cons_self _ _
      cases rest with
      | nil =>
        simp only [joinPlus, tailPlus, List.append_nil] at hdata
        simp only [denomWords, List.mem_map, List.mem_filter, List.mem_range] at hmem
        obtain ⟨i, ⟨hi, -⟩, hfi⟩ := hmem
        exact hnd _ (hgetD i hi) (String.ext (by rw [hfi, hdata]))
      | cons word2 rest2 =>
        have hin : '+' ∈ joinPlus (word :: word2 :: rest2) := by
          simp [joinPlus, tailPlus]
        rw [hdata] at hin
        exact absurd hin (by decide)
  rw [GetDenominationsToString_data _ _ hne m1 h1, GetDenominationsToString_data _ _ hne m2 h2] at h
  by_cases hm1 : m1 = 0
  · by_cases hm2 : m2 = 0
    · rw [hm1, hm2]
    · rw [if_pos hm1, if_neg hm2] at h
      exact absurd h.symm (hnot m2 h2 hm2)
  · by_cases hm2 : m2 = 0
    · rw [if_neg hm1, if_pos hm2] at h
      exact absurd h (hnot m1 h1 hm1)
    · rw [if_neg hm1, if_neg hm2] at h
      have hj : joinPlus (denomWords FormatMoney vecDenoms (m1 : Int)
          (List.range vecDenoms.length)) = joinPlus (denomWords FormatMoney vecDenoms (m2 : Int)
          (List.range vecDenoms.length)) := congrArg String.data h
      have hwords := joinPlus_injective _ _ (hwplus m1) (hwplus m2)
        (fun h0 => hm1 ((denomWords_nil_iff FormatMoney vecDenoms m1 h1).mp h0))
        (fun h0 => hm2 ((denomWords_nil_iff FormatMoney vecDenoms m2 h2).mp h0)) hj
      have hidx := map_injOn_eq (fun i => (FormatMoney (vecDenoms.getD i 0)).data)
        (fun i => i < vecDenoms.length)
        (by
          intro a b ha hb hab
          have hs : FormatMoney (vecDenoms.getD a 0) = FormatMoney (vecDenoms.getD b 0) :=
            String.ext hab
          have hv : vecDenoms.getD a 0 = vecDenoms.getD b 0 := by
            by_contra hneq
            exact hinj _ (hgetD a ha) _ (hgetD b hb) hneq hs
          simp only [List.getD_eq_getElem?_getD, List.getElem?_eq_getElem ha,
            List.getElem?_eq_getElem hb, Option.getD_some] at hv
          exact (hnodup.getElem_inj_iff).mp hv)
        _ _
        (by intro a ha; exact List.mem_range.mp (List.mem_filter.mp ha).1)
        (by intro a ha; exact List.mem_range.mp (List.mem_filter.mp ha).1)
        hwords
      apply Nat.eq_of_testBit_eq
      intro i
      have htest : ∀ (m : Nat) j, (m : Int).testBit j = m.testBit j := fun _ _ => rfl
      have hmemiff : i ∈ (List.range vecDenoms.length).filter (fun j => (m1 : Int).testBit j) ↔
          i ∈ (List.range vecDenoms.length).filter (fun j => (m2 : Int).testBit j) := by
        rw [hidx]
      simp only [List.mem_filter, List.mem_range, htest] at hmemiff
      cases hb1 : m1.testBit i
      · cases hb2 : m2.testBit i
        · rfl
        · have := hmemiff.mpr ⟨testBit_index_lt m2 _ i h2 hb2, hb2⟩
          rw [hb1] at this
          exact absurd this.2 (by simp)
      · have := hmemiff.mp ⟨testBit_index_lt m1 _ i h1 hb1, hb1⟩
        rw [this.2]

/-- The pretty-printer is injective on the masks in `[0, 2^n − 1]` for every money
formatter that maps distinct amounts of the table to distinct strings without `+` which
are neither empty nor the word `non-denom`. -/
theorem GetDenominationsToString_injective_of_formatter (FormatMoney : Int → String)
    (COIN : Int) (hcoin : 0 ≤ COIN)
    (hinj : ∀ a ∈ InitDenominations COIN, ∀ b ∈ InitDenominations COIN,
      a ≠ b → FormatMoney a ≠ FormatMoney b)
    (hplus : ∀ a ∈ InitDenominations COIN, '+' ∉ (FormatMoney a).data)
    (hne : ∀ a ∈ InitDenominations COIN, FormatMoney a ≠ "")
    (hnd : ∀ a ∈ InitDenominations COIN, FormatMoney a ≠ "non-denom")
    (m1 m2 : Int)
    (h1 : 0 ≤ m1 ∧ m1 ≤ 2 ^ (InitDenominations COIN).length - 1)
    (h2 : 0 ≤ m2 ∧ m2 ≤ 2 ^ (InitDenominations COIN).length - 1) :
    GetDenominationsToString FormatMoney (InitDenominations COIN) m1 =
      GetDenominationsToString FormatMoney (InitDenominations COIN) m2 ↔ m1 = m2 := by
  refine ⟨fun h => ?_, fun h => by rw [h]⟩
  obtain ⟨k1, rfl⟩ := Int.eq_ofNat_of_zero_le h1.1
  obtain ⟨k2, rfl⟩ := Int.eq_ofNat_of_zero_le h2.1
  have h3 : ((2 : Int) ^ (InitDenominations COIN).length) =
      ((2 ^ (InitDenominations COIN).length : Nat) : Int) := by
    push_cast
    rfl
  rw [h3] at h1 h2
  have := GetDenominationsToString_injective_nodup FormatMoney (InitDenominations COIN)
    (InitDenominations_nodup COIN hcoin) hinj hplus hne hnd k1 k2 (by omega) (by omega) h
  rw [this]

/-- C19: the pretty-printer is injective on valid masks: for all masks `m1`, `m2` in
`[0, 2^n − 1]`, `GetDenominationsToString(m1) = GetDenominationsToString(m2)` if and only
if `m1 = m2`. This holds with the decimal money formatter over the table of a coin unit of
`10^8`, and over the table of every coin unit for every formatter that maps distinct
amounts of the table to distinct strings that contain no `+` (and that, like decimal
literals, are neither empty nor the word `non-denom`, the two strings the printer itself
gives a meaning to). -/
theorem GetDenominationsToString_injective :
    (∀ m1 m2 : Int,
      0 ≤ m1 ∧ m1 ≤ 2 ^ (InitDenominations 100000000).length - 1 →
      0 ≤ m2 ∧ m2 ≤ 2 ^ (InitDenominations 100000000).length - 1 →
      (GetDenominationsToString FormatMoney (InitDenominations 100000000) m1 =
        GetDenominationsToString FormatMoney (InitDenominations 100000000) m2 ↔ m1 = m2)) ∧
    (∀ (fmt : Int → String) (COIN : Int), 0 ≤ COIN →
      (∀ a ∈ InitDenominations COIN, ∀ b ∈ InitDenominations COIN, a ≠ b → fmt a ≠ fmt b) →
      (∀ a ∈ InitDenominations COIN, '+' ∉ (fmt a).data) →
      (∀ a ∈ InitDenominations COIN, fmt a ≠ "") →
      (∀ a ∈ InitDenominations COIN, fmt a ≠ "non-denom") →
      ∀ m1 m2 : Int,
        0 ≤ m1 ∧ m1 ≤ 2 ^ (InitDenominations COIN).length - 1 →
        0 ≤ m2 ∧ m2 ≤ 2 ^ (InitDenominations COIN).length - 1 →
        (GetDenominationsToString fmt (InitDenominations COIN) m1 =
          GetDenominationsToString fmt (InitDenominations COIN) m2 ↔ m1 = m2)) :=
  ⟨fun m1 m2 h1 h2 =>
      GetDenominationsToString_injective_of_formatter FormatMoney 100000000 (by decide)
        (by decide) (by decide) (by decide) (by decide) m1 m2 h1 h2,
    fun fmt COIN hcoin hinj hplus hne hnd m1 m2 h1 h2 =>
      GetDenominationsToString_injective_of_formatter fmt COIN hcoin hinj hplus hne hnd
        m1 m2 h1 h2⟩

/-- Witness for C19: with a coin unit of `10^8` and the decimal money formatter, the masks
`3` and `5` are printed differently. -/
theorem GetDenominationsToString_injective_witness :
    GetDenominationsToString FormatMoney (InitDenominations 100000000) 3 = "10.0001+1.00001" ∧
    GetDenominationsToString FormatMoney (InitDenominations 100000000) 5 = "10.0001+0.100001" ∧
    (GetDenominationsToString FormatMoney (InitDenominations 100000000) 3 =
      GetDenominationsToString FormatMoney (InitDenominations 100000000) 5 ↔ (3 : Int) = 5) :=
  ⟨by decide, by decide,
    GetDenominationsToString_injective.1 3 5 (by decide) (by decide)⟩

/-! ### Pool check and timers -/

theorem UnlockCoins_pool (w : World) :
    (UnlockCoins w).pool = { w.pool with vecOutPointLocked := [] } := rfl

/-- C15: on a client whose state is `SUCCESS` or `ERROR`, `CheckPool` resets the pool to
the null state (state `IDLE`, id 0, entries empty) if at least 10000 ms have elapsed
since the last successful step, and leaves the world (state, id and entries included)
unchanged if fewer than 10000 ms have elapsed. -/
theorem CheckPool_client_dwell (env : Env) (w : World) (lockMain : Bool) (draws : List Nat)
    (hclient : env.fSubiNode = false)
    (hstate : w.pool.nState = POOL_STATE_SUCCESS ∨ w.pool.nState = POOL_STATE_ERROR) :
    (env.GetTimeMillis - w.pool.nTimeLastSuccessfulStep ≥ 10000 →
      CheckPool env w lockMain draws = (UnlockCoins w).SetNull env ∧
      (CheckPool env w lockMain draws).pool.nState = POOL_STATE_IDLE ∧
      (CheckPool env w lockMain draws).pool.nSessionID = 0 ∧
      (CheckPool env w lockMain draws).pool.vecEntries = []) ∧
    (env.GetTimeMillis - w.pool.nTimeLastSuccessfulStep < 10000 →
      CheckPool env w lockMain draws = w) := by
  have hst : (w.pool.nState == POOL_STATE_ERROR || w.pool.nState == POOL_STATE_SUCCESS)
      = true := by
    rcases hstate with h | h <;> rw [h] <;> rfl
  constructor
  · intro ht
    have hres : CheckPool env w lockMain draws = (UnlockCoins w).SetNull env := by
      unfold CheckPool
      simp only [hclient, Bool.false_and, hst, Bool.true_and, decide_eq_true_eq]
      rw [if_neg (by simp), if_neg (by simp), if_pos ht]
    rw [hres]
    exact ⟨rfl, rfl, rfl, rfl⟩
  · intro ht
    unfold CheckPool
    simp only [hclient, Bool.false_and, hst, Bool.true_and, decide_eq_true_eq]
    rw [if_neg (by simp), if_neg (by simp), if_neg (by omega)]

/-- Witness for C15: the example client has been in `ERROR` for 15 s, so `CheckPool`
unlocks its coin and resets the pool; 5 s after the failure it would have changed
nothing. -/
theorem CheckPool_client_dwell_witness :
    (CheckPool envClientExample worldErrorExample true []).pool.nState = POOL_STATE_IDLE ∧
    (CheckPool envClientExample worldErrorExample true []).vTrace =
      [Effect.UnlockCoin { hash := 9, n := 0 }] ∧
    CheckPool { envClientExample with GetTimeMillis := 50000 } worldErrorExample true []
      = worldErrorExample :=
  ⟨((CheckPool_client_dwell envClientExample worldErrorExample true [] rfl
      (Or.inr rfl)).1 (by decide)).2.1,
    by decide,
    (CheckPool_client_dwell { envClientExample with GetTimeMillis := 50000 }
      worldErrorExample true [] rfl (Or.inr rfl)).2 (by decide)⟩

theorem chargeCollateral_pool (env : Env) (w : World) (tx : CTransaction) :
    (chargeCollateral env w tx).pool = w.pool := by
  unfold chargeCollateral
  by_cases h : env.AcceptToMemoryPool tx = true <;> simp [h]

theorem chargeCollateral_fAborted (env : Env) (w : World) (tx : CTransaction) :
    (chargeCollateral env w tx).fAborted = w.fAborted := by
  unfold chargeCollateral
  by_cases h : env.AcceptToMemoryPool tx = true <;> simp [h]

theorem ChargeFees_pool (env : Env) (w : World) (nRand1 nRand2 nShuffle : Nat) :
    (ChargeFees env w nRand1 nRand2 nShuffle).pool = w.pool := by
  unfold ChargeFees
  dsimp only
  split_ifs <;> first | rfl | exact chargeCollateral_pool _ _ _

theorem ChargeFees_client (env : Env) (w : World) (nRand1 nRand2 nShuffle : Nat)
    (hclient : env.fSubiNode = false) :
    ChargeFees env w nRand1 nRand2 nShuffle = w := by
  unfold ChargeFees
  simp [hclient]

/-- Outside state `ACCEPTING_ENTRIES` the offender list of `ChargeFees` owns its
transactions, so the run goes on. -/
theorem ChargeFees_fAborted (env : Env) (w : World) (nRand1 nRand2 nShuffle : Nat)
    (hstate : w.pool.nState ≠ POOL_STATE_ACCEPTING_ENTRIES) :
    (ChargeFees env w nRand1 nRand2 nShuffle).fAborted = w.fAborted := by
  have hb : (w.pool.nState == POOL_STATE_ACCEPTING_ENTRIES) = false := by
    simpa using hstate
  unfold ChargeFees
  simp only [hb, Bool.false_and, Bool.false_eq_true, if_false]
  split_ifs <;> first | rfl | exact chargeCollateral_fAborted _ _ _

theorem timeoutReset_pool (env : Env) (w : World) (nRand1 nRand2 nShuffle : Nat) :
    ((timeoutReset env w nRand1 nRand2 nShuffle).fAborted = true ∧
      (ChargeFees env w nRand1 nRand2 nShuffle).fAborted = true ∧
      timeoutReset env w nRand1 nRand2 nShuffle = ChargeFees env w nRand1 nRand2 nShuffle ∧
      (timeoutReset env w nRand1 nRand2 nShuffle).pool = w.pool) ∨
    ((ChargeFees env w nRand1 nRand2 nShuffle).fAborted = false ∧
      (timeoutReset env w nRand1 nRand2 nShuffle).fAborted = false ∧
      (timeoutReset env w nRand1 nRand2 nShuffle).pool =
      { (({ w.pool with vecOutPointLocked := [] } : CDarksendPool).SetNull env).SetState env
          POOL_STATE_ERROR with strLastMessage := "Session timed out." }) := by
  unfold timeoutReset
  dsimp only
  by_cases h : (ChargeFees env w nRand1 nRand2 nShuffle).fAborted = true
  · rw [if_pos h]
    exact Or.inl ⟨h, h, rfl, ChargeFees_pool _ _ _ _ _⟩
  · rw [if_neg h]
    simp only [Bool.not_eq_true] at h
    refine Or.inr ⟨h, ?_, ?_⟩
    · exact h
    · simp only [World.SetState, World.SetNull, UnlockCoins_pool, ChargeFees_pool]

theorem timeoutReset_fields (env : Env) (w : World) (nRand1 nRand2 nShuffle : Nat) :
    ((timeoutReset env w nRand1 nRand2 nShuffle).fAborted = true ∧
      (ChargeFees env w nRand1 nRand2 nShuffle).fAborted = true ∧
      (timeoutReset env w nRand1 nRand2 nShuffle).pool = w.pool) ∨
    ((ChargeFees env w nRand1 nRand2 nShuffle).fAborted = false ∧
    (timeoutReset env w nRand1 nRand2 nShuffle).pool.nState =
      (if env.fSubiNode then POOL_STATE_IDLE else POOL_STATE_ERROR) ∧
    (timeoutReset env w nRand1 nRand2 nShuffle).pool.nSessionID = 0 ∧
    (timeoutReset env w nRand1 nRand2 nShuffle).pool.vecEntries = [] ∧
    (timeoutReset env w nRand1 nRand2 nShuffle).pool.vecSessionCollaterals = [] ∧
    (timeoutReset env w nRand1 nRand2 nShuffle).pool.strLastMessage = "Session timed out.") := by
  rcases timeoutReset_pool env w nRand1 nRand2 nShuffle with h | h
  · exact Or.inl ⟨h.1, h.2.1, h.2.2.2⟩
  · refine Or.inr ⟨h.1, ?_⟩
    rw [h.2.2]
    cases hrole : env.fSubiNode <;>
      simp [CDarksendPool.SetState, CDarksendPool.SetNull, hrole]

theorem CheckTimeout_active (env : Env) (w : World) (lockMain : Bool) (draws : List Nat)
    (nRand1 nRand2 nShuffle : Nat)
    (hpart : env.fSubiNode = true ∨ w.fEnablePrivateSend = true)
    (hstate : w.pool.nState ≠ POOL_STATE_ERROR ∧ w.pool.nState ≠ POOL_STATE_SUCCESS) :
    CheckTimeout env w true lockMain draws nRand1 nRand2 nShuffle =
      checkSessionTimeout env
        { w with pool := { w.pool with
            vecDarksendQueue := w.pool.vecDarksendQueue.filter (fun dsq => !dsq.IsExpired env) } }
        nRand1 nRand2 nShuffle := by
  unfold CheckTimeout
  have hgate : ¬ ((!w.fEnablePrivateSend && !env.fSubiNode) = true) := by
    rcases hpart with h | h <;> simp [h]
  simp only [Bool.not_true, Bool.false_eq_true, if_false]
  rw [if_neg hgate]
  congr 1
  by_cases hrole : env.fSubiNode = true
  · simp [hrole]
  · simp only [hrole, Bool.not_false, if_true, Bool.not_eq_true] 
    rcases hs : w.pool.nState with _ | _ | _ | _ | _ | _ <;> simp_all

theorem checkSessionTimeout_eq (env : Env) (w : World) (nRand1 nRand2 nShuffle : Nat)
    (hstate : w.pool.nState ≠ POOL_STATE_IDLE) :
    checkSessionTimeout env w nRand1 nRand2 nShuffle =
      if TimeoutReached env w.pool then timeoutReset env w nRand1 nRand2 nShuffle else w := by
  unfold checkSessionTimeout TimeoutReached
  have h1 : (w.pool.nState != POOL_STATE_IDLE) = true := by simpa using hstate
  simp only [h1, Bool.true_and, decide_eq_true_eq, beq_iff_eq]

theorem checkSessionTimeout_idle (env : Env) (w : World) (nRand1 nRand2 nShuffle : Nat)
    (hstate : w.pool.nState = POOL_STATE_IDLE) :
    checkSessionTimeout env w nRand1 nRand2 nShuffle = w := by
  unfold checkSessionTimeout
  simp [hstate]

/-- The contract of `CheckTimeout` where the run goes on. On a participating process
(a mixer, or a client with mixing enabled) whose state is `QUEUE`, `ACCEPTING_ENTRIES` or
`SIGNING`, with the lock taken, the reset is entered if and only if
`now_ms − last_step_ms ≥ nTimeout·1000 + lag` (`TimeoutReached`). If `ChargeFees` returns,
which it does on a client and in the states `QUEUE` and `SIGNING`, then after the reset the
session id is 0, there are no entries and no collaterals, the last message is
"Session timed out." and the state is `ERROR` on a client (`IDLE` on a mixer); when the
threshold is not reached only the expired queues are removed. In state `IDLE` nothing is
reset, whatever the role, the lock and the clock are. -/
theorem CheckTimeout_resets (env : Env) (w : World) (lockMain : Bool) (draws : List Nat)
    (nRand1 nRand2 nShuffle : Nat) (halive : w.fAborted = false) :
    ((env.fSubiNode = true ∨ w.fEnablePrivateSend = true) →
      (w.pool.nState = POOL_STATE_QUEUE ∨ w.pool.nState = POOL_STATE_ACCEPTING_ENTRIES
        ∨ w.pool.nState = POOL_STATE_SIGNING) →
      (CheckTimeout env w true lockMain draws nRand1 nRand2 nShuffle =
          timeoutReset env (withoutExpiredQueues env w) nRand1 nRand2 nShuffle
        ↔ TimeoutReached env w.pool) ∧
      (TimeoutReached env w.pool →
        (env.fSubiNode = false ∨ w.pool.nState ≠ POOL_STATE_ACCEPTING_ENTRIES ∨
          (ChargeFees env (withoutExpiredQueues env w) nRand1 nRand2 nShuffle).fAborted
            = false) →
        (CheckTimeout env w true lockMain draws nRand1 nRand2 nShuffle).fAborted = false ∧
        (CheckTimeout env w true lockMain draws nRand1 nRand2 nShuffle).pool.nState =
          (if env.fSubiNode then POOL_STATE_IDLE else POOL_STATE_ERROR) ∧
        (CheckTimeout env w true lockMain draws nRand1 nRand2 nShuffle).pool.nSessionID = 0 ∧
        (CheckTimeout env w true lockMain draws nRand1 nRand2 nShuffle).pool.vecEntries = [] ∧
        (CheckTimeout env w true lockMain draws nRand1 nRand2 nShuffle).pool.strLastMessage =
          "Session timed out.") ∧
      (¬ TimeoutReached env w.pool →
        CheckTimeout env w true lockMain draws nRand1 nRand2 nShuffle =
          withoutExpiredQueues env w ∧
        (CheckTimeout env w true lockMain draws nRand1 nRand2 nShuffle).pool.nState =
          w.pool.nState ∧
        (CheckTimeout env w true lockMain draws nRand1 nRand2 nShuffle).pool.nSessionID =
          w.pool.nSessionID ∧
        (CheckTimeout env w true lockMain draws nRand1 nRand2 nShuffle).pool.vecEntries =
          w.pool.vecEntries ∧
        (CheckTimeout env w true lockMain draws nRand1 nRand2 nShuffle).pool.vecSessionCollaterals
          = w.pool.vecSessionCollaterals)) ∧
    (w.pool.nState = POOL_STATE_IDLE → ∀ lockDS : Bool,
      (CheckTimeout env w lockDS lockMain draws nRand1 nRand2 nShuffle).pool.nState =
        POOL_STATE_IDLE ∧
      (CheckTimeout env w lockDS lockMain draws nRand1 nRand2 nShuffle).pool.nSessionID =
        w.pool.nSessionID ∧
      (CheckTimeout env w lockDS lockMain draws nRand1 nRand2 nShuffle).pool.vecEntries =
        w.pool.vecEntries ∧
      (CheckTimeout env w lockDS lockMain draws nRand1 nRand2 nShuffle).pool.vecSessionCollaterals
        = w.pool.vecSessionCollaterals ∧
      (CheckTimeout env w lockDS lockMain draws nRand1 nRand2 nShuffle).vTrace = w.vTrace) := by
  constructor
  · intro hpart hstate
    have hne : w.pool.nState ≠ POOL_STATE_ERROR ∧ w.pool.nState ≠ POOL_STATE_SUCCESS := by
      rcases hstate with h | h | h <;> rw [h] <;> exact ⟨by decide, by decide⟩
    have hidle : (withoutExpiredQueues env w).pool.nState ≠ POOL_STATE_IDLE := by
      show w.pool.nState ≠ POOL_STATE_IDLE
      rcases hstate with h | h | h <;> rw [h] <;> decide
    have hres : CheckTimeout env w true lockMain draws nRand1 nRand2 nShuffle =
        if TimeoutReached env w.pool then
          timeoutReset env (withoutExpiredQueues env w) nRand1 nRand2 nShuffle
        else withoutExpiredQueues env w := by
      rw [CheckTimeout_active env w lockMain draws nRand1 nRand2 nShuffle hpart hne]
      exact checkSessionTimeout_eq env (withoutExpiredQueues env w) nRand1 nRand2 nShuffle hidle
    have hf := timeoutReset_fields env (withoutExpiredQueues env w) nRand1 nRand2 nShuffle
    have hw : (withoutExpiredQueues env w).pool.nState = w.pool.nState := rfl
    have hwa : (withoutExpiredQueues env w).fAborted = false := halive
    refine ⟨⟨fun h => ?_, fun h => ?_⟩, fun h hrun => ?_, fun h => ?_⟩
    · by_contra hno
      rw [hres, if_neg hno] at h
      rcases hf with hf | hf
      · have hab := congrArg (fun x => x.fAborted) h
        simp only [hf.1, hwa] at hab
        cases hab
      · have hst := congrArg (fun x => x.pool.nState) h
        simp only [hf.2.1] at hst
        rw [hw] at hst
        rcases hstate with h1 | h1 | h1 <;> rw [h1] at hst <;>
          cases hrole : env.fSubiNode <;> simp [hrole] at hst
    · rw [hres, if_pos h]
    · have hgo : (ChargeFees env (withoutExpiredQueues env w) nRand1 nRand2 nShuffle).fAborted
          = false := by
        rcases hrun with h1 | h1 | h1
        · rw [ChargeFees_client env _ nRand1 nRand2 nShuffle h1]
          exact hwa
        · rw [ChargeFees_fAborted env _ nRand1 nRand2 nShuffle (by rw [hw]; exact h1)]
          exact hwa
        · exact h1
      rw [hres, if_pos h]
      rcases timeoutReset_pool env (withoutExpiredQueues env w) nRand1 nRand2 nShuffle
        with hp | hp
      · rw [hgo] at hp
        cases hp.2.1
      · rcases hf with hf | hf
        · rw [hgo] at hf
          cases hf.2.1
        · exact ⟨hp.2.1, hf.2.1, hf.2.2.1, hf.2.2.2.1, hf.2.2.2.2.2⟩
    · rw [hres, if_neg h]
      exact ⟨rfl, rfl, rfl, rfl, rfl⟩
  · intro hstate lockDS
    obtain ⟨pool, mn, tr, fe, mp, nt, fa⟩ := w
    cases pool
    simp only at hstate
    subst hstate
    unfold CheckTimeout checkSessionTimeout
    cases lockDS <;> cases fe <;> cases hrole : env.fSubiNode <;> simp [hrole]

/-- C14 (code defect): on a mixer `CheckTimeout` does not reset a timed-out session in
state `ACCEPTING_ENTRIES` that holds an entry. The example mixer has three collaterals and
one entry, its last step was at 0 ms and the clock is at 60000 ms, past the threshold
`30·1000 + 0`. With the first draw `10` the run ends in `ChargeFees`, where the reference
built over a collateral of the session list is destroyed: the state is still
`ACCEPTING_ENTRIES`, the id still 42, the entry and the collaterals are still there and
nothing was sent. With the first draw `50` `ChargeFees` is skipped and the session is
reset to `IDLE` with id 0, as on a client, where the reset gives `ERROR`. -/
theorem CheckTimeout_ends_run_in_ChargeFees :
    envMixerLateExample.fSubiNode = true ∧
    worldOneEntryExample.pool.nState = POOL_STATE_ACCEPTING_ENTRIES ∧
    worldOneEntryExample.fAborted = false ∧
    TimeoutReached envMixerLateExample worldOneEntryExample.pool ∧
    (CheckTimeout envMixerLateExample worldOneEntryExample true true [] 10 0 0).fAborted
      = true ∧
    (CheckTimeout envMixerLateExample worldOneEntryExample true true [] 10 0 0).pool
      = worldOneEntryExample.pool ∧
    (CheckTimeout envMixerLateExample worldOneEntryExample true true [] 10 0 0).vTrace = [] ∧
    (CheckTimeout envMixerLateExample worldOneEntryExample true true [] 50 0 0).fAborted
      = false ∧
    (CheckTimeout envMixerLateExample worldOneEntryExample true true [] 50 0 0).pool.nState
      = POOL_STATE_IDLE ∧
    (CheckTimeout envMixerLateExample worldOneEntryExample true true [] 50 0 0).pool.nSessionID
      = 0 ∧
    (CheckTimeout envClientExample
        { worldOneEntryExample with fEnablePrivateSend := true } true true [] 10 0 0).pool.nState
      = POOL_STATE_ERROR := by
  decide

/-! ### Reachable states -/

theorem WorldStep_refl (b : Bool) (w : World) : WorldStep b w w :=
  Or.inl ⟨rfl, rfl⟩

theorem WorldStep_of_pool {b : Bool} {w w' : World} (h : w'.pool = w.pool) : WorldStep b w w' := by
  unfold WorldStep
  rw [h]
  exact Or.inl ⟨rfl, rfl⟩

theorem WorldStep_of_key {b : Bool} {w w' : World} (hs : w'.pool.nState = w.pool.nState)
    (hi : w'.pool.nSessionID = w.pool.nSessionID) : WorldStep b w w' :=
  Or.inl ⟨hs, hi⟩

theorem WorldStep_of_null {b : Bool} {w w' : World} (hs : w'.pool.nState = POOL_STATE_IDLE)
    (hi : w'.pool.nSessionID = 0) : WorldStep b w w' :=
  Or.inr (Or.inl ⟨hs, hi⟩)

theorem WorldStep_trans {b : Bool} {u v w : World} (h12 : WorldStep b u v)
    (h23 : WorldStep b v w) : WorldStep b u w := by
  unfold WorldStep IdStateStep at *
  rcases h23 with ⟨hs, hi⟩ | h | h | h | ⟨hb, hne, hi, hs⟩
  · rw [hs, hi]
    exact h12
  · exact Or.inr (Or.inl h)
  · exact Or.inr (Or.inr (Or.inl h))
  · exact Or.inr (Or.inr (Or.inr (Or.inl h)))
  · rcases h12 with ⟨hs1, hi1⟩ | ⟨hs1, _⟩ | ⟨hb1, _⟩ | ⟨_, hi1, _⟩ | ⟨_, hne1, hi1, _⟩
    · exact Or.inr (Or.inr (Or.inr (Or.inr ⟨hb, hs1 ▸ hne, hi.trans hi1, hs⟩)))
    · exact absurd hs1 hne
    · rw [hb] at hb1
      exact absurd hb1 (by decide)
    · refine Or.inr (Or.inr (Or.inr (Or.inl ⟨hb, hi ▸ hi1, ?_⟩)))
      rcases hs with hs | hs
      · exact Or.inr (Or.inl hs)
      · exact Or.inr (Or.inr hs)
    · exact Or.inr (Or.inr (Or.inr (Or.inr ⟨hb, hne1, hi.trans hi1, hs⟩)))

theorem chargeRandomLoop_pool (env : Env) (l : List CTransaction) (draws : List Nat) (w : World) :
    (chargeRandomLoop env l draws w).pool = w.pool := by
  induction l generalizing draws w with
  | nil => rfl
  | cons tx rest ih =>
    unfold chargeRandomLoop
    split_ifs
    · rfl
    · rw [ih, chargeCollateral_pool]
    · exact chargeCollateral_pool _ _ _

theorem ChargeRandomFees_pool (env : Env) (w : World) (draws : List Nat) :
    (ChargeRandomFees env w draws).pool = w.pool := by
  unfold ChargeRandomFees
  split_ifs
  · rfl
  · exact chargeRandomLoop_pool _ _ _ _

theorem SetState_nSessionID (env : Env) (pool : CDarksendPool) (s : PoolState) :
    (pool.SetState env s).nSessionID = pool.nSessionID := by
  unfold CDarksendPool.SetState
  split_ifs <;> rfl

theorem SetState_nState (env : Env) (pool : CDarksendPool) (s : PoolState)
    (hs : s ≠ POOL_STATE_ERROR ∧ s ≠ POOL_STATE_SUCCESS) :
    (pool.SetState env s).nState = s := by
  unfold CDarksendPool.SetState
  rcases s with _ | _ | _ | _ | _ | _ <;> simp_all

theorem SetState_mixer (env : Env) (pool : CDarksendPool) (s : PoolState)
    (hrole : env.fSubiNode = true) (hs : s = POOL_STATE_ERROR ∨ s = POOL_STATE_SUCCESS) :
    pool.SetState env s = pool := by
  unfold CDarksendPool.SetState
  rcases hs with h | h <;> simp [hrole, h]

theorem CreateFinalTransaction_step (env : Env) (w : World)
    (hacc : w.pool.nState = POOL_STATE_ACCEPTING_ENTRIES) :
    WorldStep env.fSubiNode w (CreateFinalTransaction env w) := by
  have hs : (CreateFinalTransaction env w).pool.nState = POOL_STATE_SIGNING := by
    unfold CreateFinalTransaction
    exact SetState_nState _ _ _ ⟨by decide, by decide⟩
  have hi : (CreateFinalTransaction env w).pool.nSessionID = w.pool.nSessionID := by
    unfold CreateFinalTransaction
    exact SetState_nSessionID _ _ _
  unfold WorldStep IdStateStep
  rw [hs, hi, hacc]
  cases env.fSubiNode
  · exact Or.inr (Or.inr (Or.inl ⟨rfl, Or.inr (by decide)⟩))
  · exact Or.inr (Or.inr (Or.inr (Or.inr ⟨rfl, by decide, rfl, Or.inr rfl⟩)))

theorem CommitFinalTransaction_cases (env : Env) (w : World) (lockMain : Bool)
    (draws : List Nat) :
    (CommitFinalTransaction env w lockMain draws).pool = w.pool ∨
    ((CommitFinalTransaction env w lockMain draws).pool.nState = POOL_STATE_IDLE ∧
      (CommitFinalTransaction env w lockMain draws).pool.nSessionID = 0) := by
  unfold CommitFinalTransaction
  dsimp only
  split_ifs <;> first
    | exact Or.inl rfl
    | exact Or.inr ⟨rfl, rfl⟩
    | exact Or.inl (by rw [ChargeRandomFees_pool]; rfl)

theorem CommitFinalTransaction_step (b : Bool) (env : Env) (w : World) (lockMain : Bool)
    (draws : List Nat) : WorldStep b w (CommitFinalTransaction env w lockMain draws) := by
  rcases CommitFinalTransaction_cases env w lockMain draws with h | ⟨hs, hi⟩
  · exact WorldStep_of_pool h
  · exact WorldStep_of_null hs hi

theorem CheckPool_step (env : Env) (w : World) (lockMain : Bool) (draws : List Nat) :
    WorldStep env.fSubiNode w (CheckPool env w lockMain draws) := by
  unfold CheckPool
  split_ifs with h1 h2 h3
  · apply CreateFinalTransaction_step
    simp only [Bool.and_eq_true, beq_iff_eq] at h1
    exact h1.2.1
  · exact CommitFinalTransaction_step _ _ _ _ _
  · exact WorldStep_of_null rfl rfl
  · exact WorldStep_refl _ _

theorem timeoutReset_step (env : Env) (w : World) (nRand1 nRand2 nShuffle : Nat) :
    WorldStep env.fSubiNode w (timeoutReset env w nRand1 nRand2 nShuffle) := by
  rcases timeoutReset_fields env w nRand1 nRand2 nShuffle with hf | hf
  · exact WorldStep_of_pool hf.2.2
  · unfold WorldStep IdStateStep
    rw [hf.2.1, hf.2.2.1]
    cases env.fSubiNode
    · exact Or.inr (Or.inr (Or.inl ⟨rfl, Or.inl rfl⟩))
    · exact Or.inr (Or.inl ⟨rfl, rfl⟩)

theorem checkSessionTimeout_step (env : Env) (w : World) (nRand1 nRand2 nShuffle : Nat) :
    WorldStep env.fSubiNode w (checkSessionTimeout env w nRand1 nRand2 nShuffle) := by
  unfold checkSessionTimeout
  dsimp only
  split_ifs <;> first | exact timeoutReset_step _ _ _ _ _ | exact WorldStep_refl _ _

theorem CheckTimeout_step (env : Env) (w : World) (lockDS lockMain : Bool) (draws : List Nat)
    (nRand1 nRand2 nShuffle : Nat) :
    WorldStep env.fSubiNode w
      (CheckTimeout env w lockDS lockMain draws nRand1 nRand2 nShuffle) := by
  unfold CheckTimeout
  dsimp only
  split_ifs with h1 h2 h3
  · exact WorldStep_refl _ _
  · exact WorldStep_of_key rfl rfl
  · refine WorldStep_trans (v := withoutExpiredQueues env w) (WorldStep_of_key rfl rfl) ?_
    refine WorldStep_trans ?_ (checkSessionTimeout_step _ _ _ _ _)
    show WorldStep env.fSubiNode (withoutExpiredQueues env w)
      (match (withoutExpiredQueues env w).pool.nState with
        | POOL_STATE_ERROR => CheckPool env (withoutExpiredQueues env w) lockMain draws
        | POOL_STATE_SUCCESS => CheckPool env (withoutExpiredQueues env w) lockMain draws
        | _ => withoutExpiredQueues env w)
    split
    · exact CheckPool_step _ _ _ _
    · exact CheckPool_step _ _ _ _
    · exact WorldStep_refl _ _
  · refine WorldStep_trans (v := withoutExpiredQueues env w) (WorldStep_of_key rfl rfl) ?_
    exact checkSessionTimeout_step _ _ _ _ _

theorem setActive_step (env : Env) (w w' : World) (s : PoolState)
    (hq : w.pool.nState ≠ POOL_STATE_IDLE)
    (hs : s = POOL_STATE_ACCEPTING_ENTRIES ∨ s = POOL_STATE_SIGNING)
    (hpool : w'.pool.nState = (w.pool.SetState env s).nState ∧
      w'.pool.nSessionID = (w.pool.SetState env s).nSessionID) :
    WorldStep env.fSubiNode w w' := by
  have h1 : (w.pool.SetState env s).nState = s := by
    apply SetState_nState
    rcases hs with h | h <;> rw [h] <;> exact ⟨by decide, by decide⟩
  have h2 := SetState_nSessionID env w.pool s
  unfold WorldStep IdStateStep
  rw [hpool.1, hpool.2, h1, h2]
  cases env.fSubiNode
  · refine Or.inr (Or.inr (Or.inl ⟨rfl, Or.inr ?_⟩))
    rcases hs with h | h <;> rw [h] <;> decide
  · exact Or.inr (Or.inr (Or.inr (Or.inr ⟨rfl, hq, rfl, hs⟩)))

theorem CheckForCompleteQueue_step (env : Env) (w : World) :
    WorldStep env.fSubiNode w (CheckForCompleteQueue env w) := by
  unfold CheckForCompleteQueue
  by_cases h1 : (!w.fEnablePrivateSend && !env.fSubiNode) = true
  · rw [if_pos h1]
    exact WorldStep_refl _ _
  · rw [if_neg h1]
    by_cases h2 : (w.pool.nState == POOL_STATE_QUEUE && w.pool.IsSessionReady env) = true
    · rw [if_pos h2]
      simp only [Bool.and_eq_true, beq_iff_eq] at h2
      exact setActive_step env w _ POOL_STATE_ACCEPTING_ENTRIES (by rw [h2.1]; decide)
        (Or.inl rfl) ⟨rfl, rfl⟩
    · rw [if_neg h2]
      exact WorldStep_refl _ _

theorem NewBlock_step (env : Env) (w : World) (lockDS lockMain : Bool) (draws : List Nat)
    (nRand1 nRand2 nShuffle : Nat) :
    WorldStep env.fSubiNode w (NewBlock env w lockDS lockMain draws nRand1 nRand2 nShuffle) := by
  unfold NewBlock
  split_ifs
  · exact WorldStep_refl _ _
  · exact WorldStep_trans (v := { w with nTimeNewBlockReceived := env.GetTime })
      (WorldStep_of_key rfl rfl) (CheckTimeout_step _ _ _ _ _ _ _ _)

theorem UpdatedBlockTip_step (env : Env) (w : World) (nHeight : Int)
    (fSubinodeListSynced lockDS lockMain : Bool) (draws : List Nat)
    (nRand1 nRand2 nShuffle : Nat) :
    WorldStep env.fSubiNode w
      (UpdatedBlockTip env w nHeight fSubinodeListSynced lockDS lockMain draws nRand1 nRand2
        nShuffle) := by
  unfold UpdatedBlockTip
  dsimp only
  split_ifs
  · exact WorldStep_trans
      (v := { w with pool := { w.pool with pCurrentBlockIndex := some nHeight } })
      (WorldStep_of_key rfl rfl) (NewBlock_step _ _ _ _ _ _ _ _)
  · exact WorldStep_of_key rfl rfl

theorem ResetPool_step (b : Bool) (env : Env) (w : World) : WorldStep b w (ResetPool env w) :=
  WorldStep_of_null rfl rfl

theorem CreateNewSession_step (env : Env) (w : World) (vinActive : CTxIn) (vchSig : List Nat)
    (nRand : Nat) (nDenom : Int) (txCollateral : CTransaction) (nMessageIDRet : PoolMessage)
    (r : Bool × PoolMessage × World)
    (hr : CreateNewSession env w vinActive vchSig nRand nDenom txCollateral nMessageIDRet
      = some r) :
    WorldStep env.fSubiNode w r.2.2 := by
  unfold CreateNewSession at hr
  by_cases h1 : (!env.fSubiNode || w.pool.nSessionID != 0) = true
  · rw [if_pos h1] at hr
    cases hr
    exact WorldStep_refl _ _
  · rw [if_neg h1] at hr
    have hrole : env.fSubiNode = true := by
      cases h : env.fSubiNode
      · simp [h] at h1
      · rfl
    by_cases h2 : (w.pool.nState != POOL_STATE_IDLE) = true
    · rw [if_pos h2] at hr
      cases hr
      exact WorldStep_refl _ _
    · rw [if_neg h2] at hr
      cases h3 : IsAcceptableDenomAndCollateral env w.pool nDenom txCollateral
          nMessageIDRet with
      | none =>
        rw [h3] at hr
        cases hr
      | some a =>
        rw [h3] at hr
        dsimp only at hr
        by_cases h4 : (!a.1) = true
        · rw [if_pos h4] at hr
          cases hr
          exact WorldStep_refl _ _
        · rw [if_neg h4] at hr
          cases hr
          unfold WorldStep IdStateStep
          refine Or.inr (Or.inr (Or.inr (Or.inl ⟨hrole, ?_, Or.inl ?_⟩)))
          · split_ifs <;> simp [CDarksendPool.SetState, hrole] <;> omega
          · split_ifs <;> simp [CDarksendPool.SetState, hrole]

theorem AddUserToExistingSession_key (env : Env) (pool : CDarksendPool) (nDenom : Int)
    (txCollateral : CTransaction) (nMessageIDRet : PoolMessage)
    (r : Bool × PoolMessage × CDarksendPool)
    (hr : AddUserToExistingSession env pool nDenom txCollateral nMessageIDRet = some r) :
    r.2.2.nState = pool.nState ∧ r.2.2.nSessionID = pool.nSessionID := by
  unfold AddUserToExistingSession at hr
  split at hr
  · cases hr
    exact ⟨rfl, rfl⟩
  · split at hr
    · cases hr
    · split_ifs at hr <;> cases hr <;> exact ⟨rfl, rfl⟩

theorem ProcessMessageDSACCEPT_step (env : Env) (w : World) (nVersion nDenom : Int)
    (txCollateral : CTransaction) (nRand : Nat) :
    WorldStep env.fSubiNode w
      (ProcessMessageDSACCEPT env w nVersion nDenom txCollateral nRand) := by
  unfold ProcessMessageDSACCEPT
  repeat' split
  all_goals first
    | exact WorldStep_refl _ _
    | exact WorldStep_of_pool rfl
    | exact CreateNewSession_step _ _ _ _ _ _ _ _ _ (by assumption)
    | exact WorldStep_of_key (AddUserToExistingSession_key _ _ _ _ _ _ (by assumption)).1
        (AddUserToExistingSession_key _ _ _ _ _ _ (by assumption)).2

theorem AddEntry_key (env : Env) (pool : CDarksendPool) (entryNew : CDarkSendEntry)
    (nMessageIDRet : PoolMessage) (r : Bool × PoolMessage × CDarksendPool)
    (hr : AddEntry env pool entryNew nMessageIDRet = some r) :
    r.2.2.nState = pool.nState ∧ r.2.2.nSessionID = pool.nSessionID := by
  rcases AddEntry_outcomes env pool entryNew nMessageIDRet with h | ⟨msg, h, _⟩ | h
  · rw [h] at hr
    cases hr
  · rw [h] at hr
    cases hr
    exact ⟨rfl, rfl⟩
  · rw [h.1] at hr
    cases hr
    exact ⟨rfl, rfl⟩

theorem WorldStep_congr_right {b : Bool} {w w' w'' : World} (h : WorldStep b w w')
    (hp : w''.pool = w'.pool) : WorldStep b w w'' := by
  unfold WorldStep at *
  rw [hp]
  exact h

theorem WorldStep_congr_left {b : Bool} {w w' w'' : World} (h : WorldStep b w' w'')
    (hs : w'.pool.nState = w.pool.nState) (hi : w'.pool.nSessionID = w.pool.nSessionID) :
    WorldStep b w w'' := by
  unfold WorldStep at *
  rw [← hs, ← hi]
  exact h

theorem WorldStep_ite {b : Bool} {w : World} {c : Prop} [Decidable c] {x y : World}
    (hx : c → WorldStep b w x) (hy : ¬ c → WorldStep b w y) :
    WorldStep b w (if c then x else y) := by
  split_ifs with h
  · exact hx h
  · exact hy h

theorem ProcessMessageDSVINWorld_step (env : Env) (w : World) (nVersion : Int)
    (entry : CDarkSendEntry) (lockMain : Bool) (draws : List Nat) :
    WorldStep env.fSubiNode w
      (ProcessMessageDSVINWorld env w nVersion entry lockMain draws) := by
  unfold ProcessMessageDSVINWorld
  repeat' (with_reducible apply WorldStep_ite <;> intro _)
  all_goals try exact WorldStep_refl _ _
  cases dsvinOutLoop env entry.vecTxDSOut 0 with
  | error nMessageID => exact WorldStep_refl _ _
  | ok nValueOut =>
    cases dsvinInLoop env entry.vecTxDSIn 0 with
    | error nMessageID => exact WorldStep_refl _ _
    | ok nValueIn =>
      dsimp only
      repeat' (with_reducible apply WorldStep_ite <;> intro _)
      all_goals try exact WorldStep_refl _ _
      cases hadd : AddEntry env w.pool entry MSG_NOERR with
      | none => exact WorldStep_of_pool rfl
      | some r =>
        have hk := AddEntry_key env w.pool entry MSG_NOERR r hadd
        dsimp only
        repeat' (with_reducible apply WorldStep_ite <;> intro _)
        all_goals first
          | exact WorldStep_of_null rfl rfl
          | exact WorldStep_congr_right
              (WorldStep_congr_left (CheckPool_step env _ lockMain draws) hk.1 hk.2) rfl

theorem addScriptSig_key (pool : CDarksendPool) (txinNew : CTxIn) :
    (AddScriptSig pool txinNew).2.nState = pool.nState ∧
    (AddScriptSig pool txinNew).2.nSessionID = pool.nSessionID := by
  unfold AddScriptSig
  dsimp only
  split_ifs <;> exact ⟨rfl, rfl⟩

theorem signFinalLoop_key (l : List CTxIn) (w : World) :
    (signFinalLoop l w).2.pool.nState = w.pool.nState ∧
    (signFinalLoop l w).2.pool.nSessionID = w.pool.nSessionID := by
  induction l generalizing w with
  | nil => exact ⟨rfl, rfl⟩
  | cons txin rest ih =>
    unfold signFinalLoop
    dsimp only
    split_ifs
    · exact addScriptSig_key w.pool txin
    · have h := ih { w with pool := (AddScriptSig w.pool txin).2 }
      have h2 := addScriptSig_key w.pool txin
      exact ⟨h.1.trans h2.1, h.2.trans h2.2⟩

theorem ProcessMessageDSSIGNFINALTX_step (env : Env) (w : World) (nVersion : Int)
    (vecTxIn : List CTxIn) (lockMain : Bool) (draws : List Nat) :
    WorldStep env.fSubiNode w
      (ProcessMessageDSSIGNFINALTX env w nVersion vecTxIn lockMain draws) := by
  unfold ProcessMessageDSSIGNFINALTX
  dsimp only
  repeat' split
  all_goals first
    | exact WorldStep_refl _ _
    | exact WorldStep_of_key (signFinalLoop_key vecTxIn w).1 (signFinalLoop_key vecTxIn w).2
    | exact WorldStep_congr_left (CheckPool_step env _ lockMain draws)
        (signFinalLoop_key vecTxIn w).1 (signFinalLoop_key vecTxIn w).2

theorem WorldStep_ite_snd {α : Type} {b : Bool} {w : World} {c : Prop} [Decidable c]
    {x y : α × World} (hx : c → WorldStep b w x.2) (hy : ¬ c → WorldStep b w y.2) :
    WorldStep b w (if c then x else y).2 := by
  split_ifs with h
  · exact hx h
  · exact hy h

theorem WorldStep_client_state {b : Bool} {w w' : World} (hrole : b = false)
    (hs : w'.pool.nState ≠ POOL_STATE_IDLE) : WorldStep b w w' :=
  Or.inr (Or.inr (Or.inl ⟨hrole, Or.inr hs⟩))

theorem WorldStep_client_id {b : Bool} {w w' : World} (hrole : b = false)
    (hi : w'.pool.nSessionID = 0) : WorldStep b w w' :=
  Or.inr (Or.inr (Or.inl ⟨hrole, Or.inl hi⟩))

theorem not_mixer {env : Env} (h : ¬ env.fSubiNode = true) : env.fSubiNode = false := by
  cases hb : env.fSubiNode
  · rfl
  · exact absurd hb h

theorem CheckPoolStateUpdate_step (env : Env) (w : World) (nStateNew : PoolState)
    (nEntriesCountNew : Int) (nStatusUpdate : PoolStatusUpdate) (nMessageID : PoolMessage)
    (nSessionIDNew : Int) :
    WorldStep env.fSubiNode w
      (CheckPoolStateUpdate env w nStateNew nEntriesCountNew nStatusUpdate nMessageID
        nSessionIDNew).2 := by
  unfold CheckPoolStateUpdate
  with_reducible apply WorldStep_ite_snd <;> intro hrole
  · exact WorldStep_refl _ _
  with_reducible apply WorldStep_ite_snd <;> intro hst
  · exact WorldStep_refl _ _
  have hidle : w.pool.nState ≠ POOL_STATE_IDLE := by
    intro h
    apply hst
    simp [h]
  dsimp only
  repeat' (with_reducible apply WorldStep_ite_snd <;> intro _)
  · exact WorldStep_client_id (not_mixer hrole) (SetState_nSessionID _ _ _)
  · exact WorldStep_client_state (not_mixer hrole) hidle
  · exact WorldStep_of_key rfl rfl
  · exact WorldStep_refl _ _
  · exact WorldStep_refl _ _

theorem ProcessMessageDSSTATUSUPDATE_step (env : Env) (w : World) (nVersion : Int)
    (addrFrom : Nat)
    (nMsgSessionID nMsgState nMsgEntriesCount nMsgStatusUpdate nMsgMessageID : Int) :
    WorldStep env.fSubiNode w
      (ProcessMessageDSSTATUSUPDATE env w nVersion addrFrom nMsgSessionID nMsgState
        nMsgEntriesCount nMsgStatusUpdate nMsgMessageID) := by
  unfold ProcessMessageDSSTATUSUPDATE
  repeat' (with_reducible apply WorldStep_ite <;> intro _)
  all_goals try exact WorldStep_refl _ _
  cases w.pool.pSubmittedToSubinode with
  | none => exact WorldStep_refl _ _
  | some pSubmitted =>
    dsimp only
    with_reducible apply WorldStep_ite <;> intro _
    · exact WorldStep_refl _ _
    cases PoolState.ofInt nMsgState with
    | none => exact WorldStep_refl _ _
    | some nStateNew =>
      cases PoolStatusUpdate.ofInt nMsgStatusUpdate with
      | none => exact WorldStep_refl _ _
      | some nStatusUpdate =>
        cases PoolMessage.ofInt nMsgMessageID with
        | none => exact WorldStep_refl _ _
        | some nMessageID => exact CheckPoolStateUpdate_step _ _ _ _ _ _ _

theorem SignFinalTransaction_step (env : Env) (w : World) (finalTransactionNew : CTransaction) :
    WorldStep env.fSubiNode w (SignFinalTransaction env w finalTransactionNew).2 := by
  unfold SignFinalTransaction
  with_reducible apply WorldStep_ite_snd <;> intro hrole
  · exact WorldStep_refl _ _
  dsimp only
  cases signEntries env w.pool.vecEntries (finalTransactionNew, []) with
  | none => exact WorldStep_of_null rfl rfl
  | some st =>
    dsimp only
    with_reducible apply WorldStep_ite_snd <;> intro _
    · exact WorldStep_of_null rfl rfl
    · apply WorldStep_client_state (not_mixer hrole)
      show (CDarksendPool.SetState env _ POOL_STATE_SIGNING).nState ≠ POOL_STATE_IDLE
      rw [SetState_nState _ _ _ ⟨by decide, by decide⟩]
      decide

theorem ProcessMessageDSFINALTX_step (env : Env) (w : World) (nVersion : Int) (addrFrom : Nat)
    (nMsgSessionID : Int) (txNew : CTransaction) :
    WorldStep env.fSubiNode w
      (ProcessMessageDSFINALTX env w nVersion addrFrom nMsgSessionID txNew) := by
  unfold ProcessMessageDSFINALTX
  repeat' (with_reducible apply WorldStep_ite <;> intro _)
  all_goals try exact WorldStep_refl _ _
  cases w.pool.pSubmittedToSubinode with
  | none => exact WorldStep_refl _ _
  | some pSubmitted =>
    dsimp only
    repeat' (with_reducible apply WorldStep_ite <;> intro _)
    · exact WorldStep_refl _ _
    · exact WorldStep_refl _ _
    · exact SignFinalTransaction_step _ _ _

theorem OptionStep_ite {b : Bool} {w : World} {c : Prop} [Decidable c] {x y : Option World}
    (hx : c → OptionStep b w x) (hy : ¬ c → OptionStep b w y) :
    OptionStep b w (if c then x else y) := by
  split_ifs with h
  · exact hx h
  · exact hy h

theorem OptionStep_some {b : Bool} {w x : World} (h : WorldStep b w x) :
    OptionStep b w (some x) := by
  intro r hr
  cases hr
  exact h

theorem OptionStep_none {b : Bool} {w : World} : OptionStep b w none := by
  intro r hr
  cases hr

theorem CompletedTransaction_step (env : Env) (w : World) (nMessageID : PoolMessage) :
    OptionStep env.fSubiNode w (CompletedTransaction env w nMessageID) := by
  unfold CompletedTransaction
  with_reducible apply OptionStep_ite <;> intro _
  · exact OptionStep_some (WorldStep_refl _ _)
  dsimp only
  with_reducible apply OptionStep_ite <;> intro _
  · cases w.pool.pCurrentBlockIndex with
    | none => exact OptionStep_none
    | some nHeight => exact OptionStep_some (WorldStep_of_null rfl rfl)
  · exact OptionStep_some (WorldStep_of_null rfl rfl)

theorem ProcessMessageDSCOMPLETE_step (env : Env) (w : World) (nVersion : Int) (addrFrom : Nat)
    (nMsgSessionID nMsgMessageID : Int) :
    OptionStep env.fSubiNode w
      (ProcessMessageDSCOMPLETE env w nVersion addrFrom nMsgSessionID nMsgMessageID) := by
  unfold ProcessMessageDSCOMPLETE
  repeat' (with_reducible apply OptionStep_ite <;> intro _)
  all_goals try exact OptionStep_some (WorldStep_refl _ _)
  cases w.pool.pSubmittedToSubinode with
  | none => exact OptionStep_some (WorldStep_refl _ _)
  | some pSubmitted =>
    dsimp only
    with_reducible apply OptionStep_ite <;> intro _
    · exact OptionStep_some (WorldStep_refl _ _)
    cases PoolMessage.ofInt nMsgMessageID with
    | none => exact OptionStep_some (WorldStep_refl _ _)
    | some nMessageID =>
      dsimp only
      with_reducible apply OptionStep_ite <;> intro _
      · exact OptionStep_some (WorldStep_refl _ _)
      · exact CompletedTransaction_step _ _ _

theorem RelayIn_pool (w : World) (entry : CDarkSendEntry) : (RelayIn w entry).pool = w.pool := by
  unfold RelayIn
  cases w.pool.pSubmittedToSubinode <;> rfl

theorem SendDenominate_step (env : Env) (w : World) (vecTxIn : List CTxIn)
    (vecTxOut : List CTxOut) (lockMain : Bool) :
    WorldStep env.fSubiNode w (SendDenominate env w vecTxIn vecTxOut lockMain).2 := by
  unfold SendDenominate
  with_reducible apply WorldStep_ite_snd <;> intro hrole
  · exact WorldStep_refl _ _
  with_reducible apply WorldStep_ite_snd <;> intro _
  · exact WorldStep_refl _ _
  dsimp only
  repeat' (with_reducible apply WorldStep_ite_snd <;> intro _)
  · exact WorldStep_of_null rfl rfl
  · exact WorldStep_of_null rfl rfl
  · exact WorldStep_of_null rfl rfl
  · apply WorldStep_client_state (not_mixer hrole)
    show (CDarksendPool.SetState env _ POOL_STATE_ACCEPTING_ENTRIES).nState ≠ POOL_STATE_IDLE
    rw [SetState_nState _ _ _ ⟨by decide, by decide⟩]
    decide
  · apply WorldStep_client_state (not_mixer hrole)
    rw [RelayIn_pool]
    show (CDarksendPool.SetState env _ POOL_STATE_ACCEPTING_ENTRIES).nState ≠ POOL_STATE_IDLE
    rw [SetState_nState _ _ _ ⟨by decide, by decide⟩]
    decide

theorem PrepareDenominate_pool (env : Env) (cenv : ClientEnv) (w : World)
    (nMinRounds nMaxRounds : Int) (nRand : Nat) (strErrorRet : String)
    (vecTxInRet : List CTxIn) (vecTxOutRet : List CTxOut) :
    (PrepareDenominate env cenv w nMinRounds nMaxRounds nRand strErrorRet vecTxInRet
      vecTxOutRet).2.pool = w.pool := by
  unfold PrepareDenominate
  dsimp only
  split_ifs <;> rfl

theorem submitRounds_step (env : Env) (cenv : ClientEnv) (lockMain : Bool) (n : Nat)
    (nRound : Int) (draws : List Nat) (acc : String × List CTxIn × List CTxOut) (w : World) :
    WorldStep env.fSubiNode w (submitRounds env cenv lockMain n nRound draws acc w).2.2.2 := by
  induction n generalizing nRound draws acc w with
  | zero => exact WorldStep_refl _ _
  | succ n ih =>
    unfold submitRounds
    dsimp only
    split_ifs
    · exact WorldStep_congr_left (SendDenominate_step env _ _ _ lockMain)
        (congrArg (fun p => p.nState) (PrepareDenominate_pool _ _ _ _ _ _ _ _ _))
        (congrArg (fun p => p.nSessionID) (PrepareDenominate_pool _ _ _ _ _ _ _ _ _))
    · exact WorldStep_congr_left (ih _ _ _ _)
        (congrArg (fun p => p.nState) (PrepareDenominate_pool _ _ _ _ _ _ _ _ _))
        (congrArg (fun p => p.nSessionID) (PrepareDenominate_pool _ _ _ _ _ _ _ _ _))

theorem SubmitDenominate_step (env : Env) (cenv : ClientEnv) (w : World) (lockMain : Bool)
    (draws : List Nat) :
    WorldStep env.fSubiNode w (SubmitDenominate env cenv w lockMain draws).2 := by
  unfold SubmitDenominate
  dsimp only
  have h := submitRounds_step env cenv lockMain cenv.nPrivateSendRounds.toNat 0 draws
    ("", [], []) w
  generalize submitRounds env cenv lockMain cenv.nPrivateSendRounds.toNat 0 draws
    ("", [], []) w = r at h
  cases hr : r.1 with
  | some fResult => exact h
  | none =>
    dsimp only
    refine WorldStep_trans h ?_
    with_reducible apply WorldStep_ite_snd <;> intro _
    · exact WorldStep_congr_left (SendDenominate_step env _ _ _ lockMain)
        (congrArg (fun p => p.nState) (PrepareDenominate_pool _ _ _ _ _ _ _ _ _))
        (congrArg (fun p => p.nSessionID) (PrepareDenominate_pool _ _ _ _ _ _ _ _ _))
    · exact WorldStep_of_key
        (congrArg (fun p => p.nState) (PrepareDenominate_pool _ _ _ _ _ _ _ _ _))
        (congrArg (fun p => p.nSessionID) (PrepareDenominate_pool _ _ _ _ _ _ _ _ _))

theorem ProcessMessageDSQUEUE_key (env : Env) (w : World) (lockRecv : Bool) (nVersion : Int)
    (dsq : CDarksendQueue) :
    (ProcessMessageDSQUEUE env w lockRecv nVersion dsq).pool.nState = w.pool.nState ∧
    (ProcessMessageDSQUEUE env w lockRecv nVersion dsq).pool.nSessionID = w.pool.nSessionID := by
  rcases ProcessMessageDSQUEUE_outcomes env w lockRecv nVersion dsq with h | h | h | ⟨_, _, _, h⟩
  all_goals rw [h]; exact ⟨rfl, rfl⟩

theorem ProcessMessageDSQUEUEWorld_step (env : Env) (cenv : ClientEnv) (w : World)
    (lockRecv : Bool) (nVersion : Int) (dsq : CDarksendQueue) (lockMain : Bool)
    (draws : List Nat) :
    WorldStep env.fSubiNode w
      (ProcessMessageDSQUEUEWorld env cenv w lockRecv nVersion dsq lockMain draws) := by
  unfold ProcessMessageDSQUEUEWorld
  dsimp only
  have hk := ProcessMessageDSQUEUE_key env w lockRecv nVersion dsq
  with_reducible apply WorldStep_ite <;> intro _
  · exact WorldStep_congr_left (SubmitDenominate_step env cenv _ lockMain draws) hk.1 hk.2
  · exact WorldStep_of_key hk.1 hk.2

theorem createDenominatedLoop_key (env : Env) (cenv : ClientEnv) (fCreate : Bool)
    (l : List CompactTallyItem) (pool : CDarksendPool) :
    (createDenominatedLoop env cenv fCreate l pool).2.nState = pool.nState ∧
    (createDenominatedLoop env cenv fCreate l pool).2.nSessionID = pool.nSessionID := by
  induction l generalizing pool with
  | nil => exact ⟨rfl, rfl⟩
  | cons item rest ih =>
    unfold createDenominatedLoop
    dsimp only
    split_ifs
    · have h := ih (CreateDenominatedItem env cenv pool item fCreate).2.2
      exact ⟨h.1, h.2⟩
    · exact ⟨rfl, rfl⟩

theorem CreateDenominated_key (env : Env) (cenv : ClientEnv) (pool : CDarksendPool) :
    (CreateDenominated env cenv pool).2.nState = pool.nState ∧
    (CreateDenominated env cenv pool).2.nSessionID = pool.nSessionID := by
  unfold CreateDenominated
  cases cenv.SelectCoinsGrouppedByAddresses true with
  | none => exact ⟨rfl, rfl⟩
  | some vecTally => exact createDenominatedLoop_key _ _ _ _ _

theorem driverSendAccept_nState (env : Env) (w : World) (pmn : CSubinode) (nSessionDenom : Int) :
    (driverSendAccept env w pmn nSessionDenom).pool.nState = POOL_STATE_QUEUE := by
  unfold driverSendAccept
  exact SetState_nState _ _ _ ⟨by decide, by decide⟩

theorem driverQueueLoop_key (env : Env) (cenv : ClientEnv) (nBalance : Int)
    (l : List CDarksendQueue) (w : World) :
    ((driverQueueLoop env cenv nBalance l w).2.2.pool.nState = w.pool.nState ∧
      (driverQueueLoop env cenv nBalance l w).2.2.pool.nSessionID = w.pool.nSessionID) ∨
    (driverQueueLoop env cenv nBalance l w).2.2.pool.nState = POOL_STATE_QUEUE := by
  induction l generalizing w with
  | nil => exact Or.inl ⟨rfl, rfl⟩
  | cons dsq rest ih =>
    unfold driverQueueLoop
    dsimp only
    split_ifs
    · exact ih w
    · exact ih w
    · cases hfind : w.mnodeman.Find dsq.vin with
      | none => exact ih w
      | some pmn =>
        dsimp only
        split_ifs
        · exact ih w
        · exact ih _
        · exact Or.inr (driverSendAccept_nState _ _ _ _)
        · exact ih _

theorem OptionAll_ite {α : Type} {P : α → Prop} {c : Prop} [Decidable c] {x y : Option α}
    (hx : c → OptionAll P x) (hy : ¬ c → OptionAll P y) :
    OptionAll P (if c then x else y) := by
  split_ifs with h
  · exact hx h
  · exact hy h

theorem OptionAll_some {α : Type} {P : α → Prop} {x : α} (h : P x) :
    OptionAll P (some x) := by
  intro r hr
  cases hr
  exact h

theorem OptionAll_none {α : Type} {P : α → Prop} : OptionAll P (none : Option α) := by
  intro r hr
  cases hr

theorem KeptOrQueue_refl (w : World) : KeptOrQueue w w := Or.inl ⟨rfl, rfl⟩

theorem KeptOrQueue_left {w w' w'' : World} (h : KeptOrQueue w' w'')
    (hs : w'.pool.nState = w.pool.nState) (hi : w'.pool.nSessionID = w.pool.nSessionID) :
    KeptOrQueue w w'' := by
  unfold KeptOrQueue at *
  rw [← hs, ← hi]
  exact h

theorem driverRandomLoop_key (env : Env) (cenv : ClientEnv) (nMnCountEnabled : Int)
    (vecTxIn : List CTxIn) (drawsDenom : List (List Nat)) (n : Nat) (w : World) :
    OptionAll (fun r => KeptOrQueue w r.2)
      (driverRandomLoop env cenv nMnCountEnabled vecTxIn drawsDenom n w) := by
  induction n generalizing w with
  | zero => exact OptionAll_some (Or.inl ⟨rfl, rfl⟩)
  | succ n ih =>
    unfold driverRandomLoop
    cases cenv.FindRandomNotInVec w.pool.vecSubinodesUsed with
    | none => exact OptionAll_some (Or.inl ⟨rfl, rfl⟩)
    | some pmn =>
      dsimp only
      repeat' (with_reducible apply OptionAll_ite <;> intro _)
      · intro r hr
        exact KeptOrQueue_left (ih _ r hr) rfl rfl
      · intro r hr
        exact KeptOrQueue_left (ih _ r hr) rfl rfl
      · cases sessionDenomLoop env.vecPrivateSendDenominations (cenv.ConvertList vecTxIn)
            drawsDenom w.pool.nSessionDenom with
        | none => exact OptionAll_none
        | some nSessionDenom =>
          exact OptionAll_some (Or.inr (driverSendAccept_nState _ _ _ _))
      · intro r hr
        exact KeptOrQueue_left (ih _ r hr) rfl rfl

theorem driverChooseSubinode_key (env : Env) (cenv : ClientEnv) (w : World) (nValueMin : Int)
    (nBalance : Int) (nRandQueue : Nat) (drawsDenom : List (List Nat)) :
    OptionAll (fun r => KeptOrQueue w r.2)
      (driverChooseSubinode env cenv w nValueMin nBalance nRandQueue drawsDenom) := by
  unfold driverChooseSubinode
  intro r hr
  dsimp only at hr
  generalize hw1 : (if (w.pool.vecSubinodesUsed.length : Int) >
      cenv.truncNineTenths (w.mnodeman.CountEnabled env.MIN_PRIVATESEND_PEER_PROTO_VERSION) then
      ({ w with pool := { w.pool with
        vecSubinodesUsed := w.pool.vecSubinodesUsed.drop
          ((w.pool.vecSubinodesUsed.length : Int) - cenv.truncSevenTenths
            (cenv.truncNineTenths
              (w.mnodeman.CountEnabled env.MIN_PRIVATESEND_PEER_PROTO_VERSION))).toNat } } : World)
    else w) = w1 at hr
  have hk1 : w1.pool.nState = w.pool.nState ∧ w1.pool.nSessionID = w.pool.nSessionID := by
    rw [← hw1]
    split_ifs <;> exact ⟨rfl, rfl⟩
  generalize hr2 : (if (cenv.nLiquidityProvider != 0 ||
        decide (GetRandInt nRandQueue 100 > 33)) = true then
      ((driverQueueLoop env cenv nBalance w1.pool.vecDarksendQueue w1).1,
        ({ (driverQueueLoop env cenv nBalance w1.pool.vecDarksendQueue w1).2.2 with
          pool := { (driverQueueLoop env cenv nBalance w1.pool.vecDarksendQueue w1).2.2.pool with
            vecDarksendQueue :=
              (driverQueueLoop env cenv nBalance w1.pool.vecDarksendQueue w1).2.1 } } : World))
    else (false, w1)) = r2 at hr
  have hk2 : KeptOrQueue w r2.2 := by
    rw [← hr2]
    split_ifs
    · exact KeptOrQueue_left (driverQueueLoop_key env cenv nBalance _ w1) hk1.1 hk1.2
    · exact Or.inl hk1
  split_ifs at hr
  · cases hr
    exact hk2
  · cases hr
    exact hk2
  · cases hsel : cenv.SelectCoinsDark nValueMin nBalance with
    | none =>
      rw [hsel] at hr
      cases hr
      exact hk2
    | some vecTxIn =>
      rw [hsel] at hr
      have h3 := driverRandomLoop_key env cenv _ vecTxIn drawsDenom 10 r2.2 r hr
      rcases hk2 with ⟨hs, hi⟩ | hq
      · exact KeptOrQueue_left h3 hs hi
      · rcases h3 with ⟨hs3, _⟩ | hq3
        · exact Or.inr (hs3.trans hq)
        · exact Or.inr hq3

theorem driverFindSubinode_key (env : Env) (cenv : ClientEnv) (w : World) (nValueMin : Int)
    (nBalance : Int) (nRandQueue : Nat) (drawsDenom : List (List Nat)) :
    OptionAll (fun r => DriverOutcome w r.2)
      (driverFindSubinode env cenv w nValueMin nBalance nRandQueue drawsDenom) := by
  unfold driverFindSubinode
  with_reducible apply OptionAll_ite <;> intro _
  · exact OptionAll_some (Or.inl (Or.inl ⟨rfl, rfl⟩))
  dsimp only
  with_reducible apply OptionAll_ite <;> intro _
  · exact OptionAll_some (Or.inr ⟨rfl, rfl⟩)
  split
  · exact OptionAll_some (Or.inr ⟨rfl, rfl⟩)
  with_reducible apply OptionAll_ite <;> intro _
  · refine OptionAll_some (Or.inr ?_)
    split_ifs <;> exact ⟨rfl, rfl⟩
  · intro r hr
    have h := driverChooseSubinode_key env cenv _ nValueMin nBalance nRandQueue drawsDenom r hr
    have hnull : ∀ x : World, (x.pool.nState = POOL_STATE_IDLE ∧ x.pool.nSessionID = 0) →
        KeptOrQueue x r.2 → DriverOutcome w r.2 := by
      intro x hx hk
      rcases hk with ⟨hs, hi⟩ | hq
      · exact Or.inr ⟨hs.trans hx.1, hi.trans hx.2⟩
      · exact Or.inl (Or.inr hq)
    refine hnull _ ?_ h
    split_ifs <;> exact ⟨rfl, rfl⟩

theorem DriverOutcome_left {w w' w'' : World} (h : DriverOutcome w' w'')
    (hs : w'.pool.nState = w.pool.nState) (hi : w'.pool.nSessionID = w.pool.nSessionID) :
    DriverOutcome w w'' := by
  rcases h with h | h
  · exact Or.inl (KeptOrQueue_left h hs hi)
  · exact Or.inr h

theorem driverBalances_key (env : Env) (cenv : ClientEnv) (w : World) (fDryRun lockDS : Bool)
    (nRandQueue : Nat) (drawsDenom : List (List Nat)) :
    OptionAll (fun r => DriverOutcome w r.2)
      (driverBalances env cenv w fDryRun lockDS nRandQueue drawsDenom) := by
  unfold driverBalances
  repeat' (with_reducible apply OptionAll_ite <;> intro _)
  all_goals first
    | ((with_reducible refine OptionAll_some ?_); exact Or.inl (Or.inl ⟨rfl, rfl⟩))
    | ((with_reducible refine OptionAll_some ?_)
       exact Or.inl (Or.inl (CreateDenominated_key env cenv w.pool)))
    | (with_reducible exact driverFindSubinode_key _ _ _ _ _ _ _)

theorem DoAutomaticDenominating_key (env : Env) (cenv : ClientEnv) (w : World)
    (fDryRun lockDS : Bool) (nRandQueue : Nat) (drawsDenom : List (List Nat)) :
    OptionAll (fun r => DriverOutcome w r.2)
      (DoAutomaticDenominating env cenv w fDryRun lockDS nRandQueue drawsDenom) := by
  unfold DoAutomaticDenominating
  repeat' (with_reducible apply OptionAll_ite <;> intro _)
  all_goals first
    | ((with_reducible refine OptionAll_some ?_); exact Or.inl (Or.inl ⟨rfl, rfl⟩))
    | (with_reducible exact driverBalances_key _ _ _ _ _ _ _)
    | (intro r hr
       exact DriverOutcome_left
        (driverBalances_key env cenv _ fDryRun lockDS nRandQueue drawsDenom r hr) rfl rfl)

theorem DoAutomaticDenominating_mixer (env : Env) (cenv : ClientEnv) (w : World)
    (fDryRun lockDS : Bool) (nRandQueue : Nat) (drawsDenom : List (List Nat))
    (hrole : env.fSubiNode = true) :
    DoAutomaticDenominating env cenv w fDryRun lockDS nRandQueue drawsDenom = some (false, w) := by
  unfold DoAutomaticDenominating
  rw [if_pos (by simp [hrole])]

theorem DoAutomaticDenominating_step (env : Env) (cenv : ClientEnv) (w : World)
    (fDryRun lockDS : Bool) (nRandQueue : Nat) (drawsDenom : List (List Nat))
    (r : Bool × World)
    (hr : DoAutomaticDenominating env cenv w fDryRun lockDS nRandQueue drawsDenom = some r) :
    WorldStep env.fSubiNode w r.2 := by
  cases hrole : env.fSubiNode
  · rcases DoAutomaticDenominating_key env cenv w fDryRun lockDS nRandQueue drawsDenom r hr
      with (⟨hs, hi⟩ | hq) | ⟨hs, hi⟩
    · exact WorldStep_of_key hs hi
    · exact WorldStep_client_state rfl (by rw [hq]; decide)
    · exact WorldStep_of_null hs hi
  · rw [DoAutomaticDenominating_mixer env cenv w fDryRun lockDS nRandQueue drawsDenom hrole] at hr
    cases hr
    exact WorldStep_refl _ _

theorem Step_worldStep {b : Bool} {w w' : World} (h : Step b w w') : WorldStep b w w' := by
  cases h with
  | dsaccept env _ nVersion nDenom txCollateral nRand hrole =>
    subst hrole
    exact ProcessMessageDSACCEPT_step _ _ _ _ _ _
  | dsqueue env cenv _ lockRecv nVersion dsq lockMain draws hrole =>
    subst hrole
    exact ProcessMessageDSQUEUEWorld_step _ _ _ _ _ _ _ _
  | dsvin env _ nVersion entry lockMain draws hrole =>
    subst hrole
    exact ProcessMessageDSVINWorld_step _ _ _ _ _ _
  | dsstatusupdate env _ nVersion addrFrom a1 a2 a3 a4 a5 hrole =>
    subst hrole
    exact ProcessMessageDSSTATUSUPDATE_step _ _ _ _ _ _ _ _ _
  | dssignfinaltx env _ nVersion vecTxIn lockMain draws hrole =>
    subst hrole
    exact ProcessMessageDSSIGNFINALTX_step _ _ _ _ _ _
  | dsfinaltx env _ nVersion addrFrom nMsgSessionID txNew hrole =>
    subst hrole
    exact ProcessMessageDSFINALTX_step _ _ _ _ _ _
  | dscomplete env _ _ nVersion addrFrom nMsgSessionID nMsgMessageID hrole hret =>
    subst hrole
    exact ProcessMessageDSCOMPLETE_step _ _ _ _ _ _ _ hret
  | timeout env _ lockDS lockMain draws nRand1 nRand2 nShuffle hrole =>
    subst hrole
    exact CheckTimeout_step _ _ _ _ _ _ _ _
  | pool env _ lockMain draws hrole =>
    subst hrole
    exact CheckPool_step _ _ _ _
  | queue env _ hrole =>
    subst hrole
    exact CheckForCompleteQueue_step _ _
  | tip env _ nHeight fSynced lockDS lockMain draws nRand1 nRand2 nShuffle hrole =>
    subst hrole
    exact UpdatedBlockTip_step _ _ _ _ _ _ _ _ _ _
  | driver env cenv _ fDryRun lockDS nRandQueue drawsDenom r hrole hret =>
    subst hrole
    exact DoAutomaticDenominating_step _ _ _ _ _ _ _ _ hret
  | reset env _ hrole => exact ResetPool_step _ _ _

theorem Reachable_worldStep {b : Bool} {w0 w : World} (h : Reachable b w0 w) :
    WorldStep b w0 w := by
  induction h with
  | refl => exact WorldStep_refl _ _
  | tail _ hstep ih => exact WorldStep_trans ih (Step_worldStep hstep)

theorem DoAutomaticDenominating_example :
    DoAutomaticDenominating envClientExample clientEnvExample worldClientExample false true 0
      [[0, 1]] = some (true, worldClientQueueExample) := by
  decide

theorem worldClientQueueExample_reachable :
    Reachable false worldClientExample worldClientQueueExample :=
  Relation.ReflTransGen.single
    (Step.driver envClientExample clientEnvExample worldClientExample false true 0 [[0, 1]]
      (true, worldClientQueueExample) rfl DoAutomaticDenominating_example)

/-- C12 (counterexample): the example client starts in the null state (its world is a
fixed point of `SetNull`); one run of the driver sends `DSACCEPT` and puts the pool into
state `QUEUE` while the session id is still 0, so in this reachable state "the session id
is nonzero if and only if the state is not `IDLE`" is false. -/
theorem client_QUEUE_with_zero_session_id :
    worldClientExample.SetNull envClientExample = worldClientExample ∧
    DoAutomaticDenominating envClientExample clientEnvExample worldClientExample false true 0
      [[0, 1]] = some (true, worldClientQueueExample) ∧
    Reachable false worldClientExample worldClientQueueExample ∧
    worldClientQueueExample.pool.nState = POOL_STATE_QUEUE ∧
    worldClientQueueExample.pool.nSessionID = 0 ∧
    ¬ (worldClientQueueExample.pool.nSessionID ≠ 0 ↔
        worldClientQueueExample.pool.nState ≠ POOL_STATE_IDLE) :=
  ⟨by decide, DoAutomaticDenominating_example, worldClientQueueExample_reachable, by decide,
    by decide, by decide⟩

/-- C12 (amended): in every pool state reachable from a state that is `IDLE` with session
id 0 (the null state) through the message handlers, the timer operations, the driver and
`ResetPool`, on client and on mixer alike, a nonzero session id implies that the state is
not `IDLE`; on a mixer the session id is nonzero if and only if the state is not `IDLE`. -/
theorem session_id_state_invariant (b : Bool) (w0 w : World)
    (h0 : w0.pool.nState = POOL_STATE_IDLE ∧ w0.pool.nSessionID = 0)
    (hreach : Reachable b w0 w) :
    (w.pool.nSessionID ≠ 0 → w.pool.nState ≠ POOL_STATE_IDLE) ∧
    (b = true → (w.pool.nSessionID ≠ 0 ↔ w.pool.nState ≠ POOL_STATE_IDLE)) := by
  have h := Reachable_worldStep hreach
  unfold WorldStep IdStateStep at h
  rw [h0.1, h0.2] at h
  rcases h with ⟨hs, hi⟩ | ⟨hs, hi⟩ | ⟨hb, hi | hs⟩ | ⟨hb, hi, hs⟩ | ⟨_, hne, _⟩
  · exact ⟨fun hid => absurd hi hid, fun _ => ⟨fun hid => absurd hi hid, fun hst => absurd hs hst⟩⟩
  · exact ⟨fun hid => absurd hi hid, fun _ => ⟨fun hid => absurd hi hid, fun hst => absurd hs hst⟩⟩
  · refine ⟨fun hid => absurd hi hid, fun hb' => ?_⟩
    rw [hb] at hb'
    exact absurd hb' (by decide)
  · refine ⟨fun _ => hs, fun hb' => ?_⟩
    rw [hb] at hb'
    exact absurd hb' (by decide)
  · have hst : w.pool.nState ≠ POOL_STATE_IDLE := by
      rcases hs with h | h | h <;> rw [h] <;> decide
    exact ⟨fun _ => hst, fun _ => ⟨fun _ => hst, fun _ => hi⟩⟩
  · exact absurd rfl hne

/-- Witness for C12 (amended): the state the example client reaches by one run of the
driver has session id 0, so the implication holds there, with the state `QUEUE`. -/
theorem session_id_state_invariant_witness :
    Reachable false worldClientExample worldClientQueueExample ∧
    (worldClientQueueExample.pool.nSessionID ≠ 0 →
      worldClientQueueExample.pool.nState ≠ POOL_STATE_IDLE) :=
  ⟨worldClientQueueExample_reachable,
    (session_id_state_invariant false worldClientExample worldClientQueueExample
      ⟨by decide, by decide⟩ worldClientQueueExample_reachable).1⟩

theorem CheckTimeout_mixer (env : Env) (w : World) (lockMain : Bool) (draws : List Nat)
    (nRand1 nRand2 nShuffle : Nat) (hrole : env.fSubiNode = true) :
    CheckTimeout env w true lockMain draws nRand1 nRand2 nShuffle =
      checkSessionTimeout env (withoutExpiredQueues env w) nRand1 nRand2 nShuffle := by
  unfold CheckTimeout
  simp only [Bool.not_true, Bool.false_eq_true, if_false, hrole, Bool.and_false]
  rfl

/-- States of a mixer. When the process is a mixer, `SetState(ERROR)` and
`SetState(SUCCESS)` leave the pool unchanged; every state reachable from a state that is
`IDLE` through the message handlers, the timer operations, the driver and `ResetPool` is
one of `IDLE`, `QUEUE`, `ACCEPTING_ENTRIES`, `SIGNING`; a session that times out
(`CheckTimeout` with the lock taken, a state other than `IDLE` and the threshold reached)
ends in `IDLE` with id 0 if `ChargeFees` returns; `CommitFinalTransaction` ends in `IDLE`
with id 0 if the run goes on to its end, and also when the mempool refuses the final
transaction. -/
theorem mixer_states (env : Env) (hrole : env.fSubiNode = true) :
    (∀ pool : CDarksendPool,
      pool.SetState env POOL_STATE_ERROR = pool ∧ pool.SetState env POOL_STATE_SUCCESS = pool) ∧
    (∀ w0 w : World, w0.pool.nState = POOL_STATE_IDLE → Reachable true w0 w →
      w.pool.nState = POOL_STATE_IDLE ∨ w.pool.nState = POOL_STATE_QUEUE ∨
      w.pool.nState = POOL_STATE_ACCEPTING_ENTRIES ∨ w.pool.nState = POOL_STATE_SIGNING) ∧
    (∀ (w : World) (lockMain : Bool) (draws : List Nat) (nRand1 nRand2 nShuffle : Nat),
      w.pool.nState ≠ POOL_STATE_IDLE → TimeoutReached env w.pool →
      (ChargeFees env (withoutExpiredQueues env w) nRand1 nRand2 nShuffle).fAborted = false →
      (CheckTimeout env w true lockMain draws nRand1 nRand2 nShuffle).pool.nState =
        POOL_STATE_IDLE ∧
      (CheckTimeout env w true lockMain draws nRand1 nRand2 nShuffle).pool.nSessionID = 0) ∧
    (∀ (w : World) (lockMain : Bool) (draws : List Nat),
      ((CommitFinalTransaction env w lockMain draws).fAborted = false ∨
        lockMain = false ∨
        env.AcceptToMemoryPoolBypass w.pool.finalMutableTransaction = false) →
      (CommitFinalTransaction env w lockMain draws).pool.nState = POOL_STATE_IDLE ∧
      (CommitFinalTransaction env w lockMain draws).pool.nSessionID = 0) := by
  refine ⟨fun pool => ⟨SetState_mixer env pool _ hrole (Or.inl rfl),
    SetState_mixer env pool _ hrole (Or.inr rfl)⟩, ?_, ?_, ?_⟩
  · intro w0 w h0 hreach
    have h := Reachable_worldStep hreach
    unfold WorldStep IdStateStep at h
    rw [h0] at h
    rcases h with ⟨hs, _⟩ | ⟨hs, _⟩ | ⟨hb, _⟩ | ⟨_, _, hs⟩ | ⟨_, hne, _⟩
    · exact Or.inl hs
    · exact Or.inl hs
    · exact absurd hb (by decide)
    · exact Or.inr hs
    · exact absurd rfl hne
  · intro w lockMain draws nRand1 nRand2 nShuffle hstate hreached hgo
    have hreached2 : TimeoutReached env (withoutExpiredQueues env w).pool := hreached
    rw [CheckTimeout_mixer env w lockMain draws nRand1 nRand2 nShuffle hrole,
      checkSessionTimeout_eq env (withoutExpiredQueues env w) nRand1 nRand2 nShuffle hstate,
      if_pos hreached2]
    rcases timeoutReset_fields env (withoutExpiredQueues env w) nRand1 nRand2 nShuffle
      with hf | hf
    · rw [hgo] at hf
      cases hf.2.1
    · rw [hrole] at hf
      exact ⟨hf.2.1, hf.2.2.1⟩
  · intro w lockMain draws hgo
    unfold CommitFinalTransaction at hgo ⊢
    rw [if_neg (by simp [hrole])] at hgo ⊢
    dsimp only at hgo ⊢
    by_cases h1 : (!lockMain || !env.AcceptToMemoryPoolBypass w.pool.finalMutableTransaction)
        = true
    · rw [if_pos h1]
      exact ⟨rfl, rfl⟩
    · rw [if_neg h1] at hgo ⊢
      have hacc : lockMain = true ∧
          env.AcceptToMemoryPoolBypass w.pool.finalMutableTransaction = true := by
        simpa using h1
      rcases hgo with hgo | hgo | hgo
      · by_cases h2 : (!env.fMempoolKeepsRef) = true
        · rw [if_pos h2] at hgo
          cases hgo
        · rw [if_neg h2] at hgo ⊢
          split_ifs at hgo ⊢
          all_goals first
            | exact ⟨rfl, rfl⟩
            | simp_all
      · rw [hacc.1] at hgo
        cases hgo
      · rw [hacc.2] at hgo
        cases hgo

/-- C13 (code defect): a mixer session that times out does not always end in `IDLE`. The
example mixer holds a session in state `ACCEPTING_ENTRIES` with three collaterals and two
entries; the last step was at 0 ms and the clock is at 60000 ms. With the first draw `10`
the run ends inside `ChargeFees`, which destroys the reference it built over a collateral
of the session list, and the state is still `ACCEPTING_ENTRIES` with id 42; with the draw
`50` the same session ends in `IDLE` with id 0. A commit that the mempool refuses resets
the pool to `IDLE` and relays `DSCOMPLETE`, and the run ends when the reference built
over the local transaction is destroyed. -/
theorem mixer_timeout_ends_run_before_IDLE :
    envMixerLateExample.fSubiNode = true ∧
    TimeoutReached envMixerLateExample
      ({ poolReadyExample with vecEntries := [entryExample, entryExample2] } : CDarksendPool) ∧
    (CheckTimeout envMixerLateExample
      { pool := { poolReadyExample with vecEntries := [entryExample, entryExample2] } }
      true true [] 10 0 0).fAborted = true ∧
    (CheckTimeout envMixerLateExample
      { pool := { poolReadyExample with vecEntries := [entryExample, entryExample2] } }
      true true [] 10 0 0).pool.nState = POOL_STATE_ACCEPTING_ENTRIES ∧
    (CheckTimeout envMixerLateExample
      { pool := { poolReadyExample with vecEntries := [entryExample, entryExample2] } }
      true true [] 10 0 0).pool.nSessionID = 42 ∧
    (CheckTimeout envMixerLateExample
      { pool := { poolReadyExample with vecEntries := [entryExample, entryExample2] } }
      true true [] 50 0 0).fAborted = false ∧
    (CheckTimeout envMixerLateExample
      { pool := { poolReadyExample with vecEntries := [entryExample, entryExample2] } }
      true true [] 50 0 0).pool.nState = POOL_STATE_IDLE ∧
    (CheckTimeout envMixerLateExample
      { pool := { poolReadyExample with vecEntries := [entryExample, entryExample2] } }
      true true [] 50 0 0).pool.nSessionID = 0 ∧
    (CommitFinalTransaction envRejectExample worldSignedExample true []).pool.nState
      = POOL_STATE_IDLE ∧
    (CommitFinalTransaction envRejectExample worldSignedExample true []).fAborted = true := by
  decide

/-! ### Denomination table -/

/-- C21: after `InitDenominations` the table holds exactly four amounts,
`10·COIN + 10000`, `COIN + 1000`, `COIN/10 + 100`, `COIN/100 + 10`; for a coin unit
divisible by 100 they are pairwise distinct, in strictly decreasing order, each entry is
exactly ten times the next one, and the last entry is the smallest denomination. -/
theorem InitDenominations_table (COIN : Int) (hcoin : 0 ≤ COIN) (hdiv : 100 ∣ COIN) :
    InitDenominations COIN =
      [10 * COIN + 10000, COIN + 1000, COIN / 10 + 100, COIN / 100 + 10] ∧
    (InitDenominations COIN).length = 4 ∧
    (InitDenominations COIN).Nodup ∧
    (InitDenominations COIN).Pairwise (fun a b => a > b) ∧
    (InitDenominations COIN).Chain' (fun a b => a = 10 * b) ∧
    (InitDenominations COIN).getLast? = some (COIN / 100 + 10) ∧
    (∀ nDenomValue ∈ InitDenominations COIN, COIN / 100 + 10 ≤ nDenomValue) := by
  obtain ⟨k, rfl⟩ := hdiv
  have h10 : 100 * k / 10 = 10 * k := by omega
  have h100 : 100 * k / 100 = k := by omega
  have htab : InitDenominations (100 * k) =
      [10 * (100 * k) + 10000, 100 * k + 1000, 100 * k / 10 + 100, 100 * k / 100 + 10] := by
    simp only [InitDenominations, one_mul]
  refine ⟨htab, by rw [htab]; rfl, ?_, ?_, ?_, by rw [htab]; rfl, ?_⟩
  · rw [htab, h10, h100]
    simp only [List.nodup_cons, List.mem_cons, List.mem_singleton, List.not_mem_nil,
      not_false_eq_true, List.nodup_nil, and_true, not_or]
    omega
  · rw [htab, h10, h100]
    simp only [List.pairwise_cons, List.mem_cons, List.mem_singleton, List.not_mem_nil,
      forall_eq_or_imp, forall_eq, false_implies, implies_true, List.Pairwise.nil, and_true]
    omega
  · rw [htab, h10, h100]
    simp only [List.chain'_cons, List.chain'_singleton, and_true]
    omega
  · rw [htab, h10, h100]
    simp only [List.mem_cons, List.mem_singleton, List.not_mem_nil, or_false, forall_eq_or_imp,
      forall_eq]
    omega

/-- Witness for C21: with a coin unit of `10^8` the table is 1000010000, 100001000,
10000100, 1000010. -/
theorem InitDenominations_table_witness :
    InitDenominations 100000000 = [1000010000, 100001000, 10000100, 1000010] ∧
    (InitDenominations 100000000).Chain' (fun a b => a = 10 * b) :=
  ⟨by decide, (InitDenominations_table 100000000 (by decide) (by decide)).2.2.2.2.1⟩

/-! ### Signatures on the mixer -/

theorem addScriptSigDSIn_no_match (txin : CTxIn) (l : List CTxDSIn)
    (hno : ∀ x ∈ l, ¬ MatchesInput txin x) :
    addScriptSigDSIn txin l = (false, l) := by
  induction l with
  | nil => rfl
  | cons x rest ih =>
    have hx : ¬ MatchesInput txin x := hno x (List.mem_cons_self _ _)
    have hc : ¬ ((x.prevout == txin.prevout && x.nSequence == txin.nSequence) = true) := by
      simpa [MatchesInput] using hx
    unfold addScriptSigDSIn
    rw [if_neg hc, ih (fun y hy => hno y (List.mem_cons_of_mem _ hy))]

theorem addScriptSigDSIn_first_match (txin : CTxIn) (pre post : List CTxDSIn) (d : CTxDSIn)
    (hno : ∀ x ∈ pre, ¬ MatchesInput txin x) (hd : MatchesInput txin d) :
    addScriptSigDSIn txin (pre ++ d :: post) =
      if d.fHasSig then (false, pre ++ d :: post)
      else (true, pre ++ d.signedBy txin :: post) := by
  induction pre with
  | nil =>
    have hc : (d.prevout == txin.prevout && d.nSequence == txin.nSequence) = true := by
      simpa [MatchesInput] using hd
    simp only [List.nil_append]
    unfold addScriptSigDSIn
    rw [if_pos hc]
    rfl
  | cons x rest ih =>
    have hx : ¬ MatchesInput txin x := hno x (List.mem_cons_self _ _)
    have hc : ¬ ((x.prevout == txin.prevout && x.nSequence == txin.nSequence) = true) := by
      simpa [MatchesInput] using hx
    simp only [List.cons_append]
    unfold addScriptSigDSIn
    rw [if_neg hc, ih (fun y hy => hno y (List.mem_cons_of_mem _ hy))]
    split_ifs <;> rfl

/-- C22: the pool-level `AddScriptSig` rejects duplicate signatures: if some DSIn of some
entry already carries a scriptSig equal to `txinNew.scriptSig`, it returns `false` and the
pool (entries and final transaction included) is not modified. The entry-level
`AddScriptSig` never re-signs: when the first DSIn matching (outpoint, sequence) already
has `fHasSig`, it returns `false` and the entry is not modified; when that DSIn has no
signature yet, it returns `true` and sets scriptSig, previous script and `fHasSig` on
exactly that DSIn; when no DSIn matches, it returns `false` without modification. -/
theorem AddScriptSig_rejects_duplicates :
    (∀ (pool : CDarksendPool) (txinNew : CTxIn),
      (∃ entry ∈ pool.vecEntries, ∃ txdsin ∈ entry.vecTxDSIn,
        txdsin.scriptSig = txinNew.scriptSig) →
      AddScriptSig pool txinNew = (false, pool)) ∧
    (∀ (entry : CDarkSendEntry) (txin : CTxIn) (pre post : List CTxDSIn) (d : CTxDSIn),
      entry.vecTxDSIn = pre ++ d :: post → (∀ x ∈ pre, ¬ MatchesInput txin x) →
      MatchesInput txin d →
      (d.fHasSig = true → entry.AddScriptSig txin = (false, entry)) ∧
      (d.fHasSig = false → entry.AddScriptSig txin =
        (true, { entry with vecTxDSIn := pre ++ d.signedBy txin :: post }))) ∧
    (∀ (entry : CDarkSendEntry) (txin : CTxIn),
      (∀ x ∈ entry.vecTxDSIn, ¬ MatchesInput txin x) →
      entry.AddScriptSig txin = (false, entry)) := by
  refine ⟨fun pool txinNew hdup => ?_, fun entry txin pre post d hl hno hd => ?_,
    fun entry txin hno => ?_⟩
  · obtain ⟨entry, hentry, txdsin, htxdsin, hsig⟩ := hdup
    have hany : pool.vecEntries.any (fun entry =>
        entry.vecTxDSIn.any (fun txdsin => txdsin.scriptSig == txinNew.scriptSig)) = true := by
      rw [List.any_eq_true]
      refine ⟨entry, hentry, ?_⟩
      rw [List.any_eq_true]
      exact ⟨txdsin, htxdsin, by simpa using hsig⟩
    unfold AddScriptSig
    rw [if_pos hany]
  · have h := addScriptSigDSIn_first_match txin pre post d hno hd
    constructor
    · intro hsig
      unfold CDarkSendEntry.AddScriptSig
      rw [hl, h, if_pos hsig, ← hl]
    · intro hsig
      unfold CDarkSendEntry.AddScriptSig
      rw [hl, h, if_neg (by simp [hsig])]
  · unfold CDarkSendEntry.AddScriptSig
    rw [addScriptSigDSIn_no_match txin entry.vecTxDSIn hno]

/-- Witness for C22: in the example pool the input of `entrySignedExample` carries the
script `[1, 2, 3]`; a second input with that script is refused and the pool is unchanged,
and the entry refuses to sign its input again. -/
theorem AddScriptSig_rejects_duplicates_witness :
    AddScriptSig poolSigningExample { prevout := { hash := 7, n := 0 }, scriptSig := [1, 2, 3] }
      = (false, poolSigningExample) ∧
    entrySignedExample.AddScriptSig { prevout := { hash := 8, n := 0 }, scriptSig := [4] }
      = (false, entrySignedExample) ∧
    (entryExample2.AddScriptSig { prevout := { hash := 8, n := 0 }, scriptSig := [4] }).1
      = true :=
  ⟨AddScriptSig_rejects_duplicates.1 poolSigningExample
      { prevout := { hash := 7, n := 0 }, scriptSig := [1, 2, 3] }
      ⟨entrySignedExample, by decide,
        { prevout := { hash := 8, n := 0 }, scriptSig := [1, 2, 3], fHasSig := true },
        by decide, rfl⟩,
    (AddScriptSig_rejects_duplicates.2.1 entrySignedExample
      { prevout := { hash := 8, n := 0 }, scriptSig := [4] } [] []
      { prevout := { hash := 8, n := 0 }, scriptSig := [1, 2, 3], fHasSig := true }
      (by decide) (by simp) (by decide)).1 rfl,
    by decide⟩

/-! ### Status updates on the client -/

theorem GossipKept_refl (w : World) : GossipKept w w :=
  ⟨rfl, rfl, [], by simp, by simp⟩

theorem GossipKept_trans {a b c : World} (h1 : GossipKept a b) (h2 : GossipKept b c) :
    GossipKept a c := by
  obtain ⟨m1, q1, l1, t1, n1⟩ := h1
  obtain ⟨m2, q2, l2, t2, n2⟩ := h2
  refine ⟨m2.trans m1, q2.trans q1, l1 ++ l2, by rw [t2, t1, List.append_assoc], ?_⟩
  intro q hq
  rcases List.mem_append.1 hq with h | h
  · exact n1 q h
  · exact n2 q h

theorem GossipKept_pool (w : World) (pool : CDarksendPool)
    (h : pool.vecDarksendQueue = w.pool.vecDarksendQueue) :
    GossipKept w { w with pool := pool } :=
  ⟨rfl, h, [], by simp, by simp⟩

theorem SetState_queue (env : Env) (pool : CDarksendPool) (s : PoolState) :
    (pool.SetState env s).vecDarksendQueue = pool.vecDarksendQueue := by
  unfold CDarksendPool.SetState
  split_ifs <;> rfl

theorem UnlockCoins_gossip (w : World) : GossipKept w (UnlockCoins w) :=
  ⟨rfl, rfl, _, rfl, by simp⟩

theorem SetNull_gossip (env : Env) (w : World) : GossipKept w (w.SetNull env) :=
  GossipKept_pool w _ rfl

theorem SetState_gossip (env : Env) (w : World) (s : PoolState) :
    GossipKept w (w.SetState env s) :=
  GossipKept_pool w _ (SetState_queue env _ s)

theorem RelayIn_gossip (w : World) (entry : CDarkSendEntry) : GossipKept w (RelayIn w entry) := by
  unfold RelayIn
  cases w.pool.pSubmittedToSubinode with
  | none => exact GossipKept_refl w
  | some _ => exact ⟨rfl, rfl, _, rfl, by simp⟩

theorem GossipKept_abort_right {a b : World} (h : GossipKept a b) : GossipKept a b.abort :=
  GossipKept_trans h ⟨rfl, rfl, [], by simp [World.abort], by simp⟩

theorem GossipKept_SetNull_right {a b : World} (env : Env) (h : GossipKept a b) :
    GossipKept a (b.SetNull env) :=
  GossipKept_trans h (SetNull_gossip env b)

theorem GossipKept_UnlockCoins_right {a b : World} (h : GossipKept a b) :
    GossipKept a (UnlockCoins b) :=
  GossipKept_trans h (UnlockCoins_gossip b)

theorem GossipKept_pool_right {a b : World} (pool : CDarksendPool) (h : GossipKept a b)
    (hq : pool.vecDarksendQueue = b.pool.vecDarksendQueue) :
    GossipKept a { b with pool := pool } :=
  GossipKept_trans h (GossipKept_pool b pool hq)

theorem SendDenominate_gossip (env : Env) (w : World) (vecTxIn : List CTxIn)
    (vecTxOut : List CTxOut) (lockMain : Bool) :
    GossipKept w (SendDenominate env w vecTxIn vecTxOut lockMain).2 := by
  unfold SendDenominate
  dsimp only
  have h0 : GossipKept w { w with pool := { w.pool with
      vecOutPointLocked := w.pool.vecOutPointLocked
        ++ w.pool.txMyCollateral.vin.map (fun txin => txin.prevout)
        ++ vecTxIn.map (fun txin => txin.prevout) } } := GossipKept_pool w _ rfl
  generalize ({ w with pool := { w.pool with
      vecOutPointLocked := w.pool.vecOutPointLocked
        ++ w.pool.txMyCollateral.vin.map (fun txin => txin.prevout)
        ++ vecTxIn.map (fun txin => txin.prevout) } } : World) = w1 at h0
  split_ifs
  · exact GossipKept_refl w
  · exact GossipKept_refl w
  · exact GossipKept_SetNull_right env (GossipKept_UnlockCoins_right h0)
  · exact GossipKept_trans (GossipKept_SetNull_right env (GossipKept_UnlockCoins_right h0))
      ⟨rfl, rfl, [], by simp, by simp⟩
  · have h1 : GossipKept w ({ w1.SetState env POOL_STATE_ACCEPTING_ENTRIES with
        pool := { (w1.SetState env POOL_STATE_ACCEPTING_ENTRIES).pool with
          strLastMessage := "" } }) :=
      GossipKept_pool_right _ (GossipKept_trans h0 (SetState_gossip env w1 _)) rfl
    exact GossipKept_abort_right
      (GossipKept_SetNull_right env (GossipKept_UnlockCoins_right h1))
  · have h1 : GossipKept w ({ w1.SetState env POOL_STATE_ACCEPTING_ENTRIES with
        pool := { (w1.SetState env POOL_STATE_ACCEPTING_ENTRIES).pool with
          strLastMessage := "" } }) :=
      GossipKept_pool_right _ (GossipKept_trans h0 (SetState_gossip env w1 _)) rfl
    exact GossipKept_abort_right h1
  · have h1 : GossipKept w ({ w1.SetState env POOL_STATE_ACCEPTING_ENTRIES with
        pool := { (w1.SetState env POOL_STATE_ACCEPTING_ENTRIES).pool with
          strLastMessage := "" } }) :=
      GossipKept_pool_right _ (GossipKept_trans h0 (SetState_gossip env w1 _)) rfl
    refine GossipKept_pool_right _ ?_ rfl
    refine GossipKept_trans ?_ (RelayIn_gossip _ _)
    exact GossipKept_pool_right _ h1 rfl

theorem PrepareDenominate_gossip (env : Env) (cenv : ClientEnv) (w : World)
    (nMinRounds nMaxRounds : Int) (nRand : Nat) (strErrorRet : String)
    (vecTxInRet : List CTxIn) (vecTxOutRet : List CTxOut) :
    GossipKept w (PrepareDenominate env cenv w nMinRounds nMaxRounds nRand strErrorRet
      vecTxInRet vecTxOutRet).2 := by
  unfold PrepareDenominate
  dsimp only
  split_ifs
  · exact GossipKept_refl w
  · exact GossipKept_refl w
  · exact GossipKept_refl w
  · exact GossipKept_refl w
  · refine ⟨rfl, rfl, _, List.append_assoc _ _ _ |>.trans (List.append_assoc _ _ _), ?_⟩
    simp
  · refine ⟨rfl, rfl, _, List.append_assoc _ _ _, ?_⟩
    simp

theorem submitRounds_gossip (env : Env) (cenv : ClientEnv) (lockMain : Bool) (n : Nat)
    (nRound : Int) (draws : List Nat) (acc : String × List CTxIn × List CTxOut) (w : World) :
    GossipKept w (submitRounds env cenv lockMain n nRound draws acc w).2.2.2 := by
  induction n generalizing nRound draws acc w with
  | zero => exact GossipKept_refl _
  | succ n ih =>
    unfold submitRounds
    dsimp only
    split_ifs
    · exact GossipKept_trans (PrepareDenominate_gossip _ _ _ _ _ _ _ _ _)
        (SendDenominate_gossip env _ _ _ lockMain)
    · exact GossipKept_trans (PrepareDenominate_gossip _ _ _ _ _ _ _ _ _) (ih _ _ _ _)

theorem SubmitDenominate_gossip (env : Env) (cenv : ClientEnv) (w : World) (lockMain : Bool)
    (draws : List Nat) :
    GossipKept w (SubmitDenominate env cenv w lockMain draws).2 := by
  unfold SubmitDenominate
  dsimp only
  have h := submitRounds_gossip env cenv lockMain cenv.nPrivateSendRounds.toNat 0 draws
    ("", [], []) w
  generalize submitRounds env cenv lockMain cenv.nPrivateSendRounds.toNat 0 draws
    ("", [], []) w = r at h
  cases hr : r.1 with
  | some fResult => exact h
  | none =>
    dsimp only
    refine GossipKept_trans h ?_
    split_ifs
    · exact GossipKept_trans (PrepareDenominate_gossip _ _ _ _ _ _ _ _ _)
        (SendDenominate_gossip env _ _ _ lockMain)
    · exact GossipKept_trans (PrepareDenominate_gossip _ _ _ _ _ _ _ _ _)
        (GossipKept_pool _ _ rfl)

theorem ProcessMessageDSQUEUEWorld_gossip (env : Env) (cenv : ClientEnv) (w : World)
    (lockRecv : Bool) (nVersion : Int) (dsq : CDarksendQueue) (lockMain : Bool)
    (draws : List Nat) :
    GossipKept (ProcessMessageDSQUEUE env w lockRecv nVersion dsq)
      (ProcessMessageDSQUEUEWorld env cenv w lockRecv nVersion dsq lockMain draws) := by
  unfold ProcessMessageDSQUEUEWorld
  dsimp only
  split_ifs
  · exact SubmitDenominate_gossip env cenv _ lockMain draws
  · exact GossipKept_refl _

theorem updateSubinode_mem (vin : CTxIn) (mnNew : CSubinode) (l : List CSubinode)
    (mn : CSubinode) (h : mn ∈ updateSubinode vin mnNew l) : mn = mnNew ∨ mn ∈ l := by
  induction l with
  | nil => simp [updateSubinode] at h
  | cons a rest ih =>
    unfold updateSubinode at h
    split_ifs at h
    · rcases List.mem_cons.1 h with h | h
      · exact Or.inl h
      · exact Or.inr (List.mem_cons_of_mem _ h)
    · rcases List.mem_cons.1 h with h | h
      · exact Or.inr (h ▸ List.mem_cons_self _ _)
      · rcases ih h with h | h
        · exact Or.inl h
        · exact Or.inr (List.mem_cons_of_mem _ h)

theorem ProcessMessageDSQUEUE_counter (env : Env) (w : World) (lockRecv : Bool)
    (nVersion : Int) (dsq : CDarksendQueue) :
    w.mnodeman.nDsqCount ≤ (ProcessMessageDSQUEUE env w lockRecv nVersion dsq).mnodeman.nDsqCount ∧
    (DsqCountBounds w.mnodeman →
      DsqCountBounds (ProcessMessageDSQUEUE env w lockRecv nVersion dsq).mnodeman) := by
  rcases ProcessMessageDSQUEUE_outcomes env w lockRecv nVersion dsq with
    h | h | h | ⟨pmn, _, _, h⟩
  · rw [h]
    exact ⟨le_refl _, fun hb => hb⟩
  · rw [h]
    exact ⟨le_refl _, fun hb => hb⟩
  · rw [h]
    exact ⟨le_refl _, fun hb => hb⟩
  · rw [h]
    refine ⟨by show w.mnodeman.nDsqCount ≤ w.mnodeman.nDsqCount + 1; omega, ?_⟩
    intro hb mn hmn
    show mn.nLastDsq ≤ w.mnodeman.nDsqCount + 1
    rcases updateSubinode_mem _ _ _ _ hmn with hnew | hold
    · rw [hnew]
    · have := hb mn hold
      omega

/-- C29: the `DSQUEUE` handling, with the submission it may trigger carried out, never
decreases the queue counter `nDsqCount`, and if every mixer of the list has
`nLastDsq ≤ nDsqCount` before the message, every mixer has it afterwards. -/
theorem DSQUEUE_counter_monotone (env : Env) (cenv : ClientEnv) (w : World)
    (lockRecv : Bool) (nVersion : Int) (dsq : CDarksendQueue) (lockMain : Bool)
    (draws : List Nat) :
    w.mnodeman.nDsqCount ≤
      (ProcessMessageDSQUEUEWorld env cenv w lockRecv nVersion dsq lockMain
        draws).mnodeman.nDsqCount ∧
    ((∀ mn ∈ w.mnodeman.vSubinodes, mn.nLastDsq ≤ w.mnodeman.nDsqCount) →
      ∀ mn ∈ (ProcessMessageDSQUEUEWorld env cenv w lockRecv nVersion dsq lockMain
          draws).mnodeman.vSubinodes,
        mn.nLastDsq ≤ (ProcessMessageDSQUEUEWorld env cenv w lockRecv nVersion dsq lockMain
          draws).mnodeman.nDsqCount) := by
  rw [(ProcessMessageDSQUEUEWorld_gossip env cenv w lockRecv nVersion dsq lockMain draws).1]
  exact ProcessMessageDSQUEUE_counter env w lockRecv nVersion dsq

/-- C29, witness: the example client, whose two mixers carry the stamps 95 and 0 under a
counter of 100, receives the queue of mixer 1; the counter moves to 101 and bounds every
stamp. -/
theorem DSQUEUE_counter_monotone_witness :
    (∀ mn ∈ worldClientExample.mnodeman.vSubinodes,
      mn.nLastDsq ≤ worldClientExample.mnodeman.nDsqCount) ∧
    (ProcessMessageDSQUEUEWorld envClientExample clientEnvExample worldClientExample true 70206
      { queueExample 1 with nTime := 60 } true []).mnodeman.nDsqCount = 101 ∧
    ∀ mn ∈ (ProcessMessageDSQUEUEWorld envClientExample clientEnvExample worldClientExample true
        70206 { queueExample 1 with nTime := 60 } true []).mnodeman.vSubinodes,
      mn.nLastDsq ≤ (ProcessMessageDSQUEUEWorld envClientExample clientEnvExample
        worldClientExample true 70206 { queueExample 1 with nTime := 60 } true
        []).mnodeman.nDsqCount :=
  ⟨by decide, by decide,
    (DSQUEUE_counter_monotone envClientExample clientEnvExample worldClientExample true 70206
      { queueExample 1 with nTime := 60 } true []).2 (by decide)⟩

theorem dsqueueAccepts_same_vin (env : Env) (mnodeman : CSubinodeMan)
    (vecDarksendQueue : List CDarksendQueue) (lockRecv : Bool) (nVersion : Int)
    (dsq : CDarksendQueue)
    (h : vecDarksendQueue.any (fun q => q.vin == dsq.vin) = true) :
    dsqueueAccepts env mnodeman vecDarksendQueue lockRecv nVersion dsq = false := by
  unfold dsqueueAccepts
  cases mnodeman.Find dsq.vin with
  | none => simp
  | some pmn => simp only [h, Bool.not_true, Bool.and_false, Bool.false_and]

theorem ProcessMessageDSQUEUE_stored (env : Env) (w : World) (lockRecv : Bool)
    (nVersion : Int) (dsq : CDarksendQueue)
    (h : dsqueueAccepts env w.mnodeman w.pool.vecDarksendQueue lockRecv nVersion dsq = true) :
    (ProcessMessageDSQUEUE env w lockRecv nVersion dsq).pool.vecDarksendQueue =
      w.pool.vecDarksendQueue ++ [markTried w.pool.pSubmittedToSubinode dsq] := by
  unfold dsqueueAccepts at h
  cases hfind : w.mnodeman.Find dsq.vin with
  | none => simp [hfind] at h
  | some pmn =>
    rw [hfind] at h
    simp only [Bool.and_eq_true, Bool.not_eq_true', decide_eq_false_iff_not] at h
    obtain ⟨⟨⟨⟨⟨⟨h1, h2⟩, h3⟩, h4⟩, h5⟩, h6⟩, ⟨⟨h7, h8⟩, h11⟩, h12⟩ := h
    unfold ProcessMessageDSQUEUE
    rw [if_neg (by simp [h1]), if_neg (by simp [h2]), if_neg (by simp [h3]), if_neg h4,
      if_neg (by simp [h5]), if_neg (by simp [h6]), hfind]
    dsimp only
    rw [if_neg (by simp [h7]), if_neg (by simp [h8]), if_neg (by simp [h11]),
      if_neg (by simp [h12])]

theorem ProcessMessageDSQUEUE_dropped (env : Env) (w : World) (lockRecv : Bool)
    (nVersion : Int) (dsq : CDarksendQueue)
    (h : dsqueueAccepts env w.mnodeman w.pool.vecDarksendQueue lockRecv nVersion dsq = false) :
    GossipKept w (ProcessMessageDSQUEUE env w lockRecv nVersion dsq) := by
  unfold ProcessMessageDSQUEUE
  by_cases h1 : env.fLiteMode = true
  · rw [if_pos h1]
    exact GossipKept_refl w
  rw [if_neg h1]
  by_cases h2 : (!env.fBlockchainSynced) = true
  · rw [if_pos h2]
    exact GossipKept_refl w
  rw [if_neg h2]
  by_cases h3 : (!lockRecv) = true
  · rw [if_pos h3]
    exact GossipKept_refl w
  rw [if_neg h3]
  by_cases h4 : nVersion < env.MIN_PRIVATESEND_PEER_PROTO_VERSION
  · rw [if_pos h4]
    exact GossipKept_refl w
  rw [if_neg h4]
  by_cases h5 : (w.pool.vecDarksendQueue.any fun q => q.eq dsq) = true
  · rw [if_pos h5]
    exact GossipKept_refl w
  rw [if_neg h5]
  by_cases h6 : (dsq.IsExpired env ||
      decide (dsq.nTime > env.GetTime + env.PRIVATESEND_QUEUE_TIMEOUT)) = true
  · rw [if_pos h6]
    exact GossipKept_refl w
  rw [if_neg h6]
  cases hfind : w.mnodeman.Find dsq.vin with
  | none => exact GossipKept_refl w
  | some pmn =>
    dsimp only
    by_cases h7 : (!env.CheckSignature dsq pmn.pubKeySubinode) = true
    · rw [if_pos h7]
      exact ⟨rfl, rfl, _, rfl, by simp⟩
    rw [if_neg h7]
    by_cases h8 : dsq.fReady = true
    · rw [if_pos h8]
      cases hsub : w.pool.pSubmittedToSubinode with
      | none => exact GossipKept_refl w
      | some pSubmitted =>
        dsimp only
        by_cases h9 : (pSubmitted.addr != pmn.addr) = true
        · rw [if_pos h9]
          exact GossipKept_refl w
        rw [if_neg h9]
        by_cases h10 : (w.pool.nState == POOL_STATE_QUEUE) = true
        · rw [if_pos h10]
          exact ⟨rfl, rfl, _, rfl, by simp⟩
        · rw [if_neg h10]
          exact GossipKept_refl w
    rw [if_neg h8]
    by_cases h11 : (w.pool.vecDarksendQueue.any fun q => q.vin == dsq.vin) = true
    · rw [if_pos h11]
      exact GossipKept_refl w
    rw [if_neg h11]
    by_cases h12 : (pmn.nLastDsq != 0 &&
        decide (toInt32 (pmn.nLastDsq +
          w.mnodeman.CountEnabled env.MIN_PRIVATESEND_PEER_PROTO_VERSION / 5)
            > w.mnodeman.nDsqCount)) = true
    · rw [if_pos h12]
      exact GossipKept_refl w
    · exfalso
      unfold dsqueueAccepts at h
      rw [hfind] at h
      simp only [Bool.not_eq_true] at h1 h2 h3 h5 h6 h7 h8 h11 h12
      simp only [Bool.not_eq_false'] at h2 h3 h7
      simp only [h1, h2, h3, h4, h5, h6, h7, h8, h11, h12, Bool.not_false, Bool.and_self,
        decide_False, Bool.true_and, Bool.true_eq_false] at h

theorem ProcessMessageDSQUEUEWorld_second (env : Env) (cenv cenv2 : ClientEnv) (w : World)
    (lockRecv : Bool) (nVersion : Int) (dsq : CDarksendQueue) (lockMain lockMain2 : Bool)
    (draws draws2 : List Nat) :
    GossipKept (ProcessMessageDSQUEUEWorld env cenv w lockRecv nVersion dsq lockMain draws)
      (ProcessMessageDSQUEUEWorld env cenv2
        (ProcessMessageDSQUEUEWorld env cenv w lockRecv nVersion dsq lockMain draws)
        lockRecv nVersion dsq lockMain2 draws2) := by
  have hg := ProcessMessageDSQUEUEWorld_gossip env cenv w lockRecv nVersion dsq lockMain draws
  generalize ProcessMessageDSQUEUEWorld env cenv w lockRecv nVersion dsq lockMain draws = w1
    at hg
  have hacc1 : dsqueueAccepts env w1.mnodeman w1.pool.vecDarksendQueue lockRecv nVersion dsq
      = false := by
    cases hacc : dsqueueAccepts env w.mnodeman w.pool.vecDarksendQueue lockRecv nVersion dsq
      with
    | true =>
      apply dsqueueAccepts_same_vin
      rw [hg.2.1, ProcessMessageDSQUEUE_stored env w lockRecv nVersion dsq hacc]
      simp [(markTried_wire w.pool.pSubmittedToSubinode dsq).2]
    | false =>
      have hd := GossipKept_trans
        (ProcessMessageDSQUEUE_dropped env w lockRecv nVersion dsq hacc) hg
      rw [hd.1, hd.2.1]
      exact hacc
  exact GossipKept_trans (ProcessMessageDSQUEUE_dropped env w1 lockRecv nVersion dsq hacc1)
    (ProcessMessageDSQUEUEWorld_gossip env cenv2 w1 lockRecv nVersion dsq lockMain2 draws2)

/-- C28: for every world and every `DSQUEUE` message `dsq`, processing `dsq` a second time
right after processing it once (same node settings, clock, try-lock outcome and peer
version) leaves the mixer list with the counter `nDsqCount` and every `nLastDsq`, and the
queue vector, as the first receipt left them, and the effects the second receipt adds
relay no queue. -/
theorem DSQUEUE_second_receipt (env : Env) (cenv cenv2 : ClientEnv) (w : World)
    (lockRecv : Bool) (nVersion : Int) (dsq : CDarksendQueue) (lockMain lockMain2 : Bool)
    (draws draws2 : List Nat) :
    (ProcessMessageDSQUEUEWorld env cenv2
        (ProcessMessageDSQUEUEWorld env cenv w lockRecv nVersion dsq lockMain draws)
        lockRecv nVersion dsq lockMain2 draws2).mnodeman =
      (ProcessMessageDSQUEUEWorld env cenv w lockRecv nVersion dsq lockMain draws).mnodeman ∧
    (ProcessMessageDSQUEUEWorld env cenv2
        (ProcessMessageDSQUEUEWorld env cenv w lockRecv nVersion dsq lockMain draws)
        lockRecv nVersion dsq lockMain2 draws2).pool.vecDarksendQueue =
      (ProcessMessageDSQUEUEWorld env cenv w lockRecv nVersion dsq lockMain
        draws).pool.vecDarksendQueue ∧
    ∃ added,
      (ProcessMessageDSQUEUEWorld env cenv2
          (ProcessMessageDSQUEUEWorld env cenv w lockRecv nVersion dsq lockMain draws)
          lockRecv nVersion dsq lockMain2 draws2).vTrace =
        (ProcessMessageDSQUEUEWorld env cenv w lockRecv nVersion dsq lockMain draws).vTrace
          ++ added ∧
      ∀ q, Effect.RelayQueue q ∉ added :=
  ProcessMessageDSQUEUEWorld_second env cenv cenv2 w lockRecv nVersion dsq lockMain lockMain2
    draws draws2

/-! ### Signing, commit and completion -/

theorem CommitFinalTransaction_failure (env : Env) (w : World) (lockMain : Bool)
    (draws : List Nat) (hrole : env.fSubiNode = true)
    (hfail : (!lockMain || !env.AcceptToMemoryPoolBypass w.pool.finalMutableTransaction) = true) :
    CommitFinalTransaction env w lockMain draws =
      { w.SetNull env with
        vTrace := w.vTrace ++ [Effect.RelayCompletedTransaction 0 ERR_INVALID_TX]
        fAborted := true } := by
  unfold CommitFinalTransaction
  rw [if_neg (by simp [hrole])]
  dsimp only
  rw [if_pos hfail]
  rfl

/-- C25 (code): a mixer commits session 42 and the mempool refuses the final transaction.
`SetNull` runs before `RelayCompletedTransaction`, so the `DSCOMPLETE` relayed carries
session id 0 with `ERR_INVALID_TX` (message number 8), not 42; the run ends after the
relay. A client of session 42 that receives this message from its mixer drops it and
stays as it was; the same message with session id 42 would have been processed and would
have reset the client. -/
theorem CommitFinalTransaction_failure_relays_session_id_zero :
    worldSignedExample.pool.nSessionID = 42 ∧
    CommitFinalTransaction envRejectExample worldSignedExample true [] =
      { worldSignedExample.SetNull envRejectExample with
        vTrace := [Effect.RelayCompletedTransaction 0 ERR_INVALID_TX]
        fAborted := true } ∧
    CheckPool envRejectExample worldSignedExample true [] =
      CommitFinalTransaction envRejectExample worldSignedExample true [] ∧
    PoolMessage.ofInt 8 = some ERR_INVALID_TX ∧
    worldClientSigningExample.pool.nSessionID = 42 ∧
    ProcessMessageDSCOMPLETE envClientExample worldClientSigningExample 70206 0 0 8 =
      some worldClientSigningExample ∧
    (ProcessMessageDSCOMPLETE envClientExample worldClientSigningExample 70206 0 42 8).map
      (fun w => (w.pool.nState, w.pool.nSessionID, w.pool.strLastMessage)) =
      some (POOL_STATE_IDLE, 0, "Transaction not valid.") := by
  refine ⟨by decide, by decide, by decide, by decide, by decide, by decide, by decide⟩

/-- C24 (code): the client of `worldClientEntryExample` declared two outputs of one coin,
to two different scripts. It receives a final transaction with both of its inputs in which
the first declared output stands twice and the second is missing. The check counts two
matches for two declared outputs and equal sums, so `SignFinalTransaction` returns true,
sends `DSSIGNFINALTX` with both inputs signed and moves to `SIGNING`, although a declared
output does not appear among the outputs of the final transaction. -/
theorem SignFinalTransaction_signs_with_output_missing :
    (SignFinalTransaction envClientExample worldClientEntryExample finalTxDuplicateExample).1
      = true ∧
    (SignFinalTransaction envClientExample worldClientEntryExample
        finalTxDuplicateExample).2.vTrace =
      [Effect.PushDSSIGNFINALTX
        [{ prevout := { hash := 7, n := 0 }, scriptSig := [0] },
         { prevout := { hash := 8, n := 0 }, scriptSig := [1] }]] ∧
    (SignFinalTransaction envClientExample worldClientEntryExample
        finalTxDuplicateExample).2.pool.nState = POOL_STATE_SIGNING ∧
    ProcessMessageDSFINALTX envClientExample worldClientEntryExample 70206 0 42
        finalTxDuplicateExample =
      (SignFinalTransaction envClientExample worldClientEntryExample
        finalTxDuplicateExample).2 ∧
    countFoundOutputs finalTxDuplicateExample.vout entryTwoOutputsExample.vecTxDSOut =
      (2, 200002000) ∧
    ¬ ∀ txout ∈ entryTwoOutputsExample.vecTxDSOut,
        ∃ out ∈ finalTxDuplicateExample.vout, out.eq txout.toCTxOut = true := by
  refine ⟨by decide, by decide, by decide, by decide, by decide, by decide⟩

theorem chargeRandomLoop_trace (env : Env) (l : List CTransaction) (draws : List Nat)
    (w : World) : ∃ post, (chargeRandomLoop env l draws w).vTrace = w.vTrace ++ post := by
  induction l generalizing draws w with
  | nil => exact ⟨[], by simp [chargeRandomLoop]⟩
  | cons tx rest ih =>
    unfold chargeRandomLoop
    split_ifs
    · exact ⟨[], by simp⟩
    · obtain ⟨post, hpost⟩ := ih draws.tail (chargeCollateral env w tx)
      rw [hpost]
      unfold chargeCollateral
      dsimp only
      split_ifs
      · exact ⟨_, List.append_assoc _ _ _⟩
      · exact ⟨_, (List.append_assoc _ _ _).trans (List.append_assoc _ _ _)⟩
    · show ∃ post, (chargeCollateral env w tx).vTrace = w.vTrace ++ post
      unfold chargeCollateral
      dsimp only
      split_ifs
      · exact ⟨_, rfl⟩
      · exact ⟨_, List.append_assoc _ _ _⟩

theorem ChargeRandomFees_trace (env : Env) (w : World) (draws : List Nat) :
    ∃ post, (ChargeRandomFees env w draws).vTrace = w.vTrace ++ post := by
  unfold ChargeRandomFees
  split_ifs
  · exact ⟨[], by simp⟩
  · exact chargeRandomLoop_trace _ _ _ _

theorem CommitFinalTransaction_relays (env : Env) (w : World) (lockMain : Bool)
    (draws : List Nat) (hrole : env.fSubiNode = true)
    (hkeep : lockMain = true →
      env.AcceptToMemoryPoolBypass w.pool.finalMutableTransaction = true →
      env.fMempoolKeepsRef = true) :
    ∃ pre nSessionID nMessageID post,
      (CommitFinalTransaction env w lockMain draws).vTrace =
        w.vTrace ++ pre ++ [Effect.RelayCompletedTransaction nSessionID nMessageID] ++ post := by
  unfold CommitFinalTransaction
  rw [if_neg (by simp [hrole])]
  dsimp only
  by_cases hfail :
      (!lockMain || !env.AcceptToMemoryPoolBypass w.pool.finalMutableTransaction) = true
  · rw [if_pos hfail]
    exact ⟨[], 0, ERR_INVALID_TX, [],
      by simp [RelayCompletedTransaction, World.SetNull, CDarksendPool.SetNull, World.abort]⟩
  · rw [if_neg hfail]
    have hacc : lockMain = true ∧
        env.AcceptToMemoryPoolBypass w.pool.finalMutableTransaction = true := by
      simpa using hfail
    rw [if_neg (by simp [hkeep hacc.1 hacc.2])]
    have hmap : ∀ v : World, v.vTrace = w.vTrace →
        ∃ pre nSessionID nMessageID post,
          (if (ChargeRandomFees env
              (RelayCompletedTransaction
                { v with vTrace := v.vTrace ++
                  [Effect.RelayInv (env.GetHash w.pool.finalMutableTransaction)] }
                MSG_SUCCESS) draws).fAborted = true then
            ChargeRandomFees env
              (RelayCompletedTransaction
                { v with vTrace := v.vTrace ++
                  [Effect.RelayInv (env.GetHash w.pool.finalMutableTransaction)] }
                MSG_SUCCESS) draws
          else (ChargeRandomFees env
            (RelayCompletedTransaction
              { v with vTrace := v.vTrace ++
                [Effect.RelayInv (env.GetHash w.pool.finalMutableTransaction)] }
              MSG_SUCCESS) draws).SetNull env).vTrace =
            w.vTrace ++ pre ++ [Effect.RelayCompletedTransaction nSessionID nMessageID]
              ++ post := by
      intro v hv
      obtain ⟨post, hpost⟩ := ChargeRandomFees_trace env
        (RelayCompletedTransaction
          { v with vTrace := v.vTrace ++
            [Effect.RelayInv (env.GetHash w.pool.finalMutableTransaction)] }
          MSG_SUCCESS) draws
      refine ⟨[Effect.RelayInv (env.GetHash w.pool.finalMutableTransaction)],
        v.pool.nSessionID, MSG_SUCCESS, post, ?_⟩
      have htr : (ChargeRandomFees env
          (RelayCompletedTransaction
            { v with vTrace := v.vTrace ++
              [Effect.RelayInv (env.GetHash w.pool.finalMutableTransaction)] }
            MSG_SUCCESS) draws).vTrace =
          w.vTrace ++ [Effect.RelayInv (env.GetHash w.pool.finalMutableTransaction)] ++
            [Effect.RelayCompletedTransaction v.pool.nSessionID MSG_SUCCESS] ++ post := by
        rw [hpost, ← hv]
        rfl
      split_ifs
      · exact htr
      · exact htr
    exact hmap
      (if !(w.mapDarksendBroadcastTxes.any
          (fun kv => kv.1 == env.GetHash w.pool.finalMutableTransaction)) then
        { w with mapDarksendBroadcastTxes := w.mapDarksendBroadcastTxes ++
            [(env.GetHash w.pool.finalMutableTransaction,
              { tx := w.pool.finalMutableTransaction
                vin := env.activeSubinodeVin
                sigTime := env.GetTime
                vchSig := env.SignBroadcastTx w.pool.finalMutableTransaction env.GetTime })] }
      else w) (by split_ifs <;> rfl)

/-- C23 (counterexample): a mixer session of three participants holds its three entries in
state `ACCEPTING_ENTRIES`, none of the inputs signed. `CheckPool` does not commit, but it
builds the final transaction and moves the state to `SIGNING`: with an unsigned DSIn in
the pool, the final transaction and the state are not left unchanged. -/
theorem CheckPool_finalizes_with_unsigned_inputs :
    envExample.fSubiNode = true ∧
    worldFullExample.pool.nState = POOL_STATE_ACCEPTING_ENTRIES ∧
    (∃ entry ∈ worldFullExample.pool.vecEntries, ∃ txdsin ∈ entry.vecTxDSIn,
      txdsin.fHasSig = false) ∧
    worldFullExample.pool.finalMutableTransaction = {} ∧
    (CheckPool envExample worldFullExample true []).pool.nState = POOL_STATE_SIGNING ∧
    (CheckPool envExample worldFullExample true []).pool.finalMutableTransaction ≠
      worldFullExample.pool.finalMutableTransaction := by
  refine ⟨by decide, by decide, by decide, by decide, by decide, by decide⟩

/-- C23 (amended): on a mixer, `IsSignaturesComplete` returns true exactly when every DSIn
of every entry has `fHasSig`; when the state is `SIGNING` and the signatures are complete
`CheckPool` is `CommitFinalTransaction`, which relays a `DSCOMPLETE` where the mempool
keeps the reference of a final transaction it accepts; in every other case
`CheckPool` does not commit: it registers no broadcast record and the effects it adds are
the relay of a new final transaction or releases of locked coins, never a `DSCOMPLETE` or
an inventory; and when the state is `SIGNING` and some DSIn of some entry is unsigned,
`CheckPool` leaves the world, so the final transaction and the state, unchanged. -/
theorem CheckPool_commit_gate (env : Env) (w : World) (lockMain : Bool) (draws : List Nat)
    (hrole : env.fSubiNode = true) :
    (IsSignaturesComplete w.pool = true ↔
      ∀ entry ∈ w.pool.vecEntries, ∀ txdsin ∈ entry.vecTxDSIn, txdsin.fHasSig = true) ∧
    (w.pool.nState = POOL_STATE_SIGNING → IsSignaturesComplete w.pool = true →
      CheckPool env w lockMain draws = CommitFinalTransaction env w lockMain draws ∧
      ((lockMain = true →
          env.AcceptToMemoryPoolBypass w.pool.finalMutableTransaction = true →
          env.fMempoolKeepsRef = true) →
        ∃ pre nSessionID nMessageID post,
          (CheckPool env w lockMain draws).vTrace =
            w.vTrace ++ pre ++ [Effect.RelayCompletedTransaction nSessionID nMessageID]
              ++ post)) ∧
    (¬ (w.pool.nState = POOL_STATE_SIGNING ∧ IsSignaturesComplete w.pool = true) →
      (CheckPool env w lockMain draws).mapDarksendBroadcastTxes = w.mapDarksendBroadcastTxes ∧
      ∃ added, (CheckPool env w lockMain draws).vTrace = w.vTrace ++ added ∧
        ∀ e ∈ added, (∃ nSessionID txFinal, e = Effect.RelayFinalTransaction nSessionID txFinal)
          ∨ ∃ outpoint, e = Effect.UnlockCoin outpoint) ∧
    (w.pool.nState = POOL_STATE_SIGNING →
      (∃ entry ∈ w.pool.vecEntries, ∃ txdsin ∈ entry.vecTxDSIn, txdsin.fHasSig = false) →
      CheckPool env w lockMain draws = w) := by
  have hiff : IsSignaturesComplete w.pool = true ↔
      ∀ entry ∈ w.pool.vecEntries, ∀ txdsin ∈ entry.vecTxDSIn, txdsin.fHasSig = true := by
    simp [IsSignaturesComplete, List.all_eq_true]
  refine ⟨hiff, ?_, ?_, ?_⟩
  · intro hstate hcomplete
    have heq : CheckPool env w lockMain draws = CommitFinalTransaction env w lockMain draws := by
      unfold CheckPool
      rw [if_neg (by simp [hstate]), if_pos (by simp [hrole, hstate, hcomplete])]
    refine ⟨heq, fun hkeep => ?_⟩
    rw [heq]
    exact CommitFinalTransaction_relays env w lockMain draws hrole hkeep
  · intro hnot
    unfold CheckPool
    by_cases h1 : (env.fSubiNode && (w.pool.nState == POOL_STATE_ACCEPTING_ENTRIES
        && decide (w.pool.GetEntriesCount ≥ GetMaxPoolTransactions env))) = true
    · rw [if_pos h1]
      refine ⟨rfl, [_], rfl, ?_⟩
      intro e he
      exact Or.inl ⟨_, _, List.mem_singleton.1 he⟩
    rw [if_neg h1]
    have h2 : ¬ (env.fSubiNode && (w.pool.nState == POOL_STATE_SIGNING
        && IsSignaturesComplete w.pool)) = true := by
      intro h2
      simp only [Bool.and_eq_true, beq_iff_eq] at h2
      exact hnot h2.2
    rw [if_neg h2]
    split_ifs
    · refine ⟨rfl, w.pool.vecOutPointLocked.map Effect.UnlockCoin, rfl, ?_⟩
      intro e he
      obtain ⟨o, _, ho⟩ := List.mem_map.1 he
      exact Or.inr ⟨o, ho.symm⟩
    · exact ⟨rfl, [], by simp, by simp⟩
  · intro hstate hunsigned
    have hincomplete : ¬ IsSignaturesComplete w.pool = true := by
      intro hc
      obtain ⟨entry, hentry, txdsin, htxdsin, hsig⟩ := hunsigned
      have := hiff.1 hc entry hentry txdsin htxdsin
      rw [hsig] at this
      exact Bool.false_ne_true this
    unfold CheckPool
    rw [if_neg (by simp [hstate]), if_neg (by simp [hincomplete]),
      if_neg (by simp [hstate])]

/-- C23 (amended), witness: the example mixer in state `SIGNING` with one entry unsigned and
one signed; `CheckPool` leaves it as it is. -/
theorem CheckPool_commit_gate_witness :
    envExample.fSubiNode = true ∧
    CheckPool envExample { pool := poolSigningExample } true [] =
      { pool := poolSigningExample } :=
  ⟨by decide, (CheckPool_commit_gate envExample { pool := poolSigningExample } true []
    (by decide)).2.2.2 (by decide) (by decide)⟩

/-! ### Lengths of the entry and collateral lists on a mixer -/

theorem LengthsKept_refl (w : World) : LengthsKept w w :=
  Or.inl ⟨rfl, rfl, id⟩

theorem LengthsKept_of_pool {w v : World} (h : v.pool = w.pool) : LengthsKept w v := by
  unfold LengthsKept
  rw [h]
  exact Or.inl ⟨rfl, rfl, id⟩

theorem LengthsKept_trans {a b c : World} (h1 : LengthsKept a b) (h2 : LengthsKept b c) :
    LengthsKept a c := by
  rcases h2 with ⟨e2, c2, s2⟩ | h2
  · rcases h1 with ⟨e1, c1, s1⟩ | ⟨e1, c1⟩
    · exact Or.inl ⟨e2.trans e1, c2.trans c1, fun h => s1 (s2 h)⟩
    · refine Or.inr ⟨?_, c2.trans c1⟩
      rw [e1] at e2
      exact List.length_eq_zero.1 e2
  · exact Or.inr h2

theorem LengthsKept_ite {w : World} {c : Prop} [Decidable c] {x y : World}
    (hx : c → LengthsKept w x) (hy : ¬ c → LengthsKept w y) :
    LengthsKept w (if c then x else y) := by
  split_ifs with h
  · exact hx h
  · exact hy h

theorem LengthsBounded_of_kept {nMax : Int} (h0 : 0 ≤ nMax) {w v : World}
    (hk : LengthsKept w v) (h : LengthsBounded nMax w) : LengthsBounded nMax v := by
  rcases hk with ⟨e, c, s⟩ | ⟨e, c⟩
  · unfold LengthsBounded
    rw [e, c]
    exact ⟨h.1, h.2.1, fun hs => h.2.2 (s hs)⟩
  · unfold LengthsBounded
    rw [e, c]
    exact ⟨le_refl _, by simpa using h0, fun _ => rfl⟩

theorem SetState_lists (env : Env) (pool : CDarksendPool) (s : PoolState) :
    (pool.SetState env s).vecEntries = pool.vecEntries ∧
    (pool.SetState env s).vecSessionCollaterals = pool.vecSessionCollaterals := by
  unfold CDarksendPool.SetState
  split_ifs <;> exact ⟨rfl, rfl⟩

theorem SetState_kept (env : Env) (w : World) (s : PoolState)
    (hs : s ≠ POOL_STATE_IDLE) : LengthsKept w (w.SetState env s) := by
  refine Or.inl ⟨congrArg List.length (SetState_lists env w.pool s).1,
    (SetState_lists env w.pool s).2, ?_⟩
  show (w.pool.SetState env s).nState = POOL_STATE_IDLE → _
  unfold CDarksendPool.SetState
  split_ifs
  · exact id
  · exact fun h => absurd h hs

theorem CreateFinalTransaction_kept (env : Env) (w : World) :
    LengthsKept w (CreateFinalTransaction env w) := by
  unfold CreateFinalTransaction
  dsimp only
  refine Or.inl ⟨congrArg List.length (SetState_lists env _ _).1, (SetState_lists env _ _).2, ?_⟩
  intro h
  rw [SetState_nState _ _ _ ⟨by decide, by decide⟩] at h
  exact absurd h (by decide)

theorem CommitFinalTransaction_kept (env : Env) (w : World) (lockMain : Bool)
    (draws : List Nat) : LengthsKept w (CommitFinalTransaction env w lockMain draws) := by
  unfold CommitFinalTransaction
  dsimp only
  split_ifs <;> first
    | exact LengthsKept_refl _
    | exact Or.inr ⟨rfl, rfl⟩
    | exact LengthsKept_of_pool (by rw [ChargeRandomFees_pool]; rfl)

theorem CheckPool_kept (env : Env) (w : World) (lockMain : Bool) (draws : List Nat) :
    LengthsKept w (CheckPool env w lockMain draws) := by
  unfold CheckPool
  split_ifs
  · exact CreateFinalTransaction_kept env w
  · exact CommitFinalTransaction_kept env w lockMain draws
  · exact Or.inr ⟨rfl, rfl⟩
  · exact LengthsKept_refl w

theorem timeoutReset_kept (env : Env) (w : World) (nRand1 nRand2 nShuffle : Nat) :
    LengthsKept w (timeoutReset env w nRand1 nRand2 nShuffle) := by
  rcases timeoutReset_fields env w nRand1 nRand2 nShuffle with hf | hf
  · exact LengthsKept_of_pool hf.2.2
  · exact Or.inr ⟨hf.2.2.2.1, hf.2.2.2.2.1⟩

theorem checkSessionTimeout_kept (env : Env) (w : World) (nRand1 nRand2 nShuffle : Nat) :
    LengthsKept w (checkSessionTimeout env w nRand1 nRand2 nShuffle) := by
  unfold checkSessionTimeout
  dsimp only
  split_ifs <;> first | exact timeoutReset_kept _ _ _ _ _ | exact LengthsKept_refl _

theorem CheckTimeout_kept (env : Env) (w : World) (lockDS lockMain : Bool) (draws : List Nat)
    (nRand1 nRand2 nShuffle : Nat) :
    LengthsKept w (CheckTimeout env w lockDS lockMain draws nRand1 nRand2 nShuffle) := by
  unfold CheckTimeout
  dsimp only
  split_ifs with h1 h2 h3
  · exact LengthsKept_refl _
  · exact Or.inl ⟨rfl, rfl, id⟩
  · refine LengthsKept_trans (b := withoutExpiredQueues env w) (Or.inl ⟨rfl, rfl, id⟩) ?_
    refine LengthsKept_trans ?_ (checkSessionTimeout_kept _ _ _ _ _)
    show LengthsKept (withoutExpiredQueues env w)
      (match (withoutExpiredQueues env w).pool.nState with
        | POOL_STATE_ERROR => CheckPool env (withoutExpiredQueues env w) lockMain draws
        | POOL_STATE_SUCCESS => CheckPool env (withoutExpiredQueues env w) lockMain draws
        | _ => withoutExpiredQueues env w)
    split
    · exact CheckPool_kept _ _ _ _
    · exact CheckPool_kept _ _ _ _
    · exact LengthsKept_refl _
  · refine LengthsKept_trans (b := withoutExpiredQueues env w) (Or.inl ⟨rfl, rfl, id⟩) ?_
    exact checkSessionTimeout_kept _ _ _ _ _

theorem CheckForCompleteQueue_kept (env : Env) (w : World) :
    LengthsKept w (CheckForCompleteQueue env w) := by
  unfold CheckForCompleteQueue
  dsimp only
  split_ifs
  all_goals first
    | exact LengthsKept_refl _
    | exact LengthsKept_trans (SetState_kept env w POOL_STATE_ACCEPTING_ENTRIES (by decide))
        (LengthsKept_of_pool rfl)

theorem NewBlock_kept (env : Env) (w : World) (lockDS lockMain : Bool) (draws : List Nat)
    (nRand1 nRand2 nShuffle : Nat) :
    LengthsKept w (NewBlock env w lockDS lockMain draws nRand1 nRand2 nShuffle) := by
  unfold NewBlock
  split_ifs
  · exact LengthsKept_refl _
  · exact LengthsKept_trans (b := { w with nTimeNewBlockReceived := env.GetTime })
      (LengthsKept_of_pool rfl) (CheckTimeout_kept _ _ _ _ _ _ _ _)

theorem UpdatedBlockTip_kept (env : Env) (w : World) (nHeight : Int)
    (fSubinodeListSynced lockDS lockMain : Bool) (draws : List Nat)
    (nRand1 nRand2 nShuffle : Nat) :
    LengthsKept w (UpdatedBlockTip env w nHeight fSubinodeListSynced lockDS lockMain draws
      nRand1 nRand2 nShuffle) := by
  unfold UpdatedBlockTip
  dsimp only
  split_ifs
  · exact LengthsKept_trans
      (b := { w with pool := { w.pool with pCurrentBlockIndex := some nHeight } })
      (Or.inl ⟨rfl, rfl, id⟩) (NewBlock_kept _ _ _ _ _ _ _ _)
  · exact Or.inl ⟨rfl, rfl, id⟩

theorem ResetPool_kept (env : Env) (w : World) : LengthsKept w (ResetPool env w) :=
  Or.inr ⟨rfl, rfl⟩

theorem addScriptSigEntries_length (txinNew : CTxIn) (l : List CDarkSendEntry) :
    (addScriptSigEntries txinNew l).2.length = l.length := by
  induction l with
  | nil => rfl
  | cons entry rest ih =>
    unfold addScriptSigEntries
    dsimp only
    split_ifs
    · rfl
    · simp [ih]

theorem AddScriptSig_kept (w : World) (txinNew : CTxIn) :
    LengthsKept w { w with pool := (AddScriptSig w.pool txinNew).2 } := by
  unfold AddScriptSig
  dsimp only
  split_ifs
  · exact Or.inl ⟨rfl, rfl, id⟩
  · exact Or.inl ⟨rfl, rfl, id⟩
  · exact Or.inl ⟨addScriptSigEntries_length _ _, rfl, id⟩

theorem signFinalLoop_kept (l : List CTxIn) (w : World) :
    LengthsKept w (signFinalLoop l w).2 := by
  induction l generalizing w with
  | nil => exact LengthsKept_refl _
  | cons txin rest ih =>
    unfold signFinalLoop
    dsimp only
    split_ifs
    · exact LengthsKept_trans (AddScriptSig_kept w txin) (LengthsKept_of_pool rfl)
    · exact LengthsKept_trans (AddScriptSig_kept w txin) (ih _)

theorem ProcessMessageDSSIGNFINALTX_kept (env : Env) (w : World) (nVersion : Int)
    (vecTxIn : List CTxIn) (lockMain : Bool) (draws : List Nat) :
    LengthsKept w (ProcessMessageDSSIGNFINALTX env w nVersion vecTxIn lockMain draws) := by
  unfold ProcessMessageDSSIGNFINALTX
  dsimp only
  split_ifs
  all_goals first
    | exact LengthsKept_refl _
    | exact signFinalLoop_kept _ _
    | exact LengthsKept_trans (signFinalLoop_kept _ _) (CheckPool_kept _ _ _ _)

theorem ProcessMessageDSQUEUE_kept (env : Env) (w : World) (lockRecv : Bool)
    (nVersion : Int) (dsq : CDarksendQueue) :
    LengthsKept w (ProcessMessageDSQUEUE env w lockRecv nVersion dsq) := by
  rcases ProcessMessageDSQUEUE_outcomes env w lockRecv nVersion dsq with
    h | h | h | ⟨pmn, _, _, h⟩ <;> rw [h] <;> exact Or.inl ⟨rfl, rfl, id⟩

theorem SendDenominate_mixer (env : Env) (w : World) (vecTxIn : List CTxIn)
    (vecTxOut : List CTxOut) (lockMain : Bool) (hrole : env.fSubiNode = true) :
    SendDenominate env w vecTxIn vecTxOut lockMain = (false, w) := by
  unfold SendDenominate
  rw [if_pos hrole]

theorem submitRounds_mixer (env : Env) (cenv : ClientEnv) (lockMain : Bool) (n : Nat)
    (nRound : Int) (draws : List Nat) (acc : String × List CTxIn × List CTxOut) (w : World)
    (hrole : env.fSubiNode = true) :
    (submitRounds env cenv lockMain n nRound draws acc w).2.2.2.pool = w.pool := by
  induction n generalizing nRound draws acc w with
  | zero => rfl
  | succ n ih =>
    unfold submitRounds
    dsimp only
    split_ifs
    · rw [SendDenominate_mixer env _ _ _ lockMain hrole]
      exact PrepareDenominate_pool _ _ _ _ _ _ _ _ _
    · rw [ih]
      exact PrepareDenominate_pool _ _ _ _ _ _ _ _ _

theorem SubmitDenominate_mixer_kept (env : Env) (cenv : ClientEnv) (w : World)
    (lockMain : Bool) (draws : List Nat) (hrole : env.fSubiNode = true) :
    LengthsKept w (SubmitDenominate env cenv w lockMain draws).2 := by
  unfold SubmitDenominate
  dsimp only
  have h := submitRounds_mixer env cenv lockMain cenv.nPrivateSendRounds.toNat 0 draws
    ("", [], []) w hrole
  generalize submitRounds env cenv lockMain cenv.nPrivateSendRounds.toNat 0 draws
    ("", [], []) w = r at h
  cases hr : r.1 with
  | some fResult => exact LengthsKept_of_pool h
  | none =>
    dsimp only
    refine LengthsKept_trans (LengthsKept_of_pool h) ?_
    split_ifs
    · rw [SendDenominate_mixer env _ _ _ lockMain hrole]
      exact LengthsKept_of_pool (PrepareDenominate_pool _ _ _ _ _ _ _ _ _)
    · exact LengthsKept_trans (LengthsKept_of_pool (PrepareDenominate_pool _ _ _ _ _ _ _ _ _))
        (Or.inl ⟨rfl, rfl, id⟩)

theorem ProcessMessageDSQUEUEWorld_kept (env : Env) (cenv : ClientEnv) (w : World)
    (lockRecv : Bool) (nVersion : Int) (dsq : CDarksendQueue) (lockMain : Bool)
    (draws : List Nat) (hrole : env.fSubiNode = true) :
    LengthsKept w
      (ProcessMessageDSQUEUEWorld env cenv w lockRecv nVersion dsq lockMain draws) := by
  unfold ProcessMessageDSQUEUEWorld
  dsimp only
  split_ifs
  · exact LengthsKept_trans (ProcessMessageDSQUEUE_kept env w lockRecv nVersion dsq)
      (SubmitDenominate_mixer_kept env cenv _ lockMain draws hrole)
  · exact ProcessMessageDSQUEUE_kept env w lockRecv nVersion dsq

theorem ProcessMessageDSSTATUSUPDATE_mixer (env : Env) (w : World) (nVersion : Int)
    (addrFrom : Nat)
    (nMsgSessionID nMsgState nMsgEntriesCount nMsgStatusUpdate nMsgMessageID : Int)
    (hrole : env.fSubiNode = true) :
    ProcessMessageDSSTATUSUPDATE env w nVersion addrFrom nMsgSessionID nMsgState
      nMsgEntriesCount nMsgStatusUpdate nMsgMessageID = w := by
  unfold ProcessMessageDSSTATUSUPDATE
  simp [hrole]

theorem ProcessMessageDSFINALTX_mixer (env : Env) (w : World) (nVersion : Int)
    (addrFrom : Nat) (nMsgSessionID : Int) (txNew : CTransaction)
    (hrole : env.fSubiNode = true) :
    ProcessMessageDSFINALTX env w nVersion addrFrom nMsgSessionID txNew = w := by
  unfold ProcessMessageDSFINALTX
  simp [hrole]

theorem ProcessMessageDSCOMPLETE_mixer (env : Env) (w : World) (nVersion : Int)
    (addrFrom : Nat) (nMsgSessionID nMsgMessageID : Int) (hrole : env.fSubiNode = true) :
    ProcessMessageDSCOMPLETE env w nVersion addrFrom nMsgSessionID nMsgMessageID = some w := by
  unfold ProcessMessageDSCOMPLETE
  simp [hrole]

theorem CreateNewSession_bounded (nMax : Int) (hmax1 : 1 ≤ nMax) (env : Env) (w : World)
    (vinActive : CTxIn) (vchSig : List Nat) (nRand : Nat) (nDenom : Int)
    (txCollateral : CTransaction) (nMessageIDRet : PoolMessage)
    (r : Bool × PoolMessage × World)
    (hr : CreateNewSession env w vinActive vchSig nRand nDenom txCollateral nMessageIDRet
      = some r)
    (h : LengthsBounded nMax w) :
    LengthsBounded nMax r.2.2 := by
  unfold CreateNewSession at hr
  by_cases h1 : (!env.fSubiNode || w.pool.nSessionID != 0) = true
  · rw [if_pos h1] at hr
    cases hr
    exact h
  · rw [if_neg h1] at hr
    have hrole : env.fSubiNode = true := by
      cases hr : env.fSubiNode
      · simp [hr] at h1
      · rfl
    by_cases h2 : (w.pool.nState != POOL_STATE_IDLE) = true
    · rw [if_pos h2] at hr
      cases hr
      exact h
    · rw [if_neg h2] at hr
      cases h3 : IsAcceptableDenomAndCollateral env w.pool nDenom txCollateral
          nMessageIDRet with
      | none =>
        rw [h3] at hr
        cases hr
      | some a =>
      rw [h3] at hr
      dsimp only at hr
      by_cases h4 : (!a.1) = true
      · rw [if_pos h4] at hr
        cases hr
        exact h
      · rw [if_neg h4] at hr
        cases hr
        have hidle : w.pool.nState = POOL_STATE_IDLE := by simpa using h2
        have hcol : w.pool.vecSessionCollaterals = [] := h.2.2 hidle
        have hent : w.pool.vecEntries = [] := by
          have hle := h.1
          rw [hcol] at hle
          exact List.length_eq_zero.1 (Nat.le_zero.1 hle)
        have hstate : ∀ pool : CDarksendPool,
            (pool.SetState env POOL_STATE_QUEUE).nState ≠ POOL_STATE_IDLE := by
          intro pool
          rw [SetState_nState _ _ _ ⟨by decide, by decide⟩]
          decide
        unfold LengthsBounded
        split_ifs
        · refine ⟨?_, ?_, ?_⟩
          · show (CDarksendPool.SetState env _ POOL_STATE_QUEUE).vecEntries.length ≤ _
            rw [(SetState_lists env _ _).1]
            show w.pool.vecEntries.length ≤ _
            rw [hent]
            exact Nat.zero_le _
          · show (((CDarksendPool.SetState env _ POOL_STATE_QUEUE).vecSessionCollaterals
              ++ [txCollateral]).length : Int) ≤ nMax
            rw [(SetState_lists env _ _).2]
            show ((w.pool.vecSessionCollaterals ++ [txCollateral]).length : Int) ≤ nMax
            rw [hcol]
            simpa using hmax1
          · intro hs
            exact absurd hs (hstate _)
        · refine ⟨?_, ?_, ?_⟩
          · show (CDarksendPool.SetState env _ POOL_STATE_QUEUE).vecEntries.length ≤ _
            rw [(SetState_lists env _ _).1]
            show w.pool.vecEntries.length ≤ _
            rw [hent]
            exact Nat.zero_le _
          · show (((CDarksendPool.SetState env _ POOL_STATE_QUEUE).vecSessionCollaterals
              ++ [txCollateral]).length : Int) ≤ nMax
            rw [(SetState_lists env _ _).2]
            show ((w.pool.vecSessionCollaterals ++ [txCollateral]).length : Int) ≤ nMax
            rw [hcol]
            simpa using hmax1
          · intro hs
            exact absurd hs (hstate _)

theorem AddUserToExistingSession_bounded (nMax : Int) (env : Env) (w : World) (nDenom : Int)
    (txCollateral : CTransaction) (nMessageIDRet : PoolMessage)
    (r : Bool × PoolMessage × CDarksendPool)
    (hr : AddUserToExistingSession env w.pool nDenom txCollateral nMessageIDRet = some r)
    (hmax : env.nPoolMaxTransactions = nMax) (h : LengthsBounded nMax w) :
    LengthsBounded nMax { w with pool := r.2.2 } := by
  unfold AddUserToExistingSession at hr
  by_cases h1 : (!env.fSubiNode || w.pool.nSessionID == 0 || w.pool.IsSessionReady env) = true
  · rw [if_pos h1] at hr
    cases hr
    exact h
  rw [if_neg h1] at hr
  cases h2a : IsAcceptableDenomAndCollateral env w.pool nDenom txCollateral
      nMessageIDRet with
  | none =>
    rw [h2a] at hr
    cases hr
  | some a =>
  rw [h2a] at hr
  dsimp only at hr
  by_cases h2 : (!a.1) = true
  · rw [if_pos h2] at hr
    cases hr
    exact h
  rw [if_neg h2] at hr
  by_cases h3 : (w.pool.nState != POOL_STATE_QUEUE) = true
  · rw [if_pos h3] at hr
    cases hr
    exact h
  rw [if_neg h3] at hr
  by_cases h4 : (nDenom != w.pool.nSessionDenom) = true
  · rw [if_pos h4] at hr
    cases hr
    exact h
  rw [if_neg h4] at hr
  cases hr
  have hready : ¬ ((w.pool.vecSessionCollaterals.length : Int) ≥ nMax) := by
    intro hge
    apply h1
    simp [CDarksendPool.IsSessionReady, GetMaxPoolTransactions, hmax, hge]
  have hstate : w.pool.nState = POOL_STATE_QUEUE := by simpa using h3
  refine ⟨?_, ?_, ?_⟩
  · show w.pool.vecEntries.length ≤ (w.pool.vecSessionCollaterals ++ [txCollateral]).length
    have := h.1
    simp only [List.length_append, List.length_singleton]
    omega
  · show ((w.pool.vecSessionCollaterals ++ [txCollateral]).length : Int) ≤ nMax
    simp only [List.length_append, List.length_singleton, Nat.cast_add, Nat.cast_one]
    omega
  · intro hs
    have hs2 : w.pool.nState = POOL_STATE_IDLE := hs
    rw [hstate] at hs2
    exact absurd hs2 (by decide)

theorem ProcessMessageDSACCEPT_bounded (nMax : Int) (hmax1 : 1 ≤ nMax) (env : Env) (w : World)
    (nVersion nDenom : Int) (txCollateral : CTransaction) (nRand : Nat)
    (hmax : env.nPoolMaxTransactions = nMax) (h : LengthsBounded nMax w) :
    LengthsBounded nMax
      (ProcessMessageDSACCEPT env w nVersion nDenom txCollateral nRand) := by
  unfold ProcessMessageDSACCEPT
  repeat' split
  all_goals first
    | exact h
    | exact CreateNewSession_bounded nMax hmax1 env w _ _ _ _ _ _ _ (by assumption) h
    | exact AddUserToExistingSession_bounded nMax env w _ _ _ _ (by assumption) hmax h

theorem AddEntry_bounded (nMax : Int) (env : Env) (w : World) (entryNew : CDarkSendEntry)
    (nMessageIDRet : PoolMessage) (r : Bool × PoolMessage × CDarksendPool)
    (hr : AddEntry env w.pool entryNew nMessageIDRet = some r)
    (hmax : env.nPoolMaxTransactions = nMax)
    (hready : w.pool.IsSessionReady env = true) (h : LengthsBounded nMax w) :
    LengthsBounded nMax { w with pool := r.2.2 } := by
  rcases AddEntry_outcomes env w.pool entryNew nMessageIDRet with h1 | ⟨msg, h1, _⟩ | h1
  · rw [h1] at hr
    cases hr
  · rw [h1] at hr
    cases hr
    exact h
  · rw [h1.1] at hr
    cases hr
    have hfull : (w.pool.vecSessionCollaterals.length : Int) ≥ nMax := by
      simpa [CDarksendPool.IsSessionReady, GetMaxPoolTransactions, hmax] using hready
    have hroom : (w.pool.vecEntries.length : Int) < nMax := by
      rw [← hmax]
      exact h1.2.2.2.1
    refine ⟨?_, h.2.1, h.2.2⟩
    show (w.pool.vecEntries ++ [entryNew]).length ≤ w.pool.vecSessionCollaterals.length
    simp only [List.length_append, List.length_singleton]
    omega

theorem LengthsBounded_ite {nMax : Int} {c : Prop} [Decidable c] {x y : World}
    (hx : c → LengthsBounded nMax x) (hy : ¬ c → LengthsBounded nMax y) :
    LengthsBounded nMax (if c then x else y) := by
  split_ifs with h
  · exact hx h
  · exact hy h

theorem ProcessMessageDSVINWorld_bounded (nMax : Int) (h0 : 0 ≤ nMax) (env : Env) (w : World)
    (nVersion : Int) (entry : CDarkSendEntry) (lockMain : Bool) (draws : List Nat)
    (hmax : env.nPoolMaxTransactions = nMax) (h : LengthsBounded nMax w) :
    LengthsBounded nMax (ProcessMessageDSVINWorld env w nVersion entry lockMain draws) := by
  unfold ProcessMessageDSVINWorld
  by_cases h1 : env.fLiteMode = true
  · rw [if_pos h1]
    exact h
  rw [if_neg h1]
  by_cases h2 : (!env.fBlockchainSynced) = true
  · rw [if_pos h2]
    exact h
  rw [if_neg h2]
  by_cases h3 : nVersion < env.MIN_PRIVATESEND_PEER_PROTO_VERSION
  · rw [if_pos h3]
    exact h
  rw [if_neg h3]
  by_cases h4 : (!env.fSubiNode) = true
  · rw [if_pos h4]
    exact h
  rw [if_neg h4]
  by_cases h5 : (!w.pool.IsSessionReady env) = true
  · rw [if_pos h5]
    exact h
  rw [if_neg h5]
  have hready : w.pool.IsSessionReady env = true := by simpa using h5
  by_cases h6 : (!IsOutputsCompatibleWithSessionDenom env w.pool entry.vecTxDSOut) = true
  · rw [if_pos h6]
    exact h
  rw [if_neg h6]
  cases dsvinOutLoop env entry.vecTxDSOut 0 with
  | error nMessageID => exact h
  | ok nValueOut =>
    cases dsvinInLoop env entry.vecTxDSIn 0 with
    | error nMessageID => exact h
    | ok nValueIn =>
      dsimp only
      repeat' (with_reducible apply LengthsBounded_ite <;> intro _)
      all_goals try exact h
      cases hadd : AddEntry env w.pool entry MSG_NOERR with
      | none => exact h
      | some r =>
        have hb := AddEntry_bounded nMax env w entry MSG_NOERR r hadd hmax hready h
        dsimp only
        repeat' (with_reducible apply LengthsBounded_ite <;> intro _)
        all_goals first
          | exact LengthsBounded_of_kept h0 (CheckPool_kept env _ lockMain draws) hb
          | exact LengthsBounded_of_kept h0 (Or.inr ⟨rfl, rfl⟩) h

theorem MixerStep_bounded (nMax : Int) (hmax1 : 1 ≤ nMax) {w v : World}
    (hstep : MixerStep nMax w v) (h : LengthsBounded nMax w) : LengthsBounded nMax v := by
  have h0 : 0 ≤ nMax := by omega
  cases hstep with
  | dsaccept env _ nVersion nDenom txCollateral nRand hrole hmax =>
    exact ProcessMessageDSACCEPT_bounded nMax hmax1 env w _ _ _ _ hmax h
  | dsqueue env cenv _ lockRecv nVersion dsq lockMain draws hrole hmax =>
    exact LengthsBounded_of_kept h0 (ProcessMessageDSQUEUEWorld_kept _ _ _ _ _ _ _ _ hrole) h
  | dsvin env _ nVersion entry lockMain draws hrole hmax =>
    exact ProcessMessageDSVINWorld_bounded nMax h0 env w _ _ _ _ hmax h
  | dsstatusupdate env _ nVersion addrFrom a1 a2 a3 a4 a5 hrole hmax =>
    rw [ProcessMessageDSSTATUSUPDATE_mixer _ _ _ _ _ _ _ _ _ hrole]
    exact h
  | dssignfinaltx env _ nVersion vecTxIn lockMain draws hrole hmax =>
    exact LengthsBounded_of_kept h0 (ProcessMessageDSSIGNFINALTX_kept _ _ _ _ _ _) h
  | dsfinaltx env _ nVersion addrFrom nMsgSessionID txNew hrole hmax =>
    rw [ProcessMessageDSFINALTX_mixer _ _ _ _ _ _ hrole]
    exact h
  | dscomplete env _ _ nVersion addrFrom nMsgSessionID nMsgMessageID hrole hmax hret =>
    rw [ProcessMessageDSCOMPLETE_mixer _ _ _ _ _ _ hrole] at hret
    cases hret
    exact h
  | timeout env _ lockDS lockMain draws nRand1 nRand2 nShuffle hrole hmax =>
    exact LengthsBounded_of_kept h0 (CheckTimeout_kept _ _ _ _ _ _ _ _) h
  | pool env _ lockMain draws hrole hmax =>
    exact LengthsBounded_of_kept h0 (CheckPool_kept _ _ _ _) h
  | queue env _ hrole hmax =>
    exact LengthsBounded_of_kept h0 (CheckForCompleteQueue_kept _ _) h
  | tip env _ nHeight fSynced lockDS lockMain draws nRand1 nRand2 nShuffle hrole hmax =>
    exact LengthsBounded_of_kept h0 (UpdatedBlockTip_kept _ _ _ _ _ _ _ _ _ _) h
  | driver env cenv _ fDryRun lockDS nRandQueue drawsDenom r hrole hmax hret =>
    rw [DoAutomaticDenominating_mixer _ _ _ _ _ _ _ hrole] at hret
    cases hret
    exact h
  | reset env _ hrole hmax =>
    exact LengthsBounded_of_kept h0 (ResetPool_kept _ _) h

theorem MixerStep_step {nMax : Int} {w v : World} (hstep : MixerStep nMax w v) :
    Step true w v := by
  cases hstep with
  | dsaccept env _ nVersion nDenom txCollateral nRand hrole hmax =>
    exact Step.dsaccept env w _ _ _ _ hrole
  | dsqueue env cenv _ lockRecv nVersion dsq lockMain draws hrole hmax =>
    exact Step.dsqueue env cenv w _ _ _ _ _ hrole
  | dsvin env _ nVersion entry lockMain draws hrole hmax =>
    exact Step.dsvin env w _ _ _ _ hrole
  | dsstatusupdate env _ nVersion addrFrom a1 a2 a3 a4 a5 hrole hmax =>
    exact Step.dsstatusupdate env w _ _ _ _ _ _ _ hrole
  | dssignfinaltx env _ nVersion vecTxIn lockMain draws hrole hmax =>
    exact Step.dssignfinaltx env w _ _ _ _ hrole
  | dsfinaltx env _ nVersion addrFrom nMsgSessionID txNew hrole hmax =>
    exact Step.dsfinaltx env w _ _ _ _ hrole
  | dscomplete env _ _ nVersion addrFrom nMsgSessionID nMsgMessageID hrole hmax hret =>
    exact Step.dscomplete env w v _ _ _ _ hrole hret
  | timeout env _ lockDS lockMain draws nRand1 nRand2 nShuffle hrole hmax =>
    exact Step.timeout env w _ _ _ _ _ _ hrole
  | pool env _ lockMain draws hrole hmax =>
    exact Step.pool env w _ _ hrole
  | queue env _ hrole hmax =>
    exact Step.queue env w hrole
  | tip env _ nHeight fSynced lockDS lockMain draws nRand1 nRand2 nShuffle hrole hmax =>
    exact Step.tip env w _ _ _ _ _ _ _ _ hrole
  | driver env cenv _ fDryRun lockDS nRandQueue drawsDenom r hrole hmax hret =>
    exact Step.driver env cenv w _ _ _ _ r hrole hret
  | reset env _ hrole hmax =>
    exact Step.reset env w hrole

/-- C30: on a mixer with `MaxPoolTransactions = nMax ≥ 1`, every world reached from a world
without entries and collaterals (the null state is one) through the
message handlers (`DSACCEPT` with `CreateNewSession` and `AddUserToExistingSession`,
`DSVIN` with `AddEntry`, and the others), the timer operations, the driver and `ResetPool`
has no more entries than collaterals and no more collaterals than `nMax`. -/
theorem mixer_lengths_bounded (nMax : Int) (w0 w : World) (hmax1 : 1 ≤ nMax)
    (hentries : w0.pool.vecEntries = [])
    (hcollaterals : w0.pool.vecSessionCollaterals = [])
    (hreach : MixerReachable nMax w0 w) :
    w.pool.vecEntries.length ≤ w.pool.vecSessionCollaterals.length ∧
    (w.pool.vecSessionCollaterals.length : Int) ≤ nMax := by
  have hinv : LengthsBounded nMax w := by
    induction hreach with
    | refl =>
      refine ⟨?_, ?_, fun _ => hcollaterals⟩
      · rw [hentries, hcollaterals]
        exact le_refl _
      · rw [hcollaterals]
        simp only [List.length_nil, Nat.cast_zero]
        omega
    | tail _ hstep ih => exact MixerStep_bounded nMax hmax1 hstep ih
  exact ⟨hinv.1, hinv.2.1⟩

/-- C30, witness: the example mixer (`MaxPoolTransactions = 3`) in the null state accepts a
`DSACCEPT` for the one-coin denomination; the new session holds one collateral and no
entry. -/
theorem mixer_lengths_bounded_witness :
    (ProcessMessageDSACCEPT envExample worldMixerExample 70206 2 collateralExample
      41).pool.vecSessionCollaterals = [collateralExample] ∧
    ((ProcessMessageDSACCEPT envExample worldMixerExample 70206 2 collateralExample
        41).pool.vecEntries.length ≤
      (ProcessMessageDSACCEPT envExample worldMixerExample 70206 2 collateralExample
        41).pool.vecSessionCollaterals.length ∧
    ((ProcessMessageDSACCEPT envExample worldMixerExample 70206 2 collateralExample
        41).pool.vecSessionCollaterals.length : Int) ≤ 3) :=
  ⟨by decide,
    mixer_lengths_bounded 3 worldMixerExample _ (by decide) (by decide) (by decide)
      (Relation.ReflTransGen.single
        (MixerStep.dsaccept envExample worldMixerExample 70206 2 collateralExample 41
          (by decide) (by decide)))⟩

/-! ### Denomination of the entries and replies of `DSACCEPT` -/

theorem IsOutputsCompatibleWithSessionDenom_iff (env : Env) (pool : CDarksendPool)
    (vecTxDSOut : List CTxDSOut) :
    IsOutputsCompatibleWithSessionDenom env pool vecTxDSOut = true ↔
      GetDenominations env.vecPrivateSendDenominations vecTxDSOut ≠ 0 ∧
      ∀ entry ∈ pool.vecEntries,
        GetDenominations env.vecPrivateSendDenominations vecTxDSOut =
          GetDenominations env.vecPrivateSendDenominations entry.vecTxDSOut := by
  unfold IsOutputsCompatibleWithSessionDenom
  by_cases h0 : GetDenominations env.vecPrivateSendDenominations vecTxDSOut = 0
  · rw [if_pos h0]
    simp [h0]
  · rw [if_neg h0]
    by_cases hany : (pool.vecEntries.any (fun entry =>
        GetDenominations env.vecPrivateSendDenominations vecTxDSOut
          != GetDenominations env.vecPrivateSendDenominations entry.vecTxDSOut)) = true
    · rw [if_pos hany]
      simp only [Bool.false_eq_true, false_iff, not_and]
      intro _ hall
      obtain ⟨entry, hentry, hne⟩ := List.any_eq_true.1 hany
      exact (bne_iff_ne.1 hne) (hall entry hentry)
    · rw [if_neg hany]
      simp only [true_iff]
      refine ⟨h0, fun entry hentry => ?_⟩
      by_contra hne
      exact hany (List.any_eq_true.2 ⟨entry, hentry, bne_iff_ne.2 hne⟩)

theorem CheckPool_entries (env : Env) (w : World) (lockMain : Bool) (draws : List Nat) :
    (CheckPool env w lockMain draws).pool.vecEntries = w.pool.vecEntries ∨
    (CheckPool env w lockMain draws).pool.vecEntries = [] := by
  unfold CheckPool
  split_ifs
  · exact Or.inl (SetState_lists env _ _).1
  · unfold CommitFinalTransaction
    dsimp only
    split_ifs <;> first
      | exact Or.inl rfl
      | exact Or.inr rfl
      | exact Or.inl (by rw [ChargeRandomFees_pool]; rfl)
  · exact Or.inr rfl
  · exact Or.inl rfl

theorem ProcessMessageDSVINWorld_entries (env : Env) (w : World) (nVersion : Int)
    (entry : CDarkSendEntry) (lockMain : Bool) (draws : List Nat) :
    (ProcessMessageDSVINWorld env w nVersion entry lockMain draws).pool.vecEntries
      = w.pool.vecEntries ∨
    (ProcessMessageDSVINWorld env w nVersion entry lockMain draws).pool.vecEntries = [] ∨
    (IsOutputsCompatibleWithSessionDenom env w.pool entry.vecTxDSOut = true ∧
      (ProcessMessageDSVINWorld env w nVersion entry lockMain draws).pool.vecEntries
        = w.pool.vecEntries ++ [entry]) := by
  unfold ProcessMessageDSVINWorld
  by_cases h1 : env.fLiteMode = true
  · rw [if_pos h1]
    exact Or.inl rfl
  rw [if_neg h1]
  by_cases h2 : (!env.fBlockchainSynced) = true
  · rw [if_pos h2]
    exact Or.inl rfl
  rw [if_neg h2]
  by_cases h3 : nVersion < env.MIN_PRIVATESEND_PEER_PROTO_VERSION
  · rw [if_pos h3]
    exact Or.inl rfl
  rw [if_neg h3]
  by_cases h4 : (!env.fSubiNode) = true
  · rw [if_pos h4]
    exact Or.inl rfl
  rw [if_neg h4]
  by_cases h5 : (!w.pool.IsSessionReady env) = true
  · rw [if_pos h5]
    exact Or.inl rfl
  rw [if_neg h5]
  by_cases h6 : (!IsOutputsCompatibleWithSessionDenom env w.pool entry.vecTxDSOut) = true
  · rw [if_pos h6]
    exact Or.inl rfl
  rw [if_neg h6]
  have hcompat : IsOutputsCompatibleWithSessionDenom env w.pool entry.vecTxDSOut = true := by
    simpa using h6
  cases dsvinOutLoop env entry.vecTxDSOut 0 with
  | error nMessageID => exact Or.inl rfl
  | ok nValueOut =>
    cases dsvinInLoop env entry.vecTxDSIn 0 with
    | error nMessageID => exact Or.inl rfl
    | ok nValueIn =>
      dsimp only
      by_cases h7 : nValueIn > env.PRIVATESEND_POOL_MAX
      · rw [if_pos h7]
        exact Or.inl rfl
      rw [if_neg h7]
      by_cases h8 : nValueIn - nValueOut > env.vecPrivateSendDenominations.getLastD 0
      · rw [if_pos h8]
        exact Or.inl rfl
      rw [if_neg h8]
      by_cases h9 : (!env.AcceptToMemoryPool
            { vin := entry.vecTxDSIn.map (fun txin => txin.toCTxIn)
              vout := entry.vecTxDSOut.map (fun txout => txout.toCTxOut) }) = true
      · rw [if_pos h9]
        exact Or.inl rfl
      rw [if_neg h9]
      by_cases h10 : (!env.fMempoolKeepsRef) = true
      · rw [if_pos h10]
        exact Or.inl rfl
      rw [if_neg h10]
      rcases AddEntry_outcomes env w.pool entry MSG_NOERR with hr | ⟨msg, hr, _⟩ | ⟨hr, _⟩
      · rw [hr]
        exact Or.inl rfl
      · rw [hr]
        dsimp only
        rw [if_neg (by simp)]
        exact Or.inr (Or.inl rfl)
      · rw [hr]
        dsimp only
        rw [if_pos rfl]
        rcases CheckPool_entries env
          (PushStatus { w with pool :=
            { w.pool with
              vecEntries := w.pool.vecEntries ++ [entry]
              nTimeLastSuccessfulStep := env.GetTimeMillis } }
            STATUS_ACCEPTED MSG_ENTRIES_ADDED) lockMain draws
          with hc | hc
        · refine Or.inr (Or.inr ⟨hcompat, ?_⟩)
          split_ifs
          · rw [hc]
            rfl
          · show (CheckPool env _ lockMain draws).pool.vecEntries = _
            rw [hc]
            rfl
        · refine Or.inr (Or.inl ?_)
          split_ifs
          · exact hc
          · exact hc

theorem DsvinStep_sameDenomination {vecDenoms : List Int} {w v : World}
    (hstep : DsvinStep vecDenoms w v) (h : SameDenomination vecDenoms w.pool) :
    SameDenomination vecDenoms v.pool := by
  cases hstep with
  | dsvin env _ nVersion entry lockMain draws htable =>
    rcases ProcessMessageDSVINWorld_entries env w nVersion entry lockMain draws with
      he | he | ⟨hcompat, he⟩
    · unfold SameDenomination
      rw [he]
      exact h
    · unfold SameDenomination
      rw [he]
      intro e1 h1
      exact absurd h1 (List.not_mem_nil _)
    · rw [IsOutputsCompatibleWithSessionDenom_iff, htable] at hcompat
      unfold SameDenomination
      rw [he]
      intro e1 h1
      rcases List.mem_append.1 h1 with h1 | h1
      · refine ⟨(h e1 h1).1, fun e2 h2 => ?_⟩
        rcases List.mem_append.1 h2 with h2 | h2
        · exact (h e1 h1).2 e2 h2
        · rw [List.mem_singleton.1 h2]
          exact (hcompat.2 e1 h1).symm
      · rw [List.mem_singleton.1 h1]
        refine ⟨hcompat.1, fun e2 h2 => ?_⟩
        rcases List.mem_append.1 h2 with h2 | h2
        · exact hcompat.2 e2 h2
        · rw [List.mem_singleton.1 h2]

/-- C31: `IsOutputsCompatibleWithSessionDenom(outs)` returns true if and only if
`GetDenominations(outs)` is nonzero and equals `GetDenominations` of the outputs of every
entry already in the pool; and in every world reached from a pool without entries by
`DSVIN` messages, handled with one denomination table, all entries have outputs encoding
one and the same nonzero mask. -/
theorem entries_same_denomination :
    (∀ (env : Env) (pool : CDarksendPool) (vecTxDSOut : List CTxDSOut),
      IsOutputsCompatibleWithSessionDenom env pool vecTxDSOut = true ↔
        GetDenominations env.vecPrivateSendDenominations vecTxDSOut ≠ 0 ∧
        ∀ entry ∈ pool.vecEntries,
          GetDenominations env.vecPrivateSendDenominations vecTxDSOut =
            GetDenominations env.vecPrivateSendDenominations entry.vecTxDSOut) ∧
    (∀ (vecDenoms : List Int) (w0 w : World), w0.pool.vecEntries = [] →
      Relation.ReflTransGen (DsvinStep vecDenoms) w0 w →
      ∀ e1 ∈ w.pool.vecEntries,
        GetDenominations vecDenoms e1.vecTxDSOut ≠ 0 ∧
        ∀ e2 ∈ w.pool.vecEntries,
          GetDenominations vecDenoms e1.vecTxDSOut =
            GetDenominations vecDenoms e2.vecTxDSOut) := by
  refine ⟨IsOutputsCompatibleWithSessionDenom_iff, ?_⟩
  intro vecDenoms w0 w hempty hreach
  have hinv : SameDenomination vecDenoms w.pool := by
    induction hreach with
    | refl =>
      unfold SameDenomination
      rw [hempty]
      intro e1 h1
      exact absurd h1 (List.not_mem_nil _)
    | tail _ hstep ih => exact DsvinStep_sameDenomination hstep ih
  exact hinv

/-- C31, witness: the ready example mixer takes `entryExample` and then `entryExample2`;
both entries are in the pool and both encode the mask 2. -/
theorem entries_same_denomination_witness :
    (ProcessMessageDSVINWorld envExample
      (ProcessMessageDSVINWorld envExample worldReadyExample 70206 entryExample true [])
      70206 entryExample2 true []).pool.vecEntries = [entryExample, entryExample2] ∧
    GetDenominations envExample.vecPrivateSendDenominations entryExample.vecTxDSOut = 2 ∧
    ∀ e1 ∈ (ProcessMessageDSVINWorld envExample
        (ProcessMessageDSVINWorld envExample worldReadyExample 70206 entryExample true [])
        70206 entryExample2 true []).pool.vecEntries,
      GetDenominations envExample.vecPrivateSendDenominations e1.vecTxDSOut ≠ 0 ∧
      ∀ e2 ∈ (ProcessMessageDSVINWorld envExample
          (ProcessMessageDSVINWorld envExample worldReadyExample 70206 entryExample true [])
          70206 entryExample2 true []).pool.vecEntries,
        GetDenominations envExample.vecPrivateSendDenominations e1.vecTxDSOut =
          GetDenominations envExample.vecPrivateSendDenominations e2.vecTxDSOut :=
  ⟨by decide, by decide,
    entries_same_denomination.2 envExample.vecPrivateSendDenominations worldReadyExample _
      (by decide)
      (Relation.ReflTransGen.tail
        (Relation.ReflTransGen.single
          (DsvinStep.dsvin envExample worldReadyExample 70206 entryExample true [] rfl))
        (DsvinStep.dsvin envExample _ 70206 entryExample2 true [] rfl))⟩

/-- C32 (code): the example mixer holds a ready session (three collaterals for
`MaxPoolTransactions = 3`) and receives a `DSACCEPT`. The handler answers with
`DSSTATUSUPDATE` carrying the status `STATUS_ACCEPTED` and the message `ERR_QUEUE_FULL`;
the pool is unchanged, so the sender was added to no session. -/
theorem ProcessMessageDSACCEPT_queue_full_answers_ACCEPTED :
    worldReadyExample.pool.IsSessionReady envExample = true ∧
    ProcessMessageDSACCEPT envExample worldReadyExample 70206 2 collateralExample 41 =
      PushStatus worldReadyExample STATUS_ACCEPTED ERR_QUEUE_FULL ∧
    (ProcessMessageDSACCEPT envExample worldReadyExample 70206 2 collateralExample 41).vTrace =
      [Effect.PushStatus 42 POOL_STATE_ACCEPTING_ENTRIES 0 STATUS_ACCEPTED ERR_QUEUE_FULL] ∧
    (ProcessMessageDSACCEPT envExample worldReadyExample 70206 2 collateralExample 41).pool =
      worldReadyExample.pool ∧
    (ProcessMessageDSACCEPT envExample worldReadyExample 70205 2 collateralExample 41).vTrace =
      [Effect.PushStatus 42 POOL_STATE_ACCEPTING_ENTRIES 0 STATUS_REJECTED ERR_VERSION] := by
  refine ⟨by decide, by decide, by decide, by decide, by decide⟩

/-! ### Collateral charging -/

theorem chargeCollateral_trace (env : Env) (w : World) (tx : CTransaction) :
    chargeCollateral env w tx = { w with vTrace := w.vTrace ++ [Effect.MempoolSubmit tx] } ∨
    chargeCollateral env w tx =
      { w with vTrace := w.vTrace ++ [Effect.MempoolSubmit tx, Effect.RelayTransaction tx] } := by
  unfold chargeCollateral
  dsimp only
  split_ifs
  · exact Or.inl rfl
  · refine Or.inr ?_
    simp only [List.append_assoc, List.singleton_append]

theorem getD_mod_mem {α : Type} (l : List α) (n : Nat) (d : α) (hl : l ≠ []) :
    l.getD (n % l.length) d ∈ l := by
  have hpos : 0 < l.length := List.length_pos.2 hl
  have hlt : n % l.length < l.length := Nat.mod_lt _ hpos
  rw [List.getD_eq_getElem _ _ hlt]
  exact List.getElem_mem _

theorem offendersSigning_mem (pool : CDarksendPool) (tx : CTransaction)
    (h : tx ∈ offendersSigning pool) :
    tx ∈ (entriesWithUnsignedInput pool).map (fun entry => entry.txCollateral) := by
  unfold offendersSigning at h
  simp only [List.mem_flatten, List.mem_map] at h
  obtain ⟨l, ⟨entry, hentry, hl⟩, htx⟩ := h
  rw [← hl] at htx
  simp only [List.mem_map, List.mem_filter] at htx
  obtain ⟨txdsin, ⟨hin, hsig⟩, heq⟩ := htx
  refine List.mem_map.2 ⟨entry, ?_, heq⟩
  unfold entriesWithUnsignedInput
  exact List.mem_filter.2 ⟨hentry, List.any_eq_true.2 ⟨txdsin, hin, hsig⟩⟩

theorem unsigned_length_le (l : List CDarkSendEntry) :
    (l.filter (fun entry => entry.vecTxDSIn.any (fun txdsin => !txdsin.fHasSig))).length ≤
    ((l.map (fun entry =>
      (entry.vecTxDSIn.filter (fun txdsin => !txdsin.fHasSig)).map
        (fun _ => entry.txCollateral))).flatten).length := by
  induction l with
  | nil => exact Nat.le_refl _
  | cons entry rest ih =>
    simp only [List.map_cons, List.flatten_cons, List.length_append, List.length_map]
    by_cases h : entry.vecTxDSIn.any (fun txdsin => !txdsin.fHasSig) = true
    · rw [List.filter_cons, if_pos h]
      have hpos : 0 < (entry.vecTxDSIn.filter (fun txdsin => !txdsin.fHasSig)).length := by
        obtain ⟨txdsin, hin, hsig⟩ := List.any_eq_true.1 h
        exact List.length_pos_of_mem (List.mem_filter.2 ⟨hin, hsig⟩)
      simp only [List.length_cons]
      omega
    · rw [List.filter_cons, if_neg h]
      omega

/-- Where `ChargeFees` reaches its tests, the list it has built holds only offenders in the
words of the specification, and at least as many elements as there are such offenders. -/
theorem vecOffendersCollaterals_spec (pool : CDarksendPool)
    (hreach : ¬ (pool.nState = POOL_STATE_ACCEPTING_ENTRIES ∧
      pool.vecSessionCollaterals ≠ [] ∧ pool.vecEntries ≠ [])) :
    (∀ tx ∈ vecOffendersCollaterals pool, tx ∈ offendersSpec pool) ∧
    (offendersSpec pool).length ≤ (vecOffendersCollaterals pool).length := by
  unfold vecOffendersCollaterals offendersSpec
  by_cases hacc : pool.nState = POOL_STATE_ACCEPTING_ENTRIES
  · have hsig : ¬ pool.nState = POOL_STATE_SIGNING := by
      rw [hacc]
      decide
    simp only [hacc, beq_self_eq_true, if_true, if_pos]
    rw [if_neg (by decide)]
    simp only [List.append_nil]
    by_cases hcol : pool.vecSessionCollaterals = []
    · rw [hcol]
      exact ⟨fun tx h => absurd h (List.not_mem_nil _), Nat.le_refl _⟩
    · have hent : pool.vecEntries = [] := by
        by_contra hne
        exact hreach ⟨hacc, hcol, hne⟩
      rw [hent]
      simp
  · have hb : (pool.nState == POOL_STATE_ACCEPTING_ENTRIES) = false := by
      simpa using hacc
    simp only [hb, Bool.false_eq_true, if_false, List.nil_append, if_neg hacc]
    by_cases hsig : pool.nState = POOL_STATE_SIGNING
    · simp only [hsig, beq_self_eq_true, if_true]
      refine ⟨fun tx h => offendersSigning_mem pool tx h, ?_⟩
      rw [List.length_map]
      exact unsigned_length_le pool.vecEntries
    · have hb2 : (pool.nState == POOL_STATE_SIGNING) = false := by
        simpa using hsig
      simp only [hb2, Bool.false_eq_true, if_false, if_neg hsig]
      exact ⟨fun tx h => absurd h (List.not_mem_nil _), Nat.le_refl _⟩

/-- Outcomes of `ChargeFees` on the effects: nothing is added, or the tests have been
passed and one element of the list built is submitted to the mempool, and relayed if
accepted. -/
theorem ChargeFees_outcomes (env : Env) (w : World) (nRand1 nRand2 nShuffle : Nat) :
    (ChargeFees env w nRand1 nRand2 nShuffle).vTrace = w.vTrace ∨
    (¬ GetRandInt nRand1 100 > 33 ∧
      ¬ (w.pool.nState = POOL_STATE_ACCEPTING_ENTRIES ∧
        w.pool.vecSessionCollaterals ≠ [] ∧ w.pool.vecEntries ≠ []) ∧
      ¬ ((vecOffendersCollaterals w.pool).length : Int) ≥ env.nPoolMaxTransactions ∧
      ∃ tx ∈ vecOffendersCollaterals w.pool,
        (ChargeFees env w nRand1 nRand2 nShuffle).vTrace =
            w.vTrace ++ [Effect.MempoolSubmit tx] ∨
        (ChargeFees env w nRand1 nRand2 nShuffle).vTrace =
            w.vTrace ++ [Effect.MempoolSubmit tx, Effect.RelayTransaction tx]) := by
  unfold ChargeFees
  by_cases h1 : (!env.fSubiNode) = true
  · rw [if_pos h1]
    exact Or.inl rfl
  rw [if_neg h1]
  by_cases h2 : GetRandInt nRand1 100 > 33
  · rw [if_pos h2]
    exact Or.inl rfl
  rw [if_neg h2]
  by_cases h3 : (w.pool.nState == POOL_STATE_ACCEPTING_ENTRIES
      && !w.pool.vecSessionCollaterals.isEmpty && !w.pool.vecEntries.isEmpty) = true
  · rw [if_pos h3]
    exact Or.inl rfl
  rw [if_neg h3]
  have hreach : ¬ (w.pool.nState = POOL_STATE_ACCEPTING_ENTRIES ∧
      w.pool.vecSessionCollaterals ≠ [] ∧ w.pool.vecEntries ≠ []) := by
    rintro ⟨ha, hb, hc⟩
    apply h3
    simp [ha, List.isEmpty_iff, hb, hc]
  dsimp only
  generalize vecOffendersCollaterals w.pool = l
  by_cases h4 : l.isEmpty = true
  · rw [if_pos h4]
    exact Or.inl rfl
  rw [if_neg h4]
  have hl : l ≠ [] := by
    intro h
    rw [h] at h4
    exact h4 rfl
  by_cases h5 : (decide ((l.length : Int) ≥ env.nPoolMaxTransactions - 1)
      && decide (GetRandInt nRand2 100 > 33)) = true
  · rw [if_pos h5]
    refine Or.inl ?_
    split_ifs <;> rfl
  rw [if_neg h5]
  by_cases h6 : (l.length : Int) ≥ env.nPoolMaxTransactions
  · rw [if_pos h6]
    refine Or.inl ?_
    split_ifs <;> rfl
  rw [if_neg h6]
  by_cases h7 : (w.pool.nState == POOL_STATE_ACCEPTING_ENTRIES
      || w.pool.nState == POOL_STATE_SIGNING) = true
  · rw [if_pos h7]
    refine Or.inr ⟨h2, hreach, h6, _, getD_mod_mem l nShuffle {} hl, ?_⟩
    rcases chargeCollateral_trace env w (l.getD (nShuffle % l.length) {}) with hc | hc
    · refine Or.inl ?_
      split_ifs
      · rw [hc]
        rfl
      · rw [hc]
    · refine Or.inr ?_
      split_ifs
      · rw [hc]
        rfl
      · rw [hc]
  · rw [if_neg h7]
    exact Or.inl rfl

/-- C33: for every state and every outcome of the random draws, one invocation of
`ChargeFees` submits at most one collateral to the mempool (relaying it if the mempool
accepts), and a submitted collateral is an offender in the words of the specification: in
state `ACCEPTING_ENTRIES` a session collateral not matched by an entry, in state `SIGNING`
the collateral of an entry that holds an unsigned DSIn. No effect is added when the first
draw `GetRandInt(100)` is greater than 33, when there is no offender, or when there are at
least `MaxPoolTransactions` offenders. The pool is never changed, and outside state
`ACCEPTING_ENTRIES` the run goes on after the call. -/
theorem ChargeFees_at_most_one (env : Env) (w : World) (nRand1 nRand2 nShuffle : Nat) :
    ∃ added, (ChargeFees env w nRand1 nRand2 nShuffle).vTrace = w.vTrace ++ added ∧
      (mempoolSubmits added = [] ∨
        ∃ tx ∈ offendersSpec w.pool, mempoolSubmits added = [tx] ∧
          (added = [Effect.MempoolSubmit tx] ∨
            added = [Effect.MempoolSubmit tx, Effect.RelayTransaction tx])) ∧
      (GetRandInt nRand1 100 > 33 → added = []) ∧
      (offendersSpec w.pool = [] → added = []) ∧
      (((offendersSpec w.pool).length : Int) ≥ env.nPoolMaxTransactions → added = []) ∧
      (ChargeFees env w nRand1 nRand2 nShuffle).pool = w.pool ∧
      (w.pool.nState ≠ POOL_STATE_ACCEPTING_ENTRIES →
        (ChargeFees env w nRand1 nRand2 nShuffle).fAborted = w.fAborted) := by
  have hpool := ChargeFees_pool env w nRand1 nRand2 nShuffle
  have hrun := ChargeFees_fAborted env w nRand1 nRand2 nShuffle
  rcases ChargeFees_outcomes env w nRand1 nRand2 nShuffle with h | ⟨h2, hreach, h6, tx, htx, h⟩
  · exact ⟨[], by rw [h, List.append_nil], Or.inl rfl, fun _ => rfl, fun _ => rfl,
      fun _ => rfl, hpool, hrun⟩
  · have hspec := vecOffendersCollaterals_spec w.pool hreach
    have hmem : tx ∈ offendersSpec w.pool := hspec.1 tx htx
    have hne : offendersSpec w.pool ≠ [] := List.ne_nil_of_mem hmem
    have hlen : ¬ ((offendersSpec w.pool).length : Int) ≥ env.nPoolMaxTransactions := by
      intro hge
      apply h6
      have := hspec.2
      omega
    rcases h with h | h
    · exact ⟨[Effect.MempoolSubmit tx], h, Or.inr ⟨tx, hmem, rfl, Or.inl rfl⟩,
        fun hd => absurd hd h2, fun he => absurd he hne, fun hge => absurd hge hlen,
        hpool, hrun⟩
    · exact ⟨[Effect.MempoolSubmit tx, Effect.RelayTransaction tx], h,
        Or.inr ⟨tx, hmem, rfl, Or.inr rfl⟩,
        fun hd => absurd hd h2, fun he => absurd he hne, fun hge => absurd hge hlen,
        hpool, hrun⟩

/-- C33, witness: in a session of three with one participant that has not signed its one
input, draws of 10 make `ChargeFees` submit exactly that participant's collateral, once,
and the run goes on; with a first draw of 50 nothing is submitted. -/
theorem ChargeFees_at_most_one_witness :
    offendersSpec worldOneOffenderExample.pool = [collateralOffenderExample] ∧
    ChargeFees envExample worldOneOffenderExample 10 10 0 =
      { worldOneOffenderExample with
        vTrace := [Effect.MempoolSubmit collateralOffenderExample,
          Effect.RelayTransaction collateralOffenderExample] } ∧
    ChargeFees envExample worldOneOffenderExample 50 10 0 = worldOneOffenderExample ∧
    ∃ added, (ChargeFees envExample worldOneOffenderExample 10 10 0).vTrace =
        worldOneOffenderExample.vTrace ++ added ∧
      (mempoolSubmits added = [] ∨
        ∃ tx ∈ offendersSpec worldOneOffenderExample.pool, mempoolSubmits added = [tx] ∧
          (added = [Effect.MempoolSubmit tx] ∨
            added = [Effect.MempoolSubmit tx, Effect.RelayTransaction tx])) ∧
      (GetRandInt 10 100 > 33 → added = []) ∧
      (offendersSpec worldOneOffenderExample.pool = [] → added = []) ∧
      (((offendersSpec worldOneOffenderExample.pool).length : Int)
        ≥ envExample.nPoolMaxTransactions → added = []) ∧
      (ChargeFees envExample worldOneOffenderExample 10 10 0).pool
        = worldOneOffenderExample.pool ∧
      (worldOneOffenderExample.pool.nState ≠ POOL_STATE_ACCEPTING_ENTRIES →
        (ChargeFees envExample worldOneOffenderExample 10 10 0).fAborted
          = worldOneOffenderExample.fAborted) :=
  ⟨by decide, by decide, by decide,
    ChargeFees_at_most_one envExample worldOneOffenderExample 10 10 0⟩

/-- C34 (code): in a session of three in state `SIGNING` where one participant has left its
three inputs unsigned and the two others have signed, one entry holds an unsigned DSIn, but
the offender list holds that entry's collateral three times. Its length 3 reaches
`MaxPoolTransactions = 3`, so `ChargeFees` charges nobody whatever the draws, while the same
offender with a single input is charged on draws of 10. -/
theorem ChargeFees_counts_unsigned_inputs :
    (entriesWithUnsignedInput worldOneOffenderThreeInputsExample.pool).length = 1 ∧
    vecOffendersCollaterals worldOneOffenderThreeInputsExample.pool =
      [collateralOffenderExample, collateralOffenderExample, collateralOffenderExample] ∧
    envExample.nPoolMaxTransactions = 3 ∧
    ChargeFees envExample worldOneOffenderThreeInputsExample 10 10 0 =
      worldOneOffenderThreeInputsExample ∧
    (entriesWithUnsignedInput worldOneOffenderExample.pool).length = 1 ∧
    (ChargeFees envExample worldOneOffenderExample 10 10 0).vTrace =
      [Effect.MempoolSubmit collateralOffenderExample,
        Effect.RelayTransaction collateralOffenderExample] := by
  refine ⟨by decide, by decide, by decide, by decide, by decide, by decide⟩

theorem chargeRandomLoop_fAborted (env : Env) (l : List CTransaction) (draws : List Nat)
    (w : World) (h : w.fAborted = true) : (chargeRandomLoop env l draws w).fAborted = true := by
  induction l generalizing draws w with
  | nil => exact h
  | cons tx rest ih =>
    unfold chargeRandomLoop
    split_ifs
    · exact h
    · exact ih _ _ (by rw [chargeCollateral_fAborted]; exact h)
    · rfl

theorem chargeRandomLoop_submits (env : Env) (l : List CTransaction) (draws : List Nat)
    (w : World) :
    ∃ added k, (chargeRandomLoop env l draws w).vTrace = w.vTrace ++ added ∧
      mempoolSubmits added = l.take k ∧ k ≤ chargedCount l draws ∧
      ((chargeRandomLoop env l draws w).fAborted = false → k = chargedCount l draws) := by
  induction l generalizing draws w with
  | nil => exact ⟨[], 0, by simp [chargeRandomLoop], rfl, Nat.le_refl _, fun _ => rfl⟩
  | cons tx rest ih =>
    unfold chargeRandomLoop chargedCount
    by_cases h : GetRandInt (draws.headD 0) 100 > 10
    · rw [if_pos h, if_pos h]
      exact ⟨[], 0, by simp, rfl, Nat.le_refl _, fun _ => rfl⟩
    · rw [if_neg h, if_neg h]
      by_cases hk : (env.AcceptToMemoryPool tx && env.fMempoolKeepsRef) = true
      · rw [if_pos hk]
        obtain ⟨added, k, htrace, hsub, hle, hrun⟩ :=
          ih draws.tail (chargeCollateral env w tx)
        rcases chargeCollateral_trace env w tx with hc | hc
        · refine ⟨Effect.MempoolSubmit tx :: added, k + 1, ?_, ?_, Nat.succ_le_succ hle,
            fun hgo => congrArg Nat.succ (hrun hgo)⟩
          · rw [htrace, hc]
            simp
          · simp only [mempoolSubmits, List.filterMap_cons, List.take_succ_cons]
            exact congrArg (List.cons tx) hsub
        · refine ⟨Effect.MempoolSubmit tx :: Effect.RelayTransaction tx :: added, k + 1, ?_, ?_,
            Nat.succ_le_succ hle, fun hgo => congrArg Nat.succ (hrun hgo)⟩
          · rw [htrace, hc]
            simp
          · simp only [mempoolSubmits, List.filterMap_cons, List.take_succ_cons]
            exact congrArg (List.cons tx) hsub
      · rw [if_neg hk]
        rcases chargeCollateral_trace env w tx with hc | hc
        · refine ⟨[Effect.MempoolSubmit tx], 1, ?_, ?_, Nat.succ_le_succ (Nat.zero_le _),
            fun hgo => ?_⟩
          · rw [hc]
            rfl
          · simp [mempoolSubmits]
          · cases hgo
        · refine ⟨[Effect.MempoolSubmit tx, Effect.RelayTransaction tx], 1, ?_, ?_,
            Nat.succ_le_succ (Nat.zero_le _), fun hgo => ?_⟩
          · rw [hc]
            rfl
          · simp [mempoolSubmits]
          · cases hgo

theorem chargedCount_le (l : List CTransaction) (draws : List Nat) :
    chargedCount l draws ≤ l.length := by
  induction l generalizing draws with
  | nil => exact Nat.le_refl _
  | cons tx rest ih =>
    unfold chargedCount
    split_ifs
    · exact Nat.zero_le _
    · exact Nat.succ_le_succ (ih _)

theorem chargedCount_iff (l : List CTransaction) (draws : List Nat) (i : Nat)
    (hi : i < l.length) :
    i < chargedCount l draws ↔ ∀ j ≤ i, GetRandInt (draws.getD j 0) 100 ≤ 10 := by
  induction l generalizing draws i with
  | nil => exact absurd hi (Nat.not_lt_zero _)
  | cons tx rest ih =>
    have hhead : draws.getD 0 0 = draws.headD 0 := by
      cases draws <;> rfl
    have htail : ∀ j, draws.getD (j + 1) 0 = draws.tail.getD j 0 := by
      intro j
      cases draws <;> rfl
    unfold chargedCount
    by_cases h : GetRandInt (draws.headD 0) 100 > 10
    · rw [if_pos h]
      constructor
      · intro h0
        exact absurd h0 (Nat.not_lt_zero _)
      · intro hall
        have := hall 0 (Nat.zero_le _)
        rw [hhead] at this
        omega
    · rw [if_neg h]
      cases i with
      | zero =>
        constructor
        · intro _ j hj
          have hj0 : j = 0 := by omega
          rw [hj0, hhead]
          omega
        · intro _
          exact Nat.succ_pos _
      | succ i =>
        have hi2 : i < rest.length := by
          simp only [List.length_cons] at hi
          omega
        rw [Nat.succ_lt_succ_iff, ih draws.tail i hi2]
        constructor
        · intro hall j hj
          cases j with
          | zero =>
            rw [hhead]
            omega
          | succ j =>
            rw [htail]
            exact hall j (by omega)
        · intro hall j hj
          rw [← htail]
          exact hall (j + 1) (by omega)

/-- C35 (counterexample): a mixer session with three collaterals; the draw for the first
collateral is 50 and the next draws of the stream are 5 and 5. The first draw fails the test
`GetRandInt(100) <= 10` and ends the function, so the second and the third collateral are
not submitted although the draws that stand for them pass the test; with the draws 5, 50, 5
the first collateral is submitted and the third is not. -/
theorem ChargeRandomFees_stops_at_first_failed_draw :
    envExample.fSubiNode = true ∧
    worldOneOffenderExample.pool.vecSessionCollaterals.length = 3 ∧
    GetRandInt 50 100 > 10 ∧
    GetRandInt 5 100 ≤ 10 ∧
    ChargeRandomFees envExample worldOneOffenderExample [50, 5, 5] = worldOneOffenderExample ∧
    (ChargeRandomFees envExample worldOneOffenderExample [5, 50, 5]).vTrace =
      [Effect.MempoolSubmit collateralExample, Effect.RelayTransaction collateralExample] := by
  refine ⟨by decide, by decide, by decide, by decide, by decide, by decide⟩

/-- C35 (amended): on a mixer `ChargeRandomFees` walks the session collaterals in order and
stops at the first draw that fails the charge test `GetRandInt(100) <= 10`: for every list
of session collaterals and every sequence of draws, the collaterals submitted to the
mempool are a prefix of the list, collateral `i` is submitted only if the draws for the
collaterals `0, …, i` all pass the test, and, when the run goes on to the end of the
function, if and only if they all pass. -/
theorem ChargeRandomFees_prefix (env : Env) (w : World) (draws : List Nat)
    (hrole : env.fSubiNode = true) :
    ∃ added k, (ChargeRandomFees env w draws).vTrace = w.vTrace ++ added ∧
      (ChargeRandomFees env w draws).pool = w.pool ∧
      k ≤ w.pool.vecSessionCollaterals.length ∧
      mempoolSubmits added = w.pool.vecSessionCollaterals.take k ∧
      (∀ i < w.pool.vecSessionCollaterals.length,
        i < k → ∀ j ≤ i, GetRandInt (draws.getD j 0) 100 ≤ 10) ∧
      ((ChargeRandomFees env w draws).fAborted = false →
        ∀ i < w.pool.vecSessionCollaterals.length,
          (i < k ↔ ∀ j ≤ i, GetRandInt (draws.getD j 0) 100 ≤ 10)) := by
  obtain ⟨added, k, htrace, hsub, hle, hrun⟩ :=
    chargeRandomLoop_submits env w.pool.vecSessionCollaterals draws w
  have hdef : ChargeRandomFees env w draws =
      chargeRandomLoop env w.pool.vecSessionCollaterals draws w := by
    unfold ChargeRandomFees
    rw [if_neg (by simp [hrole])]
  refine ⟨added, k, ?_, ChargeRandomFees_pool env w draws,
    Nat.le_trans hle (chargedCount_le _ _), hsub, fun i hi hik => ?_, fun hgo i hi => ?_⟩
  · rw [hdef]
    exact htrace
  · exact (chargedCount_iff _ _ i hi).1 (Nat.lt_of_lt_of_le hik hle)
  · rw [hdef] at hgo
    rw [hrun hgo]
    exact chargedCount_iff _ _ i hi

/-- C35 (amended), witness: with the draws 5, 50, 5 for three collaterals the first
collateral is submitted and the two others are not, and the run goes on. -/
theorem ChargeRandomFees_prefix_witness :
    envExample.fSubiNode = true ∧
    (ChargeRandomFees envExample worldOneOffenderExample [5, 50, 5]).fAborted = false ∧
    ∃ added k, (ChargeRandomFees envExample worldOneOffenderExample [5, 50, 5]).vTrace =
        worldOneOffenderExample.vTrace ++ added ∧
      (ChargeRandomFees envExample worldOneOffenderExample [5, 50, 5]).pool =
        worldOneOffenderExample.pool ∧
      k ≤ worldOneOffenderExample.pool.vecSessionCollaterals.length ∧
      mempoolSubmits added = worldOneOffenderExample.pool.vecSessionCollaterals.take k ∧
      (∀ i < worldOneOffenderExample.pool.vecSessionCollaterals.length,
        i < k → ∀ j ≤ i, GetRandInt (([5, 50, 5] : List Nat).getD j 0) 100 ≤ 10) ∧
      ((ChargeRandomFees envExample worldOneOffenderExample [5, 50, 5]).fAborted = false →
        ∀ i < worldOneOffenderExample.pool.vecSessionCollaterals.length,
          (i < k ↔ ∀ j ≤ i, GetRandInt (([5, 50, 5] : List Nat).getD j 0) 100 ≤ 10)) :=
  ⟨by decide, by decide,
    ChargeRandomFees_prefix envExample worldOneOffenderExample [5, 50, 5] (by decide)⟩

/-! ### Creation of denominated outputs -/

theorem addDenomOutputs_send (cenv : ClientEnv) (nDenomValue : Int) (n : Nat) (nOutputs : Int)
    (st : DenomState) :
    ∃ added, (addDenomOutputs cenv nDenomValue n nOutputs st).2.vecSend = st.vecSend ++ added ∧
      ∀ r ∈ added, r.nAmount = nDenomValue := by
  induction n generalizing nOutputs st with
  | zero => exact ⟨[], by simp [addDenomOutputs], by simp⟩
  | succ n ih =>
    unfold addDenomOutputs
    split_ifs
    · obtain ⟨added, hsend, hall⟩ := ih (nOutputs + 1)
        { st with
          vecSend := st.vecSend ++
            [{ scriptPubKey := cenv.GetReservedKey st.nKeys, nAmount := nDenomValue,
               fSubtractFeeFromAmount := false }]
          nKeys := st.nKeys + 1
          nValueLeft := st.nValueLeft - nDenomValue }
      refine ⟨(⟨cenv.GetReservedKey st.nKeys, nDenomValue, false⟩ : CRecipient) :: added,
        ?_, ?_⟩
      · rw [hsend]
        simp
      · intro r hr
        rcases List.mem_cons.1 hr with h | h
        · rw [h]
        · exact hall r h
    · exact ⟨[], by simp, by simp⟩

theorem denomPass_send (cenv : ClientEnv) (fSkip : Bool) (nLargest : Int) (l : List Int)
    (st : DenomState) (hsorted : l.Pairwise (fun a b => a ≤ b)) :
    ∃ added, (denomPass cenv fSkip nLargest l st).vecSend = st.vecSend ++ added ∧
      (∀ r ∈ added, r.nAmount ∈ l) ∧
      added.Pairwise (fun a b => a.nAmount ≤ b.nAmount) := by
  induction l generalizing st with
  | nil => exact ⟨[], by simp [denomPass], by simp, List.Pairwise.nil⟩
  | cons d rest ih =>
    have hrest : rest.Pairwise (fun a b => a ≤ b) := (List.pairwise_cons.1 hsorted).2
    have hd : ∀ b ∈ rest, d ≤ b := (List.pairwise_cons.1 hsorted).1
    unfold denomPass
    by_cases h1 : (fSkip && st.vecDenominationsSkipped.contains d) = true
    · rw [if_pos h1]
      obtain ⟨added, hsend, hmem, hpair⟩ := ih st hrest
      exact ⟨added, hsend, fun r hr => List.mem_cons_of_mem _ (hmem r hr), hpair⟩
    rw [if_neg h1]
    by_cases h2 : (fSkip && (d != nLargest
        && decide (cenv.CountInputsWithAmount d > cenv.DENOMS_COUNT_MAX))) = true
    · rw [if_pos h2]
      obtain ⟨added, hsend, hmem, hpair⟩ := ih
        { st with
          strAutoDenomResult :=
            "Too many " ++ cenv.formatDenomFloat d ++ " denominations, removing."
          vecDenominationsSkipped := st.vecDenominationsSkipped ++ [d] } hrest
      exact ⟨added, hsend, fun r hr => List.mem_cons_of_mem _ (hmem r hr), hpair⟩
    rw [if_neg h2]
    dsimp only
    obtain ⟨added1, hsend1, hall1⟩ := addDenomOutputs_send cenv d 11 0 st
    have hpair1 : added1.Pairwise (fun a b => a.nAmount ≤ b.nAmount) := by
      rw [List.pairwise_iff_forall_sublist]
      intro a b hab
      have ha : a ∈ added1 := hab.subset (List.mem_cons_self _ _)
      have hb : b ∈ added1 :=
        hab.subset (List.mem_cons_of_mem _ (List.mem_cons_self _ _))
      rw [hall1 a ha, hall1 b hb]
    split_ifs
    · refine ⟨added1, hsend1, fun r hr => ?_, hpair1⟩
      rw [hall1 r hr]
      exact List.mem_cons_self _ _
    · obtain ⟨added2, hsend2, hmem2, hpair2⟩ := ih
        { (addDenomOutputs cenv d 11 0 st).2 with
          nOutputsTotal := (addDenomOutputs cenv d 11 0 st).2.nOutputsTotal
            + (addDenomOutputs cenv d 11 0 st).1 } hrest
      refine ⟨added1 ++ added2, ?_, ?_, ?_⟩
      · rw [hsend2]
        show (addDenomOutputs cenv d 11 0 st).2.vecSend ++ added2 = _
        rw [hsend1, List.append_assoc]
      · intro r hr
        rcases List.mem_append.1 hr with h | h
        · rw [hall1 r h]
          exact List.mem_cons_self _ _
        · exact List.mem_cons_of_mem _ (hmem2 r h)
      · rw [List.pairwise_append]
        refine ⟨hpair1, hpair2, fun a ha b hb => ?_⟩
        rw [hall1 a ha]
        exact hd _ (hmem2 b hb)

/-- C36 (code): for a tally of `21100210` (collateral, eleven times the smallest
denomination `1000010`, once the next denomination) and no collateral outputs to create,
the first pass adds eleven outputs of the smallest denomination, one more than ten, and
then one output of the next denomination; the outputs add up to the tally minus
`PRIVATESEND_COLLATERAL`. -/
theorem CreateDenominated_adds_eleven_outputs :
    ((CreateDenominatedItem envClientExample clientEnvExample {} tallyExample false).2.1.map
      (fun r => r.nAmount)) =
      List.replicate 11 1000010 ++ [10000100] ∧
    ((CreateDenominatedItem envClientExample clientEnvExample {} tallyExample false).2.1.filter
      (fun r => r.nAmount == 1000010)).length = 11 ∧
    (((CreateDenominatedItem envClientExample clientEnvExample {} tallyExample false).2.1.map
      (fun r => r.nAmount)).sum =
        tallyExample.nAmount - envClientExample.PRIVATESEND_COLLATERAL) ∧
    (addDenomOutputs clientEnvExample 1000010 11 0
      { vecSend := [], nValueLeft := 21000210, nOutputsTotal := 0, nKeys := 1,
        strAutoDenomResult := "", vecDenominationsSkipped := [] }).1 = 11 := by
  refine ⟨by decide, by decide, by decide, by decide⟩

/-- C37 (counterexample): with the table of a coin unit of `10^8` and a tally of
`21100210`, the first pass appends eleven outputs of `1000010` and then one output of
`10000100`: the smallest denomination is visited first and the values appended within the
pass increase. -/
theorem CreateDenominated_visits_smallest_first :
    envClientExample.vecPrivateSendDenominations =
      [1000010000, 100001000, 10000100, 1000010] ∧
    ((CreateDenominatedItem envClientExample clientEnvExample {} tallyExample false).2.1.map
      (fun r => r.nAmount)) =
      List.replicate 11 1000010 ++ [10000100] ∧
    ¬ ((CreateDenominatedItem envClientExample clientEnvExample {} tallyExample false).2.1.map
      (fun r => r.nAmount)).Pairwise (fun a b => a ≥ b) := by
  refine ⟨by decide, by decide, by decide⟩

/-- C37 (amended): both passes of the output-building loop of `CreateDenominated` visit the
denomination table in reverse order; for a table in decreasing order, as
`InitDenominations` builds it, this is from the smallest denomination to the largest, and
the sequence of denominated output values appended within one pass is nondecreasing, every
value being one of the table. -/
theorem denomPass_smallest_first (cenv : ClientEnv) (vecDenoms : List Int)
    (hsorted : vecDenoms.Pairwise (fun a b => a ≥ b)) :
    (∀ st : DenomState, denomLoop cenv vecDenoms st =
      if (denomPass cenv true (vecDenoms.getD 0 0) vecDenoms.reverse st).nOutputsTotal == 0 then
        denomPass cenv false (vecDenoms.getD 0 0) vecDenoms.reverse
          (denomPass cenv true (vecDenoms.getD 0 0) vecDenoms.reverse st)
      else denomPass cenv true (vecDenoms.getD 0 0) vecDenoms.reverse st) ∧
    vecDenoms.reverse.Pairwise (fun a b => a ≤ b) ∧
    ∀ (fSkip : Bool) (nLargest : Int) (st : DenomState),
      ∃ added, (denomPass cenv fSkip nLargest vecDenoms.reverse st).vecSend
          = st.vecSend ++ added ∧
        (∀ r ∈ added, r.nAmount ∈ vecDenoms) ∧
        added.Pairwise (fun a b => a.nAmount ≤ b.nAmount) := by
  have hrev : vecDenoms.reverse.Pairwise (fun a b => a ≤ b) := by
    rw [List.pairwise_reverse]
    exact hsorted
  refine ⟨fun st => rfl, hrev, fun fSkip nLargest st => ?_⟩
  obtain ⟨added, hsend, hmem, hpair⟩ :=
    denomPass_send cenv fSkip nLargest vecDenoms.reverse st hrev
  exact ⟨added, hsend, fun r hr => List.mem_reverse.1 (hmem r hr), hpair⟩

/-- C37 (amended), witness: the table of a coin unit of `10^8` is in decreasing order, so a
pass over it appends nondecreasing values. -/
theorem denomPass_smallest_first_witness :
    (InitDenominations 100000000).Pairwise (fun a b => a ≥ b) ∧
    ∀ (fSkip : Bool) (nLargest : Int) (st : DenomState),
      ∃ added, (denomPass clientEnvExample fSkip nLargest
          (InitDenominations 100000000).reverse st).vecSend = st.vecSend ++ added ∧
        (∀ r ∈ added, r.nAmount ∈ InitDenominations 100000000) ∧
        added.Pairwise (fun a b => a.nAmount ≤ b.nAmount) :=
  ⟨by decide,
    (denomPass_smallest_first clientEnvExample (InitDenominations 100000000) (by decide)).2.2⟩

/-! ### Rejection by `AddEntry` in the `DSVIN` handling -/

theorem ProcessMessageDSVINWorld_at_AddEntry (env : Env) (w : World) (nVersion : Int)
    (entry : CDarkSendEntry) (lockMain : Bool) (draws : List Nat)
    (hlite : env.fLiteMode = false) (hsync : env.fBlockchainSynced = true)
    (hver : nVersion ≥ env.MIN_PRIVATESEND_PEER_PROTO_VERSION)
    (hmn : env.fSubiNode = true)
    (hready : w.pool.IsSessionReady env = true)
    (hcompat : IsOutputsCompatibleWithSessionDenom env w.pool entry.vecTxDSOut = true)
    (hscripts : ∀ txout ∈ entry.vecTxDSOut, txout.scriptPubKey.length = 25 ∧
      env.IsNormalPaymentScript txout.scriptPubKey = true)
    (hknown : ∀ txin ∈ entry.vecTxDSIn, (env.GetTransaction txin.prevout.hash).isSome = true)
    (hmax : entrySumIn env entry ≤ env.PRIVATESEND_POOL_MAX)
    (hfee : entrySumIn env entry - entrySumOut entry ≤
      env.vecPrivateSendDenominations.getLastD 0)
    (hmempool : env.AcceptToMemoryPool
      { vin := entry.vecTxDSIn.map (fun txin => txin.toCTxIn)
        vout := entry.vecTxDSOut.map (fun txout => txout.toCTxOut) } = true)
    (hkeep : env.fMempoolKeepsRef = true) :
    ProcessMessageDSVINWorld env w nVersion entry lockMain draws =
      match AddEntry env w.pool entry MSG_NOERR with
      | none => w.abort
      | some r =>
        if r.1 then
          if (CheckPool env (PushStatus { w with pool := r.2.2 } STATUS_ACCEPTED r.2.1)
              lockMain draws).fAborted then
            CheckPool env (PushStatus { w with pool := r.2.2 } STATUS_ACCEPTED r.2.1)
              lockMain draws
          else
            RelayStatus
              (CheckPool env (PushStatus { w with pool := r.2.2 } STATUS_ACCEPTED r.2.1)
                lockMain draws)
              STATUS_ACCEPTED MSG_NOERR
        else
          (PushStatus { w with pool := r.2.2 } STATUS_REJECTED r.2.1).SetNull env := by
  unfold entrySumIn entrySumOut at hfee
  unfold entrySumIn at hmax
  unfold ProcessMessageDSVINWorld
  rw [if_neg (by simp [hlite]), if_neg (by simp [hsync]), if_neg (by omega),
    if_neg (by simp [hmn]), if_neg (by simp [hready]), if_neg (by simp [hcompat]),
    dsvinOutLoop_ok env _ _ hscripts, dsvinInLoop_ok env _ _ hknown]
  dsimp only
  rw [if_neg (by omega), if_neg (by omega), if_neg (by simp [hmempool]),
    if_neg (by simp [hkeep])]

/-- C38: in the mixer's `DSVIN` handling, for an entry that passes the checks preceding
`AddEntry` (its transaction accepted by the mempool, which keeps the reference), a
rejection by `AddEntry` is answered with `STATUS_REJECTED` and resets the whole session by
`SetNull`: afterwards the state is `IDLE`, the session id is 0 and the entries and
collaterals are empty; when `AddEntry` accepts, the entries of the pool are the previous
entries, unchanged and in order, followed by the new one, and they are still so when the
handling ends in a session that gathers or accepts entries. When the run ends inside
`AddEntry` nothing has changed. -/
theorem DSVIN_rejection_resets_session (env : Env) (w : World) (nVersion : Int)
    (entry : CDarkSendEntry) (lockMain : Bool) (draws : List Nat)
    (hlite : env.fLiteMode = false) (hsync : env.fBlockchainSynced = true)
    (hver : nVersion ≥ env.MIN_PRIVATESEND_PEER_PROTO_VERSION)
    (hmn : env.fSubiNode = true)
    (hready : w.pool.IsSessionReady env = true)
    (hcompat : IsOutputsCompatibleWithSessionDenom env w.pool entry.vecTxDSOut = true)
    (hscripts : ∀ txout ∈ entry.vecTxDSOut, txout.scriptPubKey.length = 25 ∧
      env.IsNormalPaymentScript txout.scriptPubKey = true)
    (hknown : ∀ txin ∈ entry.vecTxDSIn, (env.GetTransaction txin.prevout.hash).isSome = true)
    (hmax : entrySumIn env entry ≤ env.PRIVATESEND_POOL_MAX)
    (hfee : entrySumIn env entry - entrySumOut entry ≤
      env.vecPrivateSendDenominations.getLastD 0)
    (hmempool : env.AcceptToMemoryPool
      { vin := entry.vecTxDSIn.map (fun txin => txin.toCTxIn)
        vout := entry.vecTxDSOut.map (fun txout => txout.toCTxOut) } = true)
    (hkeep : env.fMempoolKeepsRef = true) :
    (∀ r, AddEntry env w.pool entry MSG_NOERR = some r → r.1 = false →
      ProcessMessageDSVINWorld env w nVersion entry lockMain draws =
        (PushStatus w STATUS_REJECTED r.2.1).SetNull env ∧
      (ProcessMessageDSVINWorld env w nVersion entry lockMain draws).pool =
        w.pool.SetNull env ∧
      (ProcessMessageDSVINWorld env w nVersion entry lockMain draws).pool.nState =
        POOL_STATE_IDLE ∧
      (ProcessMessageDSVINWorld env w nVersion entry lockMain draws).pool.nSessionID = 0 ∧
      (ProcessMessageDSVINWorld env w nVersion entry lockMain draws).pool.vecEntries = [] ∧
      (ProcessMessageDSVINWorld env w nVersion entry lockMain draws).pool.vecSessionCollaterals
        = [] ∧
      (ProcessMessageDSVINWorld env w nVersion entry lockMain draws).fAborted = w.fAborted) ∧
    (∀ r, AddEntry env w.pool entry MSG_NOERR = some r → r.1 = true →
      r.2.2.vecEntries = w.pool.vecEntries ++ [entry] ∧
      r.2.2.vecSessionCollaterals = w.pool.vecSessionCollaterals ∧
      (w.pool.nState = POOL_STATE_QUEUE ∨ w.pool.nState = POOL_STATE_ACCEPTING_ENTRIES →
        (ProcessMessageDSVINWorld env w nVersion entry lockMain draws).pool.vecEntries =
          w.pool.vecEntries ++ [entry] ∧
        (ProcessMessageDSVINWorld env w nVersion entry lockMain draws).fAborted
          = w.fAborted)) ∧
    (AddEntry env w.pool entry MSG_NOERR = none →
      ProcessMessageDSVINWorld env w nVersion entry lockMain draws = w.abort) := by
  have hform := ProcessMessageDSVINWorld_at_AddEntry env w nVersion entry lockMain draws
    hlite hsync hver hmn hready hcompat hscripts hknown hmax hfee hmempool hkeep
  refine ⟨?_, ?_, ?_⟩
  · intro r hr hrej
    rcases AddEntry_outcomes env w.pool entry MSG_NOERR with h | ⟨msg, h, _⟩ | ⟨h, _⟩
    · rw [h] at hr
      cases hr
    · rw [hform, h]
      rw [h] at hr
      cases hr
      exact ⟨rfl, rfl, rfl, rfl, rfl, rfl, rfl⟩
    · rw [h] at hr
      cases hr
      cases hrej
  · intro r hr hacc
    rcases AddEntry_outcomes env w.pool entry MSG_NOERR with h | ⟨msg, h, _⟩ | ⟨h, _⟩
    · rw [h] at hr
      cases hr
    · rw [h] at hr
      cases hr
      cases hacc
    · rw [hform, h]
      rw [h] at hr
      cases hr
      refine ⟨rfl, rfl, fun hstate => ?_⟩
      dsimp only
      rw [if_pos rfl]
      have hcheck :
          (CheckPool env
            (PushStatus { w with pool :=
              { w.pool with
                vecEntries := w.pool.vecEntries ++ [entry]
                nTimeLastSuccessfulStep := env.GetTimeMillis } }
              STATUS_ACCEPTED MSG_ENTRIES_ADDED) lockMain draws).pool.vecEntries =
            w.pool.vecEntries ++ [entry] ∧
          (CheckPool env
            (PushStatus { w with pool :=
              { w.pool with
                vecEntries := w.pool.vecEntries ++ [entry]
                nTimeLastSuccessfulStep := env.GetTimeMillis } }
              STATUS_ACCEPTED MSG_ENTRIES_ADDED) lockMain draws).fAborted = w.fAborted := by
        unfold CheckPool
        split_ifs with h1 h2 h3
        · refine ⟨?_, rfl⟩
          show (CDarksendPool.SetState env _ POOL_STATE_SIGNING).vecEntries = _
          rw [(SetState_lists env _ _).1]
          rfl
        · exfalso
          have h2s : w.pool.nState = POOL_STATE_SIGNING := by
            simp only [Bool.and_eq_true, beq_iff_eq] at h2
            exact h2.2.1
          rcases hstate with h | h <;> rw [h] at h2s <;> exact absurd h2s (by decide)
        · exfalso
          have h3s : w.pool.nState = POOL_STATE_ERROR ∨ w.pool.nState = POOL_STATE_SUCCESS := by
            simp only [Bool.and_eq_true, Bool.or_eq_true, beq_iff_eq] at h3
            exact h3.1
          rcases hstate with h | h <;> rw [h] at h3s <;>
            rcases h3s with h' | h' <;> exact absurd h' (by decide)
        · exact ⟨rfl, rfl⟩
      split_ifs with hab
      · exact hcheck
      · exact ⟨hcheck.1, hcheck.2⟩
  · intro hnone
    rw [hform, hnone]

/-- C38, witness: the ready example mixer holds `entryExample`; a second `DSVIN` with the
same input is refused by `AddEntry` (`ERR_ALREADY_HAVE`) and the session is gone. -/
theorem DSVIN_rejection_resets_session_witness :
    AddEntry envExample { poolReadyExample with vecEntries := [entryExample] } entryExample
      MSG_NOERR =
      some (false, ERR_ALREADY_HAVE, { poolReadyExample with vecEntries := [entryExample] }) ∧
    (ProcessMessageDSVINWorld envExample
      { pool := { poolReadyExample with vecEntries := [entryExample] } } 70206 entryExample true
      []).pool = ({ poolReadyExample with vecEntries := [entryExample] } :
        CDarksendPool).SetNull envExample ∧
    (ProcessMessageDSVINWorld envExample
      { pool := { poolReadyExample with vecEntries := [entryExample] } } 70206 entryExample true
      []).vTrace = [Effect.PushStatus 42 POOL_STATE_ACCEPTING_ENTRIES 1 STATUS_REJECTED
        ERR_ALREADY_HAVE] ∧
    (ProcessMessageDSVINWorld envExample
      { pool := { poolReadyExample with vecEntries := [entryExample] } } 70206 entryExample true
      []).fAborted = false :=
  ⟨by decide,
    ((DSVIN_rejection_resets_session envExample
      { pool := { poolReadyExample with vecEntries := [entryExample] } } 70206 entryExample true
      [] (by decide) (by decide) (by decide) (by decide) (by decide) (by decide) (by decide)
      (by decide) (by decide) (by decide) (by decide) (by decide)).1
      (false, ERR_ALREADY_HAVE, { poolReadyExample with vecEntries := [entryExample] })
      (by decide) rfl).2.1,
    by decide, by decide⟩

/-! ### Signature bookkeeping -/

/-- C39 (code): a mixer creates the final transaction of three entries; the owner of input
(8, 0) signs it with `[1, 2, 3]` (accepted), then a second `AddScriptSig` arrives for the
same input with the script `[9, 9]`. The call returns false, the DSIn keeps `[1, 2, 3]` with
`fHasSig`, but the input of the final transaction now carries `[9, 9]`: the final
transaction was written before the entry refused to sign again, so a call that returns
false has changed it and the bookkeeping is no longer consistent. -/
theorem AddScriptSig_rejected_call_overwrites_final_tx :
    poolFreshFinalExample.nState = POOL_STATE_SIGNING ∧
    SignaturesConsistent poolFreshFinalExample ∧
    (AddScriptSig poolFreshFinalExample
      { prevout := { hash := 8, n := 0 }, scriptSig := [1, 2, 3] }).1 = true ∧
    SignaturesConsistent poolOneSignedExample ∧
    (AddScriptSig poolOneSignedExample
      { prevout := { hash := 8, n := 0 }, scriptSig := [9, 9] }).1 = false ∧
    poolResignedExample.vecEntries = poolOneSignedExample.vecEntries ∧
    poolResignedExample.finalMutableTransaction ≠ poolOneSignedExample.finalMutableTransaction ∧
    (poolResignedExample.finalMutableTransaction.vin.filter
      (fun txin => txin.prevout == { hash := 8, n := 0 })).map (fun txin => txin.scriptSig)
      = [[9, 9]] ∧
    ((poolResignedExample.vecEntries.map (fun entry => entry.vecTxDSIn)).flatten.filter
      (fun txdsin => txdsin.prevout == { hash := 8, n := 0 })).map
        (fun txdsin => (txdsin.scriptSig, txdsin.fHasSig)) = [([1, 2, 3], true)] ∧
    ¬ SignaturesConsistent poolResignedExample := by
  refine ⟨by decide, by decide, by decide, by decide, by decide, by decide, by decide,
    by decide, by decide, by decide⟩

/-! ### Retry loop on the session denomination -/

theorem shiftDenomBits_unused (fSingleRandomDenom : Bool) (l : List (Int × Nat)) (c : Nat)
    (draws : List Nat) (hl : ∀ s ∈ l, s.2 = 0) :
    shiftDenomBits fSingleRandomDenom l c 0 draws = 0 := by
  induction l generalizing c draws with
  | nil => rfl
  | cons s rest ih =>
    have hs : s.2 = 0 := hl s (List.mem_cons_self _ _)
    have hrest : ∀ t ∈ rest, t.2 = 0 := fun t ht => hl t (List.mem_cons_of_mem _ ht)
    unfold shiftDenomBits
    simp only [hs, Nat.and_zero, Nat.zero_shiftLeft, Nat.or_zero, bne_self_eq_false,
      Bool.and_false, Bool.false_eq_true, if_false]
    exact ih _ _ hrest

theorem GetDenominationsTxOut_zero (vecDenoms : List Int) (vecTxOut : List CTxOut)
    (fSingleRandomDenom : Bool) (draws : List Nat)
    (hbad : vecTxOut = [] ∨ ∃ txout ∈ vecTxOut, txout.nValue ∉ vecDenoms) :
    GetDenominationsTxOut vecDenoms vecTxOut fSingleRandomDenom draws = 0 := by
  have hfst : (vecDenoms.map (fun nDenomValue => ((nDenomValue, 0) : Int × Nat))).map Prod.fst
      = vecDenoms := by
    rw [List.map_map]
    exact List.map_id _
  unfold GetDenominationsTxOut
  rcases hbad with hempty | ⟨txout, hmem, hnot⟩
  · rw [hempty]
    simp only [lookForDenominations]
    rw [shiftDenomBits_unused]
    · rfl
    · intro s hs
      obtain ⟨d, _, hd⟩ := List.mem_map.1 hs
      rw [← hd]
  · rw [lookForDenominations_eq, hfst, if_neg]
    intro hall
    exact hnot (hall txout hmem)

theorem sessionDenomLoop_none (vecDenoms : List Int) (vecAmounts : List Int)
    (hzero : ∀ draws, GetDenominationsByAmounts vecDenoms vecAmounts draws = 0)
    (drawsList : List (List Nat)) :
    sessionDenomLoop vecDenoms vecAmounts drawsList 0 = none := by
  induction drawsList with
  | nil => rfl
  | cons draws rest ih =>
    unfold sessionDenomLoop
    rw [if_pos (by decide), hzero]
    exact ih

/-- C40: if the amount list is empty or contains a value that is not in the denomination
table, `GetDenominationsByAmounts` returns 0 for every outcome of the random draws, and the
driver's loop `while (nSessionDenom == 0)`, entered with the denomination 0, is still
running after any number of calls of `GetDenominationsByAmounts`, whatever they draw. -/
theorem GetDenominationsByAmounts_no_progress (vecDenoms : List Int) (vecAmount : List Int)
    (hbad : vecAmount = [] ∨ ∃ nAmount ∈ vecAmount, nAmount ∉ vecDenoms) :
    (∀ draws : List Nat, GetDenominationsByAmounts vecDenoms vecAmount draws = 0) ∧
    (∀ drawsList : List (List Nat),
      sessionDenomLoop vecDenoms vecAmount drawsList 0 = none) := by
  have hzero : ∀ draws : List Nat, GetDenominationsByAmounts vecDenoms vecAmount draws = 0 := by
    intro draws
    unfold GetDenominationsByAmounts
    apply GetDenominationsTxOut_zero
    rcases hbad with hempty | ⟨nAmount, hmem, hnot⟩
    · left
      rw [hempty]
      rfl
    · right
      exact ⟨{ nValue := nAmount, scriptPubKey := [] },
        List.mem_map.2 ⟨nAmount, List.mem_reverse.2 hmem, rfl⟩, hnot⟩
  exact ⟨hzero, sessionDenomLoop_none vecDenoms vecAmount hzero⟩

/-- C40, witness: with the table of a coin unit of `10^8`, the amounts `100001000` and `5`
give the denomination 0 on draws of 1, and the loop is still running after three calls. -/
theorem GetDenominationsByAmounts_no_progress_witness :
    GetDenominationsByAmounts (InitDenominations 100000000) [100001000, 5] [1, 1, 1, 1] = 0 ∧
    sessionDenomLoop (InitDenominations 100000000) [100001000, 5]
      [[1, 1, 1, 1], [1, 1, 1, 1], [1, 1, 1, 1]] 0 = none ∧
    sessionDenomLoop (InitDenominations 100000000) [100001000]
      [[0, 0, 0, 0], [0, 1, 0, 0]] 0 = some 2 :=
  ⟨(GetDenominationsByAmounts_no_progress (InitDenominations 100000000) [100001000, 5]
      (Or.inr ⟨5, by decide, by decide⟩)).1 [1, 1, 1, 1],
    (GetDenominationsByAmounts_no_progress (InitDenominations 100000000) [100001000, 5]
      (Or.inr ⟨5, by decide, by decide⟩)).2 _,
    by decide⟩

end Darksend
